import Mathlib

/-! # mat-yaml: the tree ⇄ event conversion layer of `yaml_mex_util.c`

A shallow embedding of the loader (`ymx_load_*`) and the dumper (`ymx_dump_*`)
of `src/mex-src/yaml_mex_util.c`.

Modelling conventions.

* A host array (`mxArray`) is its class, its dimension vector and its data in
  storage (column-major) order.  A struct array stores, for every element, the
  list of its field values; a field that was never assigned is `none` (the
  null pointer `mxGetFieldByNumber` returns).
* A C string (`char *`, `yaml_char_t *`) is the list of the bytes that precede
  its terminator.  A byte buffer that is read as a C string is cut at its
  first zero byte (`c_str_of_buffer`).
* The event source (the libyaml parser) is the list of the results of the
  successive pulls: `some ev` for a produced event, `none` for a pull on
  which the parser reports a failure.  A pull from an exhausted source is a
  failure as well.
* A call of `ymx_error` and a failed `mxAssert` are the `error` result, with
  the message.  For the dumper the result carries the state in which the call
  is made, and the definition `ymx_error` tells what the call ends in there:
  before `mexErrMsgTxt`, `ymx_persistent_cleanup` deletes the event record last
  handed to the emitter, and frees its memory a second time when it holds
  some.  A failed `mxAssert` is an abort in a build with assertions enabled
  only.
* The recursive functions of the source are recursive on a fuel argument here;
  `diverge` is the result of a run that used up its fuel, it is not a result of
  the program.
-/

namespace MatYaml

/-! ## Host arrays (the part of the MATLAB C API the source uses) -/

/-- The content of a NUL-terminated C string. -/
abbrev c_string := List Nat

/-- The C string that starts at the head of a byte buffer: the bytes before
the first zero byte (what `strlen`, `mxCreateString` and libyaml see). -/
def c_str_of_buffer (buf : List Nat) : c_string :=
  buf.takeWhile (fun b => b != 0)

/-- A MATLAB array: class, dimensions, data. -/
inductive mxArray where
  | char (dims : List Nat) (data : List Nat)
  | int32 (dims : List Nat) (data : List Int)
  | logical (dims : List Nat) (data : List Bool)
  | struct (dims : List Nat) (fieldnames : List String)
      (elems : List (List (Option mxArray)))
  | other (dims : List Nat)
  deriving Repr

mutual

/-- Decision procedure for the equality of two arrays. -/
def mxArray.decEq : (a b : mxArray) → Decidable (a = b)
  | .char d1 x1, .char d2 x2 =>
    if h : d1 = d2 ∧ x1 = x2 then isTrue (by rw [h.1, h.2])
    else isFalse (by intro e; cases e; exact h ⟨rfl, rfl⟩)
  | .int32 d1 x1, .int32 d2 x2 =>
    if h : d1 = d2 ∧ x1 = x2 then isTrue (by rw [h.1, h.2])
    else isFalse (by intro e; cases e; exact h ⟨rfl, rfl⟩)
  | .logical d1 x1, .logical d2 x2 =>
    if h : d1 = d2 ∧ x1 = x2 then isTrue (by rw [h.1, h.2])
    else isFalse (by intro e; cases e; exact h ⟨rfl, rfl⟩)
  | .other d1, .other d2 =>
    if h : d1 = d2 then isTrue (by rw [h])
    else isFalse (by intro e; cases e; exact h rfl)
  | .struct d1 n1 e1, .struct d2 n2 e2 =>
    if h : d1 = d2 ∧ n1 = n2 then
      match mxArray.decEq_elems e1 e2 with
      | isTrue he => isTrue (by rw [h.1, h.2, he])
      | isFalse he => isFalse (by intro e; cases e; exact he rfl)
    else isFalse (by intro e; cases e; exact h ⟨rfl, rfl⟩)
  | .char _ _, .int32 _ _ | .char _ _, .logical _ _ | .char _ _, .struct _ _ _
  | .char _ _, .other _ | .int32 _ _, .char _ _ | .int32 _ _, .logical _ _
  | .int32 _ _, .struct _ _ _ | .int32 _ _, .other _ | .logical _ _, .char _ _
  | .logical _ _, .int32 _ _ | .logical _ _, .struct _ _ _ | .logical _ _, .other _
  | .struct _ _ _, .char _ _ | .struct _ _ _, .int32 _ _ | .struct _ _ _, .logical _ _
  | .struct _ _ _, .other _ | .other _, .char _ _ | .other _, .int32 _ _
  | .other _, .logical _ _ | .other _, .struct _ _ _ => isFalse (by intro e; cases e)

def mxArray.decEq_elems : (a b : List (List (Option mxArray))) → Decidable (a = b)
  | [], [] => isTrue rfl
  | [], _ :: _ => isFalse (by intro e; cases e)
  | _ :: _, [] => isFalse (by intro e; cases e)
  | x :: xs, y :: ys =>
    match mxArray.decEq_fields x y, mxArray.decEq_elems xs ys with
    | isTrue h1, isTrue h2 => isTrue (by rw [h1, h2])
    | isFalse h1, _ => isFalse (by intro e; cases e; exact h1 rfl)
    | _, isFalse h2 => isFalse (by intro e; cases e; exact h2 rfl)

def mxArray.decEq_fields : (a b : List (Option mxArray)) → Decidable (a = b)
  | [], [] => isTrue rfl
  | [], _ :: _ => isFalse (by intro e; cases e)
  | _ :: _, [] => isFalse (by intro e; cases e)
  | none :: xs, none :: ys =>
    match mxArray.decEq_fields xs ys with
    | isTrue h => isTrue (by rw [h])
    | isFalse h => isFalse (by intro e; cases e; exact h rfl)
  | none :: _, some _ :: _ => isFalse (by intro e; cases e)
  | some _ :: _, none :: _ => isFalse (by intro e; cases e)
  | some x :: xs, some y :: ys =>
    match mxArray.decEq x y, mxArray.decEq_fields xs ys with
    | isTrue h1, isTrue h2 => isTrue (by rw [h1, h2])
    | isFalse h1, _ => isFalse (by intro e; cases e; exact h1 rfl)
    | _, isFalse h2 => isFalse (by intro e; cases e; exact h2 rfl)

end

instance : DecidableEq mxArray := mxArray.decEq

namespace mxArray

/-- The dimension vector of an array. -/
def dims : mxArray → List Nat
  | char d _ => d
  | int32 d _ => d
  | logical d _ => d
  | struct d _ _ => d
  | other d => d

end mxArray

def mxGetNumberOfElements (pa : mxArray) : Nat := pa.dims.prod

def mxGetNumberOfDimensions (pa : mxArray) : Nat := pa.dims.length

/-- Number of rows: the first dimension. -/
def mxGetM (pa : mxArray) : Nat := pa.dims.headD 0

/-- Number of columns: the product of the dimensions after the first. -/
def mxGetN (pa : mxArray) : Nat := pa.dims.tail.prod

def mxIsEmpty (pa : mxArray) : Bool := mxGetNumberOfElements pa == 0

def mxIsStruct : mxArray → Bool
  | .struct _ _ _ => true
  | _ => false

def mxIsChar : mxArray → Bool
  | .char _ _ => true
  | _ => false

def mxIsInt32 : mxArray → Bool
  | .int32 _ _ => true
  | _ => false

def mxIsLogicalScalar (pa : mxArray) : Bool :=
  match pa with
  | .logical _ _ => mxGetNumberOfElements pa == 1
  | _ => false

def mxGetNumberOfFields : mxArray → Nat
  | .struct _ names _ => names.length
  | _ => 0

def mxGetFieldNameByNumber (pa : mxArray) (n : Nat) : Option String :=
  match pa with
  | .struct _ names _ => names.get? n
  | _ => none

/-- The value of field `fieldnumber` of element `index`; `none` (null) when
the array is no struct array, the index or field number is out of range, or the
field holds no value. -/
def mxGetFieldByNumber (pa : mxArray) (index fieldnumber : Nat) : Option mxArray :=
  match pa with
  | .struct _ _ elems => ((elems.getD index []).getD fieldnumber none)
  | _ => none

def mxSetFieldByNumber (pa : mxArray) (index fieldnumber : Nat)
    (pvalue : Option mxArray) : mxArray :=
  match pa with
  | .struct d names elems =>
      .struct d names (elems.set index ((elems.getD index []).set fieldnumber pvalue))
  | a => a

/-- An `m`-by-`n` struct array with the given field names, every field of
every element unassigned. -/
def mxCreateStructMatrix (m n : Nat) (fieldnames : List String) : mxArray :=
  .struct [m, n] fieldnames
    (List.replicate (m * n) (List.replicate fieldnames.length none))

/-- A 1-by-N char array holding the C string. -/
def mxCreateString (str : c_string) : mxArray := .char [1, str.length] str

/-- The C string copy of a char array: its characters in storage order,
NUL-terminated (so cut at a zero character). -/
def mxArrayToString (pa : mxArray) : Option c_string :=
  match pa with
  | .char _ data => some (c_str_of_buffer data)
  | _ => none

def mxCreateLogicalScalar (value : Int) : mxArray := .logical [1, 1] [value != 0]

/-- First logical of a logical array, as an integer. -/
def mxGetLogicals0 : mxArray → Int
  | .logical _ (b :: _) => if b then 1 else 0
  | _ => 0

/-! ## Events (the part of libyaml the source uses) -/

structure yaml_version_directive_t where
  major : Int
  minor : Int
  deriving Repr, DecidableEq

structure yaml_tag_directive_t where
  handle : c_string
  pfx : c_string
  deriving Repr, DecidableEq

/-- The libyaml event: its type and the data of that type. -/
inductive yaml_event_t where
  | no_event
  | stream_start
  | stream_end
  | document_start (version_directive : Option yaml_version_directive_t)
      (tag_directives : List yaml_tag_directive_t) (implicit : Int)
  | document_end (implicit : Int)
  | alias (anchor : Option c_string)
  | scalar (anchor tag : Option c_string) (value : Option (List Nat)) (length : Nat)
      (plain_implicit quoted_implicit : Int) (style : Int)
  | sequence_start (anchor tag : Option c_string) (implicit style : Int)
  | sequence_end
  | mapping_start (anchor tag : Option c_string) (implicit style : Int)
  | mapping_end
  deriving Repr, DecidableEq

def YAML_ANY_SCALAR_STYLE : Int := 0
def YAML_PLAIN_SCALAR_STYLE : Int := 1

/-- The parser: the results of the pulls still to come. -/
abbrev yaml_parser_t := List (Option yaml_event_t)

/-! ## Types and constants of the source -/

def YMX_NODE_TYPE_NONE : Int := 0
def YMX_NODE_TYPE_SCALAR : Int := 1
def YMX_NODE_TYPE_SEQUENCE : Int := 2
def YMX_NODE_TYPE_MAPPING : Int := 3
def YMX_NODE_TYPE_ALIAS : Int := 4

def YMX_NODE_FIELD_TYPE : Nat := 0
def YMX_NODE_FIELD_VALUE : Nat := 1
def YMX_NODE_FIELD_TAG : Nat := 2
def YMX_NODE_FIELD_ANCHOR : Nat := 3
def YMX_NODE_FIELD_IMPLICIT : Nat := 4
def YMX_NODE_FIELD_STYLE : Nat := 5
def YMX_NODE_NUM_FIELDS : Nat := 6

def YMX_DOC_FIELD_ROOT : Nat := 0
def YMX_DOC_FIELD_VERSION : Nat := 1
def YMX_DOC_FIELD_TAGDIRS : Nat := 2
def YMX_DOC_FIELD_START_IMPLICIT : Nat := 3
def YMX_DOC_FIELD_END_IMPLICIT : Nat := 4
def YMX_DOC_NUM_FIELDS : Nat := 5

def YMX_TAGDIR_FIELD_HANDLE : Nat := 0
def YMX_TAGDIR_FIELD_PREFIX : Nat := 1
def YMX_TAGDIR_NUM_FIELDS : Nat := 2

def YMX_SCALAR_IMPLICIT_FALSE : Int := 0
def YMX_SCALAR_IMPLICIT_PLAIN : Int := 1
def YMX_SCALAR_IMPLICIT_QUOTED : Int := 2

def YMX_NODE_FIELD_STRS : List String :=
  ["type", "value", "tag", "anchor", "implicit", "style"]
def YMX_DOC_FIELD_STRS : List String :=
  ["root", "version", "tagdirs", "start_implicit", "end_implicit"]
def YMX_TAGDIR_FIELD_STRS : List String := ["handle", "prefix"]

def NODES_BUFFER_CHUNK_SIZE : Nat := 128

/-- The record `ymx_document_t`; a zeroed record has every member null. -/
structure ymx_document_t where
  root : Option mxArray := none
  tagdirs : Option mxArray := none
  version : Option mxArray := none
  start_implicit : Option mxArray := none
  end_implicit : Option mxArray := none
  deriving Repr, DecidableEq

/-- The record `ymx_node_t`; a zeroed record has every member null. -/
structure ymx_node_t where
  type : Option mxArray := none
  value : Option mxArray := none
  tag : Option mxArray := none
  anchor : Option mxArray := none
  implicit : Option mxArray := none
  style : Option mxArray := none
  deriving Repr, DecidableEq

/-- Result of a call that may abort through `ymx_error` or a failed
`mxAssert` (`error`); `diverge` marks a run that used up its fuel.  A failed
`mxAssert` is an abort in a build with assertions enabled; a build without them
does not make the check, and what the source does then on an event of another
type is not told by these results. -/
inductive ymx_result (α : Type) where
  | ok (val : α)
  | error (msg : String)
  | diverge
  deriving Repr, DecidableEq

/-! ## Utility functions -/

def ymx_create_int_scalar (value : Int) : mxArray := .int32 [1, 1] [value]

def ymx_get_int_scalar : mxArray → Int
  | .int32 _ (v :: _) => v
  | _ => 0

def ymx_set_node_fields (array : mxArray) (ind : Nat) (node : ymx_node_t) : mxArray :=
  let array := mxSetFieldByNumber array ind YMX_NODE_FIELD_TYPE node.type
  let array := mxSetFieldByNumber array ind YMX_NODE_FIELD_VALUE node.value
  let array := mxSetFieldByNumber array ind YMX_NODE_FIELD_TAG node.tag
  let array := mxSetFieldByNumber array ind YMX_NODE_FIELD_ANCHOR node.anchor
  let array := mxSetFieldByNumber array ind YMX_NODE_FIELD_IMPLICIT node.implicit
  mxSetFieldByNumber array ind YMX_NODE_FIELD_STYLE node.style

/-- One pull from the event source; a failed pull is
`ymx_error("Error while parsing document")`. -/
def ymx_parse (parser : yaml_parser_t) : ymx_result (yaml_event_t × yaml_parser_t) :=
  match parser with
  | some event :: rest => .ok (event, rest)
  | _ => .error "Error while parsing document"

/-! ## Functions for loading -/

def ymx_load_scalar (node : ymx_node_t) (parser : yaml_parser_t)
    (first_event : yaml_event_t) : ymx_result (ymx_node_t × yaml_parser_t) :=
  match first_event with
  | .scalar anchor tag value length plain_implicit quoted_implicit style =>
    let node :=
      match tag with
      | some t => { node with tag := some (mxCreateString t) }
      | none =>
        if style = YAML_PLAIN_SCALAR_STYLE then
          { node with tag := some (mxCreateString [63]) }  -- "?"
        else
          { node with tag := some (mxCreateString [33]) }  -- "!"
    let node :=
      if plain_implicit ≠ 0 then
        { node with implicit := some (ymx_create_int_scalar YMX_SCALAR_IMPLICIT_PLAIN) }
      else if quoted_implicit ≠ 0 then
        { node with implicit := some (ymx_create_int_scalar YMX_SCALAR_IMPLICIT_QUOTED) }
      else
        { node with implicit := some (ymx_create_int_scalar YMX_SCALAR_IMPLICIT_FALSE) }
    let node :=
      match anchor with
      | some a => { node with anchor := some (mxCreateString a) }
      | none => node
    let node := { node with style := some (ymx_create_int_scalar style) }
    let node := { node with type := some (ymx_create_int_scalar YMX_NODE_TYPE_SCALAR) }
    let node :=
      match value with
      | some v =>
        -- calloc(length + 1), memcpy of `length` bytes, then read as a C string
        { node with value := some (mxCreateString (c_str_of_buffer (v.take length ++ [0]))) }
      | none => node
    .ok (node, parser)
  | _ => .ok (node, parser)

/-- The anchor of an alias event is never null in what the event source
produces; a null anchor (a null pointer handed to `mxCreateString`) is outside
the model and rendered as an abort. -/
def ymx_load_alias (node : ymx_node_t) (parser : yaml_parser_t)
    (first_event : yaml_event_t) : ymx_result (ymx_node_t × yaml_parser_t) :=
  match first_event with
  | .alias (some anchor) =>
    let node := { node with anchor := some (mxCreateString anchor) }
    let node := { node with type := some (ymx_create_int_scalar YMX_NODE_TYPE_ALIAS) }
    let node := { node with style := some (ymx_create_int_scalar 0) }
    let node := { node with implicit := some (ymx_create_int_scalar 0) }
    .ok (node, parser)
  | .alias none => .error "null alias anchor"
  | _ => .ok (node, parser)

/-- The loop `for (i=0; i<num_items; i++) ymx_set_node_fields(array, i, items+i)`;
`count` is the number of iterations still to run. -/
def ymx_set_items (array : mxArray) (items : List ymx_node_t) : Nat → Nat → mxArray
  | _, 0 => array
  | i, count + 1 =>
    ymx_set_items (ymx_set_node_fields array i (items.getD i {})) items (i + 1) count

/-- The loop of `ymx_load_mapping` that fills the 2-by-N array: element `2*i`
from `keys[i]`, element `2*i+1` from `values[i]`. -/
def ymx_set_pairs (array : mxArray) (keys values : List ymx_node_t) : Nat → Nat → mxArray
  | _, 0 => array
  | i, count + 1 =>
    let array := ymx_set_node_fields array (2 * i) (keys.getD i {})
    let array := ymx_set_node_fields array (2 * i + 1) (values.getD i {})
    ymx_set_pairs array keys values (i + 1) count

/-- State of the accumulation loop of `ymx_load_sequence`. -/
structure ymx_items_t where
  items : List ymx_node_t
  items_buffer_size : Nat
  num_items : Nat
  deriving Repr, DecidableEq

/-- State of the accumulation loop of `ymx_load_mapping`. -/
structure ymx_pairs_t where
  keys : List ymx_node_t
  values : List ymx_node_t
  buffer_size : Nat
  num_items : Nat
  deriving Repr, DecidableEq

mutual

def ymx_load_node : Nat → ymx_node_t → yaml_parser_t → yaml_event_t →
    ymx_result (ymx_node_t × yaml_parser_t)
  | 0, _, _, _ => .diverge
  | fuel + 1, node, parser, first_event =>
    match first_event with
    | .alias _ => ymx_load_alias node parser first_event
    | .scalar _ _ _ _ _ _ _ => ymx_load_scalar node parser first_event
    | .sequence_start _ _ _ _ => ymx_load_sequence fuel node parser first_event
    | .mapping_start _ _ _ _ => ymx_load_mapping fuel node parser first_event
    | _ => .ok (node, parser)

def ymx_load_sequence : Nat → ymx_node_t → yaml_parser_t → yaml_event_t →
    ymx_result (ymx_node_t × yaml_parser_t)
  | 0, _, _, _ => .diverge
  | fuel + 1, node, parser, first_event =>
    match first_event with
    | .sequence_start anchor tag implicit style =>
      let node :=
        match tag with
        | some t => { node with tag := some (mxCreateString t) }
        | none => { node with tag := some (mxCreateString [63]) }  -- "?"
      let node :=
        match anchor with
        | some a => { node with anchor := some (mxCreateString a) }
        | none => node
      let node := { node with implicit := some (ymx_create_int_scalar implicit) }
      let node := { node with style := some (ymx_create_int_scalar style) }
      let node := { node with type := some (ymx_create_int_scalar YMX_NODE_TYPE_SEQUENCE) }
      let acc : ymx_items_t :=
        { items := List.replicate NODES_BUFFER_CHUNK_SIZE {},
          items_buffer_size := NODES_BUFFER_CHUNK_SIZE,
          num_items := 0 }
      match ymx_parse parser with
      | .error msg => .error msg
      | .diverge => .diverge
      | .ok (event, parser) =>
        match ymx_load_sequence_loop fuel acc parser event with
        | .error msg => .error msg
        | .diverge => .diverge
        | .ok (acc, parser) =>
          let node :=
            if acc.num_items ≠ 0 then
              { node with value := some (ymx_set_items
                  (mxCreateStructMatrix 1 acc.num_items YMX_NODE_FIELD_STRS)
                  acc.items 0 acc.num_items) }
            else node
          .ok (node, parser)
    | _ => .ok (node, parser)

/-- The loop `while (event->type != YAML_SEQUENCE_END_EVENT)` of
`ymx_load_sequence`. -/
def ymx_load_sequence_loop : Nat → ymx_items_t → yaml_parser_t → yaml_event_t →
    ymx_result (ymx_items_t × yaml_parser_t)
  | 0, _, _, _ => .diverge
  | fuel + 1, acc, parser, event =>
    match event with
    | .sequence_end => .ok (acc, parser)
    | _ =>
      let acc : ymx_items_t :=
        if acc.num_items = acc.items_buffer_size then
          { acc with
            items_buffer_size := acc.items_buffer_size + NODES_BUFFER_CHUNK_SIZE,
            items := acc.items ++ List.replicate NODES_BUFFER_CHUNK_SIZE {} }
        else acc
      match ymx_load_node fuel (acc.items.getD acc.num_items {}) parser event with
      | .error msg => .error msg
      | .diverge => .diverge
      | .ok (item, parser) =>
        let acc := { acc with items := acc.items.set acc.num_items item,
                              num_items := acc.num_items + 1 }
        match ymx_parse parser with
        | .error msg => .error msg
        | .diverge => .diverge
        | .ok (event, parser) => ymx_load_sequence_loop fuel acc parser event

def ymx_load_mapping : Nat → ymx_node_t → yaml_parser_t → yaml_event_t →
    ymx_result (ymx_node_t × yaml_parser_t)
  | 0, _, _, _ => .diverge
  | fuel + 1, node, parser, first_event =>
    match first_event with
    | .mapping_start anchor tag implicit style =>
      let node :=
        match tag with
        | some t => { node with tag := some (mxCreateString t) }
        | none => { node with tag := some (mxCreateString [63]) }  -- "?"
      let node :=
        match anchor with
        | some a => { node with anchor := some (mxCreateString a) }
        | none => node
      let node := { node with implicit := some (ymx_create_int_scalar implicit) }
      let node := { node with style := some (ymx_create_int_scalar style) }
      let node := { node with type := some (ymx_create_int_scalar YMX_NODE_TYPE_MAPPING) }
      let acc : ymx_pairs_t :=
        { keys := List.replicate NODES_BUFFER_CHUNK_SIZE {},
          values := List.replicate NODES_BUFFER_CHUNK_SIZE {},
          buffer_size := NODES_BUFFER_CHUNK_SIZE,
          num_items := 0 }
      match ymx_parse parser with
      | .error msg => .error msg
      | .diverge => .diverge
      | .ok (event, parser) =>
        match ymx_load_mapping_loop fuel acc parser event with
        | .error msg => .error msg
        | .diverge => .diverge
        | .ok (acc, parser) =>
          let node :=
            if acc.num_items ≠ 0 then
              { node with value := some (ymx_set_pairs
                  (mxCreateStructMatrix 2 acc.num_items YMX_NODE_FIELD_STRS)
                  acc.keys acc.values 0 acc.num_items) }
            else node
          .ok (node, parser)
    | _ => .ok (node, parser)

/-- The loop `while (event->type != YAML_MAPPING_END_EVENT)` of
`ymx_load_mapping`. -/
def ymx_load_mapping_loop : Nat → ymx_pairs_t → yaml_parser_t → yaml_event_t →
    ymx_result (ymx_pairs_t × yaml_parser_t)
  | 0, _, _, _ => .diverge
  | fuel + 1, acc, parser, event =>
    match event with
    | .mapping_end => .ok (acc, parser)
    | _ =>
      let acc : ymx_pairs_t :=
        if acc.num_items = acc.buffer_size then
          { acc with
            buffer_size := acc.buffer_size + NODES_BUFFER_CHUNK_SIZE,
            keys := acc.keys ++ List.replicate NODES_BUFFER_CHUNK_SIZE {},
            values := acc.values ++ List.replicate NODES_BUFFER_CHUNK_SIZE {} }
        else acc
      match ymx_load_node fuel (acc.keys.getD acc.num_items {}) parser event with
      | .error msg => .error msg
      | .diverge => .diverge
      | .ok (key, parser) =>
        let acc := { acc with keys := acc.keys.set acc.num_items key }
        match ymx_parse parser with
        | .error msg => .error msg
        | .diverge => .diverge
        | .ok (event, parser) =>
          match ymx_load_node fuel (acc.values.getD acc.num_items {}) parser event with
          | .error msg => .error msg
          | .diverge => .diverge
          | .ok (value, parser) =>
            let acc := { acc with values := acc.values.set acc.num_items value,
                                  num_items := acc.num_items + 1 }
            match ymx_parse parser with
            | .error msg => .error msg
            | .diverge => .diverge
            | .ok (event, parser) => ymx_load_mapping_loop fuel acc parser event

end

/-- The loop of `ymx_load_document` over the tag directives of the event,
from `tag_directives.start` up to `tag_directives.end`. -/
def ymx_set_tagdirs (array : mxArray) : Nat → List yaml_tag_directive_t → mxArray
  | _, [] => array
  | ind, d :: rest =>
    let array := mxSetFieldByNumber array ind YMX_TAGDIR_FIELD_HANDLE
      (some (mxCreateString d.handle))
    let array := mxSetFieldByNumber array ind YMX_TAGDIR_FIELD_PREFIX
      (some (mxCreateString d.pfx))
    ymx_set_tagdirs array (ind + 1) rest

/-- `ymx_load_document`, called on the event that starts the document.  The two
`mxAssert` calls, on the type of that event and of the event behind the root
node, are the two `error` branches with their messages: an abort in a build
with assertions enabled. -/
def ymx_load_document (fuel : Nat) (doc : ymx_document_t) (parser : yaml_parser_t)
    (first_event : yaml_event_t) : ymx_result (ymx_document_t × yaml_parser_t) :=
  match first_event with
  | .document_start vers_dir yaml_tagdirs implicit =>
    let doc :=
      match vers_dir with
      | some v => { doc with version := some (.int32 [1, 2] [v.major, v.minor]) }
      | none => doc
    let num_dirs := yaml_tagdirs.length
    let doc :=
      if num_dirs ≠ 0 then
        { doc with tagdirs := some (ymx_set_tagdirs
            (mxCreateStructMatrix 1 num_dirs YMX_TAGDIR_FIELD_STRS) 0 yaml_tagdirs) }
      else doc
    let doc := { doc with start_implicit := some (mxCreateLogicalScalar implicit) }
    let node : ymx_node_t := {}
    match ymx_parse parser with
    | .error msg => .error msg
    | .diverge => .diverge
    | .ok (event, parser) =>
      match ymx_load_node fuel node parser event with
      | .error msg => .error msg
      | .diverge => .diverge
      | .ok (node, parser) =>
        match ymx_parse parser with
        | .error msg => .error msg
        | .diverge => .diverge
        | .ok (event, parser) =>
          match event with
          | .document_end end_implicit =>
            let doc := { doc with end_implicit := some (mxCreateLogicalScalar end_implicit) }
            let doc := { doc with root := some (ymx_set_node_fields
              (mxCreateStructMatrix 1 1 YMX_NODE_FIELD_STRS) 0 node) }
            .ok (doc, parser)
          | _ => .error "Expected document end!"
  | _ => .error "Expected document start event!"

/-- The loop `while (event->type != YAML_STREAM_END_EVENT)` of
`ymx_load_stream`; `raw_docs` holds the `num_docs` documents loaded so far. -/
def ymx_load_stream_loop : Nat → List ymx_document_t → yaml_parser_t → yaml_event_t →
    ymx_result (List ymx_document_t × yaml_parser_t)
  | 0, _, _, _ => .diverge
  | fuel + 1, raw_docs, parser, event =>
    match event with
    | .stream_end => .ok (raw_docs, parser)
    | _ =>
      match ymx_load_document fuel {} parser event with
      | .error msg => .error msg
      | .diverge => .diverge
      | .ok (doc, parser) =>
        match ymx_parse parser with
        | .error msg => .error msg
        | .diverge => .diverge
        | .ok (event, parser) => ymx_load_stream_loop fuel (raw_docs ++ [doc]) parser event

/-- The loop of `ymx_load_stream` that moves the loaded documents into the
1-by-N document array. -/
def ymx_set_docs (array : mxArray) : Nat → List ymx_document_t → mxArray
  | _, [] => array
  | i, doc :: rest =>
    let array := mxSetFieldByNumber array i YMX_DOC_FIELD_ROOT doc.root
    let array := mxSetFieldByNumber array i YMX_DOC_FIELD_VERSION doc.version
    let array := mxSetFieldByNumber array i YMX_DOC_FIELD_TAGDIRS doc.tagdirs
    let array := mxSetFieldByNumber array i YMX_DOC_FIELD_START_IMPLICIT doc.start_implicit
    let array := mxSetFieldByNumber array i YMX_DOC_FIELD_END_IMPLICIT doc.end_implicit
    ymx_set_docs array (i + 1) rest

/-- The loader, on the parser set up over the input text.  The result is the
document array, null (`none`) for a stream without documents.  Every level of
the recursion pulls an event before it recurses, so the fuel handed out here
is never used up.  The `mxAssert` on the type of the first event is the last
`error` branch: an abort in a build with assertions enabled. -/
def ymx_load_stream (parser : yaml_parser_t) : ymx_result (Option mxArray) :=
  let fuel := 3 * parser.length + 3
  match ymx_parse parser with
  | .error msg => .error msg
  | .diverge => .diverge
  | .ok (event, parser) =>
    match event with
    | .stream_start =>
      match ymx_parse parser with
      | .error msg => .error msg
      | .diverge => .diverge
      | .ok (event, parser) =>
        match ymx_load_stream_loop fuel [] parser event with
        | .error msg => .error msg
        | .diverge => .diverge
        | .ok (raw_docs, _) =>
          let num_docs := raw_docs.length
          if num_docs ≠ 0 then
            .ok (some (ymx_set_docs
              (mxCreateStructMatrix 1 num_docs YMX_DOC_FIELD_STRS) 0 raw_docs))
          else .ok none
    | _ => .error "Expected stream start event!"

/-! ## Validity checks -/

/-- The loop `for (i=0; i<n; i++) if (strcmp(mxGetFieldNameByNumber(a, i), strs[i]) != 0) return 0;`. -/
def ymx_field_names_match (pa : mxArray) (strs : List String) (n : Nat) : Bool :=
  (List.range n).all (fun i => mxGetFieldNameByNumber pa i == strs.get? i)

def ymx_is_valid_doc_array (doc_array : mxArray) : Bool :=
  if !mxIsStruct doc_array then false
  else if mxGetNumberOfFields doc_array != YMX_DOC_NUM_FIELDS then false
  else ymx_field_names_match doc_array YMX_DOC_FIELD_STRS YMX_DOC_NUM_FIELDS

def ymx_is_valid_version_array (version : mxArray) : Bool :=
  if mxGetNumberOfElements version != 2 then false
  else if !mxIsInt32 version then false
  else true

def ymx_is_valid_int_scalar (scalar : mxArray) : Bool :=
  if !mxIsInt32 scalar then false
  else if mxGetNumberOfElements scalar != 1 then false
  else true

def ymx_is_valid_string (string : mxArray) : Bool :=
  if !mxIsChar string then false
  else if mxGetNumberOfElements string == 0 then true
  else if mxGetNumberOfDimensions string != 2 then false
  else if mxGetM string != 1 then false
  else if mxGetN string < 1 then false
  else true

/-- The member test of `ymx_is_valid_tagdirs_array`; an unassigned (null)
member counts as an empty one. -/
def ymx_is_valid_tagdir_member (member : Option mxArray) : Bool :=
  match member with
  | none => false
  | some m =>
    if mxGetNumberOfElements m == 0 then false
    else ymx_is_valid_string m

def ymx_is_valid_tagdirs_array (tagdirs : mxArray) : Bool :=
  if !mxIsStruct tagdirs then false
  else if mxGetNumberOfFields tagdirs != YMX_TAGDIR_NUM_FIELDS then false
  else
    let size := mxGetNumberOfElements tagdirs
    (List.range YMX_TAGDIR_NUM_FIELDS).all (fun field_ind =>
      (mxGetFieldNameByNumber tagdirs field_ind == YMX_TAGDIR_FIELD_STRS.get? field_ind)
      && (List.range size).all (fun array_ind =>
        ymx_is_valid_tagdir_member (mxGetFieldByNumber tagdirs array_ind field_ind)))

def ymx_is_valid_node_array (node : mxArray) : Bool :=
  if !mxIsStruct node then false
  else if mxGetNumberOfFields node != YMX_NODE_NUM_FIELDS then false
  else ymx_field_names_match node YMX_NODE_FIELD_STRS YMX_NODE_NUM_FIELDS

def ymx_is_valid_doc_root (root : Option mxArray) : Bool :=
  match root with
  | none => false
  | some r =>
    if mxGetNumberOfElements r != 1 then false
    else ymx_is_valid_node_array r

/-! ## The output buffer -/

def YMX_BUFFER_TAIL_SIZE : Nat := 1
def YMX_BUFFER_CHUNK_SIZE : Nat := 1024

/-- Number of values of `size_t` (64 bits). -/
def SIZE_T_RANGE : Nat := 2 ^ 64

/-- Conversion of a `size_t` value to `int` (32 bits, two's complement). -/
def size_t_to_int (n : Nat) : Int :=
  let m : Nat := n % 2 ^ 32
  if m < 2 ^ 31 then (m : Int) else (m : Int) - 2 ^ 32

/-- Conversion of an `int` to `size_t`. -/
def int_to_size_t (i : Int) : Nat := (i % (SIZE_T_RANGE : Int)).toNat

/-- The record `ymx_buffer_t`.  The block at `head` is described by
`head_size`, the size last asked of `mxMalloc`/`mxRealloc`, and by `head`,
the bytes written to it so far (they occupy the offsets below `used_size`). -/
structure ymx_buffer_t where
  chunk_size : Nat
  total_size : Nat
  used_size : Nat
  head_size : Nat
  head : List Nat
  deriving Repr, DecidableEq

def ymx_buffer_init (chunk_size : Nat) : ymx_buffer_t :=
  { chunk_size := chunk_size,
    head_size := (chunk_size + YMX_BUFFER_TAIL_SIZE) % SIZE_T_RANGE,
    head := [],
    total_size := chunk_size,
    used_size := 0 }

/-- Appends `input` (`size` is its length).  `none` is a run that leaves the
model: a division by zero, or a `memcpy` that writes past the end of the block
at `head`. -/
def ymx_buffer_append (buffer : ymx_buffer_t) (input : List Nat) : Option ymx_buffer_t :=
  let size := input.length
  let current_space := (buffer.total_size + SIZE_T_RANGE - buffer.used_size) % SIZE_T_RANGE
  let grown : Option ymx_buffer_t :=
    if size > current_space then
      if buffer.chunk_size = 0 then none
      else
        let required_chunks : Int :=
          size_t_to_int ((1 + (size - current_space) / buffer.chunk_size) % SIZE_T_RANGE)
        some { buffer with
          head_size := (buffer.total_size
            + (buffer.chunk_size * int_to_size_t required_chunks) % SIZE_T_RANGE
            + YMX_BUFFER_TAIL_SIZE) % SIZE_T_RANGE }
    else some buffer
  match grown with
  | none => none
  | some buffer =>
    if buffer.used_size + size ≤ buffer.head_size then
      some { buffer with
        head := buffer.head ++ input,
        used_size := (buffer.used_size + size) % SIZE_T_RANGE }
    else none

/-- The C string at `head` once the byte at offset `used_size` is cleared;
`none` when that byte lies outside the block. -/
def ymx_buffer_as_string (buffer : ymx_buffer_t) : Option c_string :=
  if buffer.used_size + 1 ≤ buffer.head_size then
    some (c_str_of_buffer (buffer.head ++ [0]))
  else none

def ymx_buffer_write_handler (data : ymx_buffer_t) (yaml_buffer : List Nat) :
    Option ymx_buffer_t :=
  ymx_buffer_append data yaml_buffer

/-! ## Functions for dumping -/

/-- The libyaml emitter, as far as the source depends on it: whether
`yaml_emitter_emit` takes an event, given the events it took before, and the
byte blocks it hands to the write handler while it does. -/
structure yaml_emitter_t where
  accept : List yaml_event_t → yaml_event_t → Bool
  output : List yaml_event_t → yaml_event_t → List (List Nat)

/-- What a dump has done so far: the events the emitter took, the warnings
raised through `mexWarnMsgTxt`, and the output buffer. -/
structure ymx_dump_state where
  emitted : List yaml_event_t
  warnings : List String
  buffer : ymx_buffer_t
  deriving Repr, DecidableEq

/-- Result of a dumping function.  `error msg st` is the call `ymx_error(msg)`
made in the state `st`; what the call ends in, the error with the message or
memory freed twice by its clean-up, is told by `ymx_error` below.  `fault` is a
memory fault of the output buffer; `diverge` marks a run that used up its
fuel. -/
inductive ymx_dump_result (α : Type) where
  | ok (val : α) (st : ymx_dump_state)
  | error (msg : String) (st : ymx_dump_state)
  | fault (st : ymx_dump_state)
  | diverge
  deriving Repr, DecidableEq

/-- Hands the blocks to the write handler, one after the other. -/
def ymx_write_blocks (buffer : ymx_buffer_t) : List (List Nat) → Option ymx_buffer_t
  | [] => some buffer
  | block :: rest =>
    match ymx_buffer_write_handler buffer block with
    | none => none
    | some buffer => ymx_write_blocks buffer rest

/-- `ymx_emit`: the event is handed to the emitter, which owns its memory from
then on, whether it takes the event or not; the blocks the emitter puts out go
to the write handler.  A refusal is the call
`ymx_error("Error while emitting document")`. -/
def ymx_emit (emitter : yaml_emitter_t) (st : ymx_dump_state) (event : yaml_event_t) :
    ymx_dump_result Unit :=
  if emitter.accept st.emitted event then
    match ymx_write_blocks st.buffer (emitter.output st.emitted event) with
    | some buffer =>
      .ok () { st with emitted := st.emitted ++ [event], buffer := buffer }
    | none => .fault st
  else .error "Error while emitting document" st

/-- The loop `for (ind = 0; ind < size; ind++) body(ind)`; `count` is the number
of iterations still to run. -/
def ymx_dump_for (body : ymx_dump_state → Nat → ymx_dump_result Unit) :
    Nat → Nat → ymx_dump_state → ymx_dump_result Unit
  | _, 0, st => .ok () st
  | ind, count + 1, st =>
    match body st ind with
    | .ok _ st => ymx_dump_for body (ind + 1) count st
    | r => r

def ymx_dump_alias (emitter : yaml_emitter_t) (st : ymx_dump_state)
    (anchor : Option c_string) : ymx_dump_result Unit :=
  ymx_emit emitter st (.alias anchor)

/-- `ymx_dump_scalar`.  The `error` result is the call
`ymx_error("Invalid scalar value")`, made before the event is built, while
`persistent_event` is still the event emitted last. -/
def ymx_dump_scalar (emitter : yaml_emitter_t) (st : ymx_dump_state)
    (value_arr : Option mxArray) (tag anchor : Option c_string)
    (implicit style : Int) : ymx_dump_result Unit :=
  match value_arr with
  | none => .error "Invalid scalar value" st
  | some value =>
    if !ymx_is_valid_string value then .error "Invalid scalar value" st
    else
      let value_str := (mxArrayToString value).getD []
      let plain_implicit : Int := if implicit = YMX_SCALAR_IMPLICIT_PLAIN then 1 else 0
      let quoted_implicit : Int := if implicit = YMX_SCALAR_IMPLICIT_QUOTED then 1 else 0
      ymx_emit emitter st
        (.scalar anchor tag (some value_str) value_str.length
          plain_implicit quoted_implicit style)

/-- The steps "Assemble tag" and "Assemble anchor" of `ymx_dump_node`:
`none` is the abort on an invalid string, `some none` a null string. -/
def ymx_assemble_string (arr : Option mxArray) : Option (Option c_string) :=
  match arr with
  | none => some none
  | some a =>
    if !mxIsEmpty a then
      if !ymx_is_valid_string a then none
      else some (mxArrayToString a)
    else some none

mutual

/-- `ymx_dump_node`.  The `error` results are the calls of `ymx_error` for the
tag, the anchor and the type of the node, made before an event of the node is
built, while `persistent_event` is still the event emitted last. -/
def ymx_dump_node : Nat → yaml_emitter_t → ymx_dump_state → mxArray → Nat →
    ymx_dump_result Unit
  | 0, _, _, _, _ => .diverge
  | fuel + 1, emitter, st, node, ind =>
    match ymx_assemble_string (mxGetFieldByNumber node ind YMX_NODE_FIELD_TAG) with
    | none => .error "Invalid tag" st
    | some tag_str =>
      match ymx_assemble_string (mxGetFieldByNumber node ind YMX_NODE_FIELD_ANCHOR) with
      | none => .error "Invalid anchor" st
      | some anchor_str =>
        let implicit_arr := mxGetFieldByNumber node ind YMX_NODE_FIELD_IMPLICIT
        let (implicit_int, st) : Int × ymx_dump_state :=
          match implicit_arr with
          | some a =>
            if ymx_is_valid_int_scalar a then (ymx_get_int_scalar a, st)
            else (0, { st with warnings := st.warnings ++ ["Invalid node implicit specifier"] })
          | none => (0, { st with warnings := st.warnings ++ ["Invalid node implicit specifier"] })
        let style_arr := mxGetFieldByNumber node ind YMX_NODE_FIELD_STYLE
        let (style_int, st) : Int × ymx_dump_state :=
          match style_arr with
          | some a =>
            if ymx_is_valid_int_scalar a then (ymx_get_int_scalar a, st)
            else (0, { st with warnings := st.warnings ++ ["Invalid node style"] })
          | none => (0, { st with warnings := st.warnings ++ ["Invalid node style"] })
        let value_arr := mxGetFieldByNumber node ind YMX_NODE_FIELD_VALUE
        match mxGetFieldByNumber node ind YMX_NODE_FIELD_TYPE with
        | none => .error "Invalid node type" st
        | some type =>
          if !ymx_is_valid_int_scalar type then .error "Invalid node type" st
          else if ymx_get_int_scalar type = YMX_NODE_TYPE_SCALAR then
            ymx_dump_scalar emitter st value_arr tag_str anchor_str implicit_int style_int
          else if ymx_get_int_scalar type = YMX_NODE_TYPE_SEQUENCE then
            ymx_dump_sequence fuel emitter st value_arr tag_str anchor_str
              implicit_int style_int
          else if ymx_get_int_scalar type = YMX_NODE_TYPE_MAPPING then
            ymx_dump_mapping fuel emitter st value_arr tag_str anchor_str
              implicit_int style_int
          else if ymx_get_int_scalar type = YMX_NODE_TYPE_ALIAS then
            ymx_dump_alias emitter st anchor_str
          else .error "Invalid node type value" st

/-- `ymx_dump_sequence`: the start event is handed to the emitter, then the
value is checked.  The `error` result is the call
`ymx_error("Invalid sequence node array")`, made while `persistent_event` is
that start event. -/
def ymx_dump_sequence : Nat → yaml_emitter_t → ymx_dump_state → Option mxArray →
    Option c_string → Option c_string → Int → Int → ymx_dump_result Unit
  | 0, _, _, _, _, _, _, _ => .diverge
  | fuel + 1, emitter, st, value_arr, tag, anchor, implicit, style =>
    match ymx_emit emitter st (.sequence_start anchor tag implicit style) with
    | .ok _ st =>
      let body : ymx_dump_result Unit :=
        match value_arr with
        | some value =>
          if !mxIsEmpty value then
            if !ymx_is_valid_node_array value
                || mxGetNumberOfDimensions value != 2
                || mxGetM value != 1 then
              .error "Invalid sequence node array" st
            else
              ymx_dump_for (fun st ind => ymx_dump_node fuel emitter st value ind)
                0 (mxGetNumberOfElements value) st
          else .ok () st
        | none => .ok () st
      match body with
      | .ok _ st => ymx_emit emitter st .sequence_end
      | r => r
    | r => r

/-- `ymx_dump_mapping`: the start event is handed to the emitter, then the
value is checked.  The `error` result is the call
`ymx_error("Invalid mapping node array")`, made while `persistent_event` is
that start event. -/
def ymx_dump_mapping : Nat → yaml_emitter_t → ymx_dump_state → Option mxArray →
    Option c_string → Option c_string → Int → Int → ymx_dump_result Unit
  | 0, _, _, _, _, _, _, _ => .diverge
  | fuel + 1, emitter, st, value_arr, tag, anchor, implicit, style =>
    match ymx_emit emitter st (.mapping_start anchor tag implicit style) with
    | .ok _ st =>
      let body : ymx_dump_result Unit :=
        match value_arr with
        | some value =>
          if !mxIsEmpty value then
            if !ymx_is_valid_node_array value
                || mxGetNumberOfDimensions value != 2
                || mxGetM value != 2 then
              .error "Invalid mapping node array" st
            else
              ymx_dump_for (fun st ind => ymx_dump_node fuel emitter st value ind)
                0 (mxGetNumberOfElements value) st
          else .ok () st
        | none => .ok () st
      match body with
      | .ok _ st => ymx_emit emitter st .mapping_end
      | r => r
    | r => r

end

/-- The int32 data of an array (`mxGetData` of an int32 array). -/
def mxGetInt32Data : mxArray → List Int
  | .int32 _ data => data
  | _ => []

/-- The step "Assemble tag directives" of `ymx_dump_document`: `none` is the
abort on an invalid array; a null or empty array gives no directive. -/
def ymx_assemble_tagdirs (tagdirs : Option mxArray) : Option (List yaml_tag_directive_t) :=
  match tagdirs with
  | none => some []
  | some t =>
    if !mxIsEmpty t then
      if !ymx_is_valid_tagdirs_array t then none
      else
        some ((List.range (mxGetNumberOfElements t)).map (fun tagdir_ind =>
          { handle := ((mxGetFieldByNumber t tagdir_ind YMX_TAGDIR_FIELD_HANDLE).bind
              mxArrayToString).getD [],
            pfx := ((mxGetFieldByNumber t tagdir_ind YMX_TAGDIR_FIELD_PREFIX).bind
              mxArrayToString).getD [] }))
    else some []

/-- The version step of `ymx_dump_document`: `none` is the abort on an invalid
array, `some none` a null version directive. -/
def ymx_assemble_version (version : Option mxArray) :
    Option (Option yaml_version_directive_t) :=
  match version with
  | none => some none
  | some v =>
    if !mxIsEmpty v then
      if !ymx_is_valid_version_array v then none
      else
        some (some { major := (mxGetInt32Data v).getD 0 0,
                     minor := (mxGetInt32Data v).getD 1 0 })
    else some none

def ymx_dump_document (fuel : Nat) (emitter : yaml_emitter_t) (st : ymx_dump_state)
    (docs_array : mxArray) (ind : Nat) : ymx_dump_result Unit :=
  let root := mxGetFieldByNumber docs_array ind YMX_DOC_FIELD_ROOT
  match root with
  | none => .error "Invalid document root" st
  | some root_arr =>
    if !ymx_is_valid_doc_root root then .error "Invalid document root" st
    else
      match ymx_assemble_tagdirs (mxGetFieldByNumber docs_array ind YMX_DOC_FIELD_TAGDIRS) with
      | none => .error "Invalid document tag directives" st
      | some tag_directives =>
        match ymx_assemble_version
            (mxGetFieldByNumber docs_array ind YMX_DOC_FIELD_VERSION) with
        | none => .error "Invalid document version" st
        | some version_directive =>
          let (start_implicit, st) : Int × ymx_dump_state :=
            match mxGetFieldByNumber docs_array ind YMX_DOC_FIELD_START_IMPLICIT with
            | some a =>
              if mxIsLogicalScalar a then (mxGetLogicals0 a, st)
              else (0, { st with warnings :=
                st.warnings ++ ["Invalid document start implicit specifier"] })
            | none => (0, { st with warnings :=
                st.warnings ++ ["Invalid document start implicit specifier"] })
          let (end_implicit, st) : Int × ymx_dump_state :=
            match mxGetFieldByNumber docs_array ind YMX_DOC_FIELD_END_IMPLICIT with
            | some a =>
              if mxIsLogicalScalar a then (mxGetLogicals0 a, st)
              else (0, { st with warnings :=
                st.warnings ++ ["Invalid document end implicit specifier"] })
            | none => (0, { st with warnings :=
                st.warnings ++ ["Invalid document end implicit specifier"] })
          match ymx_emit emitter st
              (.document_start version_directive tag_directives start_implicit) with
          | .ok _ st =>
            match ymx_dump_node fuel emitter st root_arr 0 with
            | .ok _ st => ymx_emit emitter st (.document_end end_implicit)
            | r => r
          | r => r

mutual

/-- Nesting depth of struct arrays inside an array; it bounds the recursion
depth of the dumper. -/
def mxArray.depth : mxArray → Nat
  | .struct _ _ elems => mxArray.depth_elems elems + 1
  | _ => 0

def mxArray.depth_elems : List (List (Option mxArray)) → Nat
  | [] => 0
  | e :: es => max (mxArray.depth_fields e) (mxArray.depth_elems es)

def mxArray.depth_fields : List (Option mxArray) → Nat
  | [] => 0
  | none :: fs => mxArray.depth_fields fs
  | some a :: fs => max (mxArray.depth a) (mxArray.depth_fields fs)

end

/-- The state in which a dump starts: nothing emitted, the buffer as
`ymx_buffer_init` leaves it. -/
def ymx_dump_state_init : ymx_dump_state :=
  { emitted := [], warnings := [], buffer := ymx_buffer_init YMX_BUFFER_CHUNK_SIZE }

/-- The dumper.  The result is the output string.  A node at nesting depth `k`
is dumped with `2 * k` units of fuel less than the root, so the fuel handed out
here is never used up. -/
def ymx_dump_stream (emitter : yaml_emitter_t) (docs_array : mxArray) :
    ymx_dump_result mxArray :=
  let fuel := 2 * docs_array.depth + 2
  let st := ymx_dump_state_init
  if !ymx_is_valid_doc_array docs_array then .error "Invalid document array" st
  else
    match ymx_emit emitter st .stream_start with
    | .error msg st => .error msg st
    | .fault st => .fault st
    | .diverge => .diverge
    | .ok _ st =>
      match ymx_dump_for (fun st ind => ymx_dump_document fuel emitter st docs_array ind)
          0 (mxGetNumberOfElements docs_array) st with
      | .error msg st => .error msg st
      | .fault st => .fault st
      | .diverge => .diverge
      | .ok _ st =>
        match ymx_emit emitter st .stream_end with
        | .error msg st => .error msg st
        | .fault st => .fault st
        | .diverge => .diverge
        | .ok _ st =>
          match ymx_buffer_as_string st.buffer with
          | some str => .ok (mxCreateString str) st
          | none => .fault st

/-! ## The event grammar -/

/-- A complete node subtree of the event grammar: a scalar event, an alias
event, or a sequence/mapping start event, the subtrees of the children (of the
keys and values, in pairs) and the matching end event. -/
inductive yaml_subtree where
  | scalar (anchor tag : Option c_string) (value : Option (List Nat)) (length : Nat)
      (plain_implicit quoted_implicit : Int) (style : Int)
  | alias (anchor : c_string)
  | sequence (anchor tag : Option c_string) (implicit style : Int)
      (items : List yaml_subtree)
  | mapping (anchor tag : Option c_string) (implicit style : Int)
      (pairs : List (yaml_subtree × yaml_subtree))

/-- The event a subtree starts with. -/
def yaml_subtree.first : yaml_subtree → yaml_event_t
  | .scalar a t v l p q s => .scalar a t v l p q s
  | .alias a => .alias (some a)
  | .sequence a t i s _ => .sequence_start a t i s
  | .mapping a t i s _ => .mapping_start a t i s

mutual

/-- The events of a subtree after its first one. -/
def yaml_subtree.rest : yaml_subtree → List yaml_event_t
  | .scalar _ _ _ _ _ _ _ => []
  | .alias _ => []
  | .sequence _ _ _ _ items => yaml_subtree.events_items items ++ [.sequence_end]
  | .mapping _ _ _ _ pairs => yaml_subtree.events_pairs pairs ++ [.mapping_end]

/-- The events of the children of a sequence, in order. -/
def yaml_subtree.events_items : List yaml_subtree → List yaml_event_t
  | [] => []
  | t :: ts => (t.first :: t.rest) ++ yaml_subtree.events_items ts

/-- The events of the pairs of a mapping: key, value, key, value, ... -/
def yaml_subtree.events_pairs : List (yaml_subtree × yaml_subtree) → List yaml_event_t
  | [] => []
  | (k, v) :: ps => (k.first :: k.rest) ++ ((v.first :: v.rest) ++ yaml_subtree.events_pairs ps)

end

/-- The event sequence of a subtree. -/
def yaml_subtree.events (t : yaml_subtree) : List yaml_event_t := t.first :: t.rest

/-- The values of the six fields of an array element that holds a node, in
the order of `YMX_NODE_FIELD_STRS`. -/
def ymx_node_t.fields (node : ymx_node_t) : List (Option mxArray) :=
  [node.type, node.value, node.tag, node.anchor, node.implicit, node.style]

mutual

/-- The node the loader builds from a subtree (see `ymx_load_node_subtree`). -/
def yaml_subtree.loaded : yaml_subtree → ymx_node_t
  | .scalar a t v l p q s =>
    { type := some (ymx_create_int_scalar YMX_NODE_TYPE_SCALAR),
      value := v.map (fun v => mxCreateString (c_str_of_buffer (v.take l ++ [0]))),
      tag := match t with
        | some t => some (mxCreateString t)
        | none => if s = YAML_PLAIN_SCALAR_STYLE then some (mxCreateString [63])
                  else some (mxCreateString [33]),
      anchor := a.map mxCreateString,
      implicit := if p ≠ 0 then some (ymx_create_int_scalar YMX_SCALAR_IMPLICIT_PLAIN)
        else if q ≠ 0 then some (ymx_create_int_scalar YMX_SCALAR_IMPLICIT_QUOTED)
        else some (ymx_create_int_scalar YMX_SCALAR_IMPLICIT_FALSE),
      style := some (ymx_create_int_scalar s) }
  | .alias a =>
    { type := some (ymx_create_int_scalar YMX_NODE_TYPE_ALIAS),
      anchor := some (mxCreateString a),
      implicit := some (ymx_create_int_scalar 0),
      style := some (ymx_create_int_scalar 0) }
  | .sequence a t i s items =>
    { type := some (ymx_create_int_scalar YMX_NODE_TYPE_SEQUENCE),
      value := if items.length ≠ 0 then
          some (.struct [1, items.length] YMX_NODE_FIELD_STRS
            (yaml_subtree.loaded_items items))
        else none,
      tag := some (mxCreateString (t.getD [63])),
      anchor := a.map mxCreateString,
      implicit := some (ymx_create_int_scalar i),
      style := some (ymx_create_int_scalar s) }
  | .mapping a t i s pairs =>
    { type := some (ymx_create_int_scalar YMX_NODE_TYPE_MAPPING),
      value := if pairs.length ≠ 0 then
          some (.struct [2, pairs.length] YMX_NODE_FIELD_STRS
            (yaml_subtree.loaded_pairs pairs))
        else none,
      tag := some (mxCreateString (t.getD [63])),
      anchor := a.map mxCreateString,
      implicit := some (ymx_create_int_scalar i),
      style := some (ymx_create_int_scalar s) }

/-- The elements of the 1-by-N array of the children of a sequence. -/
def yaml_subtree.loaded_items : List yaml_subtree → List (List (Option mxArray))
  | [] => []
  | t :: ts => t.loaded.fields :: yaml_subtree.loaded_items ts

/-- The elements of the 2-by-N array of a mapping, in storage order: the
key and the value of the first pair, of the second pair, ... -/
def yaml_subtree.loaded_pairs :
    List (yaml_subtree × yaml_subtree) → List (List (Option mxArray))
  | [] => []
  | (k, v) :: ps => k.loaded.fields :: v.loaded.fields :: yaml_subtree.loaded_pairs ps

end

/-- The anchor attribute of an event (null for the events that have none). -/
def yaml_event_t.anchor : yaml_event_t → Option c_string
  | .alias a => a
  | .scalar a _ _ _ _ _ _ => a
  | .sequence_start a _ _ _ => a
  | .mapping_start a _ _ _ => a
  | _ => none

/-- The tag attribute of an event (null for the events that have none). -/
def yaml_event_t.tag : yaml_event_t → Option c_string
  | .scalar _ t _ _ _ _ _ => t
  | .sequence_start _ t _ _ => t
  | .mapping_start _ t _ _ => t
  | _ => none

/-- An emitter that takes every event and hands no byte to the write
handler. -/
def yaml_emitter_accept_all : yaml_emitter_t :=
  { accept := fun _ _ => true, output := fun _ _ => [] }

/-- A document of the event grammar: the document start event, the subtree of
the root node and the document end event. -/
structure yaml_document where
  version_directive : Option yaml_version_directive_t
  tag_directives : List yaml_tag_directive_t
  start_implicit : Int
  root : yaml_subtree
  end_implicit : Int

/-- The event a document starts with. -/
def yaml_document.first (d : yaml_document) : yaml_event_t :=
  .document_start d.version_directive d.tag_directives d.start_implicit

/-- The events of a document after its first one. -/
def yaml_document.rest (d : yaml_document) : List yaml_event_t :=
  d.root.events ++ [.document_end d.end_implicit]

/-- The event sequence of a document. -/
def yaml_document.events (d : yaml_document) : List yaml_event_t := d.first :: d.rest

/-- The events of the documents of a stream, in order. -/
def yaml_document.events_docs : List yaml_document → List yaml_event_t
  | [] => []
  | d :: ds => d.events ++ yaml_document.events_docs ds

/-- The grammatical event sequence of a stream of documents:
StreamStart, (DocumentStart, one node subtree, DocumentEnd)*, StreamEnd. -/
def yaml_stream_events (docs : List yaml_document) : List yaml_event_t :=
  .stream_start :: (yaml_document.events_docs docs ++ [.stream_end])

/-- The elements of the tag directive array the loader builds. -/
def ymx_tagdirs_elems (tds : List yaml_tag_directive_t) : List (List (Option mxArray)) :=
  tds.map (fun d => [some (mxCreateString d.handle), some (mxCreateString d.pfx)])

/-- The document record the loader builds from a document of the grammar (see
`ymx_load_document_grammatical`). -/
def yaml_document.loaded (d : yaml_document) : ymx_document_t :=
  { root := some (.struct [1, 1] YMX_NODE_FIELD_STRS [d.root.loaded.fields]),
    tagdirs := if d.tag_directives.length ≠ 0 then
        some (.struct [1, d.tag_directives.length] YMX_TAGDIR_FIELD_STRS
          (ymx_tagdirs_elems d.tag_directives))
      else none,
    version := match d.version_directive with
      | some v => some (.int32 [1, 2] [v.major, v.minor])
      | none => none,
    start_implicit := some (mxCreateLogicalScalar d.start_implicit),
    end_implicit := some (mxCreateLogicalScalar d.end_implicit) }

/-- The values of the five fields of an element of the document array, in the
order of `YMX_DOC_FIELD_STRS`. -/
def ymx_document_t.fields (doc : ymx_document_t) : List (Option mxArray) :=
  [doc.root, doc.version, doc.tagdirs, doc.start_implicit, doc.end_implicit]

/-- The document array the loader returns for the given records: null for no
document, else the 1-by-N struct array of their fields. -/
def ymx_docs_array (raw_docs : List ymx_document_t) : Option mxArray :=
  if raw_docs.length ≠ 0 then
    some (.struct [1, raw_docs.length] YMX_DOC_FIELD_STRS (raw_docs.map ymx_document_t.fields))
  else none

/-- A node array with one mapping node (tag "?", flow style) whose value is a
1-by-1 node array: one scalar node "a" where key/value pairs are expected. -/
def ymx_example_odd_mapping : mxArray :=
  .struct [1, 1] YMX_NODE_FIELD_STRS
    [[some (ymx_create_int_scalar YMX_NODE_TYPE_MAPPING),
      some (.struct [1, 1] YMX_NODE_FIELD_STRS
        [[some (ymx_create_int_scalar YMX_NODE_TYPE_SCALAR),
          some (mxCreateString [97]),
          some (mxCreateString [63]),
          none,
          some (ymx_create_int_scalar 1),
          some (ymx_create_int_scalar 1)]]),
      some (mxCreateString [63]),
      none,
      some (ymx_create_int_scalar 1),
      some (ymx_create_int_scalar 2)]]

/-! ## The data model of the specification and its host representation -/

/-- Implicit value of a scalar node: enum{None, Plain, Quoted}. -/
inductive ScalarImplicit where
  | None | Plain | Quoted
  deriving DecidableEq, Repr

/-- Style of a scalar node. -/
inductive ScalarStyle where
  | Any | Plain | SingleQuoted | DoubleQuoted | Literal | Folded
  deriving DecidableEq, Repr

/-- Style of a sequence or mapping node. -/
inductive CollectionStyle where
  | Any | Block | Flow
  deriving DecidableEq, Repr

/-- The code of an implicit value (`ymx_scalar_implicit_flag_t`). -/
def ScalarImplicit.code : ScalarImplicit → Int
  | .None => YMX_SCALAR_IMPLICIT_FALSE
  | .Plain => YMX_SCALAR_IMPLICIT_PLAIN
  | .Quoted => YMX_SCALAR_IMPLICIT_QUOTED

/-- The code of a scalar style (`yaml_scalar_style_t`). -/
def ScalarStyle.code : ScalarStyle → Int
  | .Any => 0 | .Plain => 1 | .SingleQuoted => 2 | .DoubleQuoted => 3
  | .Literal => 4 | .Folded => 5

/-- The code of a collection style (`yaml_sequence_style_t`,
`yaml_mapping_style_t`). -/
def CollectionStyle.code : CollectionStyle → Int
  | .Any => 0 | .Block => 1 | .Flow => 2

/-- A node of the data model: a tagged union of the four variants. -/
inductive Node where
  | Scalar (value : List Nat) (tag : Option (List Nat)) (implicit : ScalarImplicit)
      (anchor : Option (List Nat)) (style : ScalarStyle)
  | Sequence (children : List Node) (tag anchor : Option (List Nat)) (implicit : Bool)
      (style : CollectionStyle)
  | Mapping (pairs : List (Node × Node)) (tag anchor : Option (List Nat)) (implicit : Bool)
      (style : CollectionStyle)
  | Alias (anchor : List Nat)

/-- A document of the data model. -/
structure Document where
  root : Node
  version : Option (Int × Int)
  tag_directives : List (List Nat × List Nat)
  start_implicit : Bool
  end_implicit : Bool

mutual

/-- The host representation of a node: the six members as the loader lays
them out and the dumper reads them. -/
def Node.host : Node → ymx_node_t
  | .Scalar value tag implicit anchor style =>
    { type := some (ymx_create_int_scalar YMX_NODE_TYPE_SCALAR),
      value := some (mxCreateString value),
      tag := tag.map mxCreateString,
      anchor := anchor.map mxCreateString,
      implicit := some (ymx_create_int_scalar implicit.code),
      style := some (ymx_create_int_scalar style.code) }
  | .Sequence children tag anchor implicit style =>
    { type := some (ymx_create_int_scalar YMX_NODE_TYPE_SEQUENCE),
      value := if children.length ≠ 0 then
          some (.struct [1, children.length] YMX_NODE_FIELD_STRS (Node.host_items children))
        else none,
      tag := tag.map mxCreateString,
      anchor := anchor.map mxCreateString,
      implicit := some (ymx_create_int_scalar (if implicit then 1 else 0)),
      style := some (ymx_create_int_scalar style.code) }
  | .Mapping pairs tag anchor implicit style =>
    { type := some (ymx_create_int_scalar YMX_NODE_TYPE_MAPPING),
      value := if pairs.length ≠ 0 then
          some (.struct [2, pairs.length] YMX_NODE_FIELD_STRS (Node.host_pairs pairs))
        else none,
      tag := tag.map mxCreateString,
      anchor := anchor.map mxCreateString,
      implicit := some (ymx_create_int_scalar (if implicit then 1 else 0)),
      style := some (ymx_create_int_scalar style.code) }
  | .Alias anchor =>
    { type := some (ymx_create_int_scalar YMX_NODE_TYPE_ALIAS),
      anchor := some (mxCreateString anchor),
      implicit := some (ymx_create_int_scalar 0),
      style := some (ymx_create_int_scalar 0) }

/-- The elements of the 1-by-N array of the children of a sequence. -/
def Node.host_items : List Node → List (List (Option mxArray))
  | [] => []
  | c :: cs => c.host.fields :: Node.host_items cs

/-- The elements of the 2-by-N array of the pairs of a mapping, in storage
order. -/
def Node.host_pairs : List (Node × Node) → List (List (Option mxArray))
  | [] => []
  | (k, v) :: ps => k.host.fields :: v.host.fields :: Node.host_pairs ps

end

/-- The host representation of a document. -/
def Document.host (d : Document) : ymx_document_t :=
  { root := some (.struct [1, 1] YMX_NODE_FIELD_STRS [d.root.host.fields]),
    tagdirs := if d.tag_directives.length ≠ 0 then
        some (.struct [1, d.tag_directives.length] YMX_TAGDIR_FIELD_STRS
          (d.tag_directives.map
            (fun hp => [some (mxCreateString hp.1), some (mxCreateString hp.2)])))
      else none,
    version := d.version.map (fun v => .int32 [1, 2] [v.1, v.2]),
    start_implicit := some (.logical [1, 1] [d.start_implicit]),
    end_implicit := some (.logical [1, 1] [d.end_implicit]) }

/-- The host representation of a sequence of documents: the 1-by-N document
array. -/
def Document.host_array (docs : List Document) : mxArray :=
  .struct [1, docs.length] YMX_DOC_FIELD_STRS (docs.map (fun d => d.host.fields))

/-- A string of the data model that survives the host boundary: it is not
empty (an empty char array counts as a null string in `ymx_dump_node`) and holds
no zero byte (`mxArrayToString` yields a C string). -/
def host_string_ok (s : List Nat) : Bool := s.length != 0 && !s.contains 0

/-- An anchor is absent or a string that survives the host boundary. -/
def host_anchor_ok : Option (List Nat) → Bool
  | none => true
  | some s => host_string_ok s

/-- A tag is present and survives the host boundary. -/
def host_tag_ok : Option (List Nat) → Bool
  | none => false
  | some s => host_string_ok s

mutual

/-- The nodes in the canonical form of the loader: every scalar, sequence and
mapping carries a tag; tags, anchors and alias anchors are non-empty and free of
zero bytes; scalar values are free of zero bytes. -/
def Node.canonical : Node → Bool
  | .Scalar value tag _ anchor _ =>
    !value.contains 0 && host_tag_ok tag && host_anchor_ok anchor
  | .Sequence children tag anchor _ _ =>
    host_tag_ok tag && host_anchor_ok anchor && Node.canonical_items children
  | .Mapping pairs tag anchor _ _ =>
    host_tag_ok tag && host_anchor_ok anchor && Node.canonical_pairs pairs
  | .Alias anchor => host_string_ok anchor

def Node.canonical_items : List Node → Bool
  | [] => true
  | c :: cs => c.canonical && Node.canonical_items cs

def Node.canonical_pairs : List (Node × Node) → Bool
  | [] => true
  | (k, v) :: ps => k.canonical && v.canonical && Node.canonical_pairs ps

end

/-- The documents in the canonical form of the loader: a canonical root, and
tag directives whose handles and prefixes are non-empty and free of zero
bytes. -/
def Document.canonical (d : Document) : Bool :=
  d.root.canonical
    && d.tag_directives.all (fun hp => host_string_ok hp.1 && host_string_ok hp.2)

mutual

/-- The subtree of events the dumper emits for a canonical node. -/
def Node.subtree : Node → yaml_subtree
  | .Scalar value tag implicit anchor style =>
    .scalar anchor tag (some value) value.length
      (if implicit.code = YMX_SCALAR_IMPLICIT_PLAIN then 1 else 0)
      (if implicit.code = YMX_SCALAR_IMPLICIT_QUOTED then 1 else 0) style.code
  | .Sequence children tag anchor implicit style =>
    .sequence anchor tag (if implicit then 1 else 0) style.code (Node.subtree_items children)
  | .Mapping pairs tag anchor implicit style =>
    .mapping anchor tag (if implicit then 1 else 0) style.code (Node.subtree_pairs pairs)
  | .Alias anchor => .alias anchor

def Node.subtree_items : List Node → List yaml_subtree
  | [] => []
  | c :: cs => c.subtree :: Node.subtree_items cs

def Node.subtree_pairs : List (Node × Node) → List (yaml_subtree × yaml_subtree)
  | [] => []
  | (k, v) :: ps => (k.subtree, v.subtree) :: Node.subtree_pairs ps

end

/-- The document of the event grammar the dumper emits for a canonical
document. -/
def Document.grammar (d : Document) : yaml_document :=
  { version_directive := d.version.map (fun v => { major := v.1, minor := v.2 }),
    tag_directives := d.tag_directives.map (fun hp => { handle := hp.1, pfx := hp.2 }),
    start_implicit := if d.start_implicit then 1 else 0,
    root := d.root.subtree,
    end_implicit := if d.end_implicit then 1 else 0 }

/-- Hands the events to the emitter one after the other, up to the first one
that fails. -/
def ymx_emit_all (emitter : yaml_emitter_t) :
    ymx_dump_state → List yaml_event_t → ymx_dump_result Unit
  | st, [] => .ok () st
  | st, event :: rest =>
    match ymx_emit emitter st event with
    | .ok _ st => ymx_emit_all emitter st rest
    | r => r

/-- A document of the data model whose root is the plain scalar "a" with no
tag: the tag member is optional in the data model. -/
def ymx_example_untagged_document : Document :=
  { root := .Scalar [97] none .Plain none .Plain,
    version := none, tag_directives := [], start_implicit := true, end_implicit := true }

/-- The document `ymx_example_untagged_document` with the tag "?" on its root. -/
def ymx_example_resolved_document : Document :=
  { root := .Scalar [97] (some [63]) .Plain none .Plain,
    version := none, tag_directives := [], start_implicit := true, end_implicit := true }

/-- A document in canonical form: version 1.1, one tag directive, and as root a
block mapping with one pair, an anchored plain scalar as key and a flow sequence
of an alias and an empty double-quoted scalar as value. -/
def ymx_example_canonical_document : Document :=
  { root := .Mapping
      [(.Scalar [107] (some [63]) .Plain (some [97]) .Plain,
        .Sequence [.Alias [97], .Scalar [] (some [33]) .Quoted none .DoubleQuoted]
          (some [63]) none true .Flow)]
      (some [33, 109]) none false .Block,
    version := some (1, 1), tag_directives := [([33, 33], [116, 97, 103, 58])],
    start_implicit := false, end_implicit := true }

/-- A document of the data model whose root is the plain scalar "a" with tag
"?" and the empty string as anchor. -/
def ymx_example_empty_anchor_document : Document :=
  { root := .Scalar [97] (some [63]) .Plain (some []) .Plain,
    version := none, tag_directives := [], start_implicit := true, end_implicit := true }

/-- A document of the data model whose root is the plain scalar "a" with tag
"?" and an anchor of three bytes, the second of them zero. -/
def ymx_example_zero_byte_anchor_document : Document :=
  { root := .Scalar [97] (some [63]) .Plain (some [120, 0, 121]) .Plain,
    version := none, tag_directives := [], start_implicit := true, end_implicit := true }

/-- The document `ymx_example_zero_byte_anchor_document` with its anchor cut at
the zero byte. -/
def ymx_example_cut_anchor_document : Document :=
  { root := .Scalar [97] (some [63]) .Plain (some [120]) .Plain,
    version := none, tag_directives := [], start_implicit := true, end_implicit := true }

/-! ## The entry of the dumper -/

/-! ## The steps of `ymx_dump_node` and `ymx_dump_document`, one by one -/

/-- The steps "Assemble implicit" and "Assemble style" of `ymx_dump_node`: the
value of a member that is an int32 scalar, 0 for any other member. -/
def ymx_int_or_zero (arr : Option mxArray) : Int :=
  match arr with
  | some a => if ymx_is_valid_int_scalar a then ymx_get_int_scalar a else 0
  | none => 0

/-- The warning these steps raise: none for an int32 scalar, `msg` for any
other member. -/
def ymx_int_warning (arr : Option mxArray) (msg : String) : List String :=
  match arr with
  | some a => if ymx_is_valid_int_scalar a then [] else [msg]
  | none => [msg]

/-- The start_implicit and end_implicit steps of `ymx_dump_document`: the
value of a member that is a logical scalar, 0 for any other member. -/
def ymx_logical_or_zero (arr : Option mxArray) : Int :=
  match arr with
  | some a => if mxIsLogicalScalar a then mxGetLogicals0 a else 0
  | none => 0

/-- The warning these steps raise: none for a logical scalar, `msg` for any
other member. -/
def ymx_logical_warning (arr : Option mxArray) (msg : String) : List String :=
  match arr with
  | some a => if mxIsLogicalScalar a then [] else [msg]
  | none => [msg]

/-- The state after the given warnings are raised. -/
def ymx_dump_state.warn (st : ymx_dump_state) (msgs : List String) : ymx_dump_state :=
  { st with warnings := st.warnings ++ msgs }

/-! ## The messages of the dumper and the shape of its results -/

/-- The message of `ymx_emit`. -/
def ymx_emit_error : String := "Error while emitting document"

/-- The messages of the aborts in `ymx_dump_node`, `ymx_dump_scalar`,
`ymx_dump_sequence` and `ymx_dump_mapping`. -/
def ymx_node_errors : List String :=
  ["Invalid tag", "Invalid anchor", "Invalid node type", "Invalid node type value",
   "Invalid scalar value", "Invalid sequence node array", "Invalid mapping node array"]

/-- The messages of the aborts in `ymx_dump_document` itself. -/
def ymx_document_errors : List String :=
  ["Invalid document root", "Invalid document tag directives", "Invalid document version"]

/-- All messages a dump can abort with. -/
def ymx_dump_errors : List String :=
  "Invalid document array" :: (ymx_document_errors ++ ymx_node_errors ++ [ymx_emit_error])

/-- The state a result carries. -/
def ymx_dump_result.state {α : Type} : ymx_dump_result α → Option ymx_dump_state
  | .ok _ st => some st
  | .error _ st => some st
  | .fault st => some st
  | .diverge => none

/-- The message of an abort. -/
def ymx_dump_result.message {α : Type} : ymx_dump_result α → Option String
  | .error msg _ => some msg
  | _ => none

/-- A result that continues the state `st`: the events and the warnings of
`st` are still there, in front, the buffer keeps its chunk size, and an abort
carries one of the messages `msgs`. -/
def ymx_dump_continues {α : Type} (msgs : List String) (st : ymx_dump_state)
    (r : ymx_dump_result α) : Prop :=
  (∀ st', r.state = some st' →
    st.emitted <+: st'.emitted ∧ st.warnings <+: st'.warnings)
  ∧ (∀ msg, r.message = some msg → msg ∈ msgs)

/-- A node array with one scalar node "a" with tag "!" and neither an anchor
nor an implicit nor a style member. -/
def ymx_example_bare_scalar : mxArray :=
  .struct [1, 1] YMX_NODE_FIELD_STRS
    [[some (ymx_create_int_scalar YMX_NODE_TYPE_SCALAR), some (mxCreateString [97]),
      some (mxCreateString [33]), none, none, none]]

/-- The emitter took every event of the list, each one after those before
it. -/
def ymx_accepted (emitter : yaml_emitter_t) (events : List yaml_event_t) : Prop :=
  ∀ k, k < events.length →
    ∃ event, events.get? k = some event ∧ emitter.accept (events.take k) event = true

/-! ## Pulls from the event source -/

/-- The pulls that lead from `parser` to `rest` all produced an event. -/
def ymx_pulled (parser rest : yaml_parser_t) : Prop :=
  ∃ events : List yaml_event_t, parser = events.map some ++ rest

/-- A result of a loading function that returned (it did not run out of
fuel) and, when it is a success, made only pulls that produced an event. -/
def ymx_result_pulls {α : Type} (parser : yaml_parser_t)
    (r : ymx_result (α × yaml_parser_t)) : Prop :=
  match r with
  | .ok (_, rest) => ymx_pulled parser rest
  | .error _ => True
  | .diverge => False

/-- What the steps "Assemble tag" and "Assemble anchor" of `ymx_dump_node` make
of the char array `mxCreateString s`: a null string for the empty array, else
the C string copy of the array. -/
def ymx_assembled (s : c_string) : Option c_string :=
  if s.length = 0 then none else some (c_str_of_buffer s)

mutual

/-- The subtree of events the dumper emits for the node the loader builds from
the subtree `t` (see `ymx_dump_node_loaded`): the tags defaulted by the loader,
the implicit flags of a scalar collapsed, the value read as a C string, null
strings for empty tags and anchors. -/
def yaml_subtree.redump : yaml_subtree → yaml_subtree
  | .scalar a t v l p q s =>
    .scalar (a.bind ymx_assembled)
      (ymx_assembled (t.getD (if s = YAML_PLAIN_SCALAR_STYLE then [63] else [33])))
      (some (c_str_of_buffer ((v.getD []).take l ++ [0])))
      (c_str_of_buffer ((v.getD []).take l ++ [0])).length
      (if p ≠ 0 then 1 else 0)
      (if p ≠ 0 then 0 else if q ≠ 0 then 1 else 0) s
  | .alias a => .alias (c_str_of_buffer a)
  | .sequence a t i s items =>
    .sequence (a.bind ymx_assembled) (ymx_assembled (t.getD [63])) i s
      (yaml_subtree.redump_items items)
  | .mapping a t i s pairs =>
    .mapping (a.bind ymx_assembled) (ymx_assembled (t.getD [63])) i s
      (yaml_subtree.redump_pairs pairs)

def yaml_subtree.redump_items : List yaml_subtree → List yaml_subtree
  | [] => []
  | t :: ts => t.redump :: yaml_subtree.redump_items ts

def yaml_subtree.redump_pairs :
    List (yaml_subtree × yaml_subtree) → List (yaml_subtree × yaml_subtree)
  | [] => []
  | (k, v) :: ps => (k.redump, v.redump) :: yaml_subtree.redump_pairs ps

end

mutual

/-- The subtrees whose loaded node the dumper takes: every scalar event
carries a value and no alias event carries an empty anchor. -/
def yaml_subtree.dumpable : yaml_subtree → Bool
  | .scalar _ _ v _ _ _ _ => v.isSome
  | .alias a => a.length != 0
  | .sequence _ _ _ _ items => yaml_subtree.dumpable_items items
  | .mapping _ _ _ _ pairs => yaml_subtree.dumpable_pairs pairs

def yaml_subtree.dumpable_items : List yaml_subtree → Bool
  | [] => true
  | t :: ts => t.dumpable && yaml_subtree.dumpable_items ts

def yaml_subtree.dumpable_pairs : List (yaml_subtree × yaml_subtree) → Bool
  | [] => true
  | (k, v) :: ps => k.dumpable && v.dumpable && yaml_subtree.dumpable_pairs ps

end

/-- The document of events the dumper emits for the record the loader builds
from the document `d` (see `ymx_dump_document_loaded`). -/
def yaml_document.redump (d : yaml_document) : yaml_document :=
  { version_directive := d.version_directive,
    tag_directives := d.tag_directives.map
      (fun td => { handle := c_str_of_buffer td.handle, pfx := c_str_of_buffer td.pfx }),
    start_implicit := if d.start_implicit ≠ 0 then 1 else 0,
    root := d.root.redump,
    end_implicit := if d.end_implicit ≠ 0 then 1 else 0 }

/-- The documents whose loaded record the dumper takes: a dumpable root, and
no empty handle or prefix among the tag directives. -/
def yaml_document.dumpable (d : yaml_document) : Bool :=
  d.root.dumpable
    && d.tag_directives.all (fun td => td.handle.length != 0 && td.pfx.length != 0)

/-- The tag of an event, as the event source yields it: null, or a C string
(no zero byte) that is not empty. -/
def yaml_tag_ok : Option c_string → Bool
  | none => true
  | some s => host_string_ok s

/-- The anchor of a scalar, sequence start or mapping start event: null, or a
C string (no zero byte). -/
def yaml_anchor_ok : Option c_string → Bool
  | none => true
  | some s => !s.contains 0

mutual

/-- The subtrees of events as the event source yields them: a scalar event
carries a value; anchors are null or C strings; tags are null or non-empty C
strings; the anchor of an alias event is a non-empty C string. -/
def yaml_subtree.well_formed : yaml_subtree → Bool
  | .scalar a t v _ _ _ _ => v.isSome && yaml_anchor_ok a && yaml_tag_ok t
  | .alias a => host_string_ok a
  | .sequence a t _ _ items =>
    yaml_anchor_ok a && yaml_tag_ok t && yaml_subtree.well_formed_items items
  | .mapping a t _ _ pairs =>
    yaml_anchor_ok a && yaml_tag_ok t && yaml_subtree.well_formed_pairs pairs

def yaml_subtree.well_formed_items : List yaml_subtree → Bool
  | [] => true
  | t :: ts => t.well_formed && yaml_subtree.well_formed_items ts

def yaml_subtree.well_formed_pairs : List (yaml_subtree × yaml_subtree) → Bool
  | [] => true
  | (k, v) :: ps => k.well_formed && v.well_formed && yaml_subtree.well_formed_pairs ps

end

/-- The documents of events as the event source yields them: a well-formed
root, and tag directives whose handles and prefixes are non-empty C strings. -/
def yaml_document.well_formed (d : yaml_document) : Bool :=
  d.root.well_formed
    && d.tag_directives.all (fun td => host_string_ok td.handle && host_string_ok td.pfx)

/-- The array the loader returns for a non-empty list of documents. -/
def yaml_document.loaded_array (ds : List yaml_document) : mxArray :=
  .struct [1, ds.length] YMX_DOC_FIELD_STRS (ds.map (fun d => d.loaded.fields))

/-- The documents of the text "a\n---\nb\n" as events: two documents, each with
a plain scalar as root, the second one with an explicit document start. -/
def ymx_example_two_documents : List yaml_document :=
  [{ version_directive := none, tag_directives := [], start_implicit := 1,
     root := .scalar none none (some [97]) 1 1 0 1, end_implicit := 1 },
   { version_directive := none, tag_directives := [], start_implicit := 0,
     root := .scalar none none (some [98]) 1 1 0 1, end_implicit := 1 }]

/-- A row string, in the words of the specification: a char array with two
dimensions, one row and at least one column. -/
def ymx_is_row_string (m : mxArray) : Bool :=
  mxIsChar m && mxGetNumberOfDimensions m == 2 && mxGetM m == 1 && decide (1 ≤ mxGetN m)

/-- A document array with one document that has no root, the 2-by-2 char
array "abcd" as version and the int32 scalar 0 as tag directives. -/
def ymx_example_rootless_document : mxArray :=
  .struct [1, 1] YMX_DOC_FIELD_STRS
    [[none, some (.char [2, 2] [97, 98, 99, 100]), some (ymx_create_int_scalar 0),
      some (mxCreateLogicalScalar 1), some (mxCreateLogicalScalar 1)]]

/-- A node array with one scalar node that has no value and the int32 scalar 7
where its tag is expected. -/
def ymx_example_bad_tag_scalar : mxArray :=
  .struct [1, 1] YMX_NODE_FIELD_STRS
    [[some (ymx_create_int_scalar YMX_NODE_TYPE_SCALAR), none,
      some (ymx_create_int_scalar 7), none,
      some (ymx_create_int_scalar 0), some (ymx_create_int_scalar 0)]]

/-- A node array with one node that has no type and the int32 scalar 7 where
its tag is expected. -/
def ymx_example_bad_tag_untyped : mxArray :=
  .struct [1, 1] YMX_NODE_FIELD_STRS
    [[none, none, some (ymx_create_int_scalar 7), none,
      some (ymx_create_int_scalar 0), some (ymx_create_int_scalar 0)]]

/-- A node array with one alias node that has no anchor. -/
def ymx_example_alias_no_anchor : mxArray :=
  .struct [1, 1] YMX_NODE_FIELD_STRS
    [[some (ymx_create_int_scalar YMX_NODE_TYPE_ALIAS), none, none, none,
      some (ymx_create_int_scalar 0), some (ymx_create_int_scalar 0)]]

/-- A node array with one alias node whose anchor is the empty string. -/
def ymx_example_alias_empty_anchor : mxArray :=
  .struct [1, 1] YMX_NODE_FIELD_STRS
    [[some (ymx_create_int_scalar YMX_NODE_TYPE_ALIAS), none, none,
      some (mxCreateString []),
      some (ymx_create_int_scalar 0), some (ymx_create_int_scalar 0)]]

/-- A document array with one document whose root is the alias node without
anchor. -/
def ymx_example_alias_document : mxArray :=
  .struct [1, 1] YMX_DOC_FIELD_STRS
    [[some ymx_example_alias_no_anchor, none, none,
      some (mxCreateLogicalScalar 1), some (mxCreateLogicalScalar 1)]]

/-- A node array with one sequence node whose only child has no type. -/
def ymx_example_untyped_child : mxArray :=
  .struct [1, 1] YMX_NODE_FIELD_STRS
    [[some (ymx_create_int_scalar YMX_NODE_TYPE_SEQUENCE),
      some (.struct [1, 1] YMX_NODE_FIELD_STRS
        [[none, none, none, none,
          some (ymx_create_int_scalar 0), some (ymx_create_int_scalar 0)]]),
      none, none, some (ymx_create_int_scalar 0), some (ymx_create_int_scalar 0)]]

/-- An emitter that takes no alias event without an anchor (libyaml asserts
the anchor of an alias event), takes every other event and hands no byte to the
write handler. -/
def ymx_example_anchor_checking_emitter : yaml_emitter_t :=
  { accept := fun _ event => decide (event ≠ yaml_event_t.alias none),
    output := fun _ _ => [] }
mutual

/-- The subtrees in which every scalar event carries a value. -/
def yaml_subtree.valued : yaml_subtree → Bool
  | .scalar _ _ v _ _ _ _ => v.isSome
  | .alias _ => true
  | .sequence _ _ _ _ items => yaml_subtree.valued_items items
  | .mapping _ _ _ _ pairs => yaml_subtree.valued_pairs pairs

def yaml_subtree.valued_items : List yaml_subtree → Bool
  | [] => true
  | t :: ts => t.valued && yaml_subtree.valued_items ts

def yaml_subtree.valued_pairs : List (yaml_subtree × yaml_subtree) → Bool
  | [] => true
  | (k, v) :: ps => k.valued && v.valued && yaml_subtree.valued_pairs ps

end

mutual

/-- The events the dumper hands to the emitter for the node the loader builds
from the subtree `t` (see `ymx_dump_node_loaded_valued`): the tags defaulted by
the loader, the implicit flags of a scalar collapsed, the value read as a C
string, null strings for empty tags and anchors, the anchor of an alias
included. -/
def yaml_subtree.reemitted : yaml_subtree → List yaml_event_t
  | .scalar a t v l p q s =>
    [.scalar (a.bind ymx_assembled)
      (ymx_assembled (t.getD (if s = YAML_PLAIN_SCALAR_STYLE then [63] else [33])))
      (some (c_str_of_buffer ((v.getD []).take l ++ [0])))
      (c_str_of_buffer ((v.getD []).take l ++ [0])).length
      (if p ≠ 0 then 1 else 0)
      (if p ≠ 0 then 0 else if q ≠ 0 then 1 else 0) s]
  | .alias a => [.alias (ymx_assembled a)]
  | .sequence a t i s items =>
    .sequence_start (a.bind ymx_assembled) (ymx_assembled (t.getD [63])) i s
      :: (yaml_subtree.reemitted_items items ++ [.sequence_end])
  | .mapping a t i s pairs =>
    .mapping_start (a.bind ymx_assembled) (ymx_assembled (t.getD [63])) i s
      :: (yaml_subtree.reemitted_pairs pairs ++ [.mapping_end])

def yaml_subtree.reemitted_items : List yaml_subtree → List yaml_event_t
  | [] => []
  | t :: ts => t.reemitted ++ yaml_subtree.reemitted_items ts

def yaml_subtree.reemitted_pairs : List (yaml_subtree × yaml_subtree) → List yaml_event_t
  | [] => []
  | (k, v) :: ps => k.reemitted ++ (v.reemitted ++ yaml_subtree.reemitted_pairs ps)

end

/-- The events the dumper hands to the emitter for the record the loader
builds from the document `d` (see `ymx_dump_document_loaded_valued`). -/
def yaml_document.reemitted (d : yaml_document) : List yaml_event_t :=
  .document_start d.version_directive
      (d.tag_directives.map
        (fun td => { handle := c_str_of_buffer td.handle, pfx := c_str_of_buffer td.pfx }))
      (if d.start_implicit ≠ 0 then 1 else 0)
    :: (d.root.reemitted ++ [.document_end (if d.end_implicit ≠ 0 then 1 else 0)])

/-- The documents of the claim: every scalar event carries a value, and no
tag directive has an empty handle or prefix. -/
def yaml_document.valued (d : yaml_document) : Bool :=
  d.root.valued
    && d.tag_directives.all (fun td => td.handle.length != 0 && td.pfx.length != 0)

/-- The events the dumper hands to the emitter for the array the loader builds
from the documents `ds`. -/
def yaml_stream_reemitted (ds : List yaml_document) : List yaml_event_t :=
  .stream_start :: ((ds.map yaml_document.reemitted).flatten ++ [.stream_end])

/-- A document of events whose root is a scalar event without a value (a null
value pointer). -/
def ymx_example_null_value_events : yaml_document :=
  { version_directive := none, tag_directives := [], start_implicit := 1,
    root := .scalar none none none 0 1 0 1, end_implicit := 1 }

/-! ## The clean-up of `ymx_error` -/

/-- Whether the record of an event holds heap memory after its initialiser ran:
the copy of a version directive or of tag directives, of an anchor, of a tag or
of a value.  This is the memory `yaml_event_delete` frees. -/
def yaml_event_t.holds_memory : yaml_event_t → Bool
  | .document_start version_directive tag_directives _ =>
    version_directive.isSome || !tag_directives.isEmpty
  | .alias anchor => anchor.isSome
  | .scalar anchor tag value _ _ _ _ => anchor.isSome || tag.isSome || value.isSome
  | .sequence_start anchor tag _ _ => anchor.isSome || tag.isSome
  | .mapping_start anchor tag _ _ => anchor.isSome || tag.isSome
  | _ => false

/-- What a call of `ymx_error` ends in: the error `mexErrMsgTxt` raises with the
message, or memory freed a second time by the clean-up that precedes it, after
which nothing is known of the run. -/
inductive ymx_abort_t where
  | message (msg : String)
  | double_free
  deriving Repr, DecidableEq

/-- The static `persistent_event` while a dump runs is the record of the event
last initialised, and every event is handed to the emitter right after its
initialiser: at a check that fails in the state `st` it is the last event the
emitter took (none before the stream start). -/
def ymx_dump_state.persistent_event (st : ymx_dump_state) : Option yaml_event_t :=
  st.emitted.getLast?

/-- `ymx_persistent_cleanup` on the dumping side: `yaml_emitter_delete`, then
`yaml_event_delete(&persistent_event)`.  The emitter owns the memory of an
event from the hand-over on, and the record in `persistent_event` still points
to it: the clean-up frees that memory a second time, unless the event holds
none.  The result tells whether the clean-up went through. -/
def ymx_persistent_cleanup (persistent_event : Option yaml_event_t) : Bool :=
  match persistent_event with
  | some event => !event.holds_memory
  | none => true

/-- `ymx_error(message)`: `ymx_persistent_cleanup()`, then `mexErrMsgTxt(message)`.
A result `.error message st` of a dumping function is this call made in the
state `st`; with `st.persistent_event` it gives what the call ends in when a
check of the dumper made it.  (When `ymx_emit` made it, `persistent_event` is
the event the emitter refused, which `st` does not hold.) -/
def ymx_error (persistent_event : Option yaml_event_t) (message : String) : ymx_abort_t :=
  if ymx_persistent_cleanup persistent_event then .message message else .double_free

/-- A node array with one mapping node that has neither a tag nor an anchor
(implicit 1, block style) and whose value is a 1-by-1 node array: one scalar
node "a" where key/value pairs are expected. -/
def ymx_example_untagged_odd_mapping : mxArray :=
  .struct [1, 1] YMX_NODE_FIELD_STRS
    [[some (ymx_create_int_scalar YMX_NODE_TYPE_MAPPING),
      some (.struct [1, 1] YMX_NODE_FIELD_STRS
        [[some (ymx_create_int_scalar YMX_NODE_TYPE_SCALAR),
          some (mxCreateString [97]),
          some (mxCreateString [63]),
          none,
          some (ymx_create_int_scalar 1),
          some (ymx_create_int_scalar 1)]]),
      none,
      none,
      some (ymx_create_int_scalar 1),
      some (ymx_create_int_scalar 1)]]

/-- A document array with one document, without version and tag directives,
whose root is the mapping node of `ymx_example_untagged_odd_mapping`. -/
def ymx_example_untagged_odd_document : mxArray :=
  .struct [1, 1] YMX_DOC_FIELD_STRS
    [[some ymx_example_untagged_odd_mapping, none, none,
      some (.logical [1, 1] [true]), some (.logical [1, 1] [true])]]

/-- A document array with one document, without version and tag directives,
whose root is the mapping node of `ymx_example_odd_mapping`: tag "?", and a
1-by-1 node array as value. -/
def ymx_example_odd_mapping_document : mxArray :=
  .struct [1, 1] YMX_DOC_FIELD_STRS
    [[some ymx_example_odd_mapping, none, none,
      some (.logical [1, 1] [true]), some (.logical [1, 1] [true])]]

/-- A document array with two documents: the first has the plain scalar "a" as
root, the root of the second is the mapping node of `ymx_example_odd_mapping`
(tag "?", a 1-by-1 node array as value). -/
def ymx_example_second_document_faulty : mxArray :=
  .struct [1, 2] YMX_DOC_FIELD_STRS
    [[some (.struct [1, 1] YMX_NODE_FIELD_STRS
        [[some (ymx_create_int_scalar YMX_NODE_TYPE_SCALAR), some (mxCreateString [97]),
          some (mxCreateString [63]), none,
          some (ymx_create_int_scalar 1), some (ymx_create_int_scalar 1)]]),
      none, none, some (.logical [1, 1] [true]), some (.logical [1, 1] [true])],
     [some ymx_example_odd_mapping, none, none,
      some (.logical [1, 1] [false]), some (.logical [1, 1] [true])]]

/-- A document array with one document whose root is a sequence, with neither
tag nor anchor, of two nodes that are both invalid: a mapping with neither tag
nor anchor whose value holds one element (no 2-row array), and a node without a
type. -/
def ymx_example_two_invalid_nodes : mxArray :=
  .struct [1, 1] YMX_DOC_FIELD_STRS
    [[some (.struct [1, 1] YMX_NODE_FIELD_STRS
        [[some (ymx_create_int_scalar YMX_NODE_TYPE_SEQUENCE),
          some (.struct [1, 2] YMX_NODE_FIELD_STRS
            [[some (ymx_create_int_scalar YMX_NODE_TYPE_MAPPING),
              some (.struct [1, 1] YMX_NODE_FIELD_STRS
                [[some (ymx_create_int_scalar YMX_NODE_TYPE_SCALAR),
                  some (mxCreateString [98]), some (mxCreateString [63]), none,
                  some (ymx_create_int_scalar 1), some (ymx_create_int_scalar 1)]]),
              none, none,
              some (ymx_create_int_scalar 1), some (ymx_create_int_scalar 1)],
             [none, none, none, none, none, none]]),
          none, none,
          some (ymx_create_int_scalar 1), some (ymx_create_int_scalar 1)]]),
      none, none, some (.logical [1, 1] [true]), some (.logical [1, 1] [true])]]

/-- The events a node starts with: the cases of the switch of
`ymx_load_node`. -/
def yaml_event_t.starts_node : yaml_event_t → Bool
  | .alias _ => true
  | .scalar _ _ _ _ _ _ _ => true
  | .sequence_start _ _ _ _ => true
  | .mapping_start _ _ _ _ => true
  | _ => false

/-- The record `ymx_load_document` builds when the event at the place of the
root starts no node: the members of the document start and document end events
as in `yaml_document.loaded`, and a root node with no member set. -/
def ymx_unset_root_document (version_directive : Option yaml_version_directive_t)
    (tag_directives : List yaml_tag_directive_t) (start_implicit end_implicit : Int) :
    ymx_document_t :=
  { root := some (.struct [1, 1] YMX_NODE_FIELD_STRS [[none, none, none, none, none, none]]),
    tagdirs := if tag_directives.length ≠ 0 then
        some (.struct [1, tag_directives.length] YMX_TAGDIR_FIELD_STRS
          (ymx_tagdirs_elems tag_directives))
      else none,
    version := match version_directive with
      | some v => some (.int32 [1, 2] [v.major, v.minor])
      | none => none,
    start_implicit := some (mxCreateLogicalScalar start_implicit),
    end_implicit := some (mxCreateLogicalScalar end_implicit) }

/-- An emitter that takes every event and hands one block of 1500 bytes to the
write handler at each document end. -/
def ymx_example_flushing_emitter : yaml_emitter_t :=
  { accept := fun _ _ => true,
    output := fun _ event =>
      match event with
      | .document_end _ => [List.replicate 1500 97]
      | _ => [] }

/-! ## The walk in document order

The depth-first, pre-order walk of claim C18, written down on the document
array alone as the list of its steps.  It is a second description of what the
dumper does, to be compared with `ymx_dump_stream` (`ymx_dump_stream_walk`); the
checks it names are those of the source. -/

/-- A step of the depth-first, pre-order walk over a document sequence: an
event of a document or of a node, a warning, or a fault (an invalid part) with
the message of its check. -/
inductive ymx_walk_step where
  | event (event : yaml_event_t)
  | warning (message : String)
  | fault (message : String)
  deriving Repr, DecidableEq

/-- The events among the steps, in order. -/
def ymx_walk_events : List ymx_walk_step → List yaml_event_t
  | [] => []
  | .event event :: rest => event :: ymx_walk_events rest
  | _ :: rest => ymx_walk_events rest

/-- The warnings among the steps, in order. -/
def ymx_walk_warnings : List ymx_walk_step → List String
  | [] => []
  | .warning message :: rest => message :: ymx_walk_warnings rest
  | _ :: rest => ymx_walk_warnings rest

/-- The steps of the elements `ind`, `ind + 1`, ... (`count` of them), one
element after the other. -/
def ymx_walk_for (body : Nat → List ymx_walk_step) : Nat → Nat → List ymx_walk_step
  | _, 0 => []
  | ind, count + 1 => body ind ++ ymx_walk_for body (ind + 1) count

/-- The steps of a scalar node: a fault for a value that is absent or no
string, else its Scalar event. -/
def ymx_walk_scalar (value_arr : Option mxArray) (tag anchor : Option c_string)
    (implicit style : Int) : List ymx_walk_step :=
  match value_arr with
  | none => [.fault "Invalid scalar value"]
  | some value =>
    if !ymx_is_valid_string value then [.fault "Invalid scalar value"]
    else
      [.event (.scalar anchor tag (some ((mxArrayToString value).getD []))
        ((mxArrayToString value).getD []).length
        (if implicit = YMX_SCALAR_IMPLICIT_PLAIN then 1 else 0)
        (if implicit = YMX_SCALAR_IMPLICIT_QUOTED then 1 else 0) style)]

mutual

/-- The walk of the subtree of the node `ind` of a node array, in pre-order:
the node itself first (its tag, its anchor, the warnings for its implicit value
and style, its type), then, for a sequence or a mapping, the elements of its
value in storage order.  An invalid part is a fault step, and the walk goes on
behind it with what follows the node.  The fuel bounds the nesting depth
visited. -/
def ymx_walk_node : Nat → mxArray → Nat → List ymx_walk_step
  | 0, _, _ => []
  | fuel + 1, node, ind =>
    match ymx_assemble_string (mxGetFieldByNumber node ind YMX_NODE_FIELD_TAG) with
    | none => [.fault "Invalid tag"]
    | some tag =>
      match ymx_assemble_string (mxGetFieldByNumber node ind YMX_NODE_FIELD_ANCHOR) with
      | none => [.fault "Invalid anchor"]
      | some anchor =>
        let implicit := ymx_int_or_zero (mxGetFieldByNumber node ind YMX_NODE_FIELD_IMPLICIT)
        let style := ymx_int_or_zero (mxGetFieldByNumber node ind YMX_NODE_FIELD_STYLE)
        let value := mxGetFieldByNumber node ind YMX_NODE_FIELD_VALUE
        (ymx_int_warning (mxGetFieldByNumber node ind YMX_NODE_FIELD_IMPLICIT)
            "Invalid node implicit specifier"
          ++ ymx_int_warning (mxGetFieldByNumber node ind YMX_NODE_FIELD_STYLE)
            "Invalid node style").map .warning
        ++ (match mxGetFieldByNumber node ind YMX_NODE_FIELD_TYPE with
            | none => [.fault "Invalid node type"]
            | some type =>
              if !ymx_is_valid_int_scalar type then [.fault "Invalid node type"]
              else if ymx_get_int_scalar type = YMX_NODE_TYPE_SCALAR then
                ymx_walk_scalar value tag anchor implicit style
              else if ymx_get_int_scalar type = YMX_NODE_TYPE_SEQUENCE then
                ymx_walk_collection fuel (.sequence_start anchor tag implicit style)
                  .sequence_end 1 "Invalid sequence node array" value
              else if ymx_get_int_scalar type = YMX_NODE_TYPE_MAPPING then
                ymx_walk_collection fuel (.mapping_start anchor tag implicit style)
                  .mapping_end 2 "Invalid mapping node array" value
              else if ymx_get_int_scalar type = YMX_NODE_TYPE_ALIAS then
                [.event (.alias anchor)]
              else [.fault "Invalid node type value"])

/-- The walk of a sequence or mapping node after its own checks: its start
event, then a fault when its value is not empty and is no node array with
`rows` rows, else the walks of the elements of the value in storage order, then
its end event. -/
def ymx_walk_collection : Nat → yaml_event_t → yaml_event_t → Nat → String →
    Option mxArray → List ymx_walk_step
  | 0, _, _, _, _, _ => []
  | fuel + 1, start_event, end_event, rows, message, value_arr =>
    .event start_event
      :: ((match value_arr with
          | some value =>
            if !mxIsEmpty value then
              if !ymx_is_valid_node_array value
                  || mxGetNumberOfDimensions value != 2
                  || mxGetM value != rows then
                [.fault message]
              else
                ymx_walk_for (fun ind => ymx_walk_node fuel value ind)
                  0 (mxGetNumberOfElements value)
            else []
          | none => [])
        ++ [.event end_event])

end

/-- The walk of the document `ind` of a document array: its root, its tag
directives and its version (a fault for an invalid one), the warnings for its
two implicit flags, its DocumentStart event, the walk of its root node and its
DocumentEnd event. -/
def ymx_walk_document (fuel : Nat) (docs_array : mxArray) (ind : Nat) : List ymx_walk_step :=
  match mxGetFieldByNumber docs_array ind YMX_DOC_FIELD_ROOT with
  | none => [.fault "Invalid document root"]
  | some root_arr =>
    if !ymx_is_valid_doc_root (some root_arr) then [.fault "Invalid document root"]
    else
      match ymx_assemble_tagdirs (mxGetFieldByNumber docs_array ind YMX_DOC_FIELD_TAGDIRS) with
      | none => [.fault "Invalid document tag directives"]
      | some tag_directives =>
        match ymx_assemble_version
            (mxGetFieldByNumber docs_array ind YMX_DOC_FIELD_VERSION) with
        | none => [.fault "Invalid document version"]
        | some version_directive =>
          (ymx_logical_warning
              (mxGetFieldByNumber docs_array ind YMX_DOC_FIELD_START_IMPLICIT)
              "Invalid document start implicit specifier"
            ++ ymx_logical_warning
              (mxGetFieldByNumber docs_array ind YMX_DOC_FIELD_END_IMPLICIT)
              "Invalid document end implicit specifier").map .warning
          ++ .event (.document_start version_directive tag_directives
              (ymx_logical_or_zero
                (mxGetFieldByNumber docs_array ind YMX_DOC_FIELD_START_IMPLICIT)))
            :: (ymx_walk_node fuel root_arr 0
              ++ [.event (.document_end (ymx_logical_or_zero
                (mxGetFieldByNumber docs_array ind YMX_DOC_FIELD_END_IMPLICIT)))])

/-- The walk of a document sequence in document order: StreamStart, the walks
of the documents in array order, StreamEnd; one fault for an array that is no
document array. -/
def ymx_walk_stream (docs_array : mxArray) : List ymx_walk_step :=
  if !ymx_is_valid_doc_array docs_array then [.fault "Invalid document array"]
  else
    .event .stream_start
      :: (ymx_walk_for
          (fun ind => ymx_walk_document (2 * docs_array.depth + 2) docs_array ind)
          0 (mxGetNumberOfElements docs_array)
        ++ [.event .stream_end])

/-- The steps carried out one after the other with the emitter: an event is
handed to the emitter, a warning is raised, and the first fault ends the run
with its message. -/
def ymx_run_walk (emitter : yaml_emitter_t) :
    ymx_dump_state → List ymx_walk_step → ymx_dump_result Unit
  | st, [] => .ok () st
  | st, .event event :: rest =>
    (match ymx_emit emitter st event with
     | .ok _ st => ymx_run_walk emitter st rest
     | r => r)
  | st, .warning message :: rest => ymx_run_walk emitter (st.warn [message]) rest
  | st, .fault message :: _ => .error message st

/-! # Theorems -/

/-! ## The clean-up of `ymx_error` -/

/-- When the clean-up frees nothing twice, `ymx_error` raises its message. -/
theorem ymx_error_of_cleanup (persistent_event : Option yaml_event_t) (message : String)
    (h : ymx_persistent_cleanup persistent_event = true) :
    ymx_error persistent_event message = .message message := by
  simp only [ymx_error, h, if_true]

/-- When the event emitted last holds memory, the clean-up of `ymx_error` frees
it a second time. -/
theorem ymx_error_double_free (st : ymx_dump_state) (pre : List yaml_event_t)
    (event : yaml_event_t) (message : String) (hst : st.emitted = pre ++ [event])
    (h : event.holds_memory = true) :
    ymx_error st.persistent_event message = .double_free := by
  simp [ymx_error, ymx_persistent_cleanup, ymx_dump_state.persistent_event, hst, h]

/-- An event without anchor, tag, value and directives holds no memory, so the
clean-up after it frees nothing twice. -/
theorem ymx_persistent_cleanup_after (st : ymx_dump_state) (pre : List yaml_event_t)
    (event : yaml_event_t) (hst : st.emitted = pre ++ [event])
    (h : event.holds_memory = false) :
    ymx_persistent_cleanup st.persistent_event = true := by
  simp [ymx_persistent_cleanup, ymx_dump_state.persistent_event, hst, h]

/-! ## Scalar and alias events -/

/-- What `ymx_load_node` does on a scalar event: it never fails, pulls no
event, and sets the six members as listed. -/
theorem ymx_load_node_scalar (fuel : Nat) (node : ymx_node_t) (parser : yaml_parser_t)
    (anchor tag : Option c_string) (value : Option (List Nat)) (length : Nat)
    (plain_implicit quoted_implicit style : Int) :
    ymx_load_node (fuel + 1) node parser
        (.scalar anchor tag value length plain_implicit quoted_implicit style)
      = .ok ({ type := some (ymx_create_int_scalar YMX_NODE_TYPE_SCALAR),
               value := match value with
                 | some v => some (mxCreateString (c_str_of_buffer (v.take length ++ [0])))
                 | none => node.value,
               tag := match tag with
                 | some t => some (mxCreateString t)
                 | none => if style = YAML_PLAIN_SCALAR_STYLE then some (mxCreateString [63])
                           else some (mxCreateString [33]),
               anchor := match anchor with
                 | some a => some (mxCreateString a)
                 | none => node.anchor,
               implicit := if plain_implicit ≠ 0 then
                   some (ymx_create_int_scalar YMX_SCALAR_IMPLICIT_PLAIN)
                 else if quoted_implicit ≠ 0 then
                   some (ymx_create_int_scalar YMX_SCALAR_IMPLICIT_QUOTED)
                 else some (ymx_create_int_scalar YMX_SCALAR_IMPLICIT_FALSE),
               style := some (ymx_create_int_scalar style) }, parser) := by
  simp only [ymx_load_node, ymx_load_scalar]
  cases tag <;> cases anchor <;> cases value <;>
    by_cases h1 : plain_implicit = 0 <;> by_cases h2 : quoted_implicit = 0 <;>
    by_cases h3 : style = YAML_PLAIN_SCALAR_STYLE <;> simp [h1, h2, h3]

theorem list_getD_append_cons {α : Type} (pre : List α) (x : α) (post : List α) (d : α) :
    (pre ++ x :: post).getD pre.length d = x := by
  induction pre with
  | nil => rfl
  | cons a pre ih => simpa using ih

theorem list_set_append_cons {α : Type} (pre : List α) (x y : α) (post : List α) :
    (pre ++ x :: post).set pre.length y = pre ++ y :: post := by
  induction pre with
  | nil => rfl
  | cons a pre ih => simp

theorem mxSetFieldByNumber_struct (d : List Nat) (names : List String)
    (pre post : List (List (Option mxArray))) (x : List (Option mxArray)) (k : Nat)
    (v : Option mxArray) :
    mxSetFieldByNumber (.struct d names (pre ++ x :: post)) pre.length k v
      = .struct d names (pre ++ x.set k v :: post) := by
  simp only [mxSetFieldByNumber, list_getD_append_cons, list_set_append_cons]

/-- Writing a node into an element of a node array whose six fields exist. -/
theorem ymx_set_node_fields_struct (d : List Nat) (names : List String)
    (pre post : List (List (Option mxArray))) (node : ymx_node_t)
    (f0 f1 f2 f3 f4 f5 : Option mxArray) :
    ymx_set_node_fields (.struct d names (pre ++ [f0, f1, f2, f3, f4, f5] :: post))
        pre.length node
      = .struct d names (pre ++ node.fields :: post) := by
  simp only [ymx_set_node_fields, mxSetFieldByNumber_struct]
  rfl

/-- The blank element of a fresh node array. -/
theorem replicate_node_fields_blank :
    List.replicate YMX_NODE_FIELD_STRS.length (none : Option mxArray)
      = [none, none, none, none, none, none] := rfl

/-- The filling loop of `ymx_load_sequence`: the blank elements from position
`done.length` on receive the fields of the items at the same positions. -/
theorem ymx_set_items_struct (d : List Nat) (names : List String)
    (todo : List ymx_node_t) :
    ∀ (pre : List (List (Option mxArray))) (done junk : List ymx_node_t),
      pre.length = done.length →
      ymx_set_items
          (.struct d names (pre ++ List.replicate todo.length [none, none, none, none, none, none]))
          (done ++ todo ++ junk) done.length todo.length
        = .struct d names (pre ++ todo.map ymx_node_t.fields) := by
  induction todo with
  | nil => intro pre done junk _; simp [ymx_set_items]
  | cons t ts ih =>
    intro pre done junk hlen
    have hget : (done ++ (t :: ts) ++ junk).getD done.length {} = t := by
      rw [List.append_assoc, List.cons_append]
      exact list_getD_append_cons done t (ts ++ junk) {}
    simp only [List.length_cons, ymx_set_items, List.replicate_succ, hget]
    rw [← hlen, ymx_set_node_fields_struct]
    have h2 := ih (pre ++ [t.fields]) (done ++ [t]) junk (by simp [hlen])
    rw [hlen]
    simpa using h2

/-- The filling loop of `ymx_load_mapping`: element `2*i` receives the fields of
key `i`, element `2*i+1` those of value `i`. -/
theorem ymx_set_pairs_struct (d : List Nat) (names : List String)
    (todo : List (ymx_node_t × ymx_node_t)) :
    ∀ (pre : List (List (Option mxArray))) (donek donev junkk junkv : List ymx_node_t),
      donek.length = donev.length → pre.length = 2 * donek.length →
      ymx_set_pairs
          (.struct d names
            (pre ++ List.replicate (2 * todo.length) [none, none, none, none, none, none]))
          (donek ++ todo.map Prod.fst ++ junkk) (donev ++ todo.map Prod.snd ++ junkv)
          donek.length todo.length
        = .struct d names
            (pre ++ (todo.map (fun kv => [kv.1.fields, kv.2.fields])).flatten) := by
  induction todo with
  | nil => intro pre donek donev junkk junkv _ _; simp [ymx_set_pairs]
  | cons t ts ih =>
    intro pre donek donev junkk junkv hkv hlen
    have hgetk : (donek ++ (t :: ts).map Prod.fst ++ junkk).getD donek.length {} = t.1 := by
      rw [List.map_cons, List.append_assoc, List.cons_append]
      exact list_getD_append_cons donek t.1 _ {}
    have hgetv : (donev ++ (t :: ts).map Prod.snd ++ junkv).getD donek.length {} = t.2 := by
      rw [List.map_cons, List.append_assoc, List.cons_append, hkv]
      exact list_getD_append_cons donev t.2 _ {}
    have hrep : List.replicate (2 * (t :: ts).length) [none, none, none, none, none, (none : Option mxArray)]
        = [none, none, none, none, none, none] :: [none, none, none, none, none, none]
          :: List.replicate (2 * ts.length) [none, none, none, none, none, none] := by
      rw [List.length_cons, Nat.mul_succ]; rfl
    simp only [List.length_cons, ymx_set_pairs, hgetk, hgetv]
    rw [← List.length_cons, hrep, ← hlen, ymx_set_node_fields_struct]
    have hl1 : pre.length + 1 = (pre ++ [t.1.fields]).length := by simp
    rw [show pre ++ t.1.fields :: [none, none, none, none, none, none] ::
          List.replicate (2 * ts.length) [none, none, none, none, none, none]
        = (pre ++ [t.1.fields]) ++ [none, none, none, none, none, none] ::
          List.replicate (2 * ts.length) [none, none, none, none, none, none] by simp,
      hl1, ymx_set_node_fields_struct]
    have h2 := ih (pre ++ [t.1.fields] ++ [t.2.fields]) (donek ++ [t.1]) (donev ++ [t.2])
      junkk junkv (by simp [hkv]) (by simp [hlen]; omega)
    simpa using h2

theorem yaml_subtree.first_ne_sequence_end (t : yaml_subtree) : t.first ≠ .sequence_end := by
  cases t <;> simp [yaml_subtree.first]

theorem yaml_subtree.first_ne_mapping_end (t : yaml_subtree) : t.first ≠ .mapping_end := by
  cases t <;> simp [yaml_subtree.first]

theorem yaml_subtree.events_length_pos (t : yaml_subtree) : 1 ≤ t.events.length := by
  simp [yaml_subtree.events]

/-- One turn of the loop of `ymx_load_sequence` on an event that is no
sequence end. -/
theorem ymx_load_sequence_loop_step (fuel : Nat) (acc : ymx_items_t) (parser : yaml_parser_t)
    (event : yaml_event_t) (h : event ≠ .sequence_end) :
    ymx_load_sequence_loop (fuel + 1) acc parser event =
      (match ymx_load_node fuel
          ((if acc.num_items = acc.items_buffer_size then
              { acc with
                items_buffer_size := acc.items_buffer_size + NODES_BUFFER_CHUNK_SIZE,
                items := acc.items ++ List.replicate NODES_BUFFER_CHUNK_SIZE {} }
            else acc).items.getD acc.num_items {}) parser event with
        | .error msg => .error msg
        | .diverge => .diverge
        | .ok (item, parser) =>
          match ymx_parse parser with
          | .error msg => .error msg
          | .diverge => .diverge
          | .ok (event, parser) =>
            ymx_load_sequence_loop fuel
              { items := (if acc.num_items = acc.items_buffer_size then
                    acc.items ++ List.replicate NODES_BUFFER_CHUNK_SIZE {}
                  else acc.items).set acc.num_items item,
                items_buffer_size := if acc.num_items = acc.items_buffer_size then
                    acc.items_buffer_size + NODES_BUFFER_CHUNK_SIZE
                  else acc.items_buffer_size,
                num_items := acc.num_items + 1 } parser event) := by
  cases event <;> first
    | exact absurd rfl h
    | (simp only [ymx_load_sequence_loop]; split_ifs <;> rfl)

theorem ymx_parse_cons (ev : yaml_event_t) (tl : List yaml_event_t) (rest : yaml_parser_t) :
    ymx_parse ((ev :: tl).map some ++ rest) = .ok (ev, tl.map some ++ rest) := rfl

theorem list_replicate_pos_eq {α : Type} (k : Nat) (x : α) (h : 0 < k) :
    List.replicate k x = x :: List.replicate (k - 1) x := by
  cases k with
  | zero => omega
  | succ k => rfl

/-- The accumulation loop of `ymx_load_sequence` on the events of the
children `cs` followed by the sequence end: it stores the node of every child,
in order, after the `nodes` it holds already, whatever the buffer size. -/
theorem ymx_load_sequence_loop_items (cs : List yaml_subtree)
    (ih : ∀ c ∈ cs, ∀ (fuel : Nat) (rest : yaml_parser_t), 2 * c.events.length ≤ fuel →
      ymx_load_node fuel {} (c.rest.map some ++ rest) c.first = .ok (c.loaded, rest)) :
    ∀ (nodes : List ymx_node_t) (size fuel : Nat) (rest : yaml_parser_t)
      (ev : yaml_event_t) (tl : List yaml_event_t),
      nodes.length ≤ size →
      2 * (yaml_subtree.events_items cs).length + 1 ≤ fuel →
      yaml_subtree.events_items cs ++ [.sequence_end] = ev :: tl →
      ∃ size', nodes.length + cs.length ≤ size' ∧
        ymx_load_sequence_loop fuel
            { items := nodes ++ List.replicate (size - nodes.length) {},
              items_buffer_size := size, num_items := nodes.length }
            (tl.map some ++ rest) ev
          = .ok ({ items := (nodes ++ cs.map yaml_subtree.loaded)
                      ++ List.replicate (size' - (nodes.length + cs.length)) {},
                   items_buffer_size := size',
                   num_items := nodes.length + cs.length }, rest) := by
  induction cs with
  | nil =>
    intro nodes size fuel rest ev tl hsize hfuel hev
    simp only [yaml_subtree.events_items, List.nil_append, List.cons.injEq] at hev
    obtain ⟨rfl, rfl⟩ := hev
    obtain ⟨f, rfl⟩ : ∃ f, fuel = f + 1 := ⟨fuel - 1, by omega⟩
    exact ⟨size, by simpa using hsize, by simp [ymx_load_sequence_loop]⟩
  | cons c cs ihcs =>
    intro nodes size fuel rest ev tl hsize hfuel hev
    simp only [yaml_subtree.events_items, List.cons_append, List.append_assoc,
      List.cons.injEq] at hev
    obtain ⟨rfl, rfl⟩ := hev
    have hlen : (yaml_subtree.events_items (c :: cs)).length
        = c.events.length + (yaml_subtree.events_items cs).length := by
      simp [yaml_subtree.events_items, yaml_subtree.events]; omega
    have hpos := c.events_length_pos
    obtain ⟨f, rfl⟩ : ∃ f, fuel = f + 1 := ⟨fuel - 1, by omega⟩
    obtain ⟨ev', tl', hsplit⟩ : ∃ ev' tl',
        yaml_subtree.events_items cs ++ [yaml_event_t.sequence_end] = ev' :: tl' := by
      cases h : yaml_subtree.events_items cs ++ [yaml_event_t.sequence_end] with
      | nil => simp at h
      | cons a b => exact ⟨a, b, rfl⟩
    have hload := ih c (List.mem_cons_self _ _) f
      ((yaml_subtree.events_items cs ++ [yaml_event_t.sequence_end]).map some ++ rest)
      (by omega)
    rw [hsplit] at hload
    simp only [List.map_cons, List.cons_append] at hload
    rw [ymx_load_sequence_loop_step _ _ _ _ c.first_ne_sequence_end]
    by_cases hfull : nodes.length = size
    · -- the buffer is full: one more chunk
      obtain ⟨size', hsz', hloop⟩ := ihcs (fun c' hc' => ih c' (List.mem_cons_of_mem _ hc'))
        (nodes ++ [c.loaded]) (size + NODES_BUFFER_CHUNK_SIZE) f rest ev' tl'
        (by simp [NODES_BUFFER_CHUNK_SIZE]; omega) (by omega) hsplit
      refine ⟨size', by simp at hsz' ⊢; omega, ?_⟩
      subst hfull
      have hrep : List.replicate NODES_BUFFER_CHUNK_SIZE (ymx_node_t.mk none none none none none none)
          = ymx_node_t.mk none none none none none none
            :: List.replicate (NODES_BUFFER_CHUNK_SIZE - 1) (ymx_node_t.mk none none none none none none) :=
        list_replicate_pos_eq _ _ (by simp [NODES_BUFFER_CHUNK_SIZE])
      simp only [if_true, Nat.sub_self, List.replicate_zero, List.append_nil, hrep,
        list_getD_append_cons, list_set_append_cons, List.map_append, List.append_assoc,
        hsplit, List.map_cons, List.cons_append, hload, ymx_parse]
      simp only [List.length_append, List.length_singleton, List.append_assoc,
        List.singleton_append, List.map_cons, List.length_cons, List.length_nil,
        Nat.zero_add] at hloop ⊢
      rw [show nodes.length + NODES_BUFFER_CHUNK_SIZE - (nodes.length + 1)
          = NODES_BUFFER_CHUNK_SIZE - 1 by omega] at hloop
      simpa [Nat.add_assoc, Nat.add_comm 1] using hloop
    · obtain ⟨size', hsz', hloop⟩ := ihcs (fun c' hc' => ih c' (List.mem_cons_of_mem _ hc'))
        (nodes ++ [c.loaded]) size f rest ev' tl'
        (by simp; omega) (by omega) hsplit
      refine ⟨size', by simp at hsz' ⊢; omega, ?_⟩
      have hrep : List.replicate (size - nodes.length) (ymx_node_t.mk none none none none none none)
          = ymx_node_t.mk none none none none none none
            :: List.replicate (size - nodes.length - 1) (ymx_node_t.mk none none none none none none) :=
        list_replicate_pos_eq _ _ (by omega)
      simp only [if_neg hfull, hrep,
        list_getD_append_cons, list_set_append_cons, List.map_append, List.append_assoc,
        hsplit, List.map_cons, List.cons_append, hload, ymx_parse]
      simp only [List.length_append, List.length_singleton, List.append_assoc,
        List.singleton_append, List.map_cons, List.length_cons, List.length_nil,
        Nat.zero_add] at hloop ⊢
      rw [show size - (nodes.length + 1) = size - nodes.length - 1 by omega] at hloop
      simpa [Nat.add_assoc, Nat.add_comm 1] using hloop

/-- One turn of the loop of `ymx_load_mapping` on an event that is no
mapping end. -/
theorem ymx_load_mapping_loop_step (fuel : Nat) (acc : ymx_pairs_t) (parser : yaml_parser_t)
    (event : yaml_event_t) (h : event ≠ .mapping_end) :
    ymx_load_mapping_loop (fuel + 1) acc parser event =
      (match ymx_load_node fuel
          ((if acc.num_items = acc.buffer_size then
              acc.keys ++ List.replicate NODES_BUFFER_CHUNK_SIZE (ymx_node_t.mk none none none none none none)
            else acc.keys).getD acc.num_items {}) parser event with
        | .error msg => .error msg
        | .diverge => .diverge
        | .ok (key, parser) =>
          match ymx_parse parser with
          | .error msg => .error msg
          | .diverge => .diverge
          | .ok (event, parser) =>
            match ymx_load_node fuel
                ((if acc.num_items = acc.buffer_size then
                    acc.values ++ List.replicate NODES_BUFFER_CHUNK_SIZE (ymx_node_t.mk none none none none none none)
                  else acc.values).getD acc.num_items {}) parser event with
            | .error msg => .error msg
            | .diverge => .diverge
            | .ok (value, parser) =>
              match ymx_parse parser with
              | .error msg => .error msg
              | .diverge => .diverge
              | .ok (event, parser) =>
                ymx_load_mapping_loop fuel
                  { keys := (if acc.num_items = acc.buffer_size then
                        acc.keys ++ List.replicate NODES_BUFFER_CHUNK_SIZE (ymx_node_t.mk none none none none none none)
                      else acc.keys).set acc.num_items key,
                    values := (if acc.num_items = acc.buffer_size then
                        acc.values ++ List.replicate NODES_BUFFER_CHUNK_SIZE (ymx_node_t.mk none none none none none none)
                      else acc.values).set acc.num_items value,
                    buffer_size := if acc.num_items = acc.buffer_size then
                        acc.buffer_size + NODES_BUFFER_CHUNK_SIZE
                      else acc.buffer_size,
                    num_items := acc.num_items + 1 } parser event) := by
  cases event <;> first
    | exact absurd rfl h
    | (simp only [ymx_load_mapping_loop]; split_ifs <;> rfl)

theorem list_getD_map_append_cons {α β : Type} (f : α → β) (pre : List α) (x : β)
    (post : List β) (d : β) : (pre.map f ++ x :: post).getD pre.length d = x := by
  have h := list_getD_append_cons (pre.map f) x post d
  rwa [List.length_map] at h

theorem list_set_map_append_cons {α β : Type} (f : α → β) (pre : List α) (x y : β)
    (post : List β) : (pre.map f ++ x :: post).set pre.length y = pre.map f ++ y :: post := by
  have h := list_set_append_cons (pre.map f) x y post
  rwa [List.length_map] at h

/-- The accumulation loop of `ymx_load_mapping` on the events of the pairs
`ps` followed by the mapping end: it stores the key node and the value node of
every pair, in order, after the pairs it holds already. -/
theorem ymx_load_mapping_loop_pairs (ps : List (yaml_subtree × yaml_subtree))
    (ih : ∀ p ∈ ps, ∀ c, (c = p.1 ∨ c = p.2) →
      ∀ (fuel : Nat) (rest : yaml_parser_t), 2 * c.events.length ≤ fuel →
      ymx_load_node fuel {} (c.rest.map some ++ rest) c.first = .ok (c.loaded, rest)) :
    ∀ (nodes : List (ymx_node_t × ymx_node_t)) (size fuel : Nat) (rest : yaml_parser_t)
      (ev : yaml_event_t) (tl : List yaml_event_t),
      nodes.length ≤ size →
      2 * (yaml_subtree.events_pairs ps).length + 1 ≤ fuel →
      yaml_subtree.events_pairs ps ++ [.mapping_end] = ev :: tl →
      ∃ size', nodes.length + ps.length ≤ size' ∧
        ymx_load_mapping_loop fuel
            { keys := nodes.map Prod.fst ++ List.replicate (size - nodes.length) {},
              values := nodes.map Prod.snd ++ List.replicate (size - nodes.length) {},
              buffer_size := size, num_items := nodes.length }
            (tl.map some ++ rest) ev
          = .ok ({ keys := (nodes ++ ps.map (fun p => (p.1.loaded, p.2.loaded))).map Prod.fst
                      ++ List.replicate (size' - (nodes.length + ps.length)) {},
                   values := (nodes ++ ps.map (fun p => (p.1.loaded, p.2.loaded))).map Prod.snd
                      ++ List.replicate (size' - (nodes.length + ps.length)) {},
                   buffer_size := size',
                   num_items := nodes.length + ps.length }, rest) := by
  induction ps with
  | nil =>
    intro nodes size fuel rest ev tl hsize hfuel hev
    simp only [yaml_subtree.events_pairs, List.nil_append, List.cons.injEq] at hev
    obtain ⟨rfl, rfl⟩ := hev
    obtain ⟨f, rfl⟩ : ∃ f, fuel = f + 1 := ⟨fuel - 1, by omega⟩
    exact ⟨size, by simpa using hsize, by simp [ymx_load_mapping_loop]⟩
  | cons p ps ihps =>
    obtain ⟨k, v⟩ := p
    intro nodes size fuel rest ev tl hsize hfuel hev
    simp only [yaml_subtree.events_pairs, List.cons_append, List.append_assoc,
      List.cons.injEq] at hev
    obtain ⟨rfl, rfl⟩ := hev
    have hlen : (yaml_subtree.events_pairs ((k, v) :: ps)).length
        = k.events.length + v.events.length + (yaml_subtree.events_pairs ps).length := by
      simp [yaml_subtree.events_pairs, yaml_subtree.events]; omega
    have hposk := k.events_length_pos
    have hposv := v.events_length_pos
    obtain ⟨f, rfl⟩ : ∃ f, fuel = f + 1 := ⟨fuel - 1, by omega⟩
    obtain ⟨ev', tl', hsplit⟩ : ∃ ev' tl',
        yaml_subtree.events_pairs ps ++ [yaml_event_t.mapping_end] = ev' :: tl' := by
      cases h : yaml_subtree.events_pairs ps ++ [yaml_event_t.mapping_end] with
      | nil => simp at h
      | cons a b => exact ⟨a, b, rfl⟩
    have hloadv := ih (k, v) (List.mem_cons_self _ _) v (Or.inr rfl) f
      (some ev' :: (tl'.map some ++ rest)) (by omega)
    have hloadk := ih (k, v) (List.mem_cons_self _ _) k (Or.inl rfl) f
      (some v.first :: (v.rest.map some ++ (some ev' :: (tl'.map some ++ rest)))) (by omega)
    rw [ymx_load_mapping_loop_step _ _ _ _ k.first_ne_mapping_end]
    by_cases hfull : nodes.length = size
    · obtain ⟨size', hsz', hloop⟩ := ihps (fun p' hp' => ih p' (List.mem_cons_of_mem _ hp'))
        (nodes ++ [(k.loaded, v.loaded)]) (size + NODES_BUFFER_CHUNK_SIZE) f rest ev' tl'
        (by simp [NODES_BUFFER_CHUNK_SIZE]; omega) (by omega) hsplit
      refine ⟨size', by simp at hsz' ⊢; omega, ?_⟩
      subst hfull
      have hrep : List.replicate NODES_BUFFER_CHUNK_SIZE (ymx_node_t.mk none none none none none none)
          = ymx_node_t.mk none none none none none none
            :: List.replicate (NODES_BUFFER_CHUNK_SIZE - 1) (ymx_node_t.mk none none none none none none) :=
        list_replicate_pos_eq _ _ (by simp [NODES_BUFFER_CHUNK_SIZE])
      simp only [if_true, Nat.sub_self, List.replicate_zero, List.append_nil, hrep,
        list_getD_map_append_cons, list_set_map_append_cons, List.map_append,
        List.append_assoc, hsplit, List.map_cons, List.cons_append, hloadk, hloadv, ymx_parse]
      simp only [List.length_append, List.length_singleton, List.append_assoc,
        List.singleton_append, List.map_cons, List.length_cons, List.length_nil,
        Nat.zero_add, List.map_append, List.map_nil] at hloop ⊢
      rw [show nodes.length + NODES_BUFFER_CHUNK_SIZE - (nodes.length + 1)
          = NODES_BUFFER_CHUNK_SIZE - 1 by omega] at hloop
      simpa [Nat.add_assoc, Nat.add_comm 1] using hloop
    · obtain ⟨size', hsz', hloop⟩ := ihps (fun p' hp' => ih p' (List.mem_cons_of_mem _ hp'))
        (nodes ++ [(k.loaded, v.loaded)]) size f rest ev' tl'
        (by simp; omega) (by omega) hsplit
      refine ⟨size', by simp at hsz' ⊢; omega, ?_⟩
      have hrep : List.replicate (size - nodes.length) (ymx_node_t.mk none none none none none none)
          = ymx_node_t.mk none none none none none none
            :: List.replicate (size - nodes.length - 1) (ymx_node_t.mk none none none none none none) :=
        list_replicate_pos_eq _ _ (by omega)
      simp only [if_neg hfull, hrep,
        list_getD_map_append_cons, list_set_map_append_cons, List.map_append,
        List.append_assoc, hsplit, List.map_cons, List.cons_append, hloadk, hloadv, ymx_parse]
      simp only [List.length_append, List.length_singleton, List.append_assoc,
        List.singleton_append, List.map_cons, List.length_cons, List.length_nil,
        Nat.zero_add, List.map_append, List.map_nil] at hloop ⊢
      rw [show size - (nodes.length + 1) = size - nodes.length - 1 by omega] at hloop
      simpa [Nat.add_assoc, Nat.add_comm 1] using hloop

theorem yaml_subtree.loaded_items_eq (items : List yaml_subtree) :
    yaml_subtree.loaded_items items
      = (items.map yaml_subtree.loaded).map ymx_node_t.fields := by
  induction items with
  | nil => rfl
  | cons t ts ih => simp [yaml_subtree.loaded_items, ih]

theorem yaml_subtree.loaded_pairs_eq (pairs : List (yaml_subtree × yaml_subtree)) :
    yaml_subtree.loaded_pairs pairs
      = ((pairs.map (fun p => (p.1.loaded, p.2.loaded))).map
          (fun kv => [kv.1.fields, kv.2.fields])).flatten := by
  induction pairs with
  | nil => rfl
  | cons p ps ih => obtain ⟨k, v⟩ := p; simp [yaml_subtree.loaded_pairs, ih]

/-- `ymx_load_node` on a sequence start, once the children are known to load:
the node of the sequence. -/
theorem ymx_load_node_sequence (a t : Option c_string) (i s : Int)
    (items : List yaml_subtree)
    (ih : ∀ c ∈ items, ∀ (fuel : Nat) (rest : yaml_parser_t), 2 * c.events.length ≤ fuel →
      ymx_load_node fuel {} (c.rest.map some ++ rest) c.first = .ok (c.loaded, rest))
    (fuel : Nat) (rest : yaml_parser_t)
    (hfuel : 2 * (yaml_subtree.sequence a t i s items).events.length ≤ fuel) :
    ymx_load_node fuel {}
        ((yaml_subtree.sequence a t i s items).rest.map some ++ rest)
        (yaml_subtree.sequence a t i s items).first
      = .ok ((yaml_subtree.sequence a t i s items).loaded, rest) := by
  have hlen : (yaml_subtree.sequence a t i s items).events.length
      = (yaml_subtree.events_items items).length + 2 := by
    simp [yaml_subtree.events, yaml_subtree.rest]
  obtain ⟨f, rfl⟩ : ∃ f, fuel = f + 2 := ⟨fuel - 2, by omega⟩
  obtain ⟨ev, tl, hsplit⟩ : ∃ ev tl,
      yaml_subtree.events_items items ++ [yaml_event_t.sequence_end] = ev :: tl := by
    cases h : yaml_subtree.events_items items ++ [yaml_event_t.sequence_end] with
    | nil => simp at h
    | cons x y => exact ⟨x, y, rfl⟩
  obtain ⟨size', hsz', hloop⟩ := ymx_load_sequence_loop_items items ih [] NODES_BUFFER_CHUNK_SIZE
    f rest ev tl (by simp) (by omega) hsplit
  simp only [List.length_nil, Nat.sub_zero, List.nil_append, Nat.zero_add] at hloop hsz'
  simp only [yaml_subtree.first, yaml_subtree.rest, ymx_load_node, ymx_load_sequence, hsplit,
    List.map_cons, List.cons_append, ymx_parse, hloop, yaml_subtree.loaded]
  have hset := ymx_set_items_struct [1, items.length] YMX_NODE_FIELD_STRS
    (items.map yaml_subtree.loaded) [] []
    (List.replicate (size' - items.length) (ymx_node_t.mk none none none none none none)) rfl
  simp only [List.length_map, List.nil_append, List.length_nil] at hset
  by_cases h0 : items.length = 0
  · have : items = [] := List.length_eq_zero.mp h0
    subst this
    cases t <;> cases a <;> simp
  · simp only [mxCreateStructMatrix, replicate_node_fields_blank, Nat.one_mul, hset,
      yaml_subtree.loaded_items_eq]
    cases t <;> cases a <;> simp [h0]

/-- `ymx_load_node` on a mapping start, once the keys and values are known to
load: the node of the mapping. -/
theorem ymx_load_node_mapping (a t : Option c_string) (i s : Int)
    (pairs : List (yaml_subtree × yaml_subtree))
    (ih : ∀ p ∈ pairs, ∀ c, (c = p.1 ∨ c = p.2) →
      ∀ (fuel : Nat) (rest : yaml_parser_t), 2 * c.events.length ≤ fuel →
      ymx_load_node fuel {} (c.rest.map some ++ rest) c.first = .ok (c.loaded, rest))
    (fuel : Nat) (rest : yaml_parser_t)
    (hfuel : 2 * (yaml_subtree.mapping a t i s pairs).events.length ≤ fuel) :
    ymx_load_node fuel {}
        ((yaml_subtree.mapping a t i s pairs).rest.map some ++ rest)
        (yaml_subtree.mapping a t i s pairs).first
      = .ok ((yaml_subtree.mapping a t i s pairs).loaded, rest) := by
  have hlen : (yaml_subtree.mapping a t i s pairs).events.length
      = (yaml_subtree.events_pairs pairs).length + 2 := by
    simp [yaml_subtree.events, yaml_subtree.rest]
  obtain ⟨f, rfl⟩ : ∃ f, fuel = f + 2 := ⟨fuel - 2, by omega⟩
  obtain ⟨ev, tl, hsplit⟩ : ∃ ev tl,
      yaml_subtree.events_pairs pairs ++ [yaml_event_t.mapping_end] = ev :: tl := by
    cases h : yaml_subtree.events_pairs pairs ++ [yaml_event_t.mapping_end] with
    | nil => simp at h
    | cons x y => exact ⟨x, y, rfl⟩
  obtain ⟨size', hsz', hloop⟩ := ymx_load_mapping_loop_pairs pairs ih [] NODES_BUFFER_CHUNK_SIZE
    f rest ev tl (by simp) (by omega) hsplit
  simp only [List.length_nil, Nat.sub_zero, List.nil_append, Nat.zero_add, List.map_nil]
    at hloop hsz'
  simp only [yaml_subtree.first, yaml_subtree.rest, ymx_load_node, ymx_load_mapping, hsplit,
    List.map_cons, List.cons_append, ymx_parse, hloop, yaml_subtree.loaded]
  have hset := ymx_set_pairs_struct [2, pairs.length] YMX_NODE_FIELD_STRS
    (pairs.map (fun p => (p.1.loaded, p.2.loaded))) [] [] []
    (List.replicate (size' - pairs.length) (ymx_node_t.mk none none none none none none))
    (List.replicate (size' - pairs.length) (ymx_node_t.mk none none none none none none))
    rfl rfl
  simp only [List.length_map, List.nil_append, List.length_nil] at hset
  by_cases h0 : pairs.length = 0
  · have : pairs = [] := List.length_eq_zero.mp h0
    subst this
    cases t <;> cases a <;> simp
  · simp only [mxCreateStructMatrix, replicate_node_fields_blank, hset,
      yaml_subtree.loaded_pairs_eq]
    cases t <;> cases a <;> simp [h0]

/-- The loader on a grammatical subtree: with the events of `t` at the head of
the source and fuel for twice their number, `ymx_load_node` returns the node
`t.loaded` and leaves exactly the events that follow the subtree. -/
theorem ymx_load_node_subtree : ∀ (t : yaml_subtree) (fuel : Nat) (rest : yaml_parser_t),
    2 * t.events.length ≤ fuel →
    ymx_load_node fuel {} (t.rest.map some ++ rest) t.first = .ok (t.loaded, rest)
  | .scalar a t v l p q s, fuel, rest, h => by
    obtain ⟨f, rfl⟩ : ∃ f, fuel = f + 1 :=
      ⟨fuel - 1, by simp [yaml_subtree.events] at h; omega⟩
    simp only [yaml_subtree.first, yaml_subtree.rest, List.map_nil, List.nil_append,
      ymx_load_node_scalar, yaml_subtree.loaded]
    cases a <;> cases v <;> rfl
  | .alias a, fuel, rest, h => by
    obtain ⟨f, rfl⟩ : ∃ f, fuel = f + 1 :=
      ⟨fuel - 1, by simp [yaml_subtree.events] at h; omega⟩
    simp [yaml_subtree.first, yaml_subtree.rest, ymx_load_node, ymx_load_alias,
      yaml_subtree.loaded]
  | .sequence a t i s items, fuel, rest, h =>
    ymx_load_node_sequence a t i s items
      (fun c _ fuel rest h => ymx_load_node_subtree c fuel rest h) fuel rest h
  | .mapping a t i s pairs, fuel, rest, h =>
    ymx_load_node_mapping a t i s pairs
      (fun p _ c _ fuel rest h => ymx_load_node_subtree c fuel rest h) fuel rest h
termination_by t => sizeOf t
decreasing_by
  all_goals simp_wf
  · rename_i hc
    have := List.sizeOf_lt_of_mem hc
    omega
  · rename_i hp hc
    have h1 := List.sizeOf_lt_of_mem hp
    have h2 : sizeOf c < sizeOf p := by
      obtain ⟨k, v⟩ := p
      rcases hc with rfl | rfl
      · simp; omega
      · simp
    omega

/-- The members `ymx_load_sequence` sets before it reads the children: they
hold in every node it returns, whatever events follow. -/
theorem ymx_load_node_sequence_header (fuel : Nat) (parser parser' : yaml_parser_t)
    (a t : Option c_string) (i s : Int) (n : ymx_node_t)
    (h : ymx_load_node fuel {} parser (.sequence_start a t i s) = .ok (n, parser')) :
    n.type = some (ymx_create_int_scalar YMX_NODE_TYPE_SEQUENCE)
      ∧ n.tag = some (mxCreateString (t.getD [63]))
      ∧ n.anchor = a.map mxCreateString
      ∧ n.implicit = some (ymx_create_int_scalar i)
      ∧ n.style = some (ymx_create_int_scalar s) := by
  match fuel, h with
  | 0, h => simp [ymx_load_node] at h
  | 1, h => simp [ymx_load_node, ymx_load_sequence] at h
  | f + 2, h =>
    simp only [ymx_load_node, ymx_load_sequence] at h
    split at h
    · simp at h
    · simp at h
    · split at h
      · simp at h
      · simp at h
      · simp only [ymx_result.ok.injEq, Prod.mk.injEq] at h
        obtain ⟨rfl, _⟩ := h
        cases t <;> cases a <;> simp <;> split_ifs <;> simp

/-- The members `ymx_load_mapping` sets before it reads the pairs: they hold in
every node it returns, whatever events follow. -/
theorem ymx_load_node_mapping_header (fuel : Nat) (parser parser' : yaml_parser_t)
    (a t : Option c_string) (i s : Int) (n : ymx_node_t)
    (h : ymx_load_node fuel {} parser (.mapping_start a t i s) = .ok (n, parser')) :
    n.type = some (ymx_create_int_scalar YMX_NODE_TYPE_MAPPING)
      ∧ n.tag = some (mxCreateString (t.getD [63]))
      ∧ n.anchor = a.map mxCreateString
      ∧ n.implicit = some (ymx_create_int_scalar i)
      ∧ n.style = some (ymx_create_int_scalar s) := by
  match fuel, h with
  | 0, h => simp [ymx_load_node] at h
  | 1, h => simp [ymx_load_node, ymx_load_mapping] at h
  | f + 2, h =>
    simp only [ymx_load_node, ymx_load_mapping] at h
    split at h
    · simp at h
    · simp at h
    · split at h
      · simp at h
      · simp at h
      · simp only [ymx_result.ok.injEq, Prod.mk.injEq] at h
        obtain ⟨rfl, _⟩ := h
        cases t <;> cases a <;> simp <;> split_ifs <;> simp

/-! ## The emitter -/

/-- An emitted event is appended to the events taken so far; nothing else of
the record of events and warnings changes. -/
theorem ymx_emit_ok (emitter : yaml_emitter_t) (st st' : ymx_dump_state)
    (event : yaml_event_t) (h : ymx_emit emitter st event = .ok () st') :
    st'.emitted = st.emitted ++ [event] ∧ st'.warnings = st.warnings := by
  unfold ymx_emit at h
  split_ifs at h
  split at h
  · simp only [ymx_dump_result.ok.injEq, true_and] at h
    subst h
    exact ⟨rfl, rfl⟩
  · simp at h

/-- A failing emission leaves the record of events and warnings as it was. -/
theorem ymx_emit_not_ok (emitter : yaml_emitter_t) (st : ymx_dump_state)
    (event : yaml_event_t) :
    (∃ st', ymx_emit emitter st event = .ok () st')
      ∨ ymx_emit emitter st event = .error "Error while emitting document" st
      ∨ ymx_emit emitter st event = .fault st := by
  unfold ymx_emit
  split_ifs
  · split
    · exact Or.inl ⟨_, rfl⟩
    · exact Or.inr (Or.inr rfl)
  · exact Or.inr (Or.inl rfl)

/-- A successful `ymx_dump_scalar` had a valid string value and emitted exactly
one scalar event, with the flags expanded from the implicit value. -/
theorem ymx_dump_scalar_ok (emitter : yaml_emitter_t) (st st' : ymx_dump_state)
    (value_arr : Option mxArray) (tag anchor : Option c_string) (implicit style : Int)
    (h : ymx_dump_scalar emitter st value_arr tag anchor implicit style = .ok () st') :
    ∃ value, value_arr = some value ∧ ymx_is_valid_string value = true
      ∧ st'.emitted = st.emitted ++
          [.scalar anchor tag (some ((mxArrayToString value).getD []))
            ((mxArrayToString value).getD []).length
            (if implicit = YMX_SCALAR_IMPLICIT_PLAIN then 1 else 0)
            (if implicit = YMX_SCALAR_IMPLICIT_QUOTED then 1 else 0) style]
      ∧ st'.warnings = st.warnings := by
  unfold ymx_dump_scalar at h
  cases value_arr with
  | none => simp at h
  | some value =>
    by_cases hvalid : ymx_is_valid_string value = true
    · simp only [hvalid, Bool.not_true, Bool.false_eq_true, if_false] at h
      exact ⟨value, rfl, hvalid, (ymx_emit_ok _ _ _ _ h).1, (ymx_emit_ok _ _ _ _ h).2⟩
    · simp [hvalid] at h

/-! ## Claims on scalar, alias and collection events -/

/-- C4. Scalar tag rule: the node loaded from a scalar event is a scalar node
whose tag is the explicit tag of the event when the event has one; without one
it is "?" (the byte 63) when the style of the event is plain and "!" (the byte
33) for every other style. -/
theorem C4_scalar_tag_rule (fuel : Nat) (node : ymx_node_t) (parser : yaml_parser_t)
    (anchor tag : Option c_string) (value : Option (List Nat)) (length : Nat)
    (plain_implicit quoted_implicit style : Int) :
    ∃ n, ymx_load_node (fuel + 1) node parser
          (.scalar anchor tag value length plain_implicit quoted_implicit style)
        = .ok (n, parser)
      ∧ n.type = some (ymx_create_int_scalar YMX_NODE_TYPE_SCALAR)
      ∧ n.tag = some (mxCreateString
          (match tag with
           | some t => t
           | none => if style = YAML_PLAIN_SCALAR_STYLE then [63] else [33])) := by
  refine ⟨_, ymx_load_node_scalar fuel node parser anchor tag value length plain_implicit
    quoted_implicit style, rfl, ?_⟩
  cases tag with
  | none => by_cases h : style = YAML_PLAIN_SCALAR_STYLE <;> simp [h]
  | some t => rfl

/-- C5. Scalar implicit collapse: the node loaded from a scalar event has the
implicit value Plain (1) when the plain-implicit flag of the event is set,
otherwise Quoted (2) when its quoted-implicit flag is set, otherwise None (0);
and for each of the three values `v`, the scalar event `ymx_dump_scalar` emits
for a node with implicit `v` loads back as a node with implicit `v`. -/
theorem C5_scalar_implicit_collapse (emitter : yaml_emitter_t) (st st' : ymx_dump_state)
    (value_arr : Option mxArray) (tag anchor : Option c_string) (style v : Int)
    (hv : v = YMX_SCALAR_IMPLICIT_FALSE ∨ v = YMX_SCALAR_IMPLICIT_PLAIN
      ∨ v = YMX_SCALAR_IMPLICIT_QUOTED)
    (hdump : ymx_dump_scalar emitter st value_arr tag anchor v style = .ok () st') :
    (∀ (fuel : Nat) (node : ymx_node_t) (parser : yaml_parser_t) (a t : Option c_string)
        (val : Option (List Nat)) (len : Nat) (plain_implicit quoted_implicit s : Int),
      ∃ n, ymx_load_node (fuel + 1) node parser
            (.scalar a t val len plain_implicit quoted_implicit s) = .ok (n, parser)
        ∧ n.implicit = some (ymx_create_int_scalar
            (if plain_implicit ≠ 0 then YMX_SCALAR_IMPLICIT_PLAIN
             else if quoted_implicit ≠ 0 then YMX_SCALAR_IMPLICIT_QUOTED
             else YMX_SCALAR_IMPLICIT_FALSE)))
    ∧ ∃ ev, st'.emitted = st.emitted ++ [ev]
      ∧ ∀ (fuel : Nat) (node : ymx_node_t) (parser : yaml_parser_t),
        ∃ n, ymx_load_node (fuel + 1) node parser ev = .ok (n, parser)
          ∧ n.implicit = some (ymx_create_int_scalar v) := by
  constructor
  · intro fuel node parser a t val len p q s
    refine ⟨_, ymx_load_node_scalar fuel node parser a t val len p q s, ?_⟩
    by_cases hp : p = 0 <;> by_cases hq : q = 0 <;> simp [hp, hq]
  · obtain ⟨value, _, _, hem, _⟩ := ymx_dump_scalar_ok _ _ _ _ _ _ _ _ hdump
    refine ⟨_, hem, ?_⟩
    intro fuel node parser
    refine ⟨_, ymx_load_node_scalar _ _ _ _ _ _ _ _ _ _, ?_⟩
    rcases hv with rfl | rfl | rfl <;>
      simp [YMX_SCALAR_IMPLICIT_FALSE, YMX_SCALAR_IMPLICIT_PLAIN, YMX_SCALAR_IMPLICIT_QUOTED]

/-- The premises of `C5_scalar_implicit_collapse` hold for the dump of the
scalar "foo" with the implicit value Quoted. -/
theorem C5_scalar_implicit_collapse_witness :
    (YMX_SCALAR_IMPLICIT_QUOTED = YMX_SCALAR_IMPLICIT_FALSE
      ∨ YMX_SCALAR_IMPLICIT_QUOTED = YMX_SCALAR_IMPLICIT_PLAIN
      ∨ YMX_SCALAR_IMPLICIT_QUOTED = YMX_SCALAR_IMPLICIT_QUOTED)
    ∧ ymx_dump_scalar yaml_emitter_accept_all ymx_dump_state_init
        (some (mxCreateString [102, 111, 111])) (some [33]) none
        YMX_SCALAR_IMPLICIT_QUOTED 3
      = .ok () { ymx_dump_state_init with
          emitted := [.scalar none (some [33]) (some [102, 111, 111]) 3 0 1 3] }
    ∧ ∃ ev, [yaml_event_t.scalar none (some [33]) (some [102, 111, 111]) 3 0 1 3] = [] ++ [ev]
      ∧ ∀ (fuel : Nat) (node : ymx_node_t) (parser : yaml_parser_t),
        ∃ n, ymx_load_node (fuel + 1) node parser ev = .ok (n, parser)
          ∧ n.implicit = some (ymx_create_int_scalar YMX_SCALAR_IMPLICIT_QUOTED) :=
  ⟨Or.inr (Or.inr rfl), by decide,
    (C5_scalar_implicit_collapse yaml_emitter_accept_all ymx_dump_state_init
      { ymx_dump_state_init with
          emitted := [.scalar none (some [33]) (some [102, 111, 111]) 3 0 1 3] }
      (some (mxCreateString [102, 111, 111])) (some [33]) none 3
      YMX_SCALAR_IMPLICIT_QUOTED (Or.inr (Or.inr rfl)) (by decide)).2⟩

theorem mxCreateString_injective (x y : c_string) (h : mxCreateString x = mxCreateString y) :
    x = y := by
  simp only [mxCreateString, mxArray.char.injEq] at h
  exact h.2

/-- C6. Collection tag default: the node loaded from a sequence start or a
mapping start event has the explicit tag of the event when the event has one
and the tag "?" (the byte 63) when it has none, whatever the style; so its tag
is "!" (the byte 33) only when that is the explicit tag of the event.  This
holds for the node of every grammatical sequence or mapping, and for every node
the loader returns on such an event at all. -/
theorem C6_collection_tag_default (a tg : Option c_string) (i s : Int)
    (items : List yaml_subtree) (pairs : List (yaml_subtree × yaml_subtree))
    (fuel : Nat) (rest : yaml_parser_t)
    (hs : 2 * (yaml_subtree.sequence a tg i s items).events.length ≤ fuel)
    (hm : 2 * (yaml_subtree.mapping a tg i s pairs).events.length ≤ fuel) :
    (∃ n, ymx_load_node fuel {}
          ((yaml_subtree.events_items items ++ [yaml_event_t.sequence_end]).map some ++ rest)
          (.sequence_start a tg i s) = .ok (n, rest)
        ∧ n.tag = some (mxCreateString (tg.getD [63]))
        ∧ (n.tag = some (mxCreateString [33]) ↔ tg = some [33]))
    ∧ (∃ n, ymx_load_node fuel {}
          ((yaml_subtree.events_pairs pairs ++ [yaml_event_t.mapping_end]).map some ++ rest)
          (.mapping_start a tg i s) = .ok (n, rest)
        ∧ n.tag = some (mxCreateString (tg.getD [63]))
        ∧ (n.tag = some (mxCreateString [33]) ↔ tg = some [33]))
    ∧ (∀ (fuel' : Nat) (parser parser' : yaml_parser_t) (n : ymx_node_t),
        ymx_load_node fuel' {} parser (.sequence_start a tg i s) = .ok (n, parser') →
        n.tag = some (mxCreateString (tg.getD [63])))
    ∧ (∀ (fuel' : Nat) (parser parser' : yaml_parser_t) (n : ymx_node_t),
        ymx_load_node fuel' {} parser (.mapping_start a tg i s) = .ok (n, parser') →
        n.tag = some (mxCreateString (tg.getD [63]))) := by
  have hbang : ∀ n : ymx_node_t, n.tag = some (mxCreateString (tg.getD [63])) →
      (n.tag = some (mxCreateString [33]) ↔ tg = some [33]) := by
    intro n hn
    rw [hn]
    constructor
    · intro h
      have h' := mxCreateString_injective _ _ (Option.some.inj h)
      cases tg with
      | none => simp at h'
      | some t => simpa using h'
    · rintro rfl; rfl
  have h1 := ymx_load_node_subtree (.sequence a tg i s items) fuel rest hs
  have h2 := ymx_load_node_subtree (.mapping a tg i s pairs) fuel rest hm
  refine ⟨⟨_, h1, rfl, hbang (yaml_subtree.sequence a tg i s items).loaded rfl⟩,
    ⟨_, h2, rfl, hbang (yaml_subtree.mapping a tg i s pairs).loaded rfl⟩, ?_, ?_⟩
  · intro fuel' parser parser' n h
    exact (ymx_load_node_sequence_header fuel' parser parser' a tg i s n h).2.1
  · intro fuel' parser parser' n h
    exact (ymx_load_node_mapping_header fuel' parser parser' a tg i s n h).2.1

/-- The premises of `C6_collection_tag_default` hold for a sequence and a
mapping without explicit tag, with eight units of fuel. -/
theorem C6_collection_tag_default_witness :
    2 * (yaml_subtree.sequence none none 1 2 [.alias [120]]).events.length ≤ 8
    ∧ 2 * (yaml_subtree.mapping none none 1 2 [(.alias [120], .alias [121])]).events.length ≤ 8
    ∧ (∃ n, ymx_load_node 8 {}
          ((yaml_subtree.events_items [.alias [120]] ++ [yaml_event_t.sequence_end]).map some ++ [])
          (.sequence_start none none 1 2) = .ok (n, [])
        ∧ n.tag = some (mxCreateString ((none : Option c_string).getD [63]))
        ∧ (n.tag = some (mxCreateString [33]) ↔ (none : Option c_string) = some [33])) :=
  ⟨by decide, by decide,
    (C6_collection_tag_default none none 1 2 [.alias [120]] [(.alias [120], .alias [121])]
      8 [] (by decide) (by decide)).1⟩

/-- C7. Alias and anchor preservation: the node loaded from a grammatical
subtree has the anchor of its first event (absent when the event has none); an
alias event gives, without a further pull, an alias node with that anchor, no
value and no tag; and every node the loader returns on a scalar, sequence start
or mapping start event has the anchor of that event, whatever events follow. -/
theorem C7_alias_anchor_preservation (t : yaml_subtree) (fuel : Nat) (rest : yaml_parser_t)
    (hfuel : 2 * t.events.length ≤ fuel) :
    (∃ n, ymx_load_node fuel {} (t.rest.map some ++ rest) t.first = .ok (n, rest)
        ∧ n.anchor = t.first.anchor.map mxCreateString)
    ∧ (∀ (f : Nat) (parser : yaml_parser_t) (a : c_string),
        ymx_load_node (f + 1) {} parser (.alias (some a))
          = .ok ({ type := some (ymx_create_int_scalar YMX_NODE_TYPE_ALIAS),
                   value := none,
                   tag := none,
                   anchor := some (mxCreateString a),
                   implicit := some (ymx_create_int_scalar 0),
                   style := some (ymx_create_int_scalar 0) }, parser))
    ∧ (∀ (f : Nat) (parser : yaml_parser_t) (a tg : Option c_string)
        (v : Option (List Nat)) (l : Nat) (p q s : Int),
        ∃ n, ymx_load_node (f + 1) {} parser (.scalar a tg v l p q s) = .ok (n, parser)
          ∧ n.anchor = a.map mxCreateString)
    ∧ (∀ (f : Nat) (parser parser' : yaml_parser_t) (a tg : Option c_string) (i s : Int)
        (n : ymx_node_t),
        ymx_load_node f {} parser (.sequence_start a tg i s) = .ok (n, parser') →
        n.anchor = a.map mxCreateString)
    ∧ (∀ (f : Nat) (parser parser' : yaml_parser_t) (a tg : Option c_string) (i s : Int)
        (n : ymx_node_t),
        ymx_load_node f {} parser (.mapping_start a tg i s) = .ok (n, parser') →
        n.anchor = a.map mxCreateString) := by
  refine ⟨⟨_, ymx_load_node_subtree t fuel rest hfuel, ?_⟩, ?_, ?_, ?_, ?_⟩
  · cases t <;> rfl
  · intro f parser a
    simp [ymx_load_node, ymx_load_alias]
  · intro f parser a tg v l p q s
    refine ⟨_, ymx_load_node_scalar f {} parser a tg v l p q s, ?_⟩
    cases a <;> rfl
  · intro f parser parser' a tg i s n h
    exact (ymx_load_node_sequence_header f parser parser' a tg i s n h).2.2.1
  · intro f parser parser' a tg i s n h
    exact (ymx_load_node_mapping_header f parser parser' a tg i s n h).2.2.1

/-- The premise of `C7_alias_anchor_preservation` holds for the sequence
`[&x foo, *x]` with twelve units of fuel. -/
theorem C7_alias_anchor_preservation_witness :
    2 * (yaml_subtree.sequence none none 1 2
          [.scalar (some [120]) none (some [102, 111, 111]) 3 1 0 1, .alias [120]]).events.length
        ≤ 12
    ∧ ∃ n, ymx_load_node 12 {}
          ((yaml_subtree.sequence none none 1 2
              [.scalar (some [120]) none (some [102, 111, 111]) 3 1 0 1,
               .alias [120]]).rest.map some ++ [])
          (yaml_subtree.sequence none none 1 2
              [.scalar (some [120]) none (some [102, 111, 111]) 3 1 0 1, .alias [120]]).first
          = .ok (n, [])
        ∧ n.anchor = (yaml_subtree.sequence none none 1 2
              [.scalar (some [120]) none (some [102, 111, 111]) 3 1 0 1,
               .alias [120]]).first.anchor.map mxCreateString :=
  ⟨by decide,
    (C7_alias_anchor_preservation
      (.sequence none none 1 2
        [.scalar (some [120]) none (some [102, 111, 111]) 3 1 0 1, .alias [120]])
      12 [] (by decide)).1⟩

/-! ## Claims on sequences and mappings -/

/-- C8. Sequence loading: on a sequence start event followed by the events of
`n` complete subtrees and the matching sequence end, the loader returns a
sequence node whose value is absent for `n = 0` and otherwise the 1-by-`n` node
array whose element `j` holds the node the loader builds from subtree `j` alone;
it leaves exactly the events after the matching sequence end.  `n` is arbitrary,
so it may exceed the 128 items of one chunk of the accumulation buffer. -/
theorem C8_sequence_loading (a tg : Option c_string) (i s : Int)
    (items : List yaml_subtree) (fuel : Nat) (rest : yaml_parser_t)
    (hfuel : 2 * (yaml_subtree.events_items items).length + 4 ≤ fuel) :
    ∃ nodes : List ymx_node_t,
      nodes.length = items.length
      ∧ (∀ (j : Nat) (c : yaml_subtree), items[j]? = some c →
          ∃ nj, nodes[j]? = some nj
            ∧ ∀ (fuel' : Nat) (rest' : yaml_parser_t), 2 * c.events.length ≤ fuel' →
              ymx_load_node fuel' {} (c.rest.map some ++ rest') c.first = .ok (nj, rest'))
      ∧ ymx_load_node fuel {}
          ((yaml_subtree.events_items items ++ [yaml_event_t.sequence_end]).map some ++ rest)
          (.sequence_start a tg i s)
        = .ok ({ type := some (ymx_create_int_scalar YMX_NODE_TYPE_SEQUENCE),
                 value := if items.length ≠ 0 then
                     some (.struct [1, items.length] YMX_NODE_FIELD_STRS
                       (nodes.map ymx_node_t.fields))
                   else none,
                 tag := some (mxCreateString (tg.getD [63])),
                 anchor := a.map mxCreateString,
                 implicit := some (ymx_create_int_scalar i),
                 style := some (ymx_create_int_scalar s) }, rest) := by
  refine ⟨items.map yaml_subtree.loaded, by simp, ?_, ?_⟩
  · intro j c hc
    refine ⟨c.loaded, by simp [hc], ?_⟩
    intro fuel' rest' h
    exact ymx_load_node_subtree c fuel' rest' h
  · have h := ymx_load_node_subtree (.sequence a tg i s items) fuel rest
      (by simp [yaml_subtree.events, yaml_subtree.rest]; omega)
    rw [← yaml_subtree.loaded_items_eq]
    exact h

/-- C9. Mapping loading: on a mapping start event followed by the events of `n`
key subtrees and value subtrees in alternation and the matching mapping end,
the loader returns a mapping node whose value is absent for `n = 0` and
otherwise the 2-by-`n` node array that holds, in storage order, the key node
and the value node of pair 1, of pair 2, ...: every pair is kept, in the order
of the events, whatever its key. -/
theorem C9_mapping_loading (a tg : Option c_string) (i s : Int)
    (pairs : List (yaml_subtree × yaml_subtree)) (fuel : Nat) (rest : yaml_parser_t)
    (hfuel : 2 * (yaml_subtree.events_pairs pairs).length + 4 ≤ fuel) :
    ∃ nodes : List (ymx_node_t × ymx_node_t),
      nodes.length = pairs.length
      ∧ (∀ (j : Nat) (k v : yaml_subtree), pairs[j]? = some (k, v) →
          ∃ nk nv, nodes[j]? = some (nk, nv)
            ∧ (∀ (fuel' : Nat) (rest' : yaml_parser_t), 2 * k.events.length ≤ fuel' →
              ymx_load_node fuel' {} (k.rest.map some ++ rest') k.first = .ok (nk, rest'))
            ∧ (∀ (fuel' : Nat) (rest' : yaml_parser_t), 2 * v.events.length ≤ fuel' →
              ymx_load_node fuel' {} (v.rest.map some ++ rest') v.first = .ok (nv, rest')))
      ∧ ymx_load_node fuel {}
          ((yaml_subtree.events_pairs pairs ++ [yaml_event_t.mapping_end]).map some ++ rest)
          (.mapping_start a tg i s)
        = .ok ({ type := some (ymx_create_int_scalar YMX_NODE_TYPE_MAPPING),
                 value := if pairs.length ≠ 0 then
                     some (.struct [2, pairs.length] YMX_NODE_FIELD_STRS
                       (nodes.map (fun kv => [kv.1.fields, kv.2.fields])).flatten)
                   else none,
                 tag := some (mxCreateString (tg.getD [63])),
                 anchor := a.map mxCreateString,
                 implicit := some (ymx_create_int_scalar i),
                 style := some (ymx_create_int_scalar s) }, rest) := by
  refine ⟨pairs.map (fun p => (p.1.loaded, p.2.loaded)), by simp, ?_, ?_⟩
  · intro j k v hkv
    refine ⟨k.loaded, v.loaded, by simp [hkv], ?_, ?_⟩
    · intro fuel' rest' h
      exact ymx_load_node_subtree k fuel' rest' h
    · intro fuel' rest' h
      exact ymx_load_node_subtree v fuel' rest' h
  · have h := ymx_load_node_subtree (.mapping a tg i s pairs) fuel rest
      (by simp [yaml_subtree.events, yaml_subtree.rest]; omega)
    rw [← yaml_subtree.loaded_pairs_eq]
    exact h

set_option maxRecDepth 20000 in
/-- The premise of `C8_sequence_loading` holds for a sequence of 130 alias
children, two more than one chunk of the accumulation buffer. -/
theorem C8_sequence_loading_witness :
    2 * (yaml_subtree.events_items (List.replicate 130 (.alias [120]))).length + 4 ≤ 264
    ∧ ∃ nodes : List ymx_node_t,
      nodes.length = (List.replicate 130 (yaml_subtree.alias [120])).length
      ∧ (∀ (j : Nat) (c : yaml_subtree),
          (List.replicate 130 (yaml_subtree.alias [120]))[j]? = some c →
          ∃ nj, nodes[j]? = some nj
            ∧ ∀ (fuel' : Nat) (rest' : yaml_parser_t), 2 * c.events.length ≤ fuel' →
              ymx_load_node fuel' {} (c.rest.map some ++ rest') c.first = .ok (nj, rest'))
      ∧ ymx_load_node 264 {}
          ((yaml_subtree.events_items (List.replicate 130 (.alias [120]))
              ++ [yaml_event_t.sequence_end]).map some ++ [some (.document_end 1), some .stream_end])
          (.sequence_start none none 1 2)
        = .ok ({ type := some (ymx_create_int_scalar YMX_NODE_TYPE_SEQUENCE),
                 value := if (List.replicate 130 (yaml_subtree.alias [120])).length ≠ 0 then
                     some (.struct [1, (List.replicate 130 (yaml_subtree.alias [120])).length]
                       YMX_NODE_FIELD_STRS (nodes.map ymx_node_t.fields))
                   else none,
                 tag := some (mxCreateString ((none : Option c_string).getD [63])),
                 anchor := (none : Option c_string).map mxCreateString,
                 implicit := some (ymx_create_int_scalar 1),
                 style := some (ymx_create_int_scalar 2) },
               [some (.document_end 1), some .stream_end]) :=
  ⟨by decide,
    C8_sequence_loading none none 1 2 (List.replicate 130 (.alias [120])) 264
      [some (.document_end 1), some .stream_end] (by decide)⟩

/-- The premise of `C9_mapping_loading` holds for a mapping with a duplicate
scalar key and a sequence as a key. -/
theorem C9_mapping_loading_witness :
    2 * (yaml_subtree.events_pairs
          [(.scalar none none (some [97]) 1 1 0 1, .scalar none none (some [49]) 1 1 0 1),
           (.scalar none none (some [97]) 1 1 0 1, .scalar none none (some [50]) 1 1 0 1),
           (.sequence none none 1 2 [], .alias [120])]).length + 4 ≤ 20
    ∧ ∃ nodes : List (ymx_node_t × ymx_node_t),
      nodes.length = 3
      ∧ ymx_load_node 20 {}
          ((yaml_subtree.events_pairs
              [(.scalar none none (some [97]) 1 1 0 1, .scalar none none (some [49]) 1 1 0 1),
               (.scalar none none (some [97]) 1 1 0 1, .scalar none none (some [50]) 1 1 0 1),
               (.sequence none none 1 2 [], .alias [120])]
              ++ [yaml_event_t.mapping_end]).map some ++ [])
          (.mapping_start none none 1 2)
        = .ok ({ type := some (ymx_create_int_scalar YMX_NODE_TYPE_MAPPING),
                 value := some (.struct [2, 3] YMX_NODE_FIELD_STRS
                       (nodes.map (fun kv => [kv.1.fields, kv.2.fields])).flatten),
                 tag := some (mxCreateString [63]),
                 anchor := none,
                 implicit := some (ymx_create_int_scalar 1),
                 style := some (ymx_create_int_scalar 2) }, []) := by
  refine ⟨by decide, ?_⟩
  obtain ⟨nodes, hlen, _, hload⟩ := C9_mapping_loading none none 1 2
    [(.scalar none none (some [97]) 1 1 0 1, .scalar none none (some [49]) 1 1 0 1),
     (.scalar none none (some [97]) 1 1 0 1, .scalar none none (some [50]) 1 1 0 1),
     (.sequence none none 1 2 [], .alias [120])] 20 [] (by decide)
  exact ⟨nodes, hlen, hload⟩

/-! ## Documents and streams -/

/-- The loop of `ymx_load_document` over the tag directives fills the blank
elements in order. -/
theorem ymx_set_tagdirs_struct (d : List Nat) (names : List String)
    (todo : List yaml_tag_directive_t) :
    ∀ (pre : List (List (Option mxArray))),
      ymx_set_tagdirs (.struct d names (pre ++ List.replicate todo.length [none, none]))
          pre.length todo
        = .struct d names (pre ++ ymx_tagdirs_elems todo) := by
  induction todo with
  | nil => intro pre; simp [ymx_set_tagdirs, ymx_tagdirs_elems]
  | cons t ts ih =>
    intro pre
    simp only [List.length_cons, ymx_set_tagdirs, List.replicate_succ,
      mxSetFieldByNumber_struct]
    have h2 := ih (pre ++ [[some (mxCreateString t.handle), some (mxCreateString t.pfx)]])
    simp only [List.length_append, List.length_singleton, List.append_assoc,
      List.singleton_append] at h2
    simpa [ymx_tagdirs_elems, YMX_TAGDIR_FIELD_HANDLE, YMX_TAGDIR_FIELD_PREFIX] using h2

/-- The loop of `ymx_load_stream` that fills the document array. -/
theorem ymx_set_docs_struct (d : List Nat) (names : List String)
    (todo : List ymx_document_t) :
    ∀ (pre : List (List (Option mxArray))),
      ymx_set_docs
          (.struct d names (pre ++ List.replicate todo.length [none, none, none, none, none]))
          pre.length todo
        = .struct d names (pre ++ todo.map ymx_document_t.fields) := by
  induction todo with
  | nil => intro pre; simp [ymx_set_docs]
  | cons t ts ih =>
    intro pre
    simp only [List.length_cons, ymx_set_docs, List.replicate_succ,
      mxSetFieldByNumber_struct]
    have h2 := ih (pre ++ [t.fields])
    simp only [List.length_append, List.length_singleton, List.append_assoc,
      List.singleton_append] at h2
    simpa [ymx_document_t.fields, YMX_DOC_FIELD_ROOT, YMX_DOC_FIELD_VERSION,
      YMX_DOC_FIELD_TAGDIRS, YMX_DOC_FIELD_START_IMPLICIT, YMX_DOC_FIELD_END_IMPLICIT] using h2

/-- The loader on a grammatical document: with the events of `d` at the head of
the source, `ymx_load_document` returns the record `d.loaded` and leaves the
events after the document end. -/
theorem ymx_load_document_grammatical (d : yaml_document) (fuel : Nat) (rest : yaml_parser_t)
    (hfuel : 2 * d.root.events.length ≤ fuel) :
    ymx_load_document fuel {} (d.rest.map some ++ rest) d.first = .ok (d.loaded, rest) := by
  have hload := ymx_load_node_subtree d.root fuel
    (some (yaml_event_t.document_end d.end_implicit) :: rest) hfuel
  have htd := ymx_set_tagdirs_struct [1, d.tag_directives.length] YMX_TAGDIR_FIELD_STRS
    d.tag_directives []
  simp only [List.nil_append, List.length_nil] at htd
  have hroot := ymx_set_node_fields_struct [1, 1] YMX_NODE_FIELD_STRS [] [] d.root.loaded
    none none none none none none
  simp only [List.nil_append, List.length_nil] at hroot
  simp only [yaml_document.first, yaml_document.rest, yaml_subtree.events, ymx_load_document,
    List.cons_append, List.map_cons, List.map_append, List.append_assoc, ymx_parse,
    List.map_nil, List.nil_append, hload, yaml_document.loaded]
  have hblank : mxCreateStructMatrix 1 1 YMX_NODE_FIELD_STRS
      = .struct [1, 1] YMX_NODE_FIELD_STRS [[none, none, none, none, none, none]] := rfl
  have hblank2 : mxCreateStructMatrix 1 d.tag_directives.length YMX_TAGDIR_FIELD_STRS
      = .struct [1, d.tag_directives.length] YMX_TAGDIR_FIELD_STRS
          (List.replicate d.tag_directives.length [none, none]) := by
    simp [mxCreateStructMatrix, YMX_TAGDIR_FIELD_STRS]
  rw [hblank, hroot, hblank2, htd]
  cases d.version_directive <;> split_ifs <;> rfl

/-- C10. Document metadata capture: on a document start event followed by the
events of the root subtree and a document end event, `ymx_load_document` returns
a document whose version is the 1-by-2 int32 array (major, minor) of the version
directive, absent when the event has none; whose tag directives are the
(handle, prefix) pairs of the event in the same order and number (no array for
none); whose start_implicit is the implicit flag of the document start event and
whose end_implicit is the implicit flag of that document end event. -/
theorem C10_document_metadata (version_directive : Option yaml_version_directive_t)
    (tag_directives : List yaml_tag_directive_t) (start_implicit end_implicit : Int)
    (root : yaml_subtree) (fuel : Nat) (rest : yaml_parser_t)
    (hfuel : 2 * root.events.length ≤ fuel) :
    ∃ doc, ymx_load_document fuel {}
          ((root.events ++ [yaml_event_t.document_end end_implicit]).map some ++ rest)
          (.document_start version_directive tag_directives start_implicit)
        = .ok (doc, rest)
      ∧ doc.version = (match version_directive with
          | some v => some (.int32 [1, 2] [v.major, v.minor])
          | none => none)
      ∧ doc.tagdirs = (if tag_directives.length ≠ 0 then
            some (.struct [1, tag_directives.length] YMX_TAGDIR_FIELD_STRS
              (tag_directives.map
                (fun d => [some (mxCreateString d.handle), some (mxCreateString d.pfx)])))
          else none)
      ∧ doc.start_implicit = some (.logical [1, 1] [start_implicit != 0])
      ∧ doc.end_implicit = some (.logical [1, 1] [end_implicit != 0]) :=
  ⟨_, ymx_load_document_grammatical
      { version_directive := version_directive, tag_directives := tag_directives,
        start_implicit := start_implicit, root := root, end_implicit := end_implicit }
      fuel rest hfuel, rfl, rfl, rfl, rfl⟩

/-- The premise of `C10_document_metadata` holds for a document with the
directives `%YAML 1.1` and `%TAG !e! tag:e:` around the scalar "a". -/
theorem C10_document_metadata_witness :
    2 * (yaml_subtree.scalar none none (some [97]) 1 1 0 1).events.length ≤ 2
    ∧ ∃ doc, ymx_load_document 2 {}
          (((yaml_subtree.scalar none none (some [97]) 1 1 0 1).events
              ++ [yaml_event_t.document_end 1]).map some ++ [some .stream_end])
          (.document_start (some { major := 1, minor := 1 })
            [{ handle := [33, 101, 33], pfx := [116, 97, 103, 58, 101, 58] }] 0)
        = .ok (doc, [some .stream_end])
      ∧ doc.version = some (.int32 [1, 2] [1, 1])
      ∧ doc.tagdirs = some (.struct [1, 1] YMX_TAGDIR_FIELD_STRS
          [[some (mxCreateString [33, 101, 33]),
            some (mxCreateString [116, 97, 103, 58, 101, 58])]])
      ∧ doc.start_implicit = some (.logical [1, 1] [false])
      ∧ doc.end_implicit = some (.logical [1, 1] [true]) :=
  ⟨by decide,
    C10_document_metadata (some { major := 1, minor := 1 })
      [{ handle := [33, 101, 33], pfx := [116, 97, 103, 58, 101, 58] }] 0 1
      (.scalar none none (some [97]) 1 1 0 1) 2 [some .stream_end] (by decide)⟩

/-- One turn of the loop of `ymx_load_stream` on an event that is no stream
end. -/
theorem ymx_load_stream_loop_step (fuel : Nat) (raw_docs : List ymx_document_t)
    (parser : yaml_parser_t) (event : yaml_event_t) (h : event ≠ .stream_end) :
    ymx_load_stream_loop (fuel + 1) raw_docs parser event =
      (match ymx_load_document fuel {} parser event with
        | .error msg => .error msg
        | .diverge => .diverge
        | .ok (doc, parser) =>
          match ymx_parse parser with
          | .error msg => .error msg
          | .diverge => .diverge
          | .ok (event, parser) => ymx_load_stream_loop fuel (raw_docs ++ [doc]) parser event) := by
  cases event <;> first
    | exact absurd rfl h
    | rfl

theorem yaml_document.events_docs_length (ds : List yaml_document) :
    ds.length ≤ (yaml_document.events_docs ds).length := by
  induction ds with
  | nil => simp [yaml_document.events_docs]
  | cons d ds ih =>
    simp [yaml_document.events_docs, yaml_document.events]
    omega

/-- The loop of `ymx_load_stream` over the events of the grammatical documents
`ds`: it loads them in order and goes on, with `ds.length` units of fuel less,
at the event `ev'` that follows them. -/
theorem ymx_load_stream_loop_docs (ds : List yaml_document) :
    ∀ (raw_docs : List ymx_document_t) (fuel : Nat) (ev' : yaml_event_t)
      (parser' : yaml_parser_t) (ev : yaml_event_t) (tl : List yaml_event_t),
      2 * (yaml_document.events_docs ds).length ≤ fuel →
      yaml_document.events_docs ds ++ [ev'] = ev :: tl →
      ymx_load_stream_loop (fuel + ds.length) raw_docs (tl.map some ++ parser') ev
        = ymx_load_stream_loop fuel (raw_docs ++ ds.map yaml_document.loaded) parser' ev' := by
  induction ds with
  | nil =>
    intro raw_docs fuel ev' parser' ev tl _ hev
    simp only [yaml_document.events_docs, List.nil_append, List.cons.injEq] at hev
    obtain ⟨rfl, rfl⟩ := hev
    simp
  | cons d ds ih =>
    intro raw_docs fuel ev' parser' ev tl hfuel hev
    simp only [yaml_document.events_docs, yaml_document.events, List.cons_append,
      List.append_assoc, List.cons.injEq] at hev
    obtain ⟨rfl, rfl⟩ := hev
    have hlen : (yaml_document.events_docs (d :: ds)).length
        = d.root.events.length + 2 + (yaml_document.events_docs ds).length := by
      simp [yaml_document.events_docs, yaml_document.events, yaml_document.rest]
      omega
    obtain ⟨ev2, tl2, hsplit⟩ : ∃ ev2 tl2,
        yaml_document.events_docs ds ++ [ev'] = ev2 :: tl2 := by
      cases h : yaml_document.events_docs ds ++ [ev'] with
      | nil => simp at h
      | cons x y => exact ⟨x, y, rfl⟩
    have hdoc := ymx_load_document_grammatical d (fuel + ds.length)
      (some ev2 :: (tl2.map some ++ parser')) (by omega)
    have hne : d.first ≠ yaml_event_t.stream_end := by simp [yaml_document.first]
    rw [List.length_cons, ← Nat.add_assoc, ymx_load_stream_loop_step _ _ _ _ hne]
    simp only [List.map_append, List.append_assoc, hsplit, List.map_cons, List.cons_append,
      hdoc, ymx_parse]
    rw [ih (raw_docs ++ [d.loaded]) fuel ev' parser' ev2 tl2 (by omega) hsplit]
    simp

/-- The loader on a grammatical stream: it returns the array of the documents
of the stream, in order (null for a stream without document). -/
theorem ymx_load_stream_grammatical (docs : List yaml_document) (rest : yaml_parser_t) :
    ymx_load_stream ((yaml_stream_events docs).map some ++ rest)
      = .ok (ymx_docs_array (docs.map yaml_document.loaded)) := by
  obtain ⟨ev, tl, hsplit⟩ : ∃ ev tl,
      yaml_document.events_docs docs ++ [yaml_event_t.stream_end] = ev :: tl := by
    cases h : yaml_document.events_docs docs ++ [yaml_event_t.stream_end] with
    | nil => simp at h
    | cons x y => exact ⟨x, y, rfl⟩
  have hlen := yaml_document.events_docs_length docs
  have hl2 : (yaml_document.events_docs docs).length + 1 = tl.length + 1 := by
    have := congrArg List.length hsplit
    simpa using this
  obtain ⟨f, hf⟩ : ∃ f, 3 * ((yaml_stream_events docs).map some ++ rest).length + 3
      = (f + 1) + docs.length := by
    refine ⟨3 * ((yaml_stream_events docs).map some ++ rest).length + 2 - docs.length, ?_⟩
    simp [yaml_stream_events]
    omega
  have hf2 : 2 * (yaml_document.events_docs docs).length ≤ f + 1 := by
    simp [yaml_stream_events] at hf
    omega
  have hloop := ymx_load_stream_loop_docs docs [] (f + 1) .stream_end rest ev tl hf2 hsplit
  simp only [ymx_load_stream, hf]
  simp only [yaml_stream_events, List.map_cons, List.cons_append, ymx_parse, hsplit,
    List.map_append, List.append_assoc, hloop, List.nil_append, ymx_load_stream_loop]
  have hset := ymx_set_docs_struct [1, docs.length] YMX_DOC_FIELD_STRS
    (docs.map yaml_document.loaded) []
  simp only [List.nil_append, List.length_nil, List.length_map] at hset
  have hblank : mxCreateStructMatrix 1 docs.length YMX_DOC_FIELD_STRS
      = .struct [1, docs.length] YMX_DOC_FIELD_STRS
          (List.replicate docs.length [none, none, none, none, none]) := by
    simp [mxCreateStructMatrix, YMX_DOC_FIELD_STRS]
  simp only [List.length_map, hblank, hset, ymx_docs_array]
  split_ifs <;> rfl

/-- The loader on a stream that starts with the grammatical documents `docs`:
an abort of the stream loop at the event `ev'` that follows them is an abort of
the load. -/
theorem ymx_load_stream_after_docs (docs : List yaml_document) (ev' : yaml_event_t)
    (parser' : yaml_parser_t) :
    ∃ f, 3 * parser'.length + 3 ≤ f ∧
      ∀ msg, ymx_load_stream_loop (f + 1) (docs.map yaml_document.loaded) parser' ev'
          = .error msg →
        ymx_load_stream
            ((yaml_event_t.stream_start :: (yaml_document.events_docs docs ++ [ev'])).map some
              ++ parser')
          = .error msg := by
  obtain ⟨ev, tl, hsplit⟩ : ∃ ev tl, yaml_document.events_docs docs ++ [ev'] = ev :: tl := by
    cases h : yaml_document.events_docs docs ++ [ev'] with
    | nil => simp at h
    | cons x y => exact ⟨x, y, rfl⟩
  have hlen := yaml_document.events_docs_length docs
  refine ⟨3 * (yaml_document.events_docs docs).length + 3 * parser'.length + 8 - docs.length,
    by omega, ?_⟩
  intro msg hmsg
  have hF : 3 * ((yaml_event_t.stream_start :: (yaml_document.events_docs docs ++ [ev'])).map
        some ++ parser').length + 3
      = (3 * (yaml_document.events_docs docs).length + 3 * parser'.length + 8 - docs.length + 1)
        + docs.length := by
    simp
    omega
  have hloop := ymx_load_stream_loop_docs docs []
    (3 * (yaml_document.events_docs docs).length + 3 * parser'.length + 8 - docs.length + 1)
    ev' parser' ev tl (by omega) hsplit
  simp only [ymx_load_stream, hF]
  simp only [List.map_cons, List.cons_append, ymx_parse, hsplit, hloop, List.nil_append, hmsg]

/-- C2 (counterexample). The event sequence StreamStart, DocumentStart,
DocumentEnd, DocumentEnd, StreamEnd departs from the grammar (a document end
stands where the root node is expected), yet the load returns no error: it
returns one document whose root node has all six members unset. -/
theorem C2_grammar_errors_counterexample :
    (¬ ∃ docs, [yaml_event_t.stream_start, .document_start none [] 1, .document_end 0,
        .document_end 1, .stream_end] = yaml_stream_events docs)
    ∧ ymx_load_stream ([yaml_event_t.stream_start, .document_start none [] 1, .document_end 0,
        .document_end 1, .stream_end].map some)
      = .ok (some (.struct [1, 1] YMX_DOC_FIELD_STRS
          [[some (.struct [1, 1] YMX_NODE_FIELD_STRS [[none, none, none, none, none, none]]),
            none, none, some (.logical [1, 1] [true]), some (.logical [1, 1] [true])]])) := by
  constructor
  · rintro ⟨docs, h⟩
    cases docs with
    | nil => simp [yaml_stream_events, yaml_document.events_docs] at h
    | cons d ds =>
      simp only [yaml_stream_events, yaml_document.events_docs, yaml_document.events,
        yaml_document.rest, yaml_subtree.events, List.cons_append, List.cons.injEq,
        true_and] at h
      obtain ⟨_, h3, _⟩ := h
      cases hroot : d.root <;> simp [hroot, yaml_subtree.first] at h3
  · decide

/-! ## Dumping a mapping whose pairs payload is malformed -/

/-- A 2-by-N array has an even number of elements. -/
theorem mxGetNumberOfElements_even_of_two_rows (value : mxArray)
    (h1 : mxGetNumberOfDimensions value = 2) (h2 : mxGetM value = 2) :
    mxGetNumberOfElements value % 2 = 0 := by
  unfold mxGetNumberOfDimensions at h1
  unfold mxGetM at h2
  unfold mxGetNumberOfElements
  match hd : value.dims, h1, h2 with
  | [a, b], _, h2 =>
    simp only [List.headD_cons] at h2
    subst h2
    simp [List.prod_cons]

/-- `ymx_dump_mapping` on a non-empty value that is no 2-row node array: the
mapping start event is emitted first, the value is checked after it. -/
theorem ymx_dump_mapping_invalid (fuel : Nat) (emitter : yaml_emitter_t) (st : ymx_dump_state)
    (value : mxArray) (tag anchor : Option c_string) (implicit style : Int)
    (hne : mxIsEmpty value = false)
    (hbad : ymx_is_valid_node_array value = false ∨ mxGetNumberOfDimensions value ≠ 2
      ∨ mxGetM value ≠ 2) :
    ymx_dump_mapping (fuel + 1) emitter st (some value) tag anchor implicit style
      = (match ymx_emit emitter st (.mapping_start anchor tag implicit style) with
         | .ok _ st1 => .error "Invalid mapping node array" st1
         | r => r) := by
  have hcond : (!ymx_is_valid_node_array value || mxGetNumberOfDimensions value != 2
      || mxGetM value != 2) = true := by
    rcases hbad with h | h | h <;> simp [h]
  simp only [ymx_dump_mapping, hne, hcond, Bool.not_false, if_true]

/-- `ymx_dump_node` on a mapping node (type 3, tag and anchor acceptable) whose
non-empty value is no 2-row node array, which covers every value with an odd
number of elements: the mapping start event is handed to the emitter first; if
the emitter takes it, the call `ymx_error("Invalid mapping node array")` is
made, and at that moment the mapping start is the one event emitted for the
node. -/
theorem ymx_dump_node_mapping_invalid (fuel : Nat) (emitter : yaml_emitter_t)
    (st : ymx_dump_state) (node : mxArray) (ind : Nat) (tag anchor : Option c_string)
    (type value : mxArray)
    (htag : ymx_assemble_string (mxGetFieldByNumber node ind YMX_NODE_FIELD_TAG) = some tag)
    (hanchor : ymx_assemble_string (mxGetFieldByNumber node ind YMX_NODE_FIELD_ANCHOR)
      = some anchor)
    (htype : mxGetFieldByNumber node ind YMX_NODE_FIELD_TYPE = some type)
    (hvalid : ymx_is_valid_int_scalar type = true)
    (hmapping : ymx_get_int_scalar type = YMX_NODE_TYPE_MAPPING)
    (hvalue : mxGetFieldByNumber node ind YMX_NODE_FIELD_VALUE = some value)
    (hne : mxIsEmpty value = false)
    (hbad : ymx_is_valid_node_array value = false ∨ mxGetNumberOfDimensions value ≠ 2
      ∨ mxGetM value ≠ 2 ∨ mxGetNumberOfElements value % 2 = 1) :
    ∃ (implicit style : Int) (st0 : ymx_dump_state),
      st0.emitted = st.emitted
      ∧ ymx_dump_node (fuel + 2) emitter st node ind
        = (match ymx_emit emitter st0 (.mapping_start anchor tag implicit style) with
           | .ok _ st1 => .error "Invalid mapping node array" st1
           | r => r)
      ∧ ∀ st1, ymx_emit emitter st0 (.mapping_start anchor tag implicit style) = .ok () st1 →
          ymx_dump_node (fuel + 2) emitter st node ind
            = .error "Invalid mapping node array" st1
          ∧ st1.emitted = st.emitted ++ [.mapping_start anchor tag implicit style] := by
  have hbad' : ymx_is_valid_node_array value = false ∨ mxGetNumberOfDimensions value ≠ 2
      ∨ mxGetM value ≠ 2 := by
    rcases hbad with h | h | h | h
    · exact Or.inl h
    · exact Or.inr (Or.inl h)
    · exact Or.inr (Or.inr h)
    · by_cases h1 : mxGetNumberOfDimensions value = 2
      · by_cases h2 : mxGetM value = 2
        · have := mxGetNumberOfElements_even_of_two_rows value h1 h2
          omega
        · exact Or.inr (Or.inr h2)
      · exact Or.inr (Or.inl h1)
  have key : ∀ (implicit style : Int) (st0 : ymx_dump_state), st0.emitted = st.emitted →
      ymx_dump_node (fuel + 2) emitter st node ind
        = ymx_dump_mapping (fuel + 1) emitter st0 (some value) tag anchor implicit style →
      ∃ (implicit style : Int) (st0 : ymx_dump_state),
      st0.emitted = st.emitted
      ∧ ymx_dump_node (fuel + 2) emitter st node ind
        = (match ymx_emit emitter st0 (.mapping_start anchor tag implicit style) with
           | .ok _ st1 => .error "Invalid mapping node array" st1
           | r => r)
      ∧ ∀ st1, ymx_emit emitter st0 (.mapping_start anchor tag implicit style) = .ok () st1 →
          ymx_dump_node (fuel + 2) emitter st node ind
            = .error "Invalid mapping node array" st1
          ∧ st1.emitted = st.emitted ++ [.mapping_start anchor tag implicit style] := by
    intro implicit style st0 hst0 hdump
    rw [ymx_dump_mapping_invalid fuel emitter st0 value tag anchor implicit style hne hbad']
      at hdump
    refine ⟨implicit, style, st0, hst0, hdump, ?_⟩
    intro st1 hst1
    rw [hdump, hst1]
    exact ⟨rfl, by rw [(ymx_emit_ok _ _ _ _ hst1).1, hst0]⟩
  have hsel : ∀ (implicit style : Int) (st0 : ymx_dump_state),
      (if ymx_get_int_scalar type = YMX_NODE_TYPE_SCALAR then
          ymx_dump_scalar emitter st0 (some value) tag anchor implicit style
        else if ymx_get_int_scalar type = YMX_NODE_TYPE_SEQUENCE then
          ymx_dump_sequence (fuel + 1) emitter st0 (some value) tag anchor implicit style
        else if ymx_get_int_scalar type = YMX_NODE_TYPE_MAPPING then
          ymx_dump_mapping (fuel + 1) emitter st0 (some value) tag anchor implicit style
        else if ymx_get_int_scalar type = YMX_NODE_TYPE_ALIAS then
          ymx_dump_alias emitter st0 anchor
        else .error "Invalid node type value" st0)
      = ymx_dump_mapping (fuel + 1) emitter st0 (some value) tag anchor implicit style := by
    intro implicit style st0
    simp [hmapping, YMX_NODE_TYPE_MAPPING, YMX_NODE_TYPE_SCALAR, YMX_NODE_TYPE_SEQUENCE]
  simp only [ymx_dump_node, htag, hanchor, htype, hvalue, hvalid, Bool.not_true,
    Bool.false_eq_true, if_false]
  simp only [ymx_dump_node, htag, hanchor, htype, hvalue, hvalid, Bool.not_true,
    Bool.false_eq_true, if_false] at key
  cases himp : mxGetFieldByNumber node ind YMX_NODE_FIELD_IMPLICIT with
  | none =>
    cases hsty : mxGetFieldByNumber node ind YMX_NODE_FIELD_STYLE with
    | none =>
      simp only [himp, hsty] at key ⊢
      exact key _ _ _ (by rfl) (hsel _ _ _)
    | some sa =>
      simp only [himp, hsty] at key ⊢
      by_cases hs : ymx_is_valid_int_scalar sa = true
      · simp only [hs, if_true] at key ⊢
        exact key _ _ _ (by rfl) (hsel _ _ _)
      · simp only [hs, if_false] at key ⊢
        exact key _ _ _ (by rfl) (hsel _ _ _)
  | some ia =>
    by_cases hi : ymx_is_valid_int_scalar ia = true
    · cases hsty : mxGetFieldByNumber node ind YMX_NODE_FIELD_STYLE with
      | none =>
        simp only [himp, hsty, hi, if_true] at key ⊢
        exact key _ _ _ (by rfl) (hsel _ _ _)
      | some sa =>
        simp only [himp, hsty, hi, if_true] at key ⊢
        by_cases hs : ymx_is_valid_int_scalar sa = true
        · simp only [hs, if_true] at key ⊢
          exact key _ _ _ (by rfl) (hsel _ _ _)
        · simp only [hs, if_false] at key ⊢
          exact key _ _ _ (by rfl) (hsel _ _ _)
    · cases hsty : mxGetFieldByNumber node ind YMX_NODE_FIELD_STYLE with
      | none =>
        simp only [himp, hsty, hi, if_false] at key ⊢
        exact key _ _ _ (by rfl) (hsel _ _ _)
      | some sa =>
        simp only [himp, hsty, hi, if_false] at key ⊢
        by_cases hs : ymx_is_valid_int_scalar sa = true
        · simp only [hs, if_true] at key ⊢
          exact key _ _ _ (by rfl) (hsel _ _ _)
        · simp only [hs, if_false] at key ⊢
          exact key _ _ _ (by rfl) (hsel _ _ _)

/-- C3 (as amended). Malformed mapping on dump: for a mapping node (type 3)
without tag and anchor whose non-empty value is no 2-row node array, which
covers every value with an odd number of elements, `ymx_dump_node` first hands
the mapping start event to the emitter; if the emitter takes it, the dump fails
with the error "Invalid mapping node array" (the start event holds no memory,
so the clean-up of `ymx_error` frees nothing twice), and at that moment the
mapping start is the one event emitted for the node: no event of a child, no
mapping end. -/
theorem C3_malformed_mapping_after_start (fuel : Nat) (emitter : yaml_emitter_t)
    (st : ymx_dump_state) (node : mxArray) (ind : Nat) (type value : mxArray)
    (htag : ymx_assemble_string (mxGetFieldByNumber node ind YMX_NODE_FIELD_TAG) = some none)
    (hanchor : ymx_assemble_string (mxGetFieldByNumber node ind YMX_NODE_FIELD_ANCHOR)
      = some none)
    (htype : mxGetFieldByNumber node ind YMX_NODE_FIELD_TYPE = some type)
    (hvalid : ymx_is_valid_int_scalar type = true)
    (hmapping : ymx_get_int_scalar type = YMX_NODE_TYPE_MAPPING)
    (hvalue : mxGetFieldByNumber node ind YMX_NODE_FIELD_VALUE = some value)
    (hne : mxIsEmpty value = false)
    (hbad : ymx_is_valid_node_array value = false ∨ mxGetNumberOfDimensions value ≠ 2
      ∨ mxGetM value ≠ 2 ∨ mxGetNumberOfElements value % 2 = 1) :
    ∃ (implicit style : Int) (st0 : ymx_dump_state),
      st0.emitted = st.emitted
      ∧ ∀ st1, ymx_emit emitter st0 (.mapping_start none none implicit style) = .ok () st1 →
          ymx_dump_node (fuel + 2) emitter st node ind
            = .error "Invalid mapping node array" st1
          ∧ st1.emitted = st.emitted ++ [.mapping_start none none implicit style]
          ∧ ymx_error st1.persistent_event "Invalid mapping node array"
            = .message "Invalid mapping node array" := by
  obtain ⟨implicit, style, st0, h0, _, h⟩ := ymx_dump_node_mapping_invalid fuel emitter st node
    ind none none type value htag hanchor htype hvalid hmapping hvalue hne hbad
  refine ⟨implicit, style, st0, h0, ?_⟩
  intro st1 h1
  obtain ⟨h2, h3⟩ := h st1 h1
  exact ⟨h2, h3, ymx_error_of_cleanup _ _ (ymx_persistent_cleanup_after st1 _ _ h3 rfl)⟩

/-- C3 (counterexample). The document of `ymx_example_untagged_odd_document` has
as root a mapping node, without tag and anchor, whose value holds one element.
Its dump fails with the error "Invalid mapping node array", but not before any
event of the node: at the abort the mapping start event of the node has been
emitted, after StreamStart and DocumentStart. -/
theorem C3_malformed_mapping_counterexample :
    mxGetNumberOfElements
        ((mxGetFieldByNumber ymx_example_untagged_odd_mapping 0 YMX_NODE_FIELD_VALUE).getD
          (.other []))
      % 2 = 1
    ∧ ymx_dump_stream yaml_emitter_accept_all ymx_example_untagged_odd_document
      = .error "Invalid mapping node array"
          { ymx_dump_state_init with
            emitted := [.stream_start, .document_start none [] 1,
              .mapping_start none none 1 1] }
    ∧ ymx_error (some (.mapping_start none none 1 1)) "Invalid mapping node array"
      = .message "Invalid mapping node array"
    ∧ [yaml_event_t.stream_start, .document_start none [] 1, .mapping_start none none 1 1]
      ≠ [yaml_event_t.stream_start, .document_start none [] 1] := by
  decide

/-- The premises of `C3_malformed_mapping_after_start` hold for the mapping
node of `ymx_example_untagged_odd_mapping`, dumped as the root of a document
after StreamStart and DocumentStart. -/
theorem C3_malformed_mapping_after_start_witness :
    ymx_assemble_string
        (mxGetFieldByNumber ymx_example_untagged_odd_mapping 0 YMX_NODE_FIELD_TAG)
      = some none
    ∧ ymx_assemble_string
        (mxGetFieldByNumber ymx_example_untagged_odd_mapping 0 YMX_NODE_FIELD_ANCHOR)
      = some none
    ∧ mxGetFieldByNumber ymx_example_untagged_odd_mapping 0 YMX_NODE_FIELD_TYPE
      = some (ymx_create_int_scalar YMX_NODE_TYPE_MAPPING)
    ∧ ymx_is_valid_int_scalar (ymx_create_int_scalar YMX_NODE_TYPE_MAPPING) = true
    ∧ ymx_get_int_scalar (ymx_create_int_scalar YMX_NODE_TYPE_MAPPING) = YMX_NODE_TYPE_MAPPING
    ∧ mxIsEmpty (.struct [1, 1] YMX_NODE_FIELD_STRS
        [[some (ymx_create_int_scalar YMX_NODE_TYPE_SCALAR), some (mxCreateString [97]),
          some (mxCreateString [63]), none, some (ymx_create_int_scalar 1),
          some (ymx_create_int_scalar 1)]]) = false
    ∧ ∃ (implicit style : Int) (st0 : ymx_dump_state),
      st0.emitted = [.stream_start, .document_start none [] 1]
      ∧ ∀ st1, ymx_emit yaml_emitter_accept_all st0 (.mapping_start none none implicit style)
          = .ok () st1 →
          ymx_dump_node (3 + 2) yaml_emitter_accept_all
              { ymx_dump_state_init with
                emitted := [.stream_start, .document_start none [] 1] }
              ymx_example_untagged_odd_mapping 0
            = .error "Invalid mapping node array" st1
          ∧ st1.emitted = [.stream_start, .document_start none [] 1]
              ++ [.mapping_start none none implicit style]
          ∧ ymx_error st1.persistent_event "Invalid mapping node array"
            = .message "Invalid mapping node array" :=
  ⟨by decide, by decide, by decide, by decide, by decide, by decide,
    C3_malformed_mapping_after_start 3 yaml_emitter_accept_all
      { ymx_dump_state_init with emitted := [.stream_start, .document_start none [] 1] }
      ymx_example_untagged_odd_mapping 0
      (ymx_create_int_scalar YMX_NODE_TYPE_MAPPING)
      (.struct [1, 1] YMX_NODE_FIELD_STRS
        [[some (ymx_create_int_scalar YMX_NODE_TYPE_SCALAR), some (mxCreateString [97]),
          some (mxCreateString [63]), none, some (ymx_create_int_scalar 1),
          some (ymx_create_int_scalar 1)]])
      (by decide) (by decide) (by decide) (by decide) (by decide) (by decide) (by decide)
      (Or.inr (Or.inr (Or.inl (by decide))))⟩

/-! ## The dumper on the host representation of canonical documents -/

theorem ymx_emit_all_singleton (emitter : yaml_emitter_t) (st : ymx_dump_state)
    (event : yaml_event_t) :
    ymx_emit_all emitter st [event] = ymx_emit emitter st event := by
  simp only [ymx_emit_all]
  cases ymx_emit emitter st event <;> rfl

theorem ymx_emit_all_append (emitter : yaml_emitter_t) (evs1 evs2 : List yaml_event_t) :
    ∀ st, ymx_emit_all emitter st (evs1 ++ evs2)
      = (match ymx_emit_all emitter st evs1 with
         | .ok _ st1 => ymx_emit_all emitter st1 evs2
         | r => r) := by
  induction evs1 with
  | nil => intro st; rfl
  | cons e es ih =>
    intro st
    simp only [List.cons_append, ymx_emit_all]
    cases ymx_emit emitter st e with
    | ok _ st1 => exact ih st1
    | error msg st1 => rfl
    | fault st1 => rfl
    | diverge => rfl

/-- The events a successful run of `ymx_emit_all` has appended. -/
theorem ymx_emit_all_ok (emitter : yaml_emitter_t) (evs : List yaml_event_t) :
    ∀ st st', ymx_emit_all emitter st evs = .ok () st' →
      st'.emitted = st.emitted ++ evs ∧ st'.warnings = st.warnings := by
  induction evs with
  | nil =>
    intro st st' h
    simp only [ymx_emit_all, ymx_dump_result.ok.injEq, true_and] at h
    subst h
    simp
  | cons e es ih =>
    intro st st' h
    simp only [ymx_emit_all] at h
    cases he : ymx_emit emitter st e with
    | ok u st1 =>
      rw [he] at h
      obtain ⟨h1, h2⟩ := ih st1 st' h
      obtain ⟨h3, h4⟩ := ymx_emit_ok emitter st st1 e he
      exact ⟨by rw [h1, h3]; simp, by rw [h2, h4]⟩
    | error msg st1 => rw [he] at h; simp at h
    | fault st1 => rw [he] at h; simp at h
    | diverge => rw [he] at h; simp at h

theorem c_str_of_buffer_eq_self (s : List Nat) (h : s.contains 0 = false) :
    c_str_of_buffer s = s := by
  unfold c_str_of_buffer
  induction s with
  | nil => rfl
  | cons a s ih =>
    simp only [List.contains_cons, Bool.or_eq_false_iff, beq_eq_false_iff_ne, ne_eq] at h
    have ha : (a != 0) = true := by
      simp only [bne_iff_ne, ne_eq]
      exact fun h0 => h.1 h0.symm
    simp only [List.takeWhile_cons, ha, if_true, List.cons.injEq, true_and]
    exact ih h.2

theorem c_str_of_buffer_append_zero (s : List Nat) (h : s.contains 0 = false) :
    c_str_of_buffer (s ++ [0]) = s := by
  unfold c_str_of_buffer
  induction s with
  | nil => rfl
  | cons a s ih =>
    simp only [List.contains_cons, Bool.or_eq_false_iff, beq_eq_false_iff_ne, ne_eq] at h
    have ha : (a != 0) = true := by
      simp only [bne_iff_ne, ne_eq]
      exact fun h0 => h.1 h0.symm
    simp only [List.cons_append, List.takeWhile_cons, ha, if_true, List.cons.injEq, true_and]
    exact ih h.2

theorem host_string_ok_iff (s : List Nat) :
    host_string_ok s = true ↔ s.length ≠ 0 ∧ s.contains 0 = false := by
  simp [host_string_ok]

/-- The steps "Assemble tag"/"Assemble anchor" on a string that survives the
host boundary. -/
theorem ymx_assemble_string_ok (s : List Nat) (h : host_string_ok s = true) :
    ymx_assemble_string (some (mxCreateString s)) = some (some s) := by
  obtain ⟨h1, h2⟩ := (host_string_ok_iff s).mp h
  simp [ymx_assemble_string, mxIsEmpty, mxGetNumberOfElements, mxCreateString, mxArray.dims,
    ymx_is_valid_string, mxIsChar, mxGetNumberOfDimensions, mxGetM, mxGetN, mxArrayToString,
    c_str_of_buffer_eq_self s h2, h1]

theorem ymx_assemble_string_anchor (a : Option (List Nat)) (h : host_anchor_ok a = true) :
    ymx_assemble_string (a.map mxCreateString) = some a := by
  cases a with
  | none => rfl
  | some s => exact ymx_assemble_string_ok s h

theorem ymx_assemble_string_tag (t : Option (List Nat)) (h : host_tag_ok t = true) :
    ymx_assemble_string (t.map mxCreateString) = some t := by
  cases t with
  | none => simp [host_tag_ok] at h
  | some s => exact ymx_assemble_string_ok s h

theorem ymx_is_valid_string_mxCreateString (s : List Nat) :
    ymx_is_valid_string (mxCreateString s) = true := by
  by_cases h : s.length = 0
  · simp [ymx_is_valid_string, mxIsChar, mxCreateString, mxGetNumberOfElements, mxArray.dims, h]
  · simp [ymx_is_valid_string, mxIsChar, mxCreateString, mxGetNumberOfElements, mxArray.dims,
      mxGetNumberOfDimensions, mxGetM, mxGetN, h]

/-- The loop of the dumper over the elements of an array, when the dump of
element `i + j` amounts to emitting the events `evs[j]`. -/
theorem ymx_dump_for_emit_all (emitter : yaml_emitter_t)
    (body : ymx_dump_state → Nat → ymx_dump_result Unit) (evs : List (List yaml_event_t)) :
    ∀ (i : Nat) (st : ymx_dump_state),
      (∀ j, j < evs.length → ∀ st, body st (i + j) = ymx_emit_all emitter st (evs.getD j [])) →
      ymx_dump_for body i evs.length st = ymx_emit_all emitter st evs.flatten := by
  induction evs with
  | nil => intro i st _; rfl
  | cons e es ih =>
    intro i st h
    have h0 := h 0 (by simp) st
    simp only [Nat.add_zero, List.getD_cons_zero] at h0
    simp only [List.length_cons, ymx_dump_for, h0, List.flatten_cons, ymx_emit_all_append]
    cases ymx_emit_all emitter st e with
    | ok u st1 =>
      refine ih (i + 1) st1 ?_
      intro j hj st2
      have := h (j + 1) (by simp; omega) st2
      simpa [Nat.add_assoc, Nat.add_comm 1] using this
    | error msg st1 => rfl
    | fault st1 => rfl
    | diverge => rfl

/-- `ymx_dump_node` on an element whose tag and anchor are acceptable and whose
implicit, style and type members are int32 scalars: no warning, and the
dispatch on the type code. -/
theorem ymx_dump_node_dispatch (fuel : Nat) (emitter : yaml_emitter_t) (st : ymx_dump_state)
    (node : mxArray) (ind : Nat) (tag anchor : Option c_string) (type implicit style : Int)
    (htag : ymx_assemble_string (mxGetFieldByNumber node ind YMX_NODE_FIELD_TAG) = some tag)
    (hanchor : ymx_assemble_string (mxGetFieldByNumber node ind YMX_NODE_FIELD_ANCHOR)
      = some anchor)
    (himplicit : mxGetFieldByNumber node ind YMX_NODE_FIELD_IMPLICIT
      = some (ymx_create_int_scalar implicit))
    (hstyle : mxGetFieldByNumber node ind YMX_NODE_FIELD_STYLE
      = some (ymx_create_int_scalar style))
    (htype : mxGetFieldByNumber node ind YMX_NODE_FIELD_TYPE
      = some (ymx_create_int_scalar type)) :
    ymx_dump_node (fuel + 1) emitter st node ind
      = (if type = YMX_NODE_TYPE_SCALAR then
          ymx_dump_scalar emitter st (mxGetFieldByNumber node ind YMX_NODE_FIELD_VALUE)
            tag anchor implicit style
        else if type = YMX_NODE_TYPE_SEQUENCE then
          ymx_dump_sequence fuel emitter st (mxGetFieldByNumber node ind YMX_NODE_FIELD_VALUE)
            tag anchor implicit style
        else if type = YMX_NODE_TYPE_MAPPING then
          ymx_dump_mapping fuel emitter st (mxGetFieldByNumber node ind YMX_NODE_FIELD_VALUE)
            tag anchor implicit style
        else if type = YMX_NODE_TYPE_ALIAS then
          ymx_dump_alias emitter st anchor
        else .error "Invalid node type value" st) := by
  have hv : ∀ x : Int, ymx_is_valid_int_scalar (ymx_create_int_scalar x) = true := by
    intro x; rfl
  have hg : ∀ x : Int, ymx_get_int_scalar (ymx_create_int_scalar x) = x := by
    intro x; rfl
  simp only [ymx_dump_node, htag, hanchor, himplicit, hstyle, htype, hv, hg, if_true,
    Bool.not_true, Bool.false_eq_true, if_false]

/-- `ymx_dump_sequence` on a null value, or on a 1-by-N node array whose
elements dump as the event lists `evs`: the start event, those events, the end
event. -/
theorem ymx_dump_sequence_emit_all (fuel : Nat) (emitter : yaml_emitter_t)
    (st : ymx_dump_state) (value : Option mxArray) (tag anchor : Option c_string)
    (implicit style : Int) (evs : List (List yaml_event_t))
    (hvalue : (value = none ∧ evs = []) ∨
      ∃ v, value = some v ∧ mxIsEmpty v = false ∧ ymx_is_valid_node_array v = true
        ∧ mxGetNumberOfDimensions v = 2 ∧ mxGetM v = 1
        ∧ mxGetNumberOfElements v = evs.length
        ∧ ∀ j, j < evs.length → ∀ st,
            ymx_dump_node fuel emitter st v j = ymx_emit_all emitter st (evs.getD j [])) :
    ymx_dump_sequence (fuel + 1) emitter st value tag anchor implicit style
      = ymx_emit_all emitter st
          (.sequence_start anchor tag implicit style :: (evs.flatten ++ [.sequence_end])) := by
  rw [show yaml_event_t.sequence_start anchor tag implicit style
        :: (evs.flatten ++ [yaml_event_t.sequence_end])
      = [yaml_event_t.sequence_start anchor tag implicit style]
        ++ (evs.flatten ++ [yaml_event_t.sequence_end]) from rfl,
    ymx_emit_all_append, ymx_emit_all_singleton]
  simp only [ymx_dump_sequence]
  cases ymx_emit emitter st (.sequence_start anchor tag implicit style) with
  | error msg st1 => rfl
  | fault st1 => rfl
  | diverge => rfl
  | ok u st1 =>
    simp only [ymx_emit_all_append, ymx_emit_all_singleton]
    rcases hvalue with ⟨rfl, rfl⟩ | ⟨v, rfl, hne, hvalid, hnd, hm, hnum, hbody⟩
    · rfl
    · have hloop := ymx_dump_for_emit_all emitter
        (fun st ind => ymx_dump_node fuel emitter st v ind) evs 0 st1
        (by intro j hj st2; simpa using hbody j hj st2)
      simp only [hne, hvalid, hnd, hm, hnum, hloop, Bool.not_false, Bool.not_true,
        bne_self_eq_false, Bool.or_self, Bool.false_eq_true, if_false, if_true]

/-- `ymx_dump_mapping` on a null value, or on a 2-by-N node array whose
elements dump as the event lists `evs`: the start event, those events, the end
event. -/
theorem ymx_dump_mapping_emit_all (fuel : Nat) (emitter : yaml_emitter_t)
    (st : ymx_dump_state) (value : Option mxArray) (tag anchor : Option c_string)
    (implicit style : Int) (evs : List (List yaml_event_t))
    (hvalue : (value = none ∧ evs = []) ∨
      ∃ v, value = some v ∧ mxIsEmpty v = false ∧ ymx_is_valid_node_array v = true
        ∧ mxGetNumberOfDimensions v = 2 ∧ mxGetM v = 2
        ∧ mxGetNumberOfElements v = evs.length
        ∧ ∀ j, j < evs.length → ∀ st,
            ymx_dump_node fuel emitter st v j = ymx_emit_all emitter st (evs.getD j [])) :
    ymx_dump_mapping (fuel + 1) emitter st value tag anchor implicit style
      = ymx_emit_all emitter st
          (.mapping_start anchor tag implicit style :: (evs.flatten ++ [.mapping_end])) := by
  rw [show yaml_event_t.mapping_start anchor tag implicit style
        :: (evs.flatten ++ [yaml_event_t.mapping_end])
      = [yaml_event_t.mapping_start anchor tag implicit style]
        ++ (evs.flatten ++ [yaml_event_t.mapping_end]) from rfl,
    ymx_emit_all_append, ymx_emit_all_singleton]
  simp only [ymx_dump_mapping]
  cases ymx_emit emitter st (.mapping_start anchor tag implicit style) with
  | error msg st1 => rfl
  | fault st1 => rfl
  | diverge => rfl
  | ok u st1 =>
    simp only [ymx_emit_all_append, ymx_emit_all_singleton]
    rcases hvalue with ⟨rfl, rfl⟩ | ⟨v, rfl, hne, hvalid, hnd, hm, hnum, hbody⟩
    · rfl
    · have hloop := ymx_dump_for_emit_all emitter
        (fun st ind => ymx_dump_node fuel emitter st v ind) evs 0 st1
        (by intro j hj st2; simpa using hbody j hj st2)
      simp only [hne, hvalid, hnd, hm, hnum, hloop, Bool.not_false, Bool.not_true,
        bne_self_eq_false, Bool.or_self, Bool.false_eq_true, if_false, if_true]

theorem Node.host_items_eq (cs : List Node) :
    Node.host_items cs = cs.map (fun c => c.host.fields) := by
  induction cs with
  | nil => rfl
  | cons c cs ih => simp [Node.host_items, ih]

theorem Node.host_pairs_eq (ps : List (Node × Node)) :
    Node.host_pairs ps
      = ((ps.map (fun p => [p.1, p.2])).flatten).map (fun c => c.host.fields) := by
  induction ps with
  | nil => rfl
  | cons p ps ih => obtain ⟨k, v⟩ := p; simp [Node.host_pairs, ih]

theorem Node.subtree_items_eq (cs : List Node) :
    Node.subtree_items cs = cs.map Node.subtree := by
  induction cs with
  | nil => rfl
  | cons c cs ih => simp [Node.subtree_items, ih]

theorem Node.subtree_pairs_eq (ps : List (Node × Node)) :
    Node.subtree_pairs ps = ps.map (fun p => (p.1.subtree, p.2.subtree)) := by
  induction ps with
  | nil => rfl
  | cons p ps ih => obtain ⟨k, v⟩ := p; simp [Node.subtree_pairs, ih]

theorem Node.events_items_subtree (cs : List Node) :
    yaml_subtree.events_items (Node.subtree_items cs)
      = (cs.map (fun c => c.subtree.events)).flatten := by
  induction cs with
  | nil => rfl
  | cons c cs ih =>
    simp [Node.subtree_items, yaml_subtree.events_items, yaml_subtree.events, ih]

theorem Node.events_pairs_subtree (ps : List (Node × Node)) :
    yaml_subtree.events_pairs (Node.subtree_pairs ps)
      = (((ps.map (fun p => [p.1, p.2])).flatten).map (fun c => c.subtree.events)).flatten := by
  induction ps with
  | nil => rfl
  | cons p ps ih =>
    obtain ⟨k, v⟩ := p
    simp [Node.subtree_pairs, yaml_subtree.events_pairs, yaml_subtree.events, ih]

theorem Node.canonical_of_mem_items (cs : List Node) (h : Node.canonical_items cs = true) :
    ∀ c ∈ cs, c.canonical = true := by
  induction cs with
  | nil => intro c hc; simp at hc
  | cons a cs ih =>
    simp only [Node.canonical_items, Bool.and_eq_true] at h
    intro c hc
    rcases List.mem_cons.mp hc with rfl | hc
    · exact h.1
    · exact ih h.2 c hc

theorem Node.canonical_of_mem_pairs (ps : List (Node × Node))
    (h : Node.canonical_pairs ps = true) :
    ∀ c ∈ (ps.map (fun p => [p.1, p.2])).flatten, c.canonical = true := by
  induction ps with
  | nil => intro c hc; simp at hc
  | cons p ps ih =>
    obtain ⟨k, v⟩ := p
    simp only [Node.canonical_pairs, Bool.and_eq_true] at h
    intro c hc
    simp only [List.map_cons, List.flatten_cons, List.cons_append, List.nil_append,
      List.mem_cons] at hc
    rcases hc with rfl | rfl | hc
    · exact h.1.1
    · exact h.1.2
    · exact ih h.2 c hc

theorem mxArray.depth_le_depth_fields (fs : List (Option mxArray)) (v : mxArray)
    (h : some v ∈ fs) : v.depth ≤ mxArray.depth_fields fs := by
  induction fs with
  | nil => simp at h
  | cons a fs ih =>
    rcases List.mem_cons.mp h with rfl | h'
    · simp [mxArray.depth_fields]
    · have := ih h'
      cases a with
      | none => simpa [mxArray.depth_fields] using this
      | some b =>
        simp only [mxArray.depth_fields]
        omega

theorem mxArray.depth_fields_le_depth_elems (es : List (List (Option mxArray)))
    (e : List (Option mxArray)) (h : e ∈ es) :
    mxArray.depth_fields e ≤ mxArray.depth_elems es := by
  induction es with
  | nil => simp at h
  | cons a es ih =>
    rcases List.mem_cons.mp h with rfl | h
    · simp [mxArray.depth_elems]
    · have := ih h
      simp only [mxArray.depth_elems]
      omega

/-- An element of a node array lies one level deeper than the array that
holds it as the value of a node. -/
theorem mxArray.depth_fields_child (L : List Node) (c : Node) (hc : c ∈ L) (d : List Nat)
    (names : List String) (fs : List (Option mxArray))
    (hfs : some (mxArray.struct d names (L.map (fun c => c.host.fields))) ∈ fs) :
    mxArray.depth_fields c.host.fields + 1 ≤ mxArray.depth_fields fs := by
  have h1 := mxArray.depth_le_depth_fields fs _ hfs
  have h2 := mxArray.depth_fields_le_depth_elems (L.map (fun c => c.host.fields))
    c.host.fields (List.mem_map_of_mem _ hc)
  simp only [mxArray.depth] at h1
  omega

theorem ymx_is_valid_node_array_struct (d : List Nat) (elems : List (List (Option mxArray))) :
    ymx_is_valid_node_array (.struct d YMX_NODE_FIELD_STRS elems) = true := by
  rfl

/-- The dump of the elements of a node array that holds the host
representations of the nodes `L`, given the dump of each of them. -/
theorem ymx_dump_node_elements (L : List Node) (fuel : Nat) (emitter : yaml_emitter_t)
    (d : List Nat) (names : List String)
    (ih : ∀ c ∈ L, ∀ (st : ymx_dump_state) (arr : mxArray) (ind : Nat),
      (∀ k, mxGetFieldByNumber arr ind k = c.host.fields.getD k none) →
      ymx_dump_node fuel emitter st arr ind = ymx_emit_all emitter st c.subtree.events) :
    ∀ j, j < (L.map (fun c => c.subtree.events)).length → ∀ st,
      ymx_dump_node fuel emitter st (.struct d names (L.map (fun c => c.host.fields))) j
        = ymx_emit_all emitter st ((L.map (fun c => c.subtree.events)).getD j []) := by
  intro j hj st
  simp only [List.length_map] at hj
  have hget : (L.map (fun c => c.subtree.events)).getD j [] = (L.get ⟨j, hj⟩).subtree.events := by
    simp [List.getD_eq_getElem?_getD, List.getElem?_eq_getElem hj]
  rw [hget]
  refine ih _ (List.get_mem L j hj) st _ j ?_
  intro k
  simp [mxGetFieldByNumber, List.getD_eq_getElem?_getD, List.getElem?_eq_getElem hj]

theorem Node.flat_pairs_length (ps : List (Node × Node)) :
    ((ps.map (fun p => [p.1, p.2])).flatten).length = 2 * ps.length := by
  induction ps with
  | nil => rfl
  | cons p ps ih =>
    simp only [List.map_cons, List.flatten_cons, List.length_append, List.length_cons,
      List.length_nil, ih]
    omega

/-- The dumper on the host representation of a canonical node: the dump of an
array element that holds the node amounts to handing the events of
`n.subtree` to the emitter, in order, up to the first one that fails. -/
theorem ymx_dump_node_host : ∀ (n : Node), n.canonical = true →
    ∀ (fuel : Nat) (emitter : yaml_emitter_t) (st : ymx_dump_state) (arr : mxArray)
      (ind : Nat),
      (∀ k, mxGetFieldByNumber arr ind k = n.host.fields.getD k none) →
      2 * mxArray.depth_fields n.host.fields + 2 ≤ fuel →
      ymx_dump_node fuel emitter st arr ind = ymx_emit_all emitter st n.subtree.events
  | .Scalar value tag implicit anchor style, hcan, fuel, emitter, st, arr, ind, harr, hfuel => by
    obtain ⟨f, rfl⟩ : ∃ f, fuel = f + 1 := ⟨fuel - 1, by omega⟩
    simp only [Node.canonical, Bool.and_eq_true, Bool.not_eq_true'] at hcan
    obtain ⟨⟨hv, ht⟩, ha⟩ := hcan
    have h0 : mxGetFieldByNumber arr ind YMX_NODE_FIELD_TYPE
        = some (ymx_create_int_scalar YMX_NODE_TYPE_SCALAR) := harr _
    have h1 : mxGetFieldByNumber arr ind YMX_NODE_FIELD_VALUE = some (mxCreateString value) :=
      harr _
    have h2 : mxGetFieldByNumber arr ind YMX_NODE_FIELD_TAG = tag.map mxCreateString := harr _
    have h3 : mxGetFieldByNumber arr ind YMX_NODE_FIELD_ANCHOR = anchor.map mxCreateString :=
      harr _
    have h4 : mxGetFieldByNumber arr ind YMX_NODE_FIELD_IMPLICIT
        = some (ymx_create_int_scalar implicit.code) := harr _
    have h5 : mxGetFieldByNumber arr ind YMX_NODE_FIELD_STYLE
        = some (ymx_create_int_scalar style.code) := harr _
    rw [ymx_dump_node_dispatch f emitter st arr ind tag anchor _ _ _
      (by rw [h2]; exact ymx_assemble_string_tag tag ht)
      (by rw [h3]; exact ymx_assemble_string_anchor anchor ha) h4 h5 h0]
    have hval := ymx_is_valid_string_mxCreateString value
    simp only [mxCreateString] at hval
    simp only [if_true, h1, ymx_dump_scalar, hval,
      Bool.not_true, Bool.false_eq_true, if_false, mxArrayToString, mxCreateString,
      c_str_of_buffer_eq_self value hv, Option.getD_some, Node.subtree, yaml_subtree.events,
      yaml_subtree.first, yaml_subtree.rest, ymx_emit_all_singleton]
  | .Alias anchor, hcan, fuel, emitter, st, arr, ind, harr, hfuel => by
    obtain ⟨f, rfl⟩ : ∃ f, fuel = f + 1 := ⟨fuel - 1, by omega⟩
    simp only [Node.canonical] at hcan
    have h0 : mxGetFieldByNumber arr ind YMX_NODE_FIELD_TYPE
        = some (ymx_create_int_scalar YMX_NODE_TYPE_ALIAS) := harr _
    have h2 : mxGetFieldByNumber arr ind YMX_NODE_FIELD_TAG = none := harr _
    have h3 : mxGetFieldByNumber arr ind YMX_NODE_FIELD_ANCHOR = some (mxCreateString anchor) :=
      harr _
    have h4 : mxGetFieldByNumber arr ind YMX_NODE_FIELD_IMPLICIT
        = some (ymx_create_int_scalar 0) := harr _
    have h5 : mxGetFieldByNumber arr ind YMX_NODE_FIELD_STYLE
        = some (ymx_create_int_scalar 0) := harr _
    rw [ymx_dump_node_dispatch f emitter st arr ind none (some anchor) _ _ _
      (by rw [h2]; rfl)
      (by rw [h3]; exact ymx_assemble_string_ok anchor hcan) h4 h5 h0]
    simp [YMX_NODE_TYPE_ALIAS, YMX_NODE_TYPE_SCALAR, YMX_NODE_TYPE_SEQUENCE,
      YMX_NODE_TYPE_MAPPING, ymx_dump_alias, Node.subtree, yaml_subtree.events,
      yaml_subtree.first, yaml_subtree.rest, ymx_emit_all_singleton]
  | .Sequence children tag anchor implicit style, hcan, fuel, emitter, st, arr, ind, harr,
      hfuel => by
    obtain ⟨f, rfl⟩ : ∃ f, fuel = f + 2 := ⟨fuel - 2, by omega⟩
    simp only [Node.canonical, Bool.and_eq_true] at hcan
    obtain ⟨⟨ht, ha⟩, hcs⟩ := hcan
    have h0 : mxGetFieldByNumber arr ind YMX_NODE_FIELD_TYPE
        = some (ymx_create_int_scalar YMX_NODE_TYPE_SEQUENCE) := harr _
    have h1 : mxGetFieldByNumber arr ind YMX_NODE_FIELD_VALUE
        = (Node.Sequence children tag anchor implicit style).host.value := harr _
    have h2 : mxGetFieldByNumber arr ind YMX_NODE_FIELD_TAG = tag.map mxCreateString := harr _
    have h3 : mxGetFieldByNumber arr ind YMX_NODE_FIELD_ANCHOR = anchor.map mxCreateString :=
      harr _
    have h4 : mxGetFieldByNumber arr ind YMX_NODE_FIELD_IMPLICIT
        = some (ymx_create_int_scalar (if implicit then 1 else 0)) := harr _
    have h5 : mxGetFieldByNumber arr ind YMX_NODE_FIELD_STYLE
        = some (ymx_create_int_scalar style.code) := harr _
    rw [ymx_dump_node_dispatch (f + 1) emitter st arr ind tag anchor _ _ _
      (by rw [h2]; exact ymx_assemble_string_tag tag ht)
      (by rw [h3]; exact ymx_assemble_string_anchor anchor ha) h4 h5 h0]
    simp only [YMX_NODE_TYPE_SEQUENCE, YMX_NODE_TYPE_SCALAR, if_true,
      show ¬ ((2 : Int) = 1) by decide, if_false, h1]
    have ih : ∀ c ∈ children, ∀ (st : ymx_dump_state) (arr : mxArray) (ind : Nat),
        (∀ k, mxGetFieldByNumber arr ind k = c.host.fields.getD k none) →
        ymx_dump_node f emitter st arr ind = ymx_emit_all emitter st c.subtree.events := by
      intro c hc st' arr' ind' harr'
      have hne : children.length ≠ 0 := by
        intro h0; rw [List.length_eq_zero.mp h0] at hc; simp at hc
      have hd := mxArray.depth_fields_child children c hc [1, children.length]
        YMX_NODE_FIELD_STRS (Node.Sequence children tag anchor implicit style).host.fields
        (by simp [Node.host, ymx_node_t.fields, hne, Node.host_items_eq])
      exact ymx_dump_node_host c (Node.canonical_of_mem_items children hcs c hc) f emitter st'
        arr' ind' harr' (by omega)
    have hel := ymx_dump_node_elements children f emitter [1, children.length]
      YMX_NODE_FIELD_STRS ih
    rw [ymx_dump_sequence_emit_all f emitter st _ tag anchor _ _
      (children.map (fun c => c.subtree.events))]
    · simp [Node.subtree, yaml_subtree.events, yaml_subtree.first, yaml_subtree.rest,
        Node.events_items_subtree]
    · by_cases hne : children.length = 0
      · left
        have : children = [] := List.length_eq_zero.mp hne
        subst this
        simp [Node.host]
      · right
        refine ⟨.struct [1, children.length] YMX_NODE_FIELD_STRS
            (children.map (fun c => c.host.fields)),
          by simp [Node.host, hne, Node.host_items_eq], ?_,
          ymx_is_valid_node_array_struct _ _, rfl, rfl, ?_, hel⟩
        · simp [mxIsEmpty, mxGetNumberOfElements, mxArray.dims, hne]
        · simp [mxGetNumberOfElements, mxArray.dims]
  | .Mapping pairs tag anchor implicit style, hcan, fuel, emitter, st, arr, ind, harr,
      hfuel => by
    obtain ⟨f, rfl⟩ : ∃ f, fuel = f + 2 := ⟨fuel - 2, by omega⟩
    simp only [Node.canonical, Bool.and_eq_true] at hcan
    obtain ⟨⟨ht, ha⟩, hps⟩ := hcan
    have h0 : mxGetFieldByNumber arr ind YMX_NODE_FIELD_TYPE
        = some (ymx_create_int_scalar YMX_NODE_TYPE_MAPPING) := harr _
    have h1 : mxGetFieldByNumber arr ind YMX_NODE_FIELD_VALUE
        = (Node.Mapping pairs tag anchor implicit style).host.value := harr _
    have h2 : mxGetFieldByNumber arr ind YMX_NODE_FIELD_TAG = tag.map mxCreateString := harr _
    have h3 : mxGetFieldByNumber arr ind YMX_NODE_FIELD_ANCHOR = anchor.map mxCreateString :=
      harr _
    have h4 : mxGetFieldByNumber arr ind YMX_NODE_FIELD_IMPLICIT
        = some (ymx_create_int_scalar (if implicit then 1 else 0)) := harr _
    have h5 : mxGetFieldByNumber arr ind YMX_NODE_FIELD_STYLE
        = some (ymx_create_int_scalar style.code) := harr _
    rw [ymx_dump_node_dispatch (f + 1) emitter st arr ind tag anchor _ _ _
      (by rw [h2]; exact ymx_assemble_string_tag tag ht)
      (by rw [h3]; exact ymx_assemble_string_anchor anchor ha) h4 h5 h0]
    simp only [YMX_NODE_TYPE_SEQUENCE, YMX_NODE_TYPE_SCALAR, YMX_NODE_TYPE_MAPPING, if_true,
      show ¬ ((3 : Int) = 1) by decide, show ¬ ((3 : Int) = 2) by decide, if_false, h1]
    have ih : ∀ c ∈ (pairs.map (fun p => [p.1, p.2])).flatten,
        ∀ (st : ymx_dump_state) (arr : mxArray) (ind : Nat),
        (∀ k, mxGetFieldByNumber arr ind k = c.host.fields.getD k none) →
        ymx_dump_node f emitter st arr ind = ymx_emit_all emitter st c.subtree.events := by
      intro c hc st' arr' ind' harr'
      have hne : pairs.length ≠ 0 := by
        intro h0; rw [List.length_eq_zero.mp h0] at hc; simp at hc
      have hd := mxArray.depth_fields_child _ c hc [2, pairs.length]
        YMX_NODE_FIELD_STRS (Node.Mapping pairs tag anchor implicit style).host.fields
        (by simp [Node.host, ymx_node_t.fields, hne, Node.host_pairs_eq])
      exact ymx_dump_node_host c (Node.canonical_of_mem_pairs pairs hps c hc) f emitter st'
        arr' ind' harr' (by omega)
    have hel := ymx_dump_node_elements _ f emitter [2, pairs.length]
      YMX_NODE_FIELD_STRS ih
    rw [ymx_dump_mapping_emit_all f emitter st _ tag anchor _ _
      (((pairs.map (fun p => [p.1, p.2])).flatten).map (fun c => c.subtree.events))]
    · simp [Node.subtree, yaml_subtree.events, yaml_subtree.first, yaml_subtree.rest,
        Node.events_pairs_subtree]
    · by_cases hne : pairs.length = 0
      · left
        have : pairs = [] := List.length_eq_zero.mp hne
        subst this
        simp [Node.host]
      · right
        refine ⟨.struct [2, pairs.length] YMX_NODE_FIELD_STRS
            (((pairs.map (fun p => [p.1, p.2])).flatten).map (fun c => c.host.fields)),
          by simp [Node.host, hne, Node.host_pairs_eq], ?_,
          ymx_is_valid_node_array_struct _ _, rfl, rfl, ?_, hel⟩
        · simp [mxIsEmpty, mxGetNumberOfElements, mxArray.dims, hne]
        · simp only [mxGetNumberOfElements, mxArray.dims, List.prod_cons, List.prod_nil,
            Nat.mul_one, List.length_map, Node.flat_pairs_length]
termination_by n => sizeOf n
decreasing_by
  all_goals simp_wf
  · have := List.sizeOf_lt_of_mem hc
    omega
  · simp only [List.mem_flatten, List.mem_map] at hc
    obtain ⟨l, ⟨p, hp, rfl⟩, hcl⟩ := hc
    have h1 := List.sizeOf_lt_of_mem hp
    have h2 : sizeOf c < sizeOf p := by
      obtain ⟨k, v⟩ := p
      simp only [List.mem_cons, List.mem_singleton, List.not_mem_nil, or_false] at hcl
      rcases hcl with rfl | rfl
      · simp; omega
      · simp
    omega

/-! ## Loading what the dumper emits -/

/-- The node the loader builds from the events of a canonical node is the
host representation of that node. -/
theorem Node.loaded_subtree : ∀ (n : Node), n.canonical = true → n.subtree.loaded = n.host
  | .Scalar value tag implicit anchor style, hcan => by
    simp only [Node.canonical, Bool.and_eq_true, Bool.not_eq_true'] at hcan
    obtain ⟨⟨hv, ht⟩, _⟩ := hcan
    cases tag with
    | none => simp [host_tag_ok] at ht
    | some t =>
      cases implicit <;>
        simp [Node.subtree, yaml_subtree.loaded, Node.host, List.take_length,
          c_str_of_buffer_append_zero value hv, ScalarImplicit.code,
          YMX_SCALAR_IMPLICIT_FALSE, YMX_SCALAR_IMPLICIT_PLAIN, YMX_SCALAR_IMPLICIT_QUOTED]
  | .Alias anchor, _ => rfl
  | .Sequence children tag anchor implicit style, hcan => by
    simp only [Node.canonical, Bool.and_eq_true] at hcan
    obtain ⟨⟨ht, _⟩, hcs⟩ := hcan
    have ih : ∀ c ∈ children, c.subtree.loaded = c.host := fun c hc =>
      Node.loaded_subtree c (Node.canonical_of_mem_items children hcs c hc)
    have hitems : yaml_subtree.loaded_items (Node.subtree_items children)
        = Node.host_items children := by
      rw [yaml_subtree.loaded_items_eq, Node.subtree_items_eq, Node.host_items_eq,
        List.map_map, List.map_map]
      exact List.map_congr_left (fun c hc => by simp [ih c hc])
    cases tag with
    | none => simp [host_tag_ok] at ht
    | some t =>
      rw [Node.subtree_items_eq] at hitems
      simp [Node.subtree, yaml_subtree.loaded, Node.host, hitems, Node.subtree_items_eq]
      rw [List.length_map]
  | .Mapping pairs tag anchor implicit style, hcan => by
    simp only [Node.canonical, Bool.and_eq_true] at hcan
    obtain ⟨⟨ht, _⟩, hps⟩ := hcan
    have ih : ∀ c ∈ (pairs.map (fun p => [p.1, p.2])).flatten, c.subtree.loaded = c.host :=
      fun c hc => Node.loaded_subtree c (Node.canonical_of_mem_pairs pairs hps c hc)
    have hpairs : yaml_subtree.loaded_pairs (Node.subtree_pairs pairs)
        = Node.host_pairs pairs := by
      clear hps
      induction pairs with
      | nil => rfl
      | cons p ps ihp =>
        obtain ⟨k, v⟩ := p
        have hk := ih k (by simp)
        have hv := ih v (by simp)
        have := ihp (fun c hc => ih c (by simp at hc ⊢; exact Or.inr (Or.inr hc)))
        simp [Node.subtree_pairs, yaml_subtree.loaded_pairs, Node.host_pairs, hk, hv, this]
    cases tag with
    | none => simp [host_tag_ok] at ht
    | some t =>
      rw [Node.subtree_pairs_eq] at hpairs
      simp [Node.subtree, yaml_subtree.loaded, Node.host, hpairs, Node.subtree_pairs_eq]
      rw [List.length_map]
termination_by n => sizeOf n
decreasing_by
  all_goals simp_wf
  · have := List.sizeOf_lt_of_mem hc
    omega
  · simp only [List.mem_flatten, List.mem_map] at hc
    obtain ⟨l, ⟨p, hp, rfl⟩, hcl⟩ := hc
    have h1 := List.sizeOf_lt_of_mem hp
    have h2 : sizeOf c < sizeOf p := by
      obtain ⟨k, v⟩ := p
      simp only [List.mem_cons, List.mem_singleton, List.not_mem_nil, or_false] at hcl
      rcases hcl with rfl | rfl
      · simp; omega
      · simp
    omega

/-- The document record the loader builds from the events of a canonical
document is the host representation of that document. -/
theorem Document.loaded_grammar (d : Document) (hcan : d.canonical = true) :
    d.grammar.loaded = d.host := by
  simp only [Document.canonical, Bool.and_eq_true] at hcan
  have hroot := Node.loaded_subtree d.root hcan.1
  simp only [yaml_document.loaded, Document.grammar, Document.host, hroot, List.length_map,
    ymx_tagdirs_elems, List.map_map, mxCreateLogicalScalar]
  cases d.version <;> cases d.start_implicit <;> cases d.end_implicit <;> rfl

theorem list_map_range_eq_map {α β : Type} (l : List α) (f : Nat → β) (g : α → β)
    (h : ∀ i (hi : i < l.length), f i = g (l.get ⟨i, hi⟩)) :
    (List.range l.length).map f = l.map g := by
  apply List.ext_getElem
  · simp
  · intro i h1 h2
    simp only [List.length_map, List.length_range] at h1
    simp only [List.getElem_map, List.getElem_range]
    exact h i h1

/-- The step "Assemble tag directives" on the host array of directives whose
handles and prefixes survive the host boundary. -/
theorem ymx_assemble_tagdirs_host (tds : List (List Nat × List Nat))
    (h : tds.all (fun hp => host_string_ok hp.1 && host_string_ok hp.2) = true) :
    ymx_assemble_tagdirs
        (if tds.length ≠ 0 then
          some (.struct [1, tds.length] YMX_TAGDIR_FIELD_STRS
            (tds.map (fun hp => [some (mxCreateString hp.1), some (mxCreateString hp.2)])))
        else none)
      = some (tds.map (fun hp => { handle := hp.1, pfx := hp.2 })) := by
  by_cases hlen : tds.length = 0
  · have : tds = [] := List.length_eq_zero.mp hlen
    subst this
    rfl
  · have hmem : ∀ i (hi : i < tds.length),
        host_string_ok (tds.get ⟨i, hi⟩).1 = true ∧ host_string_ok (tds.get ⟨i, hi⟩).2 = true := by
      intro i hi
      have := List.all_eq_true.mp h _ (List.get_mem tds i hi)
      simpa using this
    have hfield : ∀ i (hi : i < tds.length) (k : Nat),
        mxGetFieldByNumber (.struct [1, tds.length] YMX_TAGDIR_FIELD_STRS
            (tds.map (fun hp => [some (mxCreateString hp.1), some (mxCreateString hp.2)]))) i k
          = [some (mxCreateString (tds.get ⟨i, hi⟩).1),
             some (mxCreateString (tds.get ⟨i, hi⟩).2)].getD k none := by
      intro i hi k
      simp [mxGetFieldByNumber, List.getD_eq_getElem?_getD, List.getElem?_eq_getElem hi]
    have hmember : ∀ s : List Nat, host_string_ok s = true →
        ymx_is_valid_tagdir_member (some (mxCreateString s)) = true := by
      intro s hs
      obtain ⟨h1, _⟩ := (host_string_ok_iff s).mp hs
      have hv := ymx_is_valid_string_mxCreateString s
      simp only [ymx_is_valid_tagdir_member, hv]
      simp [mxGetNumberOfElements, mxCreateString, mxArray.dims, h1]
    have hvalid : ymx_is_valid_tagdirs_array (.struct [1, tds.length] YMX_TAGDIR_FIELD_STRS
        (tds.map (fun hp => [some (mxCreateString hp.1), some (mxCreateString hp.2)])))
        = true := by
      simp only [ymx_is_valid_tagdirs_array, mxIsStruct, mxGetNumberOfFields,
        YMX_TAGDIR_FIELD_STRS, YMX_TAGDIR_NUM_FIELDS, List.length_cons, List.length_nil,
        Bool.not_true, Bool.false_eq_true, if_false, bne_self_eq_false,
        mxGetNumberOfElements, mxArray.dims, List.prod_cons, List.prod_nil, Nat.mul_one,
        Nat.one_mul]
      rw [List.all_eq_true]
      intro k hk
      have hk2 : k = 0 ∨ k = 1 := by
        have := List.mem_range.mp hk
        omega
      rw [Bool.and_eq_true]
      refine ⟨by rcases hk2 with rfl | rfl <;> rfl, ?_⟩
      rw [List.all_eq_true]
      intro i hi
      have hi' := List.mem_range.mp hi
      have hf := hfield i hi' k
      simp only [YMX_TAGDIR_FIELD_STRS] at hf
      rw [hf]
      rcases hk2 with rfl | rfl
      · exact hmember _ (hmem i hi').1
      · exact hmember _ (hmem i hi').2
    have hne : mxIsEmpty (.struct [1, tds.length] YMX_TAGDIR_FIELD_STRS
        (tds.map (fun hp => [some (mxCreateString hp.1), some (mxCreateString hp.2)])))
        = false := by
      simp [mxIsEmpty, mxGetNumberOfElements, mxArray.dims, hlen]
    simp only [hlen, ne_eq, not_false_eq_true, if_true, ymx_assemble_tagdirs, hne, hvalid,
      Bool.not_false, Bool.not_true, Bool.false_eq_true, if_false, Option.some.injEq,
      mxGetNumberOfElements, mxArray.dims, List.prod_cons, List.prod_nil, Nat.mul_one,
      Nat.one_mul]
    apply list_map_range_eq_map
    intro i hi
    have h0 := hfield i hi YMX_TAGDIR_FIELD_HANDLE
    have h1 := hfield i hi YMX_TAGDIR_FIELD_PREFIX
    obtain ⟨hs1, hs2⟩ := hmem i hi
    have e1 := c_str_of_buffer_eq_self _ ((host_string_ok_iff _).mp hs1).2
    have e2 := c_str_of_buffer_eq_self _ ((host_string_ok_iff _).mp hs2).2
    simp only [List.get_eq_getElem] at e1 e2
    rw [h0, h1]
    simp [YMX_TAGDIR_FIELD_HANDLE, YMX_TAGDIR_FIELD_PREFIX, mxArrayToString, mxCreateString,
      e1, e2]

/-- The version step on the host array of a version. -/
theorem ymx_assemble_version_host (v : Option (Int × Int)) :
    ymx_assemble_version (v.map (fun v => .int32 [1, 2] [v.1, v.2]))
      = some (v.map (fun v => { major := v.1, minor := v.2 })) := by
  cases v <;> rfl

/-- The dumper on the host representation of a canonical document: the dump
of the element amounts to handing the events of `d.grammar` to the emitter. -/
theorem ymx_dump_document_host (d : Document) (hcan : d.canonical = true) (fuel : Nat)
    (emitter : yaml_emitter_t) (st : ymx_dump_state) (docs_array : mxArray) (ind : Nat)
    (harr : ∀ k, mxGetFieldByNumber docs_array ind k = d.host.fields.getD k none)
    (hfuel : 2 * mxArray.depth_fields d.root.host.fields + 2 ≤ fuel) :
    ymx_dump_document fuel emitter st docs_array ind
      = ymx_emit_all emitter st d.grammar.events := by
  simp only [Document.canonical, Bool.and_eq_true] at hcan
  have h0 : mxGetFieldByNumber docs_array ind YMX_DOC_FIELD_ROOT
      = some (.struct [1, 1] YMX_NODE_FIELD_STRS [d.root.host.fields]) := harr _
  have h1 : mxGetFieldByNumber docs_array ind YMX_DOC_FIELD_VERSION
      = d.version.map (fun v => .int32 [1, 2] [v.1, v.2]) := harr _
  have h2 : mxGetFieldByNumber docs_array ind YMX_DOC_FIELD_TAGDIRS
      = (if d.tag_directives.length ≠ 0 then
          some (.struct [1, d.tag_directives.length] YMX_TAGDIR_FIELD_STRS
            (d.tag_directives.map
              (fun hp => [some (mxCreateString hp.1), some (mxCreateString hp.2)])))
        else none) := harr _
  have h3 : mxGetFieldByNumber docs_array ind YMX_DOC_FIELD_START_IMPLICIT
      = some (.logical [1, 1] [d.start_implicit]) := harr _
  have h4 : mxGetFieldByNumber docs_array ind YMX_DOC_FIELD_END_IMPLICIT
      = some (.logical [1, 1] [d.end_implicit]) := harr _
  have hroot : ymx_is_valid_doc_root
      (some (.struct [1, 1] YMX_NODE_FIELD_STRS [d.root.host.fields])) = true := rfl
  have hnode : ∀ st', ymx_dump_node fuel emitter st'
      (.struct [1, 1] YMX_NODE_FIELD_STRS [d.root.host.fields]) 0
      = ymx_emit_all emitter st' d.root.subtree.events := by
    intro st'
    exact ymx_dump_node_host d.root hcan.1 fuel emitter st' _ 0 (by intro k; rfl) hfuel
  have hl : ∀ b : Bool, mxIsLogicalScalar (.logical [1, 1] [b]) = true := by
    intro b; rfl
  have hg : ∀ b : Bool, mxGetLogicals0 (.logical [1, 1] [b]) = if b then 1 else 0 := by
    intro b; rfl
  simp only [ymx_dump_document, h0, h1, h2, h3, h4, hroot, Bool.not_true, Bool.false_eq_true,
    if_false, ymx_assemble_tagdirs_host d.tag_directives hcan.2, ymx_assemble_version_host,
    hl, hg, if_true, hnode]
  rw [show d.grammar.events
      = [yaml_event_t.document_start d.grammar.version_directive d.grammar.tag_directives
          d.grammar.start_implicit]
        ++ (d.root.subtree.events ++ [yaml_event_t.document_end d.grammar.end_implicit])
      from rfl, ymx_emit_all_append, ymx_emit_all_singleton]
  simp only [Document.grammar]
  cases ymx_emit emitter st (.document_start
      (d.version.map (fun v => { major := v.1, minor := v.2 }))
      (d.tag_directives.map (fun hp => { handle := hp.1, pfx := hp.2 }))
      (if d.start_implicit then 1 else 0)) with
  | error msg st1 => rfl
  | fault st1 => rfl
  | diverge => rfl
  | ok u st1 =>
    simp only [ymx_emit_all_append, ymx_emit_all_singleton]

theorem yaml_document.events_docs_eq_flatten (docs : List yaml_document) :
    yaml_document.events_docs docs = (docs.map yaml_document.events).flatten := by
  induction docs with
  | nil => rfl
  | cons d ds ih => simp only [yaml_document.events_docs, List.map_cons, List.flatten_cons, ih]

theorem ymx_is_valid_doc_array_struct (d : List Nat) (elems : List (List (Option mxArray))) :
    ymx_is_valid_doc_array (.struct d YMX_DOC_FIELD_STRS elems) = true := by
  rfl

/-- The dumper on the host array of canonical documents: the dump amounts to
handing the events of the grammatical stream of these documents to the emitter;
when all are taken, the output string is read from the buffer. -/
theorem ymx_dump_stream_host (docs : List Document) (hcan : ∀ d ∈ docs, d.canonical = true)
    (emitter : yaml_emitter_t) :
    ymx_dump_stream emitter (Document.host_array docs)
      = (match ymx_emit_all emitter ymx_dump_state_init
            (yaml_stream_events (docs.map Document.grammar)) with
         | .ok _ st =>
           (match ymx_buffer_as_string st.buffer with
            | some str => .ok (mxCreateString str) st
            | none => .fault st)
         | .error msg st => .error msg st
         | .fault st => .fault st
         | .diverge => .diverge) := by
  have hdocs : ∀ j, j < (docs.map (fun d => d.grammar.events)).length → ∀ st,
      ymx_dump_document (2 * (Document.host_array docs).depth + 2) emitter st
          (Document.host_array docs) (0 + j)
        = ymx_emit_all emitter st ((docs.map (fun d => d.grammar.events)).getD j []) := by
    intro j hj st
    simp only [List.length_map] at hj
    have hget : (docs.map (fun d => d.grammar.events)).getD j []
        = (docs.get ⟨j, hj⟩).grammar.events := by
      simp [List.getD_eq_getElem?_getD, List.getElem?_eq_getElem hj]
    have hmem := List.get_mem docs j hj
    rw [hget, Nat.zero_add]
    refine ymx_dump_document_host _ (hcan _ hmem) _ emitter st _ j ?_ ?_
    · intro k
      simp [Document.host_array, mxGetFieldByNumber, List.getD_eq_getElem?_getD,
        List.getElem?_eq_getElem hj]
    · have h1 := mxArray.depth_fields_le_depth_elems (docs.map (fun d => d.host.fields))
        (docs.get ⟨j, hj⟩).host.fields (List.mem_map_of_mem _ hmem)
      have h2 := mxArray.depth_le_depth_fields (docs.get ⟨j, hj⟩).host.fields
        (.struct [1, 1] YMX_NODE_FIELD_STRS [(docs.get ⟨j, hj⟩).root.host.fields])
        (by simp [Document.host, ymx_document_t.fields])
      simp only [mxArray.depth, mxArray.depth_elems, Nat.max_zero] at h2
      simp only [Document.host_array, mxArray.depth]
      omega
  have hloop := fun st => ymx_dump_for_emit_all emitter
    (fun st ind => ymx_dump_document (2 * (Document.host_array docs).depth + 2) emitter st
      (Document.host_array docs) ind) (docs.map (fun d => d.grammar.events)) 0 st hdocs
  have hnum : mxGetNumberOfElements (Document.host_array docs)
      = (docs.map (fun d => d.grammar.events)).length := by
    simp [Document.host_array, mxGetNumberOfElements, mxArray.dims]
  have hev : yaml_stream_events (docs.map Document.grammar)
      = [yaml_event_t.stream_start]
        ++ ((docs.map (fun d => d.grammar.events)).flatten ++ [yaml_event_t.stream_end]) := by
    rw [yaml_stream_events, yaml_document.events_docs_eq_flatten, List.map_map]
    rfl
  simp only [ymx_dump_stream, ymx_is_valid_doc_array_struct, Document.host_array,
    Bool.not_true, Bool.false_eq_true, if_false] at *
  rw [hev, ymx_emit_all_append, ymx_emit_all_singleton]
  cases ymx_emit emitter ymx_dump_state_init yaml_event_t.stream_start with
  | error msg st1 => rfl
  | fault st1 => rfl
  | diverge => rfl
  | ok u st1 =>
    simp only [hnum, hloop, ymx_emit_all_append, ymx_emit_all_singleton]
    cases ymx_emit_all emitter st1 (docs.map (fun d => d.grammar.events)).flatten with
    | error msg st2 => rfl
    | fault st2 => rfl
    | diverge => rfl
    | ok u st2 =>
      simp only []
      cases ymx_emit emitter st2 yaml_event_t.stream_end with
      | error msg st3 => rfl
      | fault st3 => rfl
      | diverge => rfl
      | ok u st3 => rfl

/-! ## The host representation determines the document -/

theorem ymx_create_int_scalar_injective (x y : Int)
    (h : ymx_create_int_scalar x = ymx_create_int_scalar y) : x = y := by
  simpa [ymx_create_int_scalar] using h

theorem option_map_mxCreateString_injective (o o' : Option c_string)
    (h : o.map mxCreateString = o'.map mxCreateString) : o = o' := by
  cases o <;> cases o' <;> simp [mxCreateString] at h ⊢
  exact h.2

theorem scalar_implicit_code_injective (a b : ScalarImplicit) (h : a.code = b.code) : a = b := by
  cases a <;> cases b <;> first | rfl | exact absurd h (by decide)

theorem scalar_style_code_injective (a b : ScalarStyle) (h : a.code = b.code) : a = b := by
  cases a <;> cases b <;> first | rfl | exact absurd h (by decide)

theorem collection_style_code_injective (a b : CollectionStyle) (h : a.code = b.code) :
    a = b := by
  cases a <;> cases b <;> first | rfl | exact absurd h (by decide)

theorem bool_code_injective (a b : Bool)
    (h : (if a then (1 : Int) else 0) = (if b then 1 else 0)) : a = b := by
  cases a <;> cases b <;> first | rfl | exact absurd h (by decide)

/-- A payload array is absent for no element; its elements are determined. -/
theorem ymx_payload_injective (rows : Nat) (n m : Nat) (xs ys : List (List (Option mxArray)))
    (hn : n = 0 ↔ xs = []) (hm : m = 0 ↔ ys = [])
    (h : (if n ≠ 0 then some (mxArray.struct [rows, n] YMX_NODE_FIELD_STRS xs) else none)
      = (if m ≠ 0 then some (mxArray.struct [rows, m] YMX_NODE_FIELD_STRS ys) else none)) :
    xs = ys := by
  by_cases h1 : n = 0 <;> by_cases h2 : m = 0
  · rw [hn.1 h1, hm.1 h2]
  · simp [h1, h2] at h
  · simp [h1, h2] at h
  · simp [h1, h2] at h
    exact h.2

theorem Node.host_items_nil_iff (cs : List Node) : cs.length = 0 ↔ Node.host_items cs = [] := by
  cases cs <;> simp [Node.host_items]

theorem Node.host_pairs_nil_iff (ps : List (Node × Node)) :
    ps.length = 0 ↔ Node.host_pairs ps = [] := by
  cases ps with
  | nil => simp [Node.host_pairs]
  | cons p ps => obtain ⟨k, v⟩ := p; simp [Node.host_pairs]

mutual

/-- Two nodes of the data model with the same host representation are the
same node. -/
theorem Node.host_fields_injective :
    ∀ (a b : Node), a.host.fields = b.host.fields → a = b
  | .Scalar v t i an s, b => by
    intro h
    cases b with
    | Scalar v' t' i' an' s' =>
      simp only [Node.host, ymx_node_t.fields, List.cons.injEq, Option.some.injEq, and_true,
        true_and] at h
      obtain ⟨hv, ht, ha, hi, hs⟩ := h
      rw [mxCreateString_injective _ _ hv, option_map_mxCreateString_injective _ _ ht,
        option_map_mxCreateString_injective _ _ ha,
        scalar_implicit_code_injective _ _ (ymx_create_int_scalar_injective _ _ hi),
        scalar_style_code_injective _ _ (ymx_create_int_scalar_injective _ _ hs)]
    | Sequence _ _ _ _ _ => simp [Node.host, ymx_node_t.fields, ymx_create_int_scalar,
        YMX_NODE_TYPE_SCALAR, YMX_NODE_TYPE_SEQUENCE] at h
    | Mapping _ _ _ _ _ => simp [Node.host, ymx_node_t.fields, ymx_create_int_scalar,
        YMX_NODE_TYPE_SCALAR, YMX_NODE_TYPE_MAPPING] at h
    | Alias _ => simp [Node.host, ymx_node_t.fields, ymx_create_int_scalar,
        YMX_NODE_TYPE_SCALAR, YMX_NODE_TYPE_ALIAS] at h
  | .Sequence cs t an i s, b => by
    intro h
    cases b with
    | Sequence cs' t' an' i' s' =>
      simp only [Node.host, ymx_node_t.fields, List.cons.injEq, Option.some.injEq, and_true,
        true_and] at h
      obtain ⟨hv, ht, ha, hi, hs⟩ := h
      have hcs := Node.host_items_injective cs cs'
        (ymx_payload_injective 1 _ _ _ _ (Node.host_items_nil_iff cs)
          (Node.host_items_nil_iff cs') hv)
      rw [hcs, option_map_mxCreateString_injective _ _ ht,
        option_map_mxCreateString_injective _ _ ha,
        bool_code_injective _ _ (ymx_create_int_scalar_injective _ _ hi),
        collection_style_code_injective _ _ (ymx_create_int_scalar_injective _ _ hs)]
    | Scalar _ _ _ _ _ => simp [Node.host, ymx_node_t.fields, ymx_create_int_scalar,
        YMX_NODE_TYPE_SCALAR, YMX_NODE_TYPE_SEQUENCE] at h
    | Mapping _ _ _ _ _ => simp [Node.host, ymx_node_t.fields, ymx_create_int_scalar,
        YMX_NODE_TYPE_SEQUENCE, YMX_NODE_TYPE_MAPPING] at h
    | Alias _ => simp [Node.host, ymx_node_t.fields, ymx_create_int_scalar,
        YMX_NODE_TYPE_SEQUENCE, YMX_NODE_TYPE_ALIAS] at h
  | .Mapping ps t an i s, b => by
    intro h
    cases b with
    | Mapping ps' t' an' i' s' =>
      simp only [Node.host, ymx_node_t.fields, List.cons.injEq, Option.some.injEq, and_true,
        true_and] at h
      obtain ⟨hv, ht, ha, hi, hs⟩ := h
      have hps := Node.host_pairs_injective ps ps'
        (ymx_payload_injective 2 _ _ _ _ (Node.host_pairs_nil_iff ps)
          (Node.host_pairs_nil_iff ps') hv)
      rw [hps, option_map_mxCreateString_injective _ _ ht,
        option_map_mxCreateString_injective _ _ ha,
        bool_code_injective _ _ (ymx_create_int_scalar_injective _ _ hi),
        collection_style_code_injective _ _ (ymx_create_int_scalar_injective _ _ hs)]
    | Scalar _ _ _ _ _ => simp [Node.host, ymx_node_t.fields, ymx_create_int_scalar,
        YMX_NODE_TYPE_SCALAR, YMX_NODE_TYPE_MAPPING] at h
    | Sequence _ _ _ _ _ => simp [Node.host, ymx_node_t.fields, ymx_create_int_scalar,
        YMX_NODE_TYPE_SEQUENCE, YMX_NODE_TYPE_MAPPING] at h
    | Alias _ => simp [Node.host, ymx_node_t.fields, ymx_create_int_scalar,
        YMX_NODE_TYPE_MAPPING, YMX_NODE_TYPE_ALIAS] at h
  | .Alias a, b => by
    intro h
    cases b with
    | Alias a' =>
      simp only [Node.host, ymx_node_t.fields, List.cons.injEq, Option.some.injEq, and_true,
        true_and] at h
      rw [mxCreateString_injective _ _ h]
    | Scalar _ _ _ _ _ => simp [Node.host, ymx_node_t.fields, ymx_create_int_scalar,
        YMX_NODE_TYPE_SCALAR, YMX_NODE_TYPE_ALIAS] at h
    | Sequence _ _ _ _ _ => simp [Node.host, ymx_node_t.fields, ymx_create_int_scalar,
        YMX_NODE_TYPE_SEQUENCE, YMX_NODE_TYPE_ALIAS] at h
    | Mapping _ _ _ _ _ => simp [Node.host, ymx_node_t.fields, ymx_create_int_scalar,
        YMX_NODE_TYPE_MAPPING, YMX_NODE_TYPE_ALIAS] at h

theorem Node.host_items_injective :
    ∀ (cs cs' : List Node), Node.host_items cs = Node.host_items cs' → cs = cs'
  | [], [] => fun _ => rfl
  | [], _ :: _ => by intro h; simp [Node.host_items] at h
  | _ :: _, [] => by intro h; simp [Node.host_items] at h
  | c :: cs, c' :: cs' => by
    intro h
    simp only [Node.host_items, List.cons.injEq] at h
    rw [Node.host_fields_injective c c' h.1, Node.host_items_injective cs cs' h.2]

theorem Node.host_pairs_injective :
    ∀ (ps ps' : List (Node × Node)), Node.host_pairs ps = Node.host_pairs ps' → ps = ps'
  | [], [] => fun _ => rfl
  | [], (_, _) :: _ => by intro h; simp [Node.host_pairs] at h
  | (_, _) :: _, [] => by intro h; simp [Node.host_pairs] at h
  | (k, v) :: ps, (k', v') :: ps' => by
    intro h
    simp only [Node.host_pairs, List.cons.injEq] at h
    rw [Node.host_fields_injective k k' h.1, Node.host_fields_injective v v' h.2.1,
      Node.host_pairs_injective ps ps' h.2.2]

end

/-- Two documents of the data model with the same host array are the same
document. -/
theorem Document.host_array_injective (d d' : Document)
    (h : Document.host_array [d] = Document.host_array [d']) : d = d' := by
  simp only [Document.host_array, List.map_cons, List.map_nil, Document.host,
    ymx_document_t.fields, mxArray.struct.injEq, List.cons.injEq, Option.some.injEq,
    mxArray.logical.injEq, and_true, true_and, List.length_singleton] at h
  obtain ⟨hroot, hver, htd, hs, he⟩ := h
  have hr := Node.host_fields_injective _ _ hroot
  have hv : d.version = d'.version := by
    cases hd : d.version <;> cases hd' : d'.version <;> simp [hd, hd'] at hver ⊢
    exact Prod.ext hver.1 hver.2
  have ht : d.tag_directives = d'.tag_directives := by
    have hmap : d.tag_directives.map
          (fun hp => [some (mxCreateString hp.1), some (mxCreateString hp.2)])
        = d'.tag_directives.map
          (fun hp => [some (mxCreateString hp.1), some (mxCreateString hp.2)]) := by
      by_cases h1 : d.tag_directives.length = 0 <;> by_cases h2 : d'.tag_directives.length = 0
      · rw [List.length_eq_zero.1 h1, List.length_eq_zero.1 h2]
      · simp [h1, h2] at htd
      · simp [h1, h2] at htd
      · simp [h1, h2] at htd
        simpa using htd.2
    refine List.map_injective_iff.2 ?_ hmap
    intro x y hxy
    simp only [List.cons.injEq, Option.some.injEq, and_true] at hxy
    exact Prod.ext (mxCreateString_injective _ _ hxy.1) (mxCreateString_injective _ _ hxy.2)
  cases d; cases d'
  simp only [Document.mk.injEq]
  exact ⟨hr, hv, ht, hs, he⟩

/-! ## Round trip -/

/-- An emitter that takes every event and writes nothing takes every list of
events. -/
theorem ymx_emit_all_accept_all (evs : List yaml_event_t) :
    ∀ st, ymx_emit_all yaml_emitter_accept_all st evs
      = .ok () { st with emitted := st.emitted ++ evs } := by
  induction evs with
  | nil => intro st; simp [ymx_emit_all]
  | cons e es ih =>
    intro st
    have h : ymx_emit yaml_emitter_accept_all st e
        = .ok () { st with emitted := st.emitted ++ [e] } := rfl
    simp only [ymx_emit_all, h, ih, List.append_assoc, List.singleton_append]

/-- C1 (as amended). Round trip: for every Document `d` in canonical form (every
Scalar, Sequence and Mapping node carries a tag; tags, anchors, alias anchors and
tag directive handles and prefixes are non-empty and free of zero bytes; scalar
values are free of zero bytes), the dump of the one-element stream `[d]` hands
the events of the grammatical stream of `d` to the emitter and fails only where
the emitter or the output buffer fails; it succeeds with an emitter that takes
every event and writes nothing; and whenever the dump succeeds, the events it
emitted are the grammatical stream of `d`, and feeding them into the loader
yields the document array of exactly one document, which is `d` and no other
document. -/
theorem C1_round_trip_canonical (d : Document) (hcan : d.canonical = true) :
    (∀ emitter : yaml_emitter_t, ymx_dump_stream emitter (Document.host_array [d])
      = (match ymx_emit_all emitter ymx_dump_state_init (yaml_stream_events [d.grammar]) with
         | .ok _ st =>
           (match ymx_buffer_as_string st.buffer with
            | some str => .ok (mxCreateString str) st
            | none => .fault st)
         | .error msg st => .error msg st
         | .fault st => .fault st
         | .diverge => .diverge))
    ∧ (∃ out st,
        ymx_dump_stream yaml_emitter_accept_all (Document.host_array [d]) = .ok out st)
    ∧ ∀ (emitter : yaml_emitter_t) (out : mxArray) (st : ymx_dump_state),
        ymx_dump_stream emitter (Document.host_array [d]) = .ok out st →
        st.emitted = yaml_stream_events [d.grammar]
        ∧ ymx_load_stream (st.emitted.map some) = .ok (some (Document.host_array [d]))
        ∧ ∀ d' : Document,
            ymx_load_stream (st.emitted.map some) = .ok (some (Document.host_array [d'])) →
            d' = d := by
  have hhost : ∀ emitter, ymx_dump_stream emitter (Document.host_array [d]) = _ :=
    fun emitter => ymx_dump_stream_host [d] (by
      intro x hx
      rw [List.mem_singleton] at hx
      rw [hx]; exact hcan) emitter
  refine ⟨hhost, ?_, ?_⟩
  · rw [hhost, List.map_singleton, ymx_emit_all_accept_all]
    exact ⟨_, _, rfl⟩
  · intro emitter out st hdump
    rw [hhost, List.map_singleton] at hdump
    have hem : st.emitted = yaml_stream_events [d.grammar] := by
      cases he : ymx_emit_all emitter ymx_dump_state_init (yaml_stream_events [d.grammar]) with
      | error msg st1 => rw [he] at hdump; simp at hdump
      | fault st1 => rw [he] at hdump; simp at hdump
      | diverge => rw [he] at hdump; simp at hdump
      | ok u st1 =>
        rw [he] at hdump
        have h1 := (ymx_emit_all_ok emitter _ _ _ he).1
        simp only at hdump
        cases hb : ymx_buffer_as_string st1.buffer with
        | none => rw [hb] at hdump; simp at hdump
        | some str =>
          rw [hb] at hdump
          simp only [ymx_dump_result.ok.injEq] at hdump
          rw [← hdump.2, h1]
          rfl
    have hload : ymx_load_stream (st.emitted.map some)
        = .ok (some (Document.host_array [d])) := by
      have hl := ymx_load_stream_grammatical [d.grammar] []
      rw [List.append_nil] at hl
      rw [hem, hl, List.map_singleton, Document.loaded_grammar d hcan]
      rfl
    refine ⟨hem, hload, ?_⟩
    intro d' hd'
    rw [hload] at hd'
    simp only [ymx_result.ok.injEq, Option.some.injEq] at hd'
    exact (Document.host_array_injective d d' hd').symm

/-- Witness of `C1_round_trip_canonical`: the dump of a canonical document with
version, tag directive, anchor, alias, nested collections and an empty scalar
succeeds, and loading the emitted events gives the document back. -/
theorem C1_round_trip_canonical_witness :
    ymx_example_canonical_document.canonical = true
    ∧ ymx_dump_stream yaml_emitter_accept_all (Document.host_array [ymx_example_canonical_document])
        = .ok (mxCreateString [])
            { ymx_dump_state_init with
              emitted := yaml_stream_events [ymx_example_canonical_document.grammar] }
    ∧ ymx_load_stream
        ((yaml_stream_events [ymx_example_canonical_document.grammar]).map some)
        = .ok (some (Document.host_array [ymx_example_canonical_document])) :=
  ⟨by decide, by decide,
    ((C1_round_trip_canonical ymx_example_canonical_document (by decide)).2.2
      yaml_emitter_accept_all (mxCreateString [])
      { ymx_dump_state_init with
        emitted := yaml_stream_events [ymx_example_canonical_document.grammar] }
      (by decide)).2.1⟩

set_option maxHeartbeats 2000000 in
/-- C1 (counterexample to the claim as stated). Three documents of the data
model that do not come back from dump and load.  The document whose root is the
plain scalar "a" with no tag is dumped as a scalar event with no tag, and the
loader gives back the document with the tag "?" on its root.  The same scalar
with tag "?" and the empty string as anchor is dumped with no anchor and comes
back with no anchor.  The same scalar with an anchor that holds a zero byte is
dumped with the anchor cut at that byte and comes back with the cut anchor.  In
each case the dump succeeds and the document array loaded is not the one
dumped. -/
theorem C1_round_trip_counterexample :
    (ymx_dump_stream yaml_emitter_accept_all (Document.host_array [ymx_example_untagged_document])
        = .ok (mxCreateString [])
            { ymx_dump_state_init with
              emitted := [.stream_start, .document_start none [] 1,
                .scalar none none (some [97]) 1 1 0 1, .document_end 1, .stream_end] }
      ∧ ymx_load_stream ([yaml_event_t.stream_start, .document_start none [] 1,
            .scalar none none (some [97]) 1 1 0 1, .document_end 1, .stream_end].map some)
          = .ok (some (Document.host_array [ymx_example_resolved_document]))
      ∧ Document.host_array [ymx_example_resolved_document]
          ≠ Document.host_array [ymx_example_untagged_document]
      ∧ ymx_example_resolved_document ≠ ymx_example_untagged_document)
    ∧ (ymx_dump_stream yaml_emitter_accept_all
          (Document.host_array [ymx_example_empty_anchor_document])
        = .ok (mxCreateString [])
            { ymx_dump_state_init with
              emitted := [.stream_start, .document_start none [] 1,
                .scalar none (some [63]) (some [97]) 1 1 0 1, .document_end 1, .stream_end] }
      ∧ ymx_load_stream ([yaml_event_t.stream_start, .document_start none [] 1,
            .scalar none (some [63]) (some [97]) 1 1 0 1, .document_end 1,
            .stream_end].map some)
          = .ok (some (Document.host_array [ymx_example_resolved_document]))
      ∧ Document.host_array [ymx_example_resolved_document]
          ≠ Document.host_array [ymx_example_empty_anchor_document])
    ∧ (ymx_dump_stream yaml_emitter_accept_all
          (Document.host_array [ymx_example_zero_byte_anchor_document])
        = .ok (mxCreateString [])
            { ymx_dump_state_init with
              emitted := [.stream_start, .document_start none [] 1,
                .scalar (some [120]) (some [63]) (some [97]) 1 1 0 1, .document_end 1,
                .stream_end] }
      ∧ ymx_load_stream ([yaml_event_t.stream_start, .document_start none [] 1,
            .scalar (some [120]) (some [63]) (some [97]) 1 1 0 1, .document_end 1,
            .stream_end].map some)
          = .ok (some (Document.host_array [ymx_example_cut_anchor_document]))
      ∧ Document.host_array [ymx_example_cut_anchor_document]
          ≠ Document.host_array [ymx_example_zero_byte_anchor_document]) := by
  refine ⟨⟨by decide, by decide, by decide, ?_⟩, ⟨by decide, by decide, by decide⟩,
    ⟨by decide, by decide, by decide⟩⟩
  intro h
  have := congrArg (fun d => d.root) h
  simp [ymx_example_resolved_document, ymx_example_untagged_document] at this

/-! ## The empty stream -/

/-- The loader on a stream without documents: the null result. -/
theorem ymx_load_stream_empty (rest : yaml_parser_t) :
    ymx_load_stream (some .stream_start :: some .stream_end :: rest) = .ok none := by
  have hf : 3 * (some yaml_event_t.stream_start :: some yaml_event_t.stream_end :: rest).length + 3
      = (3 * rest.length + 8) + 1 := by
    simp only [List.length_cons]; omega
  simp only [ymx_load_stream, ymx_parse, hf, ymx_load_stream_loop, List.length_nil, ne_eq,
    not_true_eq_false, if_false]

/-- The dumper on a document array without elements: the dump amounts to
handing the stream start and the stream end event to the emitter. -/
theorem ymx_dump_stream_no_elements (emitter : yaml_emitter_t) (d : List Nat)
    (elems : List (List (Option mxArray))) (hd : d.prod = 0) :
    ymx_dump_stream emitter (.struct d YMX_DOC_FIELD_STRS elems)
      = (match ymx_emit_all emitter ymx_dump_state_init
            [yaml_event_t.stream_start, yaml_event_t.stream_end] with
         | .ok _ st =>
           (match ymx_buffer_as_string st.buffer with
            | some str => .ok (mxCreateString str) st
            | none => .fault st)
         | .error msg st => .error msg st
         | .fault st => .fault st
         | .diverge => .diverge) := by
  have hn : mxGetNumberOfElements (.struct d YMX_DOC_FIELD_STRS elems) = 0 := hd
  simp only [ymx_dump_stream, ymx_is_valid_doc_array_struct, Bool.not_true, Bool.false_eq_true,
    if_false, hn, ymx_dump_for]
  rw [show [yaml_event_t.stream_start, yaml_event_t.stream_end]
      = [yaml_event_t.stream_start] ++ [yaml_event_t.stream_end] from rfl,
    ymx_emit_all_append, ymx_emit_all_singleton]
  cases ymx_emit emitter ymx_dump_state_init yaml_event_t.stream_start with
  | error msg st1 => rfl
  | fault st1 => rfl
  | diverge => rfl
  | ok u st1 =>
    simp only [ymx_emit_all_singleton]
    cases ymx_emit emitter st1 yaml_event_t.stream_end with
    | error msg st2 => rfl
    | fault st2 => rfl
    | diverge => rfl
    | ok u st2 => rfl

/-- C12 (as amended). Empty stream: the load of StreamStart, StreamEnd returns no
document array (the null result); the dump of a document array without elements
(a struct array with the five document fields whose dimensions multiply to 0)
hands exactly the events StreamStart, StreamEnd to the emitter, succeeds when the
emitter takes them, and has emitted exactly these two events whenever it
succeeds. -/
theorem C12_empty_stream (d : List Nat) (elems : List (List (Option mxArray)))
    (hd : d.prod = 0) :
    (∀ rest : yaml_parser_t,
      ymx_load_stream (some .stream_start :: some .stream_end :: rest) = .ok none)
    ∧ (∀ emitter : yaml_emitter_t,
        ymx_dump_stream emitter (.struct d YMX_DOC_FIELD_STRS elems)
          = (match ymx_emit_all emitter ymx_dump_state_init
                [yaml_event_t.stream_start, yaml_event_t.stream_end] with
             | .ok _ st =>
               (match ymx_buffer_as_string st.buffer with
                | some str => .ok (mxCreateString str) st
                | none => .fault st)
             | .error msg st => .error msg st
             | .fault st => .fault st
             | .diverge => .diverge))
    ∧ ymx_dump_stream yaml_emitter_accept_all (.struct d YMX_DOC_FIELD_STRS elems)
        = .ok (mxCreateString [])
            { ymx_dump_state_init with emitted := [.stream_start, .stream_end] }
    ∧ (∀ (emitter : yaml_emitter_t) (out : mxArray) (st : ymx_dump_state),
        ymx_dump_stream emitter (.struct d YMX_DOC_FIELD_STRS elems) = .ok out st →
        st.emitted = [.stream_start, .stream_end]) := by
  refine ⟨ymx_load_stream_empty, fun emitter => ymx_dump_stream_no_elements emitter d elems hd,
    ?_, ?_⟩
  · rw [ymx_dump_stream_no_elements _ d elems hd, ymx_emit_all_accept_all]
    rfl
  · intro emitter out st h
    rw [ymx_dump_stream_no_elements _ d elems hd] at h
    cases he : ymx_emit_all emitter ymx_dump_state_init
        [yaml_event_t.stream_start, yaml_event_t.stream_end] with
    | error msg st1 => rw [he] at h; simp at h
    | fault st1 => rw [he] at h; simp at h
    | diverge => rw [he] at h; simp at h
    | ok u st1 =>
      rw [he] at h
      have h1 := (ymx_emit_all_ok emitter _ _ _ he).1
      simp only at h
      cases hb : ymx_buffer_as_string st1.buffer with
      | none => rw [hb] at h; simp at h
      | some str =>
        rw [hb] at h
        simp only [ymx_dump_result.ok.injEq] at h
        rw [← h.2, h1]
        rfl

/-- Witness of `C12_empty_stream`: the 1-by-0 document array. -/
theorem C12_empty_stream_witness :
    [1, 0].prod = 0
    ∧ ymx_dump_stream yaml_emitter_accept_all (.struct [1, 0] YMX_DOC_FIELD_STRS [])
        = .ok (mxCreateString [])
            { ymx_dump_state_init with emitted := [.stream_start, .stream_end] } :=
  ⟨by decide, (C12_empty_stream [1, 0] [] (by decide)).2.2.1⟩

/-- C12 (counterexample). For the stream StreamStart, StreamEnd the loader
returns the null result: it creates no document array, so there is no value of
the loader, empty or not, that the dumper could be handed. -/
theorem C12_empty_stream_counterexample :
    ymx_load_stream [some .stream_start, some .stream_end] = .ok none
    ∧ ¬ ∃ docs_array : mxArray,
        ymx_load_stream [some .stream_start, some .stream_end] = .ok (some docs_array) := by
  have h : ymx_load_stream [some .stream_start, some .stream_end] = .ok none := by decide
  refine ⟨h, ?_⟩
  rintro ⟨docs_array, h2⟩
  rw [h] at h2
  simp at h2

/-! ## The dumper, step by step -/

theorem ymx_dump_state.warn_nil (st : ymx_dump_state) : st.warn [] = st := by
  simp [ymx_dump_state.warn]

theorem ymx_dump_state.warn_warn (st : ymx_dump_state) (a b : List String) :
    (st.warn a).warn b = st.warn (a ++ b) := by
  simp [ymx_dump_state.warn]

theorem ymx_dump_state.warn_emitted (st : ymx_dump_state) (a : List String) :
    (st.warn a).emitted = st.emitted := rfl

/-- `ymx_dump_node` with its steps named: the tag, the anchor, the implicit
value and the style with their warnings, then the dispatch on the type. -/
theorem ymx_dump_node_steps (fuel : Nat) (emitter : yaml_emitter_t) (st : ymx_dump_state)
    (node : mxArray) (ind : Nat) :
    ymx_dump_node (fuel + 1) emitter st node ind
      = (match ymx_assemble_string (mxGetFieldByNumber node ind YMX_NODE_FIELD_TAG) with
        | none => .error "Invalid tag" st
        | some tag =>
          match ymx_assemble_string (mxGetFieldByNumber node ind YMX_NODE_FIELD_ANCHOR) with
          | none => .error "Invalid anchor" st
          | some anchor =>
            let implicit := ymx_int_or_zero (mxGetFieldByNumber node ind YMX_NODE_FIELD_IMPLICIT)
            let style := ymx_int_or_zero (mxGetFieldByNumber node ind YMX_NODE_FIELD_STYLE)
            let st := st.warn
              (ymx_int_warning (mxGetFieldByNumber node ind YMX_NODE_FIELD_IMPLICIT)
                  "Invalid node implicit specifier"
                ++ ymx_int_warning (mxGetFieldByNumber node ind YMX_NODE_FIELD_STYLE)
                  "Invalid node style")
            let value := mxGetFieldByNumber node ind YMX_NODE_FIELD_VALUE
            match mxGetFieldByNumber node ind YMX_NODE_FIELD_TYPE with
            | none => .error "Invalid node type" st
            | some type =>
              if !ymx_is_valid_int_scalar type then .error "Invalid node type" st
              else if ymx_get_int_scalar type = YMX_NODE_TYPE_SCALAR then
                ymx_dump_scalar emitter st value tag anchor implicit style
              else if ymx_get_int_scalar type = YMX_NODE_TYPE_SEQUENCE then
                ymx_dump_sequence fuel emitter st value tag anchor implicit style
              else if ymx_get_int_scalar type = YMX_NODE_TYPE_MAPPING then
                ymx_dump_mapping fuel emitter st value tag anchor implicit style
              else if ymx_get_int_scalar type = YMX_NODE_TYPE_ALIAS then
                ymx_dump_alias emitter st anchor
              else .error "Invalid node type value" st) := by
  rw [ymx_dump_node]
  cases ymx_assemble_string (mxGetFieldByNumber node ind YMX_NODE_FIELD_TAG) with
  | none => rfl
  | some tag =>
    cases ymx_assemble_string (mxGetFieldByNumber node ind YMX_NODE_FIELD_ANCHOR) with
    | none => rfl
    | some anchor =>
      cases ht : mxGetFieldByNumber node ind YMX_NODE_FIELD_TYPE <;>
      cases hi : mxGetFieldByNumber node ind YMX_NODE_FIELD_IMPLICIT with
      | none =>
        cases hs : mxGetFieldByNumber node ind YMX_NODE_FIELD_STYLE with
        | none =>
          simp [ymx_int_or_zero, ymx_int_warning, ymx_dump_state.warn]
        | some s =>
          by_cases hsv : ymx_is_valid_int_scalar s = true
          · simp [ymx_int_or_zero, ymx_int_warning, ymx_dump_state.warn, hsv]
          · simp [ymx_int_or_zero, ymx_int_warning, ymx_dump_state.warn, hsv]
      | some i =>
        by_cases hiv : ymx_is_valid_int_scalar i = true
        · cases hs : mxGetFieldByNumber node ind YMX_NODE_FIELD_STYLE with
          | none =>
            simp [ymx_int_or_zero, ymx_int_warning, ymx_dump_state.warn, hiv]
          | some s =>
            by_cases hsv : ymx_is_valid_int_scalar s = true
            · simp [ymx_int_or_zero, ymx_int_warning, ymx_dump_state.warn, hiv, hsv]
            · simp [ymx_int_or_zero, ymx_int_warning, ymx_dump_state.warn, hiv, hsv]
        · cases hs : mxGetFieldByNumber node ind YMX_NODE_FIELD_STYLE with
          | none =>
            simp [ymx_int_or_zero, ymx_int_warning, ymx_dump_state.warn, hiv]
          | some s =>
            by_cases hsv : ymx_is_valid_int_scalar s = true
            · simp [ymx_int_or_zero, ymx_int_warning, ymx_dump_state.warn, hiv, hsv]
            · simp [ymx_int_or_zero, ymx_int_warning, ymx_dump_state.warn, hiv, hsv]

/-- `ymx_dump_document` with its steps named: the root, the tag directives
and the version checked, the two implicit values with their warnings, then the
document start event, the root node and the document end event. -/
theorem ymx_dump_document_steps (fuel : Nat) (emitter : yaml_emitter_t) (st : ymx_dump_state)
    (docs_array : mxArray) (ind : Nat) :
    ymx_dump_document fuel emitter st docs_array ind
      = (match mxGetFieldByNumber docs_array ind YMX_DOC_FIELD_ROOT with
        | none => .error "Invalid document root" st
        | some root_arr =>
          if !ymx_is_valid_doc_root (some root_arr) then .error "Invalid document root" st
          else
            match ymx_assemble_tagdirs
                (mxGetFieldByNumber docs_array ind YMX_DOC_FIELD_TAGDIRS) with
            | none => .error "Invalid document tag directives" st
            | some tag_directives =>
              match ymx_assemble_version
                  (mxGetFieldByNumber docs_array ind YMX_DOC_FIELD_VERSION) with
              | none => .error "Invalid document version" st
              | some version_directive =>
                let start_implicit := ymx_logical_or_zero
                  (mxGetFieldByNumber docs_array ind YMX_DOC_FIELD_START_IMPLICIT)
                let end_implicit := ymx_logical_or_zero
                  (mxGetFieldByNumber docs_array ind YMX_DOC_FIELD_END_IMPLICIT)
                let st := st.warn
                  (ymx_logical_warning
                      (mxGetFieldByNumber docs_array ind YMX_DOC_FIELD_START_IMPLICIT)
                      "Invalid document start implicit specifier"
                    ++ ymx_logical_warning
                      (mxGetFieldByNumber docs_array ind YMX_DOC_FIELD_END_IMPLICIT)
                      "Invalid document end implicit specifier")
                match ymx_emit emitter st
                    (.document_start version_directive tag_directives start_implicit) with
                | .ok _ st =>
                  (match ymx_dump_node fuel emitter st root_arr 0 with
                   | .ok _ st => ymx_emit emitter st (.document_end end_implicit)
                   | r => r)
                | r => r) := by
  rw [ymx_dump_document]
  cases hr : mxGetFieldByNumber docs_array ind YMX_DOC_FIELD_ROOT with
  | none => rfl
  | some root_arr =>
    by_cases hv : ymx_is_valid_doc_root (some root_arr) = true
    · simp only [hv, Bool.not_true, Bool.false_eq_true, if_false]
      cases ymx_assemble_tagdirs (mxGetFieldByNumber docs_array ind YMX_DOC_FIELD_TAGDIRS) with
      | none => rfl
      | some tds =>
        cases ymx_assemble_version (mxGetFieldByNumber docs_array ind YMX_DOC_FIELD_VERSION) with
        | none => rfl
        | some v =>
          cases hs : mxGetFieldByNumber docs_array ind YMX_DOC_FIELD_START_IMPLICIT with
          | none =>
            cases he : mxGetFieldByNumber docs_array ind YMX_DOC_FIELD_END_IMPLICIT with
            | none =>
              simp [ymx_logical_or_zero, ymx_logical_warning, ymx_dump_state.warn]
            | some e =>
              by_cases hev : mxIsLogicalScalar e = true
              · simp [ymx_logical_or_zero, ymx_logical_warning, ymx_dump_state.warn, hev]
              · simp [ymx_logical_or_zero, ymx_logical_warning, ymx_dump_state.warn, hev]
          | some s =>
            by_cases hsv : mxIsLogicalScalar s = true
            · cases he : mxGetFieldByNumber docs_array ind YMX_DOC_FIELD_END_IMPLICIT with
              | none =>
                simp [ymx_logical_or_zero, ymx_logical_warning, ymx_dump_state.warn, hsv]
              | some e =>
                by_cases hev : mxIsLogicalScalar e = true
                · simp [ymx_logical_or_zero, ymx_logical_warning, ymx_dump_state.warn, hsv, hev]
                · simp [ymx_logical_or_zero, ymx_logical_warning, ymx_dump_state.warn, hsv, hev]
            · cases he : mxGetFieldByNumber docs_array ind YMX_DOC_FIELD_END_IMPLICIT with
              | none =>
                simp [ymx_logical_or_zero, ymx_logical_warning, ymx_dump_state.warn, hsv]
              | some e =>
                by_cases hev : mxIsLogicalScalar e = true
                · simp [ymx_logical_or_zero, ymx_logical_warning, ymx_dump_state.warn, hsv, hev]
                · simp [ymx_logical_or_zero, ymx_logical_warning, ymx_dump_state.warn, hsv, hev]
    · simp only [hv, Bool.not_false, if_true]

/-! ## What every dump keeps: the events emitted so far, the warnings, the messages -/

theorem ymx_dump_continues_mono {α : Type} (msgs msgs' : List String) (st : ymx_dump_state)
    (r : ymx_dump_result α) (hsub : ∀ m ∈ msgs, m ∈ msgs')
    (h : ymx_dump_continues msgs st r) : ymx_dump_continues msgs' st r :=
  ⟨h.1, fun msg hm => hsub msg (h.2 msg hm)⟩

theorem ymx_dump_continues_error {α : Type} (msgs : List String) (st : ymx_dump_state)
    (msg : String) (hm : msg ∈ msgs) :
    ymx_dump_continues msgs st (.error msg st : ymx_dump_result α) := by
  refine ⟨?_, ?_⟩
  · intro st' h
    simp only [ymx_dump_result.state, Option.some.injEq] at h
    subst h
    exact ⟨List.prefix_refl _, List.prefix_refl _⟩
  · intro m h
    simp only [ymx_dump_result.message, Option.some.injEq] at h
    subst h
    exact hm

theorem ymx_dump_continues_ok {α : Type} (msgs : List String) (st : ymx_dump_state) (u : α) :
    ymx_dump_continues msgs st (.ok u st) := by
  refine ⟨?_, ?_⟩
  · intro st' h
    simp only [ymx_dump_result.state, Option.some.injEq] at h
    subst h
    exact ⟨List.prefix_refl _, List.prefix_refl _⟩
  · intro m h
    simp [ymx_dump_result.message] at h

theorem ymx_dump_continues_warn {α : Type} (msgs : List String) (st : ymx_dump_state)
    (ws : List String) (r : ymx_dump_result α) (h : ymx_dump_continues msgs (st.warn ws) r) :
    ymx_dump_continues msgs st r := by
  refine ⟨?_, h.2⟩
  intro st' hs
  obtain ⟨h1, h2⟩ := h.1 st' hs
  exact ⟨h1, List.IsPrefix.trans (List.prefix_append _ _) h2⟩

/-- One event handed to the emitter. -/
theorem ymx_emit_continues (msgs : List String) (hm : ymx_emit_error ∈ msgs)
    (emitter : yaml_emitter_t) (st : ymx_dump_state) (event : yaml_event_t) :
    ymx_dump_continues msgs st (ymx_emit emitter st event) := by
  unfold ymx_emit
  split_ifs
  · split
    · refine ⟨?_, ?_⟩
      · intro st' h
        simp only [ymx_dump_result.state, Option.some.injEq] at h
        subst h
        exact ⟨List.prefix_append _ _, List.prefix_refl _⟩
      · intro m h
        simp [ymx_dump_result.message] at h
    · refine ⟨?_, ?_⟩
      · intro st' h
        simp only [ymx_dump_result.state, Option.some.injEq] at h
        subst h
        exact ⟨List.prefix_refl _, List.prefix_refl _⟩
      · intro m h
        simp [ymx_dump_result.message] at h
  · exact ymx_dump_continues_error msgs st _ hm

/-- A step followed by another one. -/
theorem ymx_dump_continues_then (msgs : List String) (st : ymx_dump_state)
    (r : ymx_dump_result Unit) (k : ymx_dump_state → ymx_dump_result Unit)
    (h1 : ymx_dump_continues msgs st r)
    (h2 : ∀ st1, r = .ok () st1 → ymx_dump_continues msgs st1 (k st1)) :
    ymx_dump_continues msgs st
      (match r with
       | .ok _ st1 => k st1
       | r => r) := by
  cases r with
  | ok u st1 =>
    have hk := h2 st1 rfl
    have h0 := h1.1 st1 rfl
    refine ⟨?_, hk.2⟩
    intro st' hs
    obtain ⟨ha, hb⟩ := hk.1 st' hs
    exact ⟨List.IsPrefix.trans h0.1 ha, List.IsPrefix.trans h0.2 hb⟩
  | error msg st1 => exact h1
  | fault st1 => exact h1
  | diverge => exact h1

/-- The loop over the elements. -/
theorem ymx_dump_for_continues (msgs : List String)
    (body : ymx_dump_state → Nat → ymx_dump_result Unit)
    (h : ∀ st i, ymx_dump_continues msgs st (body st i)) :
    ∀ (n i : Nat) (st : ymx_dump_state),
      ymx_dump_continues msgs st (ymx_dump_for body i n st) := by
  intro n
  induction n with
  | zero => intro i st; exact ymx_dump_continues_ok msgs st ()
  | succ n ih =>
    intro i st
    rw [ymx_dump_for]
    exact ymx_dump_continues_then msgs st (body st i) (fun st1 => ymx_dump_for body (i + 1) n st1)
      (h st i) (fun st1 _ => ih (i + 1) st1)

theorem ymx_node_errors_sub (msgs : List String) (h : ∀ m ∈ ymx_node_errors, m ∈ msgs)
    (m : String) (hm : m ∈ ymx_node_errors) : m ∈ msgs := h m hm

theorem ymx_dump_scalar_continues (msgs : List String) (hn : ∀ m ∈ ymx_node_errors, m ∈ msgs)
    (he : ymx_emit_error ∈ msgs) (emitter : yaml_emitter_t) (st : ymx_dump_state)
    (value_arr : Option mxArray) (tag anchor : Option c_string) (implicit style : Int) :
    ymx_dump_continues msgs st
      (ymx_dump_scalar emitter st value_arr tag anchor implicit style) := by
  unfold ymx_dump_scalar
  cases value_arr with
  | none => exact ymx_dump_continues_error msgs st _ (hn _ (by decide))
  | some value =>
    simp only []
    split_ifs <;>
      first
        | exact ymx_emit_continues msgs he emitter st _
        | exact ymx_dump_continues_error msgs st _ (hn _ (by decide))

/-- The body of `ymx_dump_sequence` and `ymx_dump_mapping` between the start
and the end event. -/
theorem ymx_dump_children_continues (msgs : List String) (emitter : yaml_emitter_t)
    (fuel rows : Nat) (msg : String) (hmsg : msg ∈ msgs) (st : ymx_dump_state)
    (value_arr : Option mxArray)
    (ih : ∀ (st : ymx_dump_state) (node : mxArray) (ind : Nat),
      ymx_dump_continues msgs st (ymx_dump_node fuel emitter st node ind)) :
    ymx_dump_continues msgs st
      (match value_arr with
        | some value =>
          if !mxIsEmpty value then
            if !ymx_is_valid_node_array value
                || mxGetNumberOfDimensions value != 2
                || mxGetM value != rows then
              .error msg st
            else
              ymx_dump_for (fun st ind => ymx_dump_node fuel emitter st value ind)
                0 (mxGetNumberOfElements value) st
          else .ok () st
        | none => .ok () st) := by
  cases value_arr with
  | none => exact ymx_dump_continues_ok msgs st ()
  | some value =>
    simp only []
    split_ifs
    · exact ymx_dump_continues_error msgs st _ hmsg
    · exact ymx_dump_for_continues msgs _ (fun st i => ih st value i) _ _ _
    · exact ymx_dump_continues_ok msgs st ()

/-- Whatever a node is, its dump continues the state it starts from and
aborts only with a message of `ymx_node_errors` or the message of `ymx_emit`. -/
theorem ymx_dump_node_continues (msgs : List String) (hn : ∀ m ∈ ymx_node_errors, m ∈ msgs)
    (he : ymx_emit_error ∈ msgs) (emitter : yaml_emitter_t) :
    ∀ (fuel : Nat),
      (∀ (st : ymx_dump_state) (node : mxArray) (ind : Nat),
        ymx_dump_continues msgs st (ymx_dump_node fuel emitter st node ind))
      ∧ (∀ (st : ymx_dump_state) (value : Option mxArray) (tag anchor : Option c_string)
          (implicit style : Int),
        ymx_dump_continues msgs st
          (ymx_dump_sequence fuel emitter st value tag anchor implicit style))
      ∧ (∀ (st : ymx_dump_state) (value : Option mxArray) (tag anchor : Option c_string)
          (implicit style : Int),
        ymx_dump_continues msgs st
          (ymx_dump_mapping fuel emitter st value tag anchor implicit style)) := by
  intro fuel
  induction fuel with
  | zero =>
    refine ⟨?_, ?_, ?_⟩
    · intro st node ind
      rw [ymx_dump_node]
      exact ⟨fun _ h => by simp [ymx_dump_result.state] at h,
        fun _ h => by simp [ymx_dump_result.message] at h⟩
    · intro st value tag anchor implicit style
      rw [ymx_dump_sequence]
      exact ⟨fun _ h => by simp [ymx_dump_result.state] at h,
        fun _ h => by simp [ymx_dump_result.message] at h⟩
    · intro st value tag anchor implicit style
      rw [ymx_dump_mapping]
      exact ⟨fun _ h => by simp [ymx_dump_result.state] at h,
        fun _ h => by simp [ymx_dump_result.message] at h⟩
  | succ f ih =>
    obtain ⟨ihn, ihs, ihm⟩ := ih
    refine ⟨?_, ?_, ?_⟩
    · intro st node ind
      rw [ymx_dump_node_steps]
      cases ymx_assemble_string (mxGetFieldByNumber node ind YMX_NODE_FIELD_TAG) with
      | none => exact ymx_dump_continues_error msgs st _ (hn _ (by decide))
      | some tag =>
        cases ymx_assemble_string (mxGetFieldByNumber node ind YMX_NODE_FIELD_ANCHOR) with
        | none => exact ymx_dump_continues_error msgs st _ (hn _ (by decide))
        | some anchor =>
          simp only []
          apply ymx_dump_continues_warn msgs st
            (ymx_int_warning (mxGetFieldByNumber node ind YMX_NODE_FIELD_IMPLICIT)
                "Invalid node implicit specifier"
              ++ ymx_int_warning (mxGetFieldByNumber node ind YMX_NODE_FIELD_STYLE)
                "Invalid node style")
          cases mxGetFieldByNumber node ind YMX_NODE_FIELD_TYPE with
          | none => exact ymx_dump_continues_error msgs _ _ (hn _ (by decide))
          | some type =>
            simp only []
            split_ifs
            · exact ymx_dump_continues_error msgs _ _ (hn _ (by decide))
            · exact ymx_dump_scalar_continues msgs hn he emitter _ _ _ _ _ _
            · exact ihs _ _ _ _ _ _
            · exact ihm _ _ _ _ _ _
            · exact ymx_emit_continues msgs he emitter _ _
            · exact ymx_dump_continues_error msgs _ _ (hn _ (by decide))
    · intro st value tag anchor implicit style
      rw [ymx_dump_sequence]
      refine ymx_dump_continues_then msgs st _ _ (ymx_emit_continues msgs he emitter st _) ?_
      intro st1 _
      refine ymx_dump_continues_then msgs st1 _ _ ?_ ?_
      · exact ymx_dump_children_continues msgs emitter f 1 _ (hn _ (by decide)) st1 value ihn
      · intro st2 _
        exact ymx_emit_continues msgs he emitter st2 _
    · intro st value tag anchor implicit style
      rw [ymx_dump_mapping]
      refine ymx_dump_continues_then msgs st _ _ (ymx_emit_continues msgs he emitter st _) ?_
      intro st1 _
      refine ymx_dump_continues_then msgs st1 _ _ ?_ ?_
      · exact ymx_dump_children_continues msgs emitter f 2 _ (hn _ (by decide)) st1 value ihn
      · intro st2 _
        exact ymx_emit_continues msgs he emitter st2 _

theorem ymx_dump_document_continues (msgs : List String)
    (hd : ∀ m ∈ ymx_document_errors, m ∈ msgs) (hn : ∀ m ∈ ymx_node_errors, m ∈ msgs)
    (he : ymx_emit_error ∈ msgs) (fuel : Nat) (emitter : yaml_emitter_t)
    (st : ymx_dump_state) (docs_array : mxArray) (ind : Nat) :
    ymx_dump_continues msgs st (ymx_dump_document fuel emitter st docs_array ind) := by
  rw [ymx_dump_document_steps]
  cases mxGetFieldByNumber docs_array ind YMX_DOC_FIELD_ROOT with
  | none => exact ymx_dump_continues_error msgs st _ (hd _ (by decide))
  | some root_arr =>
    simp only []
    split_ifs
    · exact ymx_dump_continues_error msgs st _ (hd _ (by decide))
    · cases ymx_assemble_tagdirs (mxGetFieldByNumber docs_array ind YMX_DOC_FIELD_TAGDIRS) with
      | none => exact ymx_dump_continues_error msgs st _ (hd _ (by decide))
      | some tds =>
        cases ymx_assemble_version (mxGetFieldByNumber docs_array ind YMX_DOC_FIELD_VERSION) with
        | none => exact ymx_dump_continues_error msgs st _ (hd _ (by decide))
        | some v =>
          simp only []
          apply ymx_dump_continues_warn msgs st
            (ymx_logical_warning
                (mxGetFieldByNumber docs_array ind YMX_DOC_FIELD_START_IMPLICIT)
                "Invalid document start implicit specifier"
              ++ ymx_logical_warning
                (mxGetFieldByNumber docs_array ind YMX_DOC_FIELD_END_IMPLICIT)
                "Invalid document end implicit specifier")
          refine ymx_dump_continues_then msgs _ _ _ (ymx_emit_continues msgs he emitter _ _) ?_
          intro st1 _
          refine ymx_dump_continues_then msgs st1 _ _
            ((ymx_dump_node_continues msgs hn he emitter fuel).1 st1 root_arr 0) ?_
          intro st2 _
          exact ymx_emit_continues msgs he emitter st2 _

/-- Every abort of `ymx_dump_stream` carries one of the messages of
`ymx_dump_errors`, and every result keeps the events emitted before it. -/
theorem ymx_dump_stream_continues (emitter : yaml_emitter_t) (docs_array : mxArray) :
    ymx_dump_continues ymx_dump_errors ymx_dump_state_init
      (ymx_dump_stream emitter docs_array) := by
  have hd : ∀ m ∈ ymx_document_errors, m ∈ ymx_dump_errors := by decide
  have hn : ∀ m ∈ ymx_node_errors, m ∈ ymx_dump_errors := by decide
  have he : ymx_emit_error ∈ ymx_dump_errors := by decide
  have hfor := ymx_dump_for_continues ymx_dump_errors
    (fun st ind => ymx_dump_document (2 * docs_array.depth + 2) emitter st docs_array ind)
    (fun st i => ymx_dump_document_continues ymx_dump_errors hd hn he _ emitter st docs_array i)
    (mxGetNumberOfElements docs_array) 0
  unfold ymx_dump_stream
  simp only []
  split_ifs
  · exact ymx_dump_continues_error _ _ _ (by decide)
  · have h1 := ymx_emit_continues ymx_dump_errors he emitter ymx_dump_state_init .stream_start
    cases hs : ymx_emit emitter ymx_dump_state_init .stream_start with
    | error msg st1 => rw [hs] at h1; exact ⟨h1.1, h1.2⟩
    | fault st1 => rw [hs] at h1; exact ⟨h1.1, h1.2⟩
    | diverge => exact ⟨fun _ h => by simp [ymx_dump_result.state] at h,
        fun _ h => by simp [ymx_dump_result.message] at h⟩
    | ok u st1 =>
      rw [hs] at h1
      have p1 := h1.1 st1 rfl
      simp only []
      have h2 := hfor st1
      cases hf : ymx_dump_for
          (fun st ind => ymx_dump_document (2 * docs_array.depth + 2) emitter st docs_array ind)
          0 (mxGetNumberOfElements docs_array) st1 with
      | error msg st2 =>
        rw [hf] at h2
        have p2 := h2.1 st2 rfl
        exact ⟨fun st' h => by
            simp only [ymx_dump_result.state, Option.some.injEq] at h
            subst h
            exact ⟨p1.1.trans p2.1, p1.2.trans p2.2⟩,
          fun m h => h2.2 m h⟩
      | fault st2 =>
        rw [hf] at h2
        have p2 := h2.1 st2 rfl
        exact ⟨fun st' h => by
            simp only [ymx_dump_result.state, Option.some.injEq] at h
            subst h
            exact ⟨p1.1.trans p2.1, p1.2.trans p2.2⟩,
          fun m h => by simp [ymx_dump_result.message] at h⟩
      | diverge => exact ⟨fun _ h => by simp [ymx_dump_result.state] at h,
          fun _ h => by simp [ymx_dump_result.message] at h⟩
      | ok u st2 =>
        rw [hf] at h2
        have p2 := h2.1 st2 rfl
        simp only []
        have h3 := ymx_emit_continues ymx_dump_errors he emitter st2 .stream_end
        cases hE : ymx_emit emitter st2 .stream_end with
        | error msg st3 =>
          rw [hE] at h3
          have p3 := h3.1 st3 rfl
          exact ⟨fun st' h => by
              simp only [ymx_dump_result.state, Option.some.injEq] at h
              subst h
              exact ⟨(p1.1.trans p2.1).trans p3.1, (p1.2.trans p2.2).trans p3.2⟩,
            fun m h => h3.2 m h⟩
        | fault st3 =>
          rw [hE] at h3
          have p3 := h3.1 st3 rfl
          exact ⟨fun st' h => by
              simp only [ymx_dump_result.state, Option.some.injEq] at h
              subst h
              exact ⟨(p1.1.trans p2.1).trans p3.1, (p1.2.trans p2.2).trans p3.2⟩,
            fun m h => by simp [ymx_dump_result.message] at h⟩
        | diverge => exact ⟨fun _ h => by simp [ymx_dump_result.state] at h,
            fun _ h => by simp [ymx_dump_result.message] at h⟩
        | ok u st3 =>
          rw [hE] at h3
          have p3 := h3.1 st3 rfl
          simp only []
          cases ymx_buffer_as_string st3.buffer with
          | none =>
            exact ⟨fun st' h => by
                simp only [ymx_dump_result.state, Option.some.injEq] at h
                subst h
                exact ⟨(p1.1.trans p2.1).trans p3.1, (p1.2.trans p2.2).trans p3.2⟩,
              fun m h => by simp [ymx_dump_result.message] at h⟩
          | some str =>
            exact ⟨fun st' h => by
                simp only [ymx_dump_result.state, Option.some.injEq] at h
                subst h
                exact ⟨(p1.1.trans p2.1).trans p3.1, (p1.2.trans p2.2).trans p3.2⟩,
              fun m h => by simp [ymx_dump_result.message] at h⟩

/-! ## The dumper returns: the fuel handed out by `ymx_dump_stream` is never used up -/

theorem ymx_emit_returns (emitter : yaml_emitter_t) (st : ymx_dump_state)
    (event : yaml_event_t) : ymx_emit emitter st event ≠ .diverge := by
  unfold ymx_emit
  split_ifs
  · split <;> simp
  · simp

theorem ymx_dump_returns_then (r : ymx_dump_result Unit)
    (k : ymx_dump_state → ymx_dump_result Unit) (h1 : r ≠ .diverge)
    (h2 : ∀ st1, r = .ok () st1 → k st1 ≠ .diverge) :
    (match r with
     | .ok _ st1 => k st1
     | r => r) ≠ .diverge := by
  cases r with
  | ok u st1 => exact h2 st1 rfl
  | error msg st1 => simp
  | fault st1 => simp
  | diverge => exact absurd rfl h1

theorem ymx_dump_for_returns (body : ymx_dump_state → Nat → ymx_dump_result Unit)
    (h : ∀ st i, body st i ≠ .diverge) :
    ∀ (n i : Nat) (st : ymx_dump_state), ymx_dump_for body i n st ≠ .diverge := by
  intro n
  induction n with
  | zero => intro i st; simp [ymx_dump_for]
  | succ n ih =>
    intro i st
    rw [ymx_dump_for]
    exact ymx_dump_returns_then (body st i) (fun st1 => ymx_dump_for body (i + 1) n st1)
      (h st i) (fun st1 _ => ih (i + 1) st1)

theorem ymx_dump_scalar_returns (emitter : yaml_emitter_t) (st : ymx_dump_state)
    (value_arr : Option mxArray) (tag anchor : Option c_string) (implicit style : Int) :
    ymx_dump_scalar emitter st value_arr tag anchor implicit style ≠ .diverge := by
  unfold ymx_dump_scalar
  cases value_arr with
  | none => simp
  | some value =>
    simp only []
    split_ifs <;> first | exact ymx_emit_returns emitter st _ | simp

/-- The value of a field of a struct array lies one level below the array. -/
theorem mxArray.depth_field_lt (node : mxArray) (ind k : Nat) (v : mxArray)
    (h : mxGetFieldByNumber node ind k = some v) : v.depth + 1 ≤ node.depth := by
  cases node with
  | struct d names elems =>
    simp only [mxGetFieldByNumber] at h
    have hmem : some v ∈ elems.getD ind [] := by
      rw [List.getD_eq_getElem?_getD] at h
      cases hk : (elems.getD ind [])[k]? with
      | none => rw [hk] at h; simp at h
      | some x =>
        rw [hk] at h
        simp only [Option.getD_some] at h
        subst h
        exact List.getElem?_mem hk
    have hel : elems.getD ind [] ∈ elems := by
      rw [List.getD_eq_getElem?_getD]
      cases hi : elems[ind]? with
      | none => rw [List.getD_eq_getElem?_getD, hi] at hmem; simp at hmem
      | some e =>
        simp only [Option.getD_some]
        exact List.getElem?_mem hi
    have h1 := mxArray.depth_le_depth_fields _ v hmem
    have h2 := mxArray.depth_fields_le_depth_elems elems _ hel
    simp only [mxArray.depth]
    omega
  | char d x => simp [mxGetFieldByNumber] at h
  | int32 d x => simp [mxGetFieldByNumber] at h
  | logical d x => simp [mxGetFieldByNumber] at h
  | other d => simp [mxGetFieldByNumber] at h

theorem mxArray.depth_pos_of_struct (v : mxArray) (h : mxIsStruct v = true) : 1 ≤ v.depth := by
  cases v <;> simp [mxIsStruct] at h
  simp [mxArray.depth]

theorem ymx_is_valid_node_array_struct_of (v : mxArray) (h : ymx_is_valid_node_array v = true) :
    mxIsStruct v = true := by
  unfold ymx_is_valid_node_array at h
  by_cases hs : mxIsStruct v = true
  · exact hs
  · simp [hs] at h

/-- With at least `2 * depth + 1` units of fuel the dump of a node returns. -/
theorem ymx_dump_node_returns (emitter : yaml_emitter_t) :
    ∀ (fuel : Nat),
      (∀ (st : ymx_dump_state) (node : mxArray) (ind : Nat), 2 * node.depth + 1 ≤ fuel →
        ymx_dump_node fuel emitter st node ind ≠ .diverge)
      ∧ (∀ (st : ymx_dump_state) (value : Option mxArray) (tag anchor : Option c_string)
          (implicit style : Int), 1 ≤ fuel →
          (∀ v, value = some v → mxIsStruct v = true → 2 * v.depth + 2 ≤ fuel) →
        ymx_dump_sequence fuel emitter st value tag anchor implicit style ≠ .diverge)
      ∧ (∀ (st : ymx_dump_state) (value : Option mxArray) (tag anchor : Option c_string)
          (implicit style : Int), 1 ≤ fuel →
          (∀ v, value = some v → mxIsStruct v = true → 2 * v.depth + 2 ≤ fuel) →
        ymx_dump_mapping fuel emitter st value tag anchor implicit style ≠ .diverge) := by
  intro fuel
  induction fuel with
  | zero =>
    refine ⟨?_, ?_, ?_⟩
    · intro st node ind h; omega
    · intro st value tag anchor implicit style h; omega
    · intro st value tag anchor implicit style h; omega
  | succ f ih =>
    obtain ⟨ihn, ihs, ihm⟩ := ih
    have hbody : ∀ (rows : Nat) (msg : String) (st : ymx_dump_state) (value : Option mxArray),
        (∀ v, value = some v → mxIsStruct v = true → 2 * v.depth + 2 ≤ f + 1) →
        (match value with
          | some value =>
            if !mxIsEmpty value then
              if !ymx_is_valid_node_array value
                  || mxGetNumberOfDimensions value != 2
                  || mxGetM value != rows then
                (.error msg st : ymx_dump_result Unit)
              else
                ymx_dump_for (fun st ind => ymx_dump_node f emitter st value ind)
                  0 (mxGetNumberOfElements value) st
            else .ok () st
          | none => .ok () st) ≠ .diverge := by
      intro rows msg st value hv
      cases value with
      | none => simp
      | some v =>
        simp only []
        by_cases hvalid : ymx_is_valid_node_array v = true
        · have hd := hv v rfl (ymx_is_valid_node_array_struct_of v hvalid)
          split_ifs
          · simp
          · exact ymx_dump_for_returns _ (fun st i => ihn st v i (by omega)) _ _ _
          · simp
        · simp only [Bool.not_eq_true] at hvalid
          simp only [hvalid, Bool.not_false, Bool.true_or, if_true]
          split_ifs <;> simp
    refine ⟨?_, ?_, ?_⟩
    · intro st node ind hfuel
      rw [ymx_dump_node_steps]
      cases ymx_assemble_string (mxGetFieldByNumber node ind YMX_NODE_FIELD_TAG) with
      | none => simp
      | some tag =>
        cases ymx_assemble_string (mxGetFieldByNumber node ind YMX_NODE_FIELD_ANCHOR) with
        | none => simp
        | some anchor =>
          simp only []
          cases ht : mxGetFieldByNumber node ind YMX_NODE_FIELD_TYPE with
          | none => simp
          | some type =>
            have hdt := mxArray.depth_field_lt node ind _ type ht
            have hval : ∀ v, mxGetFieldByNumber node ind YMX_NODE_FIELD_VALUE = some v →
                mxIsStruct v = true → 2 * v.depth + 2 ≤ f := by
              intro v hv _
              have := mxArray.depth_field_lt node ind _ v hv
              omega
            simp only []
            split_ifs
            · simp
            · exact ymx_dump_scalar_returns emitter _ _ _ _ _ _
            · exact ihs _ _ _ _ _ _ (by omega) hval
            · exact ihm _ _ _ _ _ _ (by omega) hval
            · exact ymx_emit_returns emitter _ _
            · simp
    · intro st value tag anchor implicit style _ hv
      rw [ymx_dump_sequence]
      refine ymx_dump_returns_then _ _ (ymx_emit_returns emitter st _) ?_
      intro st1 _
      refine ymx_dump_returns_then _ _ (hbody 1 _ st1 value hv) ?_
      intro st2 _
      exact ymx_emit_returns emitter st2 _
    · intro st value tag anchor implicit style _ hv
      rw [ymx_dump_mapping]
      refine ymx_dump_returns_then _ _ (ymx_emit_returns emitter st _) ?_
      intro st1 _
      refine ymx_dump_returns_then _ _ (hbody 2 _ st1 value hv) ?_
      intro st2 _
      exact ymx_emit_returns emitter st2 _

theorem ymx_dump_document_returns (emitter : yaml_emitter_t) (fuel : Nat)
    (st : ymx_dump_state) (docs_array : mxArray) (ind : Nat)
    (hfuel : 2 * docs_array.depth ≤ fuel) :
    ymx_dump_document fuel emitter st docs_array ind ≠ .diverge := by
  rw [ymx_dump_document_steps]
  cases hr : mxGetFieldByNumber docs_array ind YMX_DOC_FIELD_ROOT with
  | none => simp
  | some root_arr =>
    have hd := mxArray.depth_field_lt docs_array ind _ root_arr hr
    simp only []
    split_ifs
    · simp
    · cases ymx_assemble_tagdirs (mxGetFieldByNumber docs_array ind YMX_DOC_FIELD_TAGDIRS) with
      | none => simp
      | some tds =>
        cases ymx_assemble_version (mxGetFieldByNumber docs_array ind YMX_DOC_FIELD_VERSION) with
        | none => simp
        | some v =>
          simp only []
          refine ymx_dump_returns_then _ _ (ymx_emit_returns emitter _ _) ?_
          intro st1 _
          refine ymx_dump_returns_then _ _
            ((ymx_dump_node_returns emitter fuel).1 st1 root_arr 0 (by omega)) ?_
          intro st2 _
          exact ymx_emit_returns emitter st2 _

/-- The dumper returns, whatever array it is handed and whatever the emitter
does: a string, an abort, or a fault of the output buffer. -/
theorem ymx_dump_stream_returns (emitter : yaml_emitter_t) (docs_array : mxArray) :
    ymx_dump_stream emitter docs_array ≠ .diverge := by
  have hfor := ymx_dump_for_returns
    (fun st ind => ymx_dump_document (2 * docs_array.depth + 2) emitter st docs_array ind)
    (fun st i => ymx_dump_document_returns emitter _ st docs_array i (by omega))
    (mxGetNumberOfElements docs_array) 0
  unfold ymx_dump_stream
  simp only []
  split_ifs
  · simp
  · have h1 := ymx_emit_returns emitter ymx_dump_state_init .stream_start
    cases hs : ymx_emit emitter ymx_dump_state_init .stream_start with
    | error msg st1 => simp
    | fault st1 => simp
    | diverge => exact absurd hs h1
    | ok u st1 =>
      simp only []
      have h2 := hfor st1
      cases hf : ymx_dump_for
          (fun st ind => ymx_dump_document (2 * docs_array.depth + 2) emitter st docs_array ind)
          0 (mxGetNumberOfElements docs_array) st1 with
      | error msg st2 => simp
      | fault st2 => simp
      | diverge => exact absurd hf h2
      | ok u st2 =>
        simp only []
        have h3 := ymx_emit_returns emitter st2 .stream_end
        cases hE : ymx_emit emitter st2 .stream_end with
        | error msg st3 => simp
        | fault st3 => simp
        | diverge => exact absurd hE h3
        | ok u st3 =>
          simp only []
          cases ymx_buffer_as_string st3.buffer <;> simp

/-! ## What a successful dump has emitted -/

/-- A successful run of the loop over `n` elements: the events it emitted
split into `n` groups, group `j` being what the dump of element `i + j`
emitted, started in the state that holds the groups before it. -/
theorem ymx_dump_for_ok (body : ymx_dump_state → Nat → ymx_dump_result Unit)
    (hcont : ∀ st i st', body st i = .ok () st' → st.emitted <+: st'.emitted) :
    ∀ (n i : Nat) (st st' : ymx_dump_state), ymx_dump_for body i n st = .ok () st' →
      ∃ groups : List (List yaml_event_t),
        groups.length = n
        ∧ st'.emitted = st.emitted ++ groups.flatten
        ∧ ∀ j, j < n → ∃ sta stb,
            body sta (i + j) = .ok () stb
            ∧ sta.emitted = st.emitted ++ (groups.take j).flatten
            ∧ stb.emitted = sta.emitted ++ groups.getD j [] := by
  intro n
  induction n with
  | zero =>
    intro i st st' h
    simp only [ymx_dump_for, ymx_dump_result.ok.injEq, true_and] at h
    subst h
    exact ⟨[], rfl, by simp, fun j hj => absurd hj (Nat.not_lt_zero j)⟩
  | succ n ih =>
    intro i st st' h
    rw [ymx_dump_for] at h
    cases hb : body st i with
    | error msg st1 => rw [hb] at h; simp at h
    | fault st1 => rw [hb] at h; simp at h
    | diverge => rw [hb] at h; simp at h
    | ok u st1 =>
      rw [hb] at h
      simp only at h
      obtain ⟨g0, hg0⟩ := hcont st i st1 hb
      obtain ⟨groups, hlen, hem, hj⟩ := ih (i + 1) st1 st' h
      refine ⟨g0 :: groups, by simp [hlen], ?_, ?_⟩
      · rw [hem, ← hg0]; simp
      · intro j hjn
        cases j with
        | zero =>
          refine ⟨st, st1, hb, by simp, ?_⟩
          simp [hg0]
        | succ j =>
          obtain ⟨sta, stb, h1, h2, h3⟩ := hj j (by omega)
          refine ⟨sta, stb, ?_, ?_, ?_⟩
          · rw [show i + (j + 1) = i + 1 + j by omega]; exact h1
          · rw [h2, ← hg0]; simp
          · simpa using h3

/-- The loop stops at the first element whose dump does not succeed: when the
first `k` elements succeed and element `k` does not, the result of the loop is
the result of element `k`, whatever the elements after it are. -/
theorem ymx_dump_for_first_failure (body : ymx_dump_state → Nat → ymx_dump_result Unit)
    (r : ymx_dump_result Unit) (hr : ∀ st1, r ≠ .ok () st1) :
    ∀ (k n i : Nat) (st stk : ymx_dump_state), k < n →
      ymx_dump_for body i k st = .ok () stk → body stk (i + k) = r →
      ymx_dump_for body i n st = r := by
  intro k
  induction k with
  | zero =>
    intro n i st stk hk h0 hb
    simp only [ymx_dump_for, ymx_dump_result.ok.injEq, true_and] at h0
    subst h0
    obtain ⟨m, rfl⟩ : ∃ m, n = m + 1 := ⟨n - 1, by omega⟩
    rw [ymx_dump_for]
    simp only [Nat.add_zero] at hb
    rw [hb]
    cases r with
    | ok u st1 => exact absurd rfl (hr st1)
    | error msg st1 => rfl
    | fault st1 => rfl
    | diverge => rfl
  | succ k ih =>
    intro n i st stk hk h0 hb
    obtain ⟨m, rfl⟩ : ∃ m, n = m + 1 := ⟨n - 1, by omega⟩
    rw [ymx_dump_for] at h0 ⊢
    cases hb0 : body st i with
    | error msg st1 => rw [hb0] at h0; simp at h0
    | fault st1 => rw [hb0] at h0; simp at h0
    | diverge => rw [hb0] at h0; simp at h0
    | ok u st1 =>
      rw [hb0] at h0
      simp only at h0 ⊢
      exact ih m (i + 1) st1 stk (by omega) h0 (by rw [show i + 1 + k = i + (k + 1) by omega]; exact hb)

theorem ymx_dump_node_ok_prefix (emitter : yaml_emitter_t) (fuel : Nat)
    (st st' : ymx_dump_state) (node : mxArray) (ind : Nat)
    (h : ymx_dump_node fuel emitter st node ind = .ok () st') :
    st.emitted <+: st'.emitted := by
  have := (ymx_dump_node_continues (ymx_emit_error :: ymx_node_errors)
    (fun m hm => List.mem_cons_of_mem _ hm) (List.mem_cons_self _ _) emitter fuel).1 st node ind
  rw [h] at this
  exact (this.1 st' rfl).1

theorem ymx_dump_document_ok_prefix (emitter : yaml_emitter_t) (fuel : Nat)
    (st st' : ymx_dump_state) (docs_array : mxArray) (ind : Nat)
    (h : ymx_dump_document fuel emitter st docs_array ind = .ok () st') :
    st.emitted <+: st'.emitted := by
  have := ymx_dump_document_continues ymx_dump_errors (by decide) (by decide) (by decide)
    fuel emitter st docs_array ind
  rw [h] at this
  exact (this.1 st' rfl).1

/-- A successful dump of a document: the root, the tag directives and the
version passed their checks, and the events emitted are the document start
event, what the dump of the root node emitted, and the document end event. -/
theorem ymx_dump_document_ok (fuel : Nat) (emitter : yaml_emitter_t)
    (st st' : ymx_dump_state) (docs_array : mxArray) (ind : Nat)
    (h : ymx_dump_document fuel emitter st docs_array ind = .ok () st') :
    ∃ (root : mxArray) (tag_directives : List yaml_tag_directive_t)
      (version_directive : Option yaml_version_directive_t)
      (root_events : List yaml_event_t) (st1 st2 : ymx_dump_state),
      mxGetFieldByNumber docs_array ind YMX_DOC_FIELD_ROOT = some root
      ∧ ymx_is_valid_doc_root (some root) = true
      ∧ ymx_assemble_tagdirs (mxGetFieldByNumber docs_array ind YMX_DOC_FIELD_TAGDIRS)
          = some tag_directives
      ∧ ymx_assemble_version (mxGetFieldByNumber docs_array ind YMX_DOC_FIELD_VERSION)
          = some version_directive
      ∧ st1.emitted = st.emitted ++ [.document_start version_directive tag_directives
          (ymx_logical_or_zero
            (mxGetFieldByNumber docs_array ind YMX_DOC_FIELD_START_IMPLICIT))]
      ∧ ymx_dump_node fuel emitter st1 root 0 = .ok () st2
      ∧ st2.emitted = st1.emitted ++ root_events
      ∧ st'.emitted = st.emitted ++
          (.document_start version_directive tag_directives
              (ymx_logical_or_zero
                (mxGetFieldByNumber docs_array ind YMX_DOC_FIELD_START_IMPLICIT))
            :: (root_events ++ [.document_end (ymx_logical_or_zero
                (mxGetFieldByNumber docs_array ind YMX_DOC_FIELD_END_IMPLICIT))])) := by
  rw [ymx_dump_document_steps] at h
  cases hr : mxGetFieldByNumber docs_array ind YMX_DOC_FIELD_ROOT with
  | none => rw [hr] at h; simp at h
  | some root =>
    rw [hr] at h
    simp only at h
    by_cases hv : ymx_is_valid_doc_root (some root) = true
    · simp only [hv, Bool.not_true, Bool.false_eq_true, if_false] at h
      cases ht : ymx_assemble_tagdirs
          (mxGetFieldByNumber docs_array ind YMX_DOC_FIELD_TAGDIRS) with
      | none => rw [ht] at h; simp at h
      | some tds =>
        rw [ht] at h
        simp only at h
        cases hve : ymx_assemble_version
            (mxGetFieldByNumber docs_array ind YMX_DOC_FIELD_VERSION) with
        | none => rw [hve] at h; simp at h
        | some v =>
          rw [hve] at h
          simp only at h
          cases he1 : ymx_emit emitter
              (st.warn
                (ymx_logical_warning
                    (mxGetFieldByNumber docs_array ind YMX_DOC_FIELD_START_IMPLICIT)
                    "Invalid document start implicit specifier"
                  ++ ymx_logical_warning
                    (mxGetFieldByNumber docs_array ind YMX_DOC_FIELD_END_IMPLICIT)
                    "Invalid document end implicit specifier"))
              (.document_start v tds (ymx_logical_or_zero
                (mxGetFieldByNumber docs_array ind YMX_DOC_FIELD_START_IMPLICIT))) with
          | error msg st1 => rw [he1] at h; simp at h
          | fault st1 => rw [he1] at h; simp at h
          | diverge => rw [he1] at h; simp at h
          | ok u st1 =>
            rw [he1] at h
            simp only at h
            have e1 := (ymx_emit_ok emitter _ _ _ he1).1
            rw [ymx_dump_state.warn_emitted] at e1
            cases hn : ymx_dump_node fuel emitter st1 root 0 with
            | error msg st2 => rw [hn] at h; simp at h
            | fault st2 => rw [hn] at h; simp at h
            | diverge => rw [hn] at h; simp at h
            | ok u st2 =>
              rw [hn] at h
              simp only at h
              obtain ⟨root_events, e2⟩ := ymx_dump_node_ok_prefix emitter fuel st1 st2 root 0 hn
              have e3 := (ymx_emit_ok emitter _ _ _ h).1
              refine ⟨root, tds, v, root_events, st1, st2, rfl, hv, rfl, rfl, e1, hn,
                e2.symm, ?_⟩
              rw [e3, ← e2, e1]
              simp
    · simp only [Bool.not_eq_true] at hv
      simp [hv] at h

/-- A successful dump: the document array passed its check, and the events
emitted are the stream start event, one group for each element of the array,
in order, and the stream end event; the output is the string in the buffer. -/
theorem ymx_dump_stream_ok (emitter : yaml_emitter_t) (docs_array out : mxArray)
    (st : ymx_dump_state) (h : ymx_dump_stream emitter docs_array = .ok out st) :
    ymx_is_valid_doc_array docs_array = true
    ∧ (∃ str, ymx_buffer_as_string st.buffer = some str ∧ out = mxCreateString str)
    ∧ ∃ groups : List (List yaml_event_t),
        groups.length = mxGetNumberOfElements docs_array
        ∧ st.emitted = .stream_start :: (groups.flatten ++ [.stream_end])
        ∧ ∀ j, j < mxGetNumberOfElements docs_array → ∃ sta stb,
            ymx_dump_document (2 * docs_array.depth + 2) emitter sta docs_array j = .ok () stb
            ∧ sta.emitted = .stream_start :: (groups.take j).flatten
            ∧ stb.emitted = sta.emitted ++ groups.getD j [] := by
  unfold ymx_dump_stream at h
  simp only [] at h
  by_cases hv : ymx_is_valid_doc_array docs_array = true
  · simp only [hv, Bool.not_true, Bool.false_eq_true, if_false] at h
    cases hs : ymx_emit emitter ymx_dump_state_init .stream_start with
    | error msg st1 => rw [hs] at h; simp at h
    | fault st1 => rw [hs] at h; simp at h
    | diverge => rw [hs] at h; simp at h
    | ok u st1 =>
      rw [hs] at h
      simp only at h
      have e1 := (ymx_emit_ok emitter _ _ _ hs).1
      cases hf : ymx_dump_for
          (fun st ind => ymx_dump_document (2 * docs_array.depth + 2) emitter st docs_array ind)
          0 (mxGetNumberOfElements docs_array) st1 with
      | error msg st2 => rw [hf] at h; simp at h
      | fault st2 => rw [hf] at h; simp at h
      | diverge => rw [hf] at h; simp at h
      | ok u st2 =>
        rw [hf] at h
        simp only at h
        obtain ⟨groups, hlen, hem, hj⟩ := ymx_dump_for_ok _
          (fun st i st' hb => ymx_dump_document_ok_prefix emitter _ st st' docs_array i hb)
          _ _ _ _ hf
        cases hE : ymx_emit emitter st2 .stream_end with
        | error msg st3 => rw [hE] at h; simp at h
        | fault st3 => rw [hE] at h; simp at h
        | diverge => rw [hE] at h; simp at h
        | ok u st3 =>
          rw [hE] at h
          simp only at h
          have e3 := (ymx_emit_ok emitter _ _ _ hE).1
          cases hb : ymx_buffer_as_string st3.buffer with
          | none => rw [hb] at h; simp at h
          | some str =>
            rw [hb] at h
            simp only [ymx_dump_result.ok.injEq] at h
            obtain ⟨hout, hst⟩ := h
            subst hst
            have hinit : ymx_dump_state_init.emitted = [] := rfl
            rw [hinit, List.nil_append] at e1
            refine ⟨hv, ⟨str, hb, hout.symm⟩, groups, hlen, ?_, ?_⟩
            · rw [e3, hem, e1]; simp
            · intro j hjn
              obtain ⟨sta, stb, h1, h2, h3⟩ := hj j hjn
              refine ⟨sta, stb, ?_, ?_, h3⟩
              · simpa using h1
              · rw [h2, e1]; simp
  · simp only [Bool.not_eq_true] at hv
    simp [hv] at h

/-- C13. Dumper event sequence: the dump of a document array returns (it never
runs out of fuel), and whenever it succeeds, the events it emitted are exactly
StreamStart, then for each element `i` of the array, in order, DocumentStart
(with the version directive, the tag directives in array order and the
start_implicit value of element `i`), the events the dump of the root node of
element `i` emitted, DocumentEnd (with the end_implicit value of element `i`),
and finally StreamEnd.  For the host arrays of canonical documents of the data
model the dump is exactly the emission of the grammatical stream of these
documents. -/
theorem C13_dumper_event_sequence (emitter : yaml_emitter_t) (docs_array : mxArray) :
    ymx_dump_stream emitter docs_array ≠ .diverge
    ∧ (∀ (out : mxArray) (st : ymx_dump_state),
        ymx_dump_stream emitter docs_array = .ok out st →
        ∃ groups : List (List yaml_event_t),
          groups.length = mxGetNumberOfElements docs_array
          ∧ st.emitted = .stream_start :: (groups.flatten ++ [.stream_end])
          ∧ ∀ i, i < mxGetNumberOfElements docs_array →
            ∃ (root : mxArray) (tag_directives : List yaml_tag_directive_t)
              (version_directive : Option yaml_version_directive_t)
              (root_events : List yaml_event_t) (sta stb : ymx_dump_state),
              mxGetFieldByNumber docs_array i YMX_DOC_FIELD_ROOT = some root
              ∧ ymx_assemble_tagdirs (mxGetFieldByNumber docs_array i YMX_DOC_FIELD_TAGDIRS)
                  = some tag_directives
              ∧ ymx_assemble_version (mxGetFieldByNumber docs_array i YMX_DOC_FIELD_VERSION)
                  = some version_directive
              ∧ groups.getD i []
                  = .document_start version_directive tag_directives
                      (ymx_logical_or_zero
                        (mxGetFieldByNumber docs_array i YMX_DOC_FIELD_START_IMPLICIT))
                    :: (root_events ++ [.document_end (ymx_logical_or_zero
                        (mxGetFieldByNumber docs_array i YMX_DOC_FIELD_END_IMPLICIT))])
              ∧ ymx_dump_node (2 * docs_array.depth + 2) emitter sta root 0 = .ok () stb
              ∧ sta.emitted = .stream_start :: ((groups.take i).flatten
                  ++ [.document_start version_directive tag_directives
                      (ymx_logical_or_zero
                        (mxGetFieldByNumber docs_array i YMX_DOC_FIELD_START_IMPLICIT))])
              ∧ stb.emitted = sta.emitted ++ root_events)
    ∧ (∀ docs : List Document, (∀ d ∈ docs, d.canonical = true) →
        ymx_dump_stream emitter (Document.host_array docs)
          = (match ymx_emit_all emitter ymx_dump_state_init
                (yaml_stream_events (docs.map Document.grammar)) with
             | .ok _ st =>
               (match ymx_buffer_as_string st.buffer with
                | some str => .ok (mxCreateString str) st
                | none => .fault st)
             | .error msg st => .error msg st
             | .fault st => .fault st
             | .diverge => .diverge)) := by
  refine ⟨ymx_dump_stream_returns emitter docs_array, ?_,
    fun docs hcan => ymx_dump_stream_host docs hcan emitter⟩
  intro out st h
  obtain ⟨_, _, groups, hlen, hem, hj⟩ := ymx_dump_stream_ok emitter docs_array out st h
  refine ⟨groups, hlen, hem, ?_⟩
  intro i hi
  obtain ⟨sta, stb, hdoc, ha, hb⟩ := hj i hi
  obtain ⟨root, tds, v, root_events, st1, st2, h1, _, h3, h4, h5, h6, h7, h8⟩ :=
    ymx_dump_document_ok _ emitter sta stb docs_array i hdoc
  refine ⟨root, tds, v, root_events, st1, st2, h1, h3, h4, ?_, h6, ?_, h7⟩
  · rw [hb] at h8
    exact List.append_cancel_left h8
  · rw [h5, ha]; simp

/-- Witness of `C13_dumper_event_sequence`: the dump of the array of one
canonical document succeeds. -/
theorem C13_dumper_event_sequence_witness :
    ymx_dump_stream yaml_emitter_accept_all (Document.host_array [ymx_example_canonical_document])
        = .ok (mxCreateString [])
            { ymx_dump_state_init with
              emitted := yaml_stream_events [ymx_example_canonical_document.grammar] }
    ∧ ∃ groups : List (List yaml_event_t),
        groups.length
          = mxGetNumberOfElements (Document.host_array [ymx_example_canonical_document])
        ∧ yaml_stream_events [ymx_example_canonical_document.grammar]
          = .stream_start :: (groups.flatten ++ [.stream_end]) := by
  have h : ymx_dump_stream yaml_emitter_accept_all
      (Document.host_array [ymx_example_canonical_document])
        = .ok (mxCreateString [])
            { ymx_dump_state_init with
              emitted := yaml_stream_events [ymx_example_canonical_document.grammar] } := by
    decide
  obtain ⟨groups, h1, h2, _⟩ :=
    (C13_dumper_event_sequence yaml_emitter_accept_all
      (Document.host_array [ymx_example_canonical_document])).2.1 _ _ h
  exact ⟨h, groups, h1, h2⟩

/-- A successful run of the body of `ymx_dump_sequence` or `ymx_dump_mapping`
between the start and the end event: a value that is not empty passed the
check of its shape, and the events emitted split into one group for each
element of the value, in storage order. -/
theorem ymx_dump_children_ok (emitter : yaml_emitter_t) (fuel rows : Nat) (msg : String)
    (st st' : ymx_dump_state) (value_arr : Option mxArray)
    (h : (match value_arr with
        | some value =>
          if !mxIsEmpty value then
            if !ymx_is_valid_node_array value
                || mxGetNumberOfDimensions value != 2
                || mxGetM value != rows then
              (.error msg st : ymx_dump_result Unit)
            else
              ymx_dump_for (fun st ind => ymx_dump_node fuel emitter st value ind)
                0 (mxGetNumberOfElements value) st
          else .ok () st
        | none => .ok () st) = .ok () st') :
    ∃ children : List (List yaml_event_t),
      children.length = (value_arr.map mxGetNumberOfElements).getD 0
      ∧ st'.emitted = st.emitted ++ children.flatten
      ∧ (∀ v, value_arr = some v → mxIsEmpty v = false →
          ymx_is_valid_node_array v = true ∧ mxGetNumberOfDimensions v = 2 ∧ mxGetM v = rows)
      ∧ ∀ j, j < children.length → ∃ v sta stb,
          value_arr = some v
          ∧ ymx_dump_node fuel emitter sta v j = .ok () stb
          ∧ sta.emitted = st.emitted ++ (children.take j).flatten
          ∧ stb.emitted = sta.emitted ++ children.getD j [] := by
  cases value_arr with
  | none =>
    simp only [ymx_dump_result.ok.injEq, true_and] at h
    subst h
    exact ⟨[], rfl, by simp, fun v hv => by simp at hv, fun j hj => by simp at hj⟩
  | some v =>
    simp only [] at h
    by_cases he : mxIsEmpty v = true
    · simp only [he, Bool.not_true, Bool.false_eq_true, if_false, ymx_dump_result.ok.injEq,
        true_and] at h
      subst h
      have hz : mxGetNumberOfElements v = 0 := by simpa [mxIsEmpty] using he
      refine ⟨[], by simp [hz], by simp, ?_, fun j hj => by simp at hj⟩
      intro v' hv' hne
      simp only [Option.some.injEq] at hv'
      subst hv'
      rw [he] at hne
      exact absurd hne (by simp)
    · simp only [Bool.not_eq_true] at he
      simp only [he, Bool.not_false, if_true] at h
      by_cases hbad : (!ymx_is_valid_node_array v
          || mxGetNumberOfDimensions v != 2 || mxGetM v != rows) = true
      · rw [if_pos hbad] at h
        simp at h
      · rw [if_neg hbad] at h
        obtain ⟨children, hlen, hem, hj⟩ := ymx_dump_for_ok _
          (fun st i st' hb => ymx_dump_node_ok_prefix emitter fuel st st' v i hb) _ _ _ _ h
        refine ⟨children, by simp [hlen], hem, ?_, ?_⟩
        · intro v' hv' _
          simp only [Option.some.injEq] at hv'
          subst hv'
          simp only [Bool.or_eq_true, Bool.not_eq_true', bne_iff_ne, ne_eq, not_or,
            Bool.not_eq_false, Decidable.not_not] at hbad
          exact ⟨hbad.1.1, hbad.1.2, hbad.2⟩
        · intro j hjl
          obtain ⟨sta, stb, h1, h2, h3⟩ := hj j (by omega)
          exact ⟨v, sta, stb, rfl, by simpa using h1, h2, h3⟩

/-- A successful `ymx_dump_sequence`: the sequence start event, one group of
events for each element of the value, in order, and the sequence end event. -/
theorem ymx_dump_sequence_ok (fuel : Nat) (emitter : yaml_emitter_t)
    (st st' : ymx_dump_state) (value_arr : Option mxArray) (tag anchor : Option c_string)
    (implicit style : Int)
    (h : ymx_dump_sequence (fuel + 1) emitter st value_arr tag anchor implicit style
      = .ok () st') :
    ∃ children : List (List yaml_event_t),
      children.length = (value_arr.map mxGetNumberOfElements).getD 0
      ∧ st'.emitted = st.emitted ++
          (.sequence_start anchor tag implicit style :: (children.flatten ++ [.sequence_end]))
      ∧ (∀ v, value_arr = some v → mxIsEmpty v = false →
          ymx_is_valid_node_array v = true ∧ mxGetNumberOfDimensions v = 2 ∧ mxGetM v = 1)
      ∧ ∀ j, j < children.length → ∃ v sta stb,
          value_arr = some v
          ∧ ymx_dump_node fuel emitter sta v j = .ok () stb
          ∧ sta.emitted = st.emitted ++
              (.sequence_start anchor tag implicit style :: (children.take j).flatten)
          ∧ stb.emitted = sta.emitted ++ children.getD j [] := by
  rw [ymx_dump_sequence] at h
  cases hs : ymx_emit emitter st (.sequence_start anchor tag implicit style) with
  | error msg st1 => rw [hs] at h; simp at h
  | fault st1 => rw [hs] at h; simp at h
  | diverge => rw [hs] at h; simp at h
  | ok u st1 =>
    rw [hs] at h
    simp only at h
    have e1 := (ymx_emit_ok emitter _ _ _ hs).1
    split at h
    · rename_i u2 st2 hbody
      obtain ⟨children, hlen, hem, hshape, hj⟩ :=
        ymx_dump_children_ok emitter fuel 1 "Invalid sequence node array" st1 st2 value_arr hbody
      have e3 := (ymx_emit_ok emitter _ _ _ h).1
      refine ⟨children, hlen, ?_, hshape, ?_⟩
      · rw [e3, hem, e1]; simp
      · intro j hjl
        obtain ⟨v, sta, stb, h1, h2, h3, h4⟩ := hj j hjl
        refine ⟨v, sta, stb, h1, h2, ?_, h4⟩
        rw [h3, e1]; simp
    · rename_i hne
      exfalso
      revert h
      split <;> simp_all

/-- A successful `ymx_dump_mapping`: the mapping start event, one group of
events for each element of the value, in storage order (key, value, key,
value, ...), and the mapping end event. -/
theorem ymx_dump_mapping_ok (fuel : Nat) (emitter : yaml_emitter_t)
    (st st' : ymx_dump_state) (value_arr : Option mxArray) (tag anchor : Option c_string)
    (implicit style : Int)
    (h : ymx_dump_mapping (fuel + 1) emitter st value_arr tag anchor implicit style
      = .ok () st') :
    ∃ children : List (List yaml_event_t),
      children.length = (value_arr.map mxGetNumberOfElements).getD 0
      ∧ st'.emitted = st.emitted ++
          (.mapping_start anchor tag implicit style :: (children.flatten ++ [.mapping_end]))
      ∧ (∀ v, value_arr = some v → mxIsEmpty v = false →
          ymx_is_valid_node_array v = true ∧ mxGetNumberOfDimensions v = 2 ∧ mxGetM v = 2)
      ∧ ∀ j, j < children.length → ∃ v sta stb,
          value_arr = some v
          ∧ ymx_dump_node fuel emitter sta v j = .ok () stb
          ∧ sta.emitted = st.emitted ++
              (.mapping_start anchor tag implicit style :: (children.take j).flatten)
          ∧ stb.emitted = sta.emitted ++ children.getD j [] := by
  rw [ymx_dump_mapping] at h
  cases hs : ymx_emit emitter st (.mapping_start anchor tag implicit style) with
  | error msg st1 => rw [hs] at h; simp at h
  | fault st1 => rw [hs] at h; simp at h
  | diverge => rw [hs] at h; simp at h
  | ok u st1 =>
    rw [hs] at h
    simp only at h
    have e1 := (ymx_emit_ok emitter _ _ _ hs).1
    split at h
    · rename_i u2 st2 hbody
      obtain ⟨children, hlen, hem, hshape, hj⟩ :=
        ymx_dump_children_ok emitter fuel 2 "Invalid mapping node array" st1 st2 value_arr hbody
      have e3 := (ymx_emit_ok emitter _ _ _ h).1
      refine ⟨children, hlen, ?_, hshape, ?_⟩
      · rw [e3, hem, e1]; simp
      · intro j hjl
        obtain ⟨v, sta, stb, h1, h2, h3, h4⟩ := hj j hjl
        refine ⟨v, sta, stb, h1, h2, ?_, h4⟩
        rw [h3, e1]; simp
    · rename_i hne
      exfalso
      revert h
      split <;> simp_all

/-! ## Node emission -/

/-- A successful `ymx_dump_node`: the tag, the anchor and the type passed
their checks, and the events emitted are those of the variant the type code
names. -/
theorem ymx_dump_node_ok (fuel : Nat) (emitter : yaml_emitter_t) (st st' : ymx_dump_state)
    (node : mxArray) (ind : Nat)
    (h : ymx_dump_node fuel emitter st node ind = .ok () st') :
    ∃ (tag anchor : Option c_string) (type : mxArray),
      ymx_assemble_string (mxGetFieldByNumber node ind YMX_NODE_FIELD_TAG) = some tag
      ∧ ymx_assemble_string (mxGetFieldByNumber node ind YMX_NODE_FIELD_ANCHOR) = some anchor
      ∧ mxGetFieldByNumber node ind YMX_NODE_FIELD_TYPE = some type
      ∧ ymx_is_valid_int_scalar type = true
      ∧ ((ymx_get_int_scalar type = YMX_NODE_TYPE_SCALAR
          ∧ ∃ value, mxGetFieldByNumber node ind YMX_NODE_FIELD_VALUE = some value
            ∧ ymx_is_valid_string value = true
            ∧ st'.emitted = st.emitted ++
                [.scalar anchor tag (some ((mxArrayToString value).getD []))
                  ((mxArrayToString value).getD []).length
                  (if ymx_int_or_zero (mxGetFieldByNumber node ind YMX_NODE_FIELD_IMPLICIT)
                      = YMX_SCALAR_IMPLICIT_PLAIN then 1 else 0)
                  (if ymx_int_or_zero (mxGetFieldByNumber node ind YMX_NODE_FIELD_IMPLICIT)
                      = YMX_SCALAR_IMPLICIT_QUOTED then 1 else 0)
                  (ymx_int_or_zero (mxGetFieldByNumber node ind YMX_NODE_FIELD_STYLE))])
        ∨ (ymx_get_int_scalar type = YMX_NODE_TYPE_ALIAS
          ∧ st'.emitted = st.emitted ++ [.alias anchor])
        ∨ (ymx_get_int_scalar type = YMX_NODE_TYPE_SEQUENCE
          ∧ ∃ children : List (List yaml_event_t),
            children.length = ((mxGetFieldByNumber node ind YMX_NODE_FIELD_VALUE).map
              mxGetNumberOfElements).getD 0
            ∧ st'.emitted = st.emitted ++
                (.sequence_start anchor tag
                    (ymx_int_or_zero (mxGetFieldByNumber node ind YMX_NODE_FIELD_IMPLICIT))
                    (ymx_int_or_zero (mxGetFieldByNumber node ind YMX_NODE_FIELD_STYLE))
                  :: (children.flatten ++ [.sequence_end]))
            ∧ (∀ v, mxGetFieldByNumber node ind YMX_NODE_FIELD_VALUE = some v →
                mxIsEmpty v = false →
                ymx_is_valid_node_array v = true ∧ mxGetNumberOfDimensions v = 2
                  ∧ mxGetM v = 1)
            ∧ ∀ j, j < children.length → ∃ v sta stb,
                mxGetFieldByNumber node ind YMX_NODE_FIELD_VALUE = some v
                ∧ ymx_dump_node (fuel - 2) emitter sta v j = .ok () stb
                ∧ sta.emitted = st.emitted ++
                    (.sequence_start anchor tag
                        (ymx_int_or_zero (mxGetFieldByNumber node ind YMX_NODE_FIELD_IMPLICIT))
                        (ymx_int_or_zero (mxGetFieldByNumber node ind YMX_NODE_FIELD_STYLE))
                      :: (children.take j).flatten)
                ∧ stb.emitted = sta.emitted ++ children.getD j [])
        ∨ (ymx_get_int_scalar type = YMX_NODE_TYPE_MAPPING
          ∧ ∃ children : List (List yaml_event_t),
            children.length = ((mxGetFieldByNumber node ind YMX_NODE_FIELD_VALUE).map
              mxGetNumberOfElements).getD 0
            ∧ st'.emitted = st.emitted ++
                (.mapping_start anchor tag
                    (ymx_int_or_zero (mxGetFieldByNumber node ind YMX_NODE_FIELD_IMPLICIT))
                    (ymx_int_or_zero (mxGetFieldByNumber node ind YMX_NODE_FIELD_STYLE))
                  :: (children.flatten ++ [.mapping_end]))
            ∧ (∀ v, mxGetFieldByNumber node ind YMX_NODE_FIELD_VALUE = some v →
                mxIsEmpty v = false →
                ymx_is_valid_node_array v = true ∧ mxGetNumberOfDimensions v = 2
                  ∧ mxGetM v = 2)
            ∧ ∀ j, j < children.length → ∃ v sta stb,
                mxGetFieldByNumber node ind YMX_NODE_FIELD_VALUE = some v
                ∧ ymx_dump_node (fuel - 2) emitter sta v j = .ok () stb
                ∧ sta.emitted = st.emitted ++
                    (.mapping_start anchor tag
                        (ymx_int_or_zero (mxGetFieldByNumber node ind YMX_NODE_FIELD_IMPLICIT))
                        (ymx_int_or_zero (mxGetFieldByNumber node ind YMX_NODE_FIELD_STYLE))
                      :: (children.take j).flatten)
                ∧ stb.emitted = sta.emitted ++ children.getD j [])) := by
  cases fuel with
  | zero => rw [ymx_dump_node] at h; simp at h
  | succ f =>
    rw [ymx_dump_node_steps] at h
    cases htag : ymx_assemble_string (mxGetFieldByNumber node ind YMX_NODE_FIELD_TAG) with
    | none => rw [htag] at h; simp at h
    | some tag =>
      rw [htag] at h
      simp only at h
      cases hanc : ymx_assemble_string (mxGetFieldByNumber node ind YMX_NODE_FIELD_ANCHOR) with
      | none => rw [hanc] at h; simp at h
      | some anchor =>
        rw [hanc] at h
        simp only at h
        cases htype : mxGetFieldByNumber node ind YMX_NODE_FIELD_TYPE with
        | none => rw [htype] at h; simp at h
        | some type =>
          rw [htype] at h
          simp only at h
          by_cases hvalid : ymx_is_valid_int_scalar type = true
          · simp only [hvalid, Bool.not_true, Bool.false_eq_true, if_false] at h
            refine ⟨tag, anchor, type, rfl, rfl, rfl, hvalid, ?_⟩
            by_cases h1 : ymx_get_int_scalar type = YMX_NODE_TYPE_SCALAR
            · rw [if_pos h1] at h
              obtain ⟨value, hv1, hv2, hv3, _⟩ := ymx_dump_scalar_ok emitter _ _ _ _ _ _ _ h
              exact Or.inl ⟨h1, value, hv1, hv2, by rw [hv3, ymx_dump_state.warn_emitted]⟩
            · rw [if_neg h1] at h
              by_cases h2 : ymx_get_int_scalar type = YMX_NODE_TYPE_SEQUENCE
              · rw [if_pos h2] at h
                cases f with
                | zero => rw [ymx_dump_sequence] at h; simp at h
                | succ f2 =>
                  obtain ⟨children, c1, c2, c3, c4⟩ :=
                    ymx_dump_sequence_ok f2 emitter _ _ _ _ _ _ _ h
                  refine Or.inr (Or.inr (Or.inl ⟨h2, children, c1, ?_, c3, ?_⟩))
                  · rw [c2, ymx_dump_state.warn_emitted]
                  · intro j hj
                    obtain ⟨v, sta, stb, d1, d2, d3, d4⟩ := c4 j hj
                    refine ⟨v, sta, stb, d1, ?_, ?_, d4⟩
                    · simpa using d2
                    · rw [d3, ymx_dump_state.warn_emitted]
              · rw [if_neg h2] at h
                by_cases h3 : ymx_get_int_scalar type = YMX_NODE_TYPE_MAPPING
                · rw [if_pos h3] at h
                  cases f with
                  | zero => rw [ymx_dump_mapping] at h; simp at h
                  | succ f2 =>
                    obtain ⟨children, c1, c2, c3, c4⟩ :=
                      ymx_dump_mapping_ok f2 emitter _ _ _ _ _ _ _ h
                    refine Or.inr (Or.inr (Or.inr ⟨h3, children, c1, ?_, c3, ?_⟩))
                    · rw [c2, ymx_dump_state.warn_emitted]
                    · intro j hj
                      obtain ⟨v, sta, stb, d1, d2, d3, d4⟩ := c4 j hj
                      refine ⟨v, sta, stb, d1, ?_, ?_, d4⟩
                      · simpa using d2
                      · rw [d3, ymx_dump_state.warn_emitted]
                · rw [if_neg h3] at h
                  by_cases h4 : ymx_get_int_scalar type = YMX_NODE_TYPE_ALIAS
                  · rw [if_pos h4] at h
                    have e := (ymx_emit_ok emitter _ _ _ h).1
                    exact Or.inr (Or.inl ⟨h4, by rw [e, ymx_dump_state.warn_emitted]⟩)
                  · rw [if_neg h4] at h
                    simp at h
          · simp only [Bool.not_eq_true] at hvalid
            simp [hvalid] at h

/-- C14. Node emission mirrors loading: whenever the dump of a node succeeds,
the node passed the checks of its tag, anchor and type, and the events emitted
for it are: one Scalar event for type code 1, one Alias event for type code 4,
SequenceStart, the events of the elements of the value in order and SequenceEnd
for type code 2, MappingStart, the events of the elements of the 2-row value in
storage order (key, value, key, value, ...) and MappingEnd for type code 3.  The
event carries the tag and the anchor of the node as the steps "Assemble tag" and
"Assemble anchor" read them (absent for an absent or empty member, the string of
a member that is a row string), and the implicit value and the style of the
node (a scalar implicit value expanded to the two flags).  For the host
representation of a canonical node of the data model, the dump is exactly the
emission of the events of that node. -/
theorem C14_node_emission (fuel : Nat) (emitter : yaml_emitter_t) (st : ymx_dump_state)
    (node : mxArray) (ind : Nat) :
    (∀ st' : ymx_dump_state, ymx_dump_node fuel emitter st node ind = .ok () st' →
        ∃ (tag anchor : Option c_string) (type : mxArray),
          ymx_assemble_string (mxGetFieldByNumber node ind YMX_NODE_FIELD_TAG) = some tag
          ∧ ymx_assemble_string (mxGetFieldByNumber node ind YMX_NODE_FIELD_ANCHOR) = some anchor
          ∧ mxGetFieldByNumber node ind YMX_NODE_FIELD_TYPE = some type
          ∧ ymx_is_valid_int_scalar type = true
          ∧ ((ymx_get_int_scalar type = YMX_NODE_TYPE_SCALAR
              ∧ ∃ value, mxGetFieldByNumber node ind YMX_NODE_FIELD_VALUE = some value
                ∧ ymx_is_valid_string value = true
                ∧ st'.emitted = st.emitted ++
                    [.scalar anchor tag (some ((mxArrayToString value).getD []))
                      ((mxArrayToString value).getD []).length
                      (if ymx_int_or_zero (mxGetFieldByNumber node ind YMX_NODE_FIELD_IMPLICIT)
                          = YMX_SCALAR_IMPLICIT_PLAIN then 1 else 0)
                      (if ymx_int_or_zero (mxGetFieldByNumber node ind YMX_NODE_FIELD_IMPLICIT)
                          = YMX_SCALAR_IMPLICIT_QUOTED then 1 else 0)
                      (ymx_int_or_zero (mxGetFieldByNumber node ind YMX_NODE_FIELD_STYLE))])
            ∨ (ymx_get_int_scalar type = YMX_NODE_TYPE_ALIAS
              ∧ st'.emitted = st.emitted ++ [.alias anchor])
            ∨ (ymx_get_int_scalar type = YMX_NODE_TYPE_SEQUENCE
              ∧ ∃ children : List (List yaml_event_t),
                children.length = ((mxGetFieldByNumber node ind YMX_NODE_FIELD_VALUE).map
                  mxGetNumberOfElements).getD 0
                ∧ st'.emitted = st.emitted ++
                    (.sequence_start anchor tag
                        (ymx_int_or_zero (mxGetFieldByNumber node ind YMX_NODE_FIELD_IMPLICIT))
                        (ymx_int_or_zero (mxGetFieldByNumber node ind YMX_NODE_FIELD_STYLE))
                      :: (children.flatten ++ [.sequence_end]))
                ∧ (∀ v, mxGetFieldByNumber node ind YMX_NODE_FIELD_VALUE = some v →
                    mxIsEmpty v = false →
                    ymx_is_valid_node_array v = true ∧ mxGetNumberOfDimensions v = 2
                      ∧ mxGetM v = 1)
                ∧ ∀ j, j < children.length → ∃ v sta stb,
                    mxGetFieldByNumber node ind YMX_NODE_FIELD_VALUE = some v
                    ∧ ymx_dump_node (fuel - 2) emitter sta v j = .ok () stb
                    ∧ sta.emitted = st.emitted ++
                        (.sequence_start anchor tag
                            (ymx_int_or_zero (mxGetFieldByNumber node ind YMX_NODE_FIELD_IMPLICIT))
                            (ymx_int_or_zero (mxGetFieldByNumber node ind YMX_NODE_FIELD_STYLE))
                          :: (children.take j).flatten)
                    ∧ stb.emitted = sta.emitted ++ children.getD j [])
            ∨ (ymx_get_int_scalar type = YMX_NODE_TYPE_MAPPING
              ∧ ∃ children : List (List yaml_event_t),
                children.length = ((mxGetFieldByNumber node ind YMX_NODE_FIELD_VALUE).map
                  mxGetNumberOfElements).getD 0
                ∧ st'.emitted = st.emitted ++
                    (.mapping_start anchor tag
                        (ymx_int_or_zero (mxGetFieldByNumber node ind YMX_NODE_FIELD_IMPLICIT))
                        (ymx_int_or_zero (mxGetFieldByNumber node ind YMX_NODE_FIELD_STYLE))
                      :: (children.flatten ++ [.mapping_end]))
                ∧ (∀ v, mxGetFieldByNumber node ind YMX_NODE_FIELD_VALUE = some v →
                    mxIsEmpty v = false →
                    ymx_is_valid_node_array v = true ∧ mxGetNumberOfDimensions v = 2
                      ∧ mxGetM v = 2)
                ∧ ∀ j, j < children.length → ∃ v sta stb,
                    mxGetFieldByNumber node ind YMX_NODE_FIELD_VALUE = some v
                    ∧ ymx_dump_node (fuel - 2) emitter sta v j = .ok () stb
                    ∧ sta.emitted = st.emitted ++
                        (.mapping_start anchor tag
                            (ymx_int_or_zero (mxGetFieldByNumber node ind YMX_NODE_FIELD_IMPLICIT))
                            (ymx_int_or_zero (mxGetFieldByNumber node ind YMX_NODE_FIELD_STYLE))
                          :: (children.take j).flatten)
                    ∧ stb.emitted = sta.emitted ++ children.getD j [])))
    ∧ (ymx_assemble_string none = some none
      ∧ (∀ a : mxArray, mxIsEmpty a = true → ymx_assemble_string (some a) = some none)
      ∧ (∀ a : mxArray, mxIsEmpty a = false → ymx_is_valid_string a = true →
          ymx_assemble_string (some a) = some (mxArrayToString a))
      ∧ (∀ s : c_string, host_string_ok s = true →
          ymx_assemble_string (some (mxCreateString s)) = some (some s))
      ∧ (∀ x : Int, ymx_int_or_zero (some (ymx_create_int_scalar x)) = x))
    ∧ (∀ n : Node, n.canonical = true →
        (∀ k, mxGetFieldByNumber node ind k = n.host.fields.getD k none) →
        2 * mxArray.depth_fields n.host.fields + 2 ≤ fuel →
        ymx_dump_node fuel emitter st node ind = ymx_emit_all emitter st n.subtree.events) := by
  refine ⟨fun st' h => ymx_dump_node_ok fuel emitter st st' node ind h,
    ⟨rfl, ?_, ?_, ymx_assemble_string_ok, fun x => rfl⟩,
    fun n hcan harr hfuel => ymx_dump_node_host n hcan fuel emitter st node ind harr hfuel⟩
  · intro a ha
    simp [ymx_assemble_string, ha]
  · intro a ha hv
    simp [ymx_assemble_string, ha, hv]

/-- Witness of `C14_node_emission`: the dump of the root node of a canonical
document (a mapping with a scalar key and a sequence value) succeeds and emits
the events of that node. -/
theorem C14_node_emission_witness :
    ymx_dump_node 8 yaml_emitter_accept_all ymx_dump_state_init
        (.struct [1, 1] YMX_NODE_FIELD_STRS [ymx_example_canonical_document.root.host.fields]) 0
      = .ok () { ymx_dump_state_init with
          emitted := ymx_example_canonical_document.root.subtree.events }
    ∧ ∃ (tag anchor : Option c_string) (type : mxArray),
        ymx_assemble_string (mxGetFieldByNumber
          (.struct [1, 1] YMX_NODE_FIELD_STRS [ymx_example_canonical_document.root.host.fields])
          0 YMX_NODE_FIELD_TAG) = some tag
        ∧ ymx_assemble_string (mxGetFieldByNumber
          (.struct [1, 1] YMX_NODE_FIELD_STRS [ymx_example_canonical_document.root.host.fields])
          0 YMX_NODE_FIELD_ANCHOR) = some anchor
        ∧ mxGetFieldByNumber
          (.struct [1, 1] YMX_NODE_FIELD_STRS [ymx_example_canonical_document.root.host.fields])
          0 YMX_NODE_FIELD_TYPE = some type
        ∧ ymx_is_valid_int_scalar type = true := by
  have h : ymx_dump_node 8 yaml_emitter_accept_all ymx_dump_state_init
      (.struct [1, 1] YMX_NODE_FIELD_STRS [ymx_example_canonical_document.root.host.fields]) 0
      = .ok () { ymx_dump_state_init with
          emitted := ymx_example_canonical_document.root.subtree.events } := by decide
  obtain ⟨tag, anchor, type, h1, h2, h3, h4, _⟩ :=
    (C14_node_emission 8 yaml_emitter_accept_all ymx_dump_state_init
      (.struct [1, 1] YMX_NODE_FIELD_STRS [ymx_example_canonical_document.root.host.fields])
      0).1 _ h
  exact ⟨h, tag, anchor, type, h1, h2, h3, h4⟩

/-! ## The messages of the aborts -/

/-- An abort of `ymx_dump_node` with a message that is none of the node
messages and not the message of `ymx_emit` does not happen. -/
theorem ymx_dump_node_error_mem (fuel : Nat) (emitter : yaml_emitter_t)
    (st st' : ymx_dump_state) (node : mxArray) (ind : Nat) (msg : String)
    (h : ymx_dump_node fuel emitter st node ind = .error msg st') :
    msg ∈ ymx_node_errors ∨ msg = ymx_emit_error := by
  have := (ymx_dump_node_continues (ymx_emit_error :: ymx_node_errors)
    (fun m hm => List.mem_cons_of_mem _ hm) (List.mem_cons_self _ _) emitter fuel).1 st node ind
  rw [h] at this
  have hm := this.2 msg rfl
  rcases List.mem_cons.mp hm with h1 | h1
  · exact Or.inr h1
  · exact Or.inl h1

/-- The abort of `ymx_dump_document` names the part of the document that
failed: a message of the document itself comes from the check of that part,
made after the checks before it were passed; any other message comes from the
root node or the emitter, after all three checks were passed. -/
theorem ymx_dump_document_error (fuel : Nat) (emitter : yaml_emitter_t)
    (st st' : ymx_dump_state) (docs_array : mxArray) (ind : Nat) (msg : String)
    (h : ymx_dump_document fuel emitter st docs_array ind = .error msg st') :
    (msg = "Invalid document root" ∧ st' = st
      ∧ ymx_is_valid_doc_root (mxGetFieldByNumber docs_array ind YMX_DOC_FIELD_ROOT) = false)
    ∨ (msg = "Invalid document tag directives" ∧ st' = st
      ∧ ymx_is_valid_doc_root (mxGetFieldByNumber docs_array ind YMX_DOC_FIELD_ROOT) = true
      ∧ ymx_assemble_tagdirs (mxGetFieldByNumber docs_array ind YMX_DOC_FIELD_TAGDIRS) = none)
    ∨ (msg = "Invalid document version" ∧ st' = st
      ∧ ymx_is_valid_doc_root (mxGetFieldByNumber docs_array ind YMX_DOC_FIELD_ROOT) = true
      ∧ ymx_assemble_tagdirs (mxGetFieldByNumber docs_array ind YMX_DOC_FIELD_TAGDIRS) ≠ none
      ∧ ymx_assemble_version (mxGetFieldByNumber docs_array ind YMX_DOC_FIELD_VERSION) = none)
    ∨ ((msg ∈ ymx_node_errors ∨ msg = ymx_emit_error)
      ∧ ymx_is_valid_doc_root (mxGetFieldByNumber docs_array ind YMX_DOC_FIELD_ROOT) = true
      ∧ ymx_assemble_tagdirs (mxGetFieldByNumber docs_array ind YMX_DOC_FIELD_TAGDIRS) ≠ none
      ∧ ymx_assemble_version (mxGetFieldByNumber docs_array ind YMX_DOC_FIELD_VERSION)
          ≠ none) := by
  rw [ymx_dump_document_steps] at h
  cases hr : mxGetFieldByNumber docs_array ind YMX_DOC_FIELD_ROOT with
  | none =>
    rw [hr] at h
    simp only [ymx_dump_result.error.injEq] at h
    exact Or.inl ⟨h.1.symm, h.2.symm, rfl⟩
  | some root =>
    rw [hr] at h
    simp only at h
    by_cases hv : ymx_is_valid_doc_root (some root) = true
    · simp only [hv, Bool.not_true, Bool.false_eq_true, if_false] at h
      cases ht : ymx_assemble_tagdirs
          (mxGetFieldByNumber docs_array ind YMX_DOC_FIELD_TAGDIRS) with
      | none =>
        rw [ht] at h
        simp only [ymx_dump_result.error.injEq] at h
        exact Or.inr (Or.inl ⟨h.1.symm, h.2.symm, hv, rfl⟩)
      | some tds =>
        rw [ht] at h
        simp only at h
        cases hve : ymx_assemble_version
            (mxGetFieldByNumber docs_array ind YMX_DOC_FIELD_VERSION) with
        | none =>
          rw [hve] at h
          simp only [ymx_dump_result.error.injEq] at h
          exact Or.inr (Or.inr (Or.inl ⟨h.1.symm, h.2.symm, hv, by simp, rfl⟩))
        | some v =>
          rw [hve] at h
          simp only at h
          refine Or.inr (Or.inr (Or.inr ⟨?_, hv, by simp, by simp⟩))
          have hemit : ∀ (s s' : ymx_dump_state) (ev : yaml_event_t) (m : String),
              ymx_emit emitter s ev = .error m s' → m = ymx_emit_error := by
            intro s s' ev m hm
            have := ymx_emit_continues [ymx_emit_error] (List.mem_singleton.mpr rfl) emitter s ev
            rw [hm] at this
            exact List.mem_singleton.mp (this.2 m rfl)
          split at h
          · rename_i u st1 he1
            split at h
            · exact Or.inr (hemit _ _ _ _ h)
            · rename_i r hne
              cases hn : ymx_dump_node fuel emitter st1 root 0 with
              | ok u2 st2 => exact absurd hn (hne u2 st2)
              | fault st2 => rw [hn] at h; simp at h
              | diverge => rw [hn] at h; simp at h
              | error m st2 =>
                rw [hn] at h
                simp only [ymx_dump_result.error.injEq] at h
                rw [← h.1]
                exact ymx_dump_node_error_mem fuel emitter st1 st2 root 0 m hn
          · rename_i r hne
            exact Or.inr (hemit _ _ _ _ h)
    · simp only [Bool.not_eq_true] at hv
      simp only [hv, Bool.not_false, if_true, ymx_dump_result.error.injEq] at h
      exact Or.inl ⟨h.1.symm, h.2.symm, hv⟩

/-- `ymx_dump_sequence` on a value that is not empty and is no 1-row node
array: the start event is handed to the emitter, then the dump aborts. -/
theorem ymx_dump_sequence_invalid (fuel : Nat) (emitter : yaml_emitter_t) (st : ymx_dump_state)
    (value : mxArray) (tag anchor : Option c_string) (implicit style : Int)
    (hne : mxIsEmpty value = false)
    (hbad : ymx_is_valid_node_array value = false ∨ mxGetNumberOfDimensions value ≠ 2
      ∨ mxGetM value ≠ 1) :
    ymx_dump_sequence (fuel + 1) emitter st (some value) tag anchor implicit style
      = (match ymx_emit emitter st (.sequence_start anchor tag implicit style) with
         | .ok _ st1 => .error "Invalid sequence node array" st1
         | r => r) := by
  have hcond : (!ymx_is_valid_node_array value || mxGetNumberOfDimensions value != 2
      || mxGetM value != 1) = true := by
    rcases hbad with h | h | h
    · simp [h]
    · simp [h]
    · simp [h]
  simp only [ymx_dump_sequence, hne, hcond, Bool.not_false, if_true]

/-! ## Warnings -/

/-- C17. Warning fallback: a node whose implicit or style member is missing or
is no int32 scalar is dumped as the node with that member equal to 0, after the
warning for that member is raised ("Invalid node implicit specifier", "Invalid
node style"): the dump does not abort on that member, and everything else
goes exactly as for the node with the member set.  Likewise a document whose
start_implicit or end_implicit member is missing or is no logical scalar is
dumped as the document with that member equal to 0 (false), after the warning
for that member is raised. -/
theorem C17_warning_fallback (fuel : Nat) (emitter : yaml_emitter_t) (st : ymx_dump_state) :
    (ymx_int_or_zero none = 0
      ∧ (∀ a, ymx_is_valid_int_scalar a = false → ymx_int_or_zero (some a) = 0)
      ∧ (∀ msg, ymx_int_warning none msg = [msg])
      ∧ (∀ a msg, ymx_is_valid_int_scalar a = false → ymx_int_warning (some a) msg = [msg])
      ∧ (∀ a msg, ymx_is_valid_int_scalar a = true → ymx_int_warning (some a) msg = [])
      ∧ ymx_logical_or_zero none = 0
      ∧ (∀ a, mxIsLogicalScalar a = false → ymx_logical_or_zero (some a) = 0)
      ∧ (∀ msg, ymx_logical_warning none msg = [msg])
      ∧ (∀ a msg, mxIsLogicalScalar a = false → ymx_logical_warning (some a) msg = [msg])
      ∧ (∀ a msg, mxIsLogicalScalar a = true → ymx_logical_warning (some a) msg = []))
    ∧ (∀ (node node' : mxArray) (ind ind' : Nat),
        mxGetFieldByNumber node' ind' YMX_NODE_FIELD_TYPE
          = mxGetFieldByNumber node ind YMX_NODE_FIELD_TYPE →
        mxGetFieldByNumber node' ind' YMX_NODE_FIELD_VALUE
          = mxGetFieldByNumber node ind YMX_NODE_FIELD_VALUE →
        mxGetFieldByNumber node' ind' YMX_NODE_FIELD_TAG
          = mxGetFieldByNumber node ind YMX_NODE_FIELD_TAG →
        mxGetFieldByNumber node' ind' YMX_NODE_FIELD_ANCHOR
          = mxGetFieldByNumber node ind YMX_NODE_FIELD_ANCHOR →
        mxGetFieldByNumber node' ind' YMX_NODE_FIELD_IMPLICIT
          = some (ymx_create_int_scalar
              (ymx_int_or_zero (mxGetFieldByNumber node ind YMX_NODE_FIELD_IMPLICIT))) →
        mxGetFieldByNumber node' ind' YMX_NODE_FIELD_STYLE
          = some (ymx_create_int_scalar
              (ymx_int_or_zero (mxGetFieldByNumber node ind YMX_NODE_FIELD_STYLE))) →
        ymx_assemble_string (mxGetFieldByNumber node ind YMX_NODE_FIELD_TAG) ≠ none →
        ymx_assemble_string (mxGetFieldByNumber node ind YMX_NODE_FIELD_ANCHOR) ≠ none →
        ymx_dump_node fuel emitter st node ind
          = ymx_dump_node fuel emitter
              (st.warn
                (ymx_int_warning (mxGetFieldByNumber node ind YMX_NODE_FIELD_IMPLICIT)
                    "Invalid node implicit specifier"
                  ++ ymx_int_warning (mxGetFieldByNumber node ind YMX_NODE_FIELD_STYLE)
                    "Invalid node style"))
              node' ind')
    ∧ (∀ (docs_array docs_array' : mxArray) (ind ind' : Nat) (b_start b_end : Bool),
        mxGetFieldByNumber docs_array' ind' YMX_DOC_FIELD_ROOT
          = mxGetFieldByNumber docs_array ind YMX_DOC_FIELD_ROOT →
        mxGetFieldByNumber docs_array' ind' YMX_DOC_FIELD_VERSION
          = mxGetFieldByNumber docs_array ind YMX_DOC_FIELD_VERSION →
        mxGetFieldByNumber docs_array' ind' YMX_DOC_FIELD_TAGDIRS
          = mxGetFieldByNumber docs_array ind YMX_DOC_FIELD_TAGDIRS →
        mxGetFieldByNumber docs_array' ind' YMX_DOC_FIELD_START_IMPLICIT
          = some (.logical [1, 1] [b_start]) →
        mxGetFieldByNumber docs_array' ind' YMX_DOC_FIELD_END_IMPLICIT
          = some (.logical [1, 1] [b_end]) →
        (if b_start then 1 else 0) = ymx_logical_or_zero
          (mxGetFieldByNumber docs_array ind YMX_DOC_FIELD_START_IMPLICIT) →
        (if b_end then 1 else 0) = ymx_logical_or_zero
          (mxGetFieldByNumber docs_array ind YMX_DOC_FIELD_END_IMPLICIT) →
        ymx_is_valid_doc_root (mxGetFieldByNumber docs_array ind YMX_DOC_FIELD_ROOT) = true →
        ymx_assemble_tagdirs (mxGetFieldByNumber docs_array ind YMX_DOC_FIELD_TAGDIRS) ≠ none →
        ymx_assemble_version (mxGetFieldByNumber docs_array ind YMX_DOC_FIELD_VERSION) ≠ none →
        ymx_dump_document fuel emitter st docs_array ind
          = ymx_dump_document fuel emitter
              (st.warn
                (ymx_logical_warning
                    (mxGetFieldByNumber docs_array ind YMX_DOC_FIELD_START_IMPLICIT)
                    "Invalid document start implicit specifier"
                  ++ ymx_logical_warning
                    (mxGetFieldByNumber docs_array ind YMX_DOC_FIELD_END_IMPLICIT)
                    "Invalid document end implicit specifier"))
              docs_array' ind')
    ∧ (∀ (node : mxArray) (ind : Nat) (tag anchor : Option c_string) (type value : mxArray),
        ymx_assemble_string (mxGetFieldByNumber node ind YMX_NODE_FIELD_TAG) = some tag →
        ymx_assemble_string (mxGetFieldByNumber node ind YMX_NODE_FIELD_ANCHOR) = some anchor →
        mxGetFieldByNumber node ind YMX_NODE_FIELD_TYPE = some type →
        ymx_is_valid_int_scalar type = true →
        ymx_get_int_scalar type = YMX_NODE_TYPE_SCALAR →
        mxGetFieldByNumber node ind YMX_NODE_FIELD_VALUE = some value →
        ymx_is_valid_string value = true →
        mxGetFieldByNumber node ind YMX_NODE_FIELD_IMPLICIT = none →
        mxGetFieldByNumber node ind YMX_NODE_FIELD_STYLE = none →
        ymx_dump_node (fuel + 1) emitter st node ind
          = ymx_emit emitter
              (st.warn ["Invalid node implicit specifier", "Invalid node style"])
              (.scalar anchor tag (some ((mxArrayToString value).getD []))
                ((mxArrayToString value).getD []).length 0 0 0)) := by
  refine ⟨⟨rfl, ?_, fun _ => rfl, ?_, ?_, rfl, ?_, fun _ => rfl, ?_, ?_⟩, ?_, ?_, ?_⟩
  · intro a h; simp [ymx_int_or_zero, h]
  · intro a msg h; simp [ymx_int_warning, h]
  · intro a msg h; simp [ymx_int_warning, h]
  · intro a h; simp [ymx_logical_or_zero, h]
  · intro a msg h; simp [ymx_logical_warning, h]
  · intro a msg h; simp [ymx_logical_warning, h]
  · intro node node' ind ind' h0 h1 h2 h3 h4 h5 hnt hna
    cases fuel with
    | zero => rw [ymx_dump_node, ymx_dump_node]
    | succ f =>
      have hi : ∀ x : Int, ymx_int_or_zero (some (ymx_create_int_scalar x)) = x := fun _ => rfl
      have hw : ∀ (x : Int) (m : String),
          ymx_int_warning (some (ymx_create_int_scalar x)) m = [] := fun _ _ => rfl
      rw [ymx_dump_node_steps, ymx_dump_node_steps, h0, h1, h2, h3, h4, h5]
      simp only [hi, hw, List.append_nil, ymx_dump_state.warn_nil]
      cases htag : ymx_assemble_string (mxGetFieldByNumber node ind YMX_NODE_FIELD_TAG) with
      | none => exact absurd htag hnt
      | some tag =>
        cases hanc : ymx_assemble_string
            (mxGetFieldByNumber node ind YMX_NODE_FIELD_ANCHOR) with
        | none => exact absurd hanc hna
        | some anchor => rfl
  · intro docs_array docs_array' ind ind' b_start b_end h0 h1 h2 h3 h4 h5 h6 hroot htd hver
    have hl : ∀ b : Bool, ymx_logical_or_zero (some (.logical [1, 1] [b]))
        = if b then 1 else 0 := fun _ => rfl
    have hw : ∀ (b : Bool) (m : String),
        ymx_logical_warning (some (.logical [1, 1] [b])) m = [] := fun _ _ => rfl
    rw [ymx_dump_document_steps, ymx_dump_document_steps, h0, h1, h2, h3, h4]
    simp only [hl, hw, List.append_nil, ymx_dump_state.warn_nil, h5, h6]
    cases hr : mxGetFieldByNumber docs_array ind YMX_DOC_FIELD_ROOT with
    | none => rw [hr] at hroot; simp [ymx_is_valid_doc_root] at hroot
    | some root =>
      rw [hr] at hroot
      simp only [hroot, Bool.not_true, Bool.false_eq_true, if_false]
      cases htd' : ymx_assemble_tagdirs
          (mxGetFieldByNumber docs_array ind YMX_DOC_FIELD_TAGDIRS) with
      | none => exact absurd htd' htd
      | some tds =>
        cases hver' : ymx_assemble_version
            (mxGetFieldByNumber docs_array ind YMX_DOC_FIELD_VERSION) with
        | none => exact absurd hver' hver
        | some v => rfl
  · intro node ind tag anchor type value htag hanc htype hvalid hcode hval hstr himp hsty
    rw [ymx_dump_node_steps, htag, hanc, htype, hval, himp, hsty]
    simp [hvalid, hcode, ymx_dump_scalar, hstr, ymx_int_or_zero, ymx_int_warning,
      YMX_SCALAR_IMPLICIT_PLAIN, YMX_SCALAR_IMPLICIT_QUOTED]

/-- Witness of `C17_warning_fallback`: a scalar node "a" with tag "!" and no
implicit and no style member is dumped as the scalar event with both flags and
the style 0, after the two warnings. -/
theorem C17_warning_fallback_witness :
    ymx_dump_node 1 yaml_emitter_accept_all ymx_dump_state_init ymx_example_bare_scalar 0
      = .ok () { ymx_dump_state_init with
          emitted := [.scalar none (some [33]) (some [97]) 1 0 0 0],
          warnings := ["Invalid node implicit specifier", "Invalid node style"] } := by
  have h := (C17_warning_fallback 0 yaml_emitter_accept_all ymx_dump_state_init).2.2.2
    ymx_example_bare_scalar 0 (some [33]) none (ymx_create_int_scalar 1) (mxCreateString [97])
    (by decide) (by decide) (by decide) (by decide) (by decide) (by decide) (by decide)
    (by decide) (by decide)
  rw [h]
  decide

/-! ## The first fault -/

/-- The dump of the documents stops at the first document whose dump aborts. -/
theorem ymx_dump_stream_first_failure (emitter : yaml_emitter_t) (docs_array : mxArray)
    (k : Nat) (st1 stk stf : ymx_dump_state) (msg : String)
    (hvalid : ymx_is_valid_doc_array docs_array = true)
    (hk : k < mxGetNumberOfElements docs_array)
    (hstart : ymx_emit emitter ymx_dump_state_init .stream_start = .ok () st1)
    (hbefore : ymx_dump_for
        (fun st ind => ymx_dump_document (2 * docs_array.depth + 2) emitter st docs_array ind)
        0 k st1 = .ok () stk)
    (hfail : ymx_dump_document (2 * docs_array.depth + 2) emitter stk docs_array k
      = .error msg stf) :
    ymx_dump_stream emitter docs_array = .error msg stf := by
  have hloop := ymx_dump_for_first_failure
    (fun st ind => ymx_dump_document (2 * docs_array.depth + 2) emitter st docs_array ind)
    (.error msg stf) (by simp) k (mxGetNumberOfElements docs_array) 0 st1 stk hk hbefore
    (by simpa using hfail)
  unfold ymx_dump_stream
  simp only [hvalid, Bool.not_true, Bool.false_eq_true, if_false, hstart, hloop]

/-- The dump of the elements of the value of a sequence stops at the first
element whose dump aborts. -/
theorem ymx_dump_sequence_first_failure (fuel : Nat) (emitter : yaml_emitter_t)
    (st st1 stk stf : ymx_dump_state) (value : mxArray) (tag anchor : Option c_string)
    (implicit style : Int) (k : Nat) (msg : String)
    (hne : mxIsEmpty value = false) (hvalid : ymx_is_valid_node_array value = true)
    (hnd : mxGetNumberOfDimensions value = 2) (hm : mxGetM value = 1)
    (hk : k < mxGetNumberOfElements value)
    (hstart : ymx_emit emitter st (.sequence_start anchor tag implicit style) = .ok () st1)
    (hbefore : ymx_dump_for (fun st ind => ymx_dump_node fuel emitter st value ind)
        0 k st1 = .ok () stk)
    (hfail : ymx_dump_node fuel emitter stk value k = .error msg stf) :
    ymx_dump_sequence (fuel + 1) emitter st (some value) tag anchor implicit style
      = .error msg stf := by
  have hloop := ymx_dump_for_first_failure
    (fun st ind => ymx_dump_node fuel emitter st value ind)
    (.error msg stf) (by simp) k (mxGetNumberOfElements value) 0 st1 stk hk hbefore
    (by simpa using hfail)
  simp only [ymx_dump_sequence, hstart, hne, hvalid, hnd, hm, hloop, Bool.not_false,
    Bool.not_true, bne_self_eq_false, Bool.or_self, Bool.false_eq_true, if_false, if_true]

/-- The dump of the elements of the value of a mapping stops at the first
element whose dump aborts. -/
theorem ymx_dump_mapping_first_failure (fuel : Nat) (emitter : yaml_emitter_t)
    (st st1 stk stf : ymx_dump_state) (value : mxArray) (tag anchor : Option c_string)
    (implicit style : Int) (k : Nat) (msg : String)
    (hne : mxIsEmpty value = false) (hvalid : ymx_is_valid_node_array value = true)
    (hnd : mxGetNumberOfDimensions value = 2) (hm : mxGetM value = 2)
    (hk : k < mxGetNumberOfElements value)
    (hstart : ymx_emit emitter st (.mapping_start anchor tag implicit style) = .ok () st1)
    (hbefore : ymx_dump_for (fun st ind => ymx_dump_node fuel emitter st value ind)
        0 k st1 = .ok () stk)
    (hfail : ymx_dump_node fuel emitter stk value k = .error msg stf) :
    ymx_dump_mapping (fuel + 1) emitter st (some value) tag anchor implicit style
      = .error msg stf := by
  have hloop := ymx_dump_for_first_failure
    (fun st ind => ymx_dump_node fuel emitter st value ind)
    (.error msg stf) (by simp) k (mxGetNumberOfElements value) 0 st1 stk hk hbefore
    (by simpa using hfail)
  simp only [ymx_dump_mapping, hstart, hne, hvalid, hnd, hm, hloop, Bool.not_false,
    Bool.not_true, bne_self_eq_false, Bool.or_self, Bool.false_eq_true, if_false, if_true]

/-- The events a successful run of the loop over `k` elements has emitted
come after those emitted before it. -/
theorem ymx_dump_for_node_prefix (emitter : yaml_emitter_t) (fuel : Nat) (value : mxArray)
    (k i : Nat) (st stk : ymx_dump_state)
    (h : ymx_dump_for (fun st ind => ymx_dump_node fuel emitter st value ind) i k st
      = .ok () stk) :
    st.emitted <+: stk.emitted := by
  have := ymx_dump_for_continues (ymx_emit_error :: ymx_node_errors)
    (fun st ind => ymx_dump_node fuel emitter st value ind)
    (fun st i => (ymx_dump_node_continues (ymx_emit_error :: ymx_node_errors)
      (fun m hm => List.mem_cons_of_mem _ hm) (List.mem_cons_self _ _) emitter fuel).1 st value i)
    k i st
  rw [h] at this
  exact (this.1 stk rfl).1

/-! ## What a successful dump preserves -/

theorem ymx_dump_then_ok (r : ymx_dump_result Unit)
    (k : ymx_dump_state → ymx_dump_result Unit) (st' : ymx_dump_state)
    (h : (match r with
          | .ok _ st1 => k st1
          | r => r) = .ok () st') :
    ∃ st1, r = .ok () st1 ∧ k st1 = .ok () st' := by
  cases r with
  | ok u st1 => exact ⟨st1, rfl, h⟩
  | error msg st1 => simp at h
  | fault st1 => simp at h
  | diverge => simp at h

theorem ymx_dump_for_invariant (I : ymx_dump_state → Prop)
    (body : ymx_dump_state → Nat → ymx_dump_result Unit)
    (h : ∀ st i st', I st → body st i = .ok () st' → I st') :
    ∀ (n i : Nat) (st st' : ymx_dump_state), I st →
      ymx_dump_for body i n st = .ok () st' → I st' := by
  intro n
  induction n with
  | zero =>
    intro i st st' hI hr
    simp only [ymx_dump_for, ymx_dump_result.ok.injEq, true_and] at hr
    subst hr
    exact hI
  | succ n ih =>
    intro i st st' hI hr
    rw [ymx_dump_for] at hr
    obtain ⟨st1, h1, h2⟩ := ymx_dump_then_ok _ (fun st1 => ymx_dump_for body (i + 1) n st1) _ hr
    exact ih (i + 1) st1 st' (h st i st1 hI h1) h2

/-- A property of the state that every accepted event and every warning
preserves is preserved by every successful dump of a node. -/
theorem ymx_dump_node_invariant (emitter : yaml_emitter_t) (I : ymx_dump_state → Prop)
    (hemit : ∀ st e st', I st → ymx_emit emitter st e = .ok () st' → I st')
    (hwarn : ∀ st ws, I st → I (st.warn ws)) :
    ∀ (fuel : Nat),
      (∀ (st st' : ymx_dump_state) (node : mxArray) (ind : Nat), I st →
        ymx_dump_node fuel emitter st node ind = .ok () st' → I st')
      ∧ (∀ (st st' : ymx_dump_state) (value : Option mxArray) (tag anchor : Option c_string)
          (implicit style : Int), I st →
        ymx_dump_sequence fuel emitter st value tag anchor implicit style = .ok () st' →
        I st')
      ∧ (∀ (st st' : ymx_dump_state) (value : Option mxArray) (tag anchor : Option c_string)
          (implicit style : Int), I st →
        ymx_dump_mapping fuel emitter st value tag anchor implicit style = .ok () st' →
        I st') := by
  intro fuel
  induction fuel with
  | zero =>
    refine ⟨?_, ?_, ?_⟩
    · intro st st' node ind _ h; rw [ymx_dump_node] at h; simp at h
    · intro st st' value tag anchor implicit style _ h; rw [ymx_dump_sequence] at h; simp at h
    · intro st st' value tag anchor implicit style _ h; rw [ymx_dump_mapping] at h; simp at h
  | succ f ih =>
    obtain ⟨ihn, ihs, ihm⟩ := ih
    have hbody : ∀ (rows : Nat) (msg : String) (st st' : ymx_dump_state)
        (value : Option mxArray), I st →
        (match value with
          | some value =>
            if !mxIsEmpty value then
              if !ymx_is_valid_node_array value
                  || mxGetNumberOfDimensions value != 2
                  || mxGetM value != rows then
                (.error msg st : ymx_dump_result Unit)
              else
                ymx_dump_for (fun st ind => ymx_dump_node f emitter st value ind)
                  0 (mxGetNumberOfElements value) st
            else .ok () st
          | none => .ok () st) = .ok () st' → I st' := by
      intro rows msg st st' value hI h
      cases value with
      | none =>
        simp only [ymx_dump_result.ok.injEq, true_and] at h
        subst h; exact hI
      | some v =>
        simp only [] at h
        by_cases he : mxIsEmpty v = true
        · simp only [he, Bool.not_true, Bool.false_eq_true, if_false, ymx_dump_result.ok.injEq,
            true_and] at h
          subst h; exact hI
        · simp only [Bool.not_eq_true] at he
          simp only [he, Bool.not_false, if_true] at h
          by_cases hbad : (!ymx_is_valid_node_array v
              || mxGetNumberOfDimensions v != 2 || mxGetM v != rows) = true
          · rw [if_pos hbad] at h
            simp at h
          · rw [if_neg hbad] at h
            exact ymx_dump_for_invariant I _ (fun st i st' hI hb => ihn st st' v i hI hb)
              _ _ _ _ hI h
    refine ⟨?_, ?_, ?_⟩
    · intro st st' node ind hI h
      rw [ymx_dump_node_steps] at h
      cases htag : ymx_assemble_string (mxGetFieldByNumber node ind YMX_NODE_FIELD_TAG) with
      | none => rw [htag] at h; simp at h
      | some tag =>
        rw [htag] at h
        simp only at h
        cases hanc : ymx_assemble_string
            (mxGetFieldByNumber node ind YMX_NODE_FIELD_ANCHOR) with
        | none => rw [hanc] at h; simp at h
        | some anchor =>
          rw [hanc] at h
          simp only at h
          have hI' := hwarn st
            (ymx_int_warning (mxGetFieldByNumber node ind YMX_NODE_FIELD_IMPLICIT)
                "Invalid node implicit specifier"
              ++ ymx_int_warning (mxGetFieldByNumber node ind YMX_NODE_FIELD_STYLE)
                "Invalid node style") hI
          cases htype : mxGetFieldByNumber node ind YMX_NODE_FIELD_TYPE with
          | none => rw [htype] at h; simp at h
          | some type =>
            rw [htype] at h
            simp only at h
            by_cases hvalid : ymx_is_valid_int_scalar type = true
            · simp only [hvalid, Bool.not_true, Bool.false_eq_true, if_false] at h
              by_cases h1 : ymx_get_int_scalar type = YMX_NODE_TYPE_SCALAR
              · rw [if_pos h1] at h
                unfold ymx_dump_scalar at h
                cases hval : mxGetFieldByNumber node ind YMX_NODE_FIELD_VALUE with
                | none => rw [hval] at h; simp at h
                | some value =>
                  rw [hval] at h
                  simp only at h
                  by_cases hs : ymx_is_valid_string value = true
                  · simp only [hs, Bool.not_true, Bool.false_eq_true, if_false] at h
                    exact hemit _ _ _ hI' h
                  · simp only [Bool.not_eq_true] at hs
                    simp [hs] at h
              · rw [if_neg h1] at h
                by_cases h2 : ymx_get_int_scalar type = YMX_NODE_TYPE_SEQUENCE
                · rw [if_pos h2] at h
                  exact ihs _ _ _ _ _ _ _ hI' h
                · rw [if_neg h2] at h
                  by_cases h3 : ymx_get_int_scalar type = YMX_NODE_TYPE_MAPPING
                  · rw [if_pos h3] at h
                    exact ihm _ _ _ _ _ _ _ hI' h
                  · rw [if_neg h3] at h
                    by_cases h4 : ymx_get_int_scalar type = YMX_NODE_TYPE_ALIAS
                    · rw [if_pos h4] at h
                      exact hemit _ _ _ hI' h
                    · rw [if_neg h4] at h
                      simp at h
            · simp only [Bool.not_eq_true] at hvalid
              simp [hvalid] at h
    · intro st st' value tag anchor implicit style hI h
      rw [ymx_dump_sequence] at h
      obtain ⟨st1, h1, h2⟩ := ymx_dump_then_ok _ _ _ h
      obtain ⟨st2, h3, h4⟩ := ymx_dump_then_ok _
        (fun st2 => ymx_emit emitter st2 .sequence_end) _ h2
      exact hemit _ _ _ (hbody 1 _ st1 st2 value (hemit _ _ _ hI h1) h3) h4
    · intro st st' value tag anchor implicit style hI h
      rw [ymx_dump_mapping] at h
      obtain ⟨st1, h1, h2⟩ := ymx_dump_then_ok _ _ _ h
      obtain ⟨st2, h3, h4⟩ := ymx_dump_then_ok _
        (fun st2 => ymx_emit emitter st2 .mapping_end) _ h2
      exact hemit _ _ _ (hbody 2 _ st1 st2 value (hemit _ _ _ hI h1) h3) h4

theorem ymx_dump_document_invariant (emitter : yaml_emitter_t) (I : ymx_dump_state → Prop)
    (hemit : ∀ st e st', I st → ymx_emit emitter st e = .ok () st' → I st')
    (hwarn : ∀ st ws, I st → I (st.warn ws)) (fuel : Nat) (st st' : ymx_dump_state)
    (docs_array : mxArray) (ind : Nat) (hI : I st)
    (h : ymx_dump_document fuel emitter st docs_array ind = .ok () st') : I st' := by
  rw [ymx_dump_document_steps] at h
  cases hr : mxGetFieldByNumber docs_array ind YMX_DOC_FIELD_ROOT with
  | none => rw [hr] at h; simp at h
  | some root =>
    rw [hr] at h
    simp only at h
    by_cases hv : ymx_is_valid_doc_root (some root) = true
    · simp only [hv, Bool.not_true, Bool.false_eq_true, if_false] at h
      cases ht : ymx_assemble_tagdirs
          (mxGetFieldByNumber docs_array ind YMX_DOC_FIELD_TAGDIRS) with
      | none => rw [ht] at h; simp at h
      | some tds =>
        rw [ht] at h
        simp only at h
        cases hve : ymx_assemble_version
            (mxGetFieldByNumber docs_array ind YMX_DOC_FIELD_VERSION) with
        | none => rw [hve] at h; simp at h
        | some v =>
          rw [hve] at h
          simp only at h
          obtain ⟨st1, h1, h2⟩ := ymx_dump_then_ok _ _ _ h
          obtain ⟨st2, h3, h4⟩ := ymx_dump_then_ok _
            (fun st2 => ymx_emit emitter st2 (.document_end (ymx_logical_or_zero
              (mxGetFieldByNumber docs_array ind YMX_DOC_FIELD_END_IMPLICIT)))) _ h2
          exact hemit _ _ _
            ((ymx_dump_node_invariant emitter I hemit hwarn fuel).1 st1 st2 root 0
              (hemit _ _ _ (hwarn _ _ hI) h1) h3) h4
    · simp only [Bool.not_eq_true] at hv
      simp [hv] at h

/-- A property of the state that holds at the start of a dump and that every
accepted event and every warning preserves holds when the dump succeeds. -/
theorem ymx_dump_stream_invariant (emitter : yaml_emitter_t) (I : ymx_dump_state → Prop)
    (hemit : ∀ st e st', I st → ymx_emit emitter st e = .ok () st' → I st')
    (hwarn : ∀ st ws, I st → I (st.warn ws)) (hinit : I ymx_dump_state_init)
    (docs_array out : mxArray) (st : ymx_dump_state)
    (h : ymx_dump_stream emitter docs_array = .ok out st) : I st := by
  unfold ymx_dump_stream at h
  simp only [] at h
  by_cases hvd : ymx_is_valid_doc_array docs_array = true
  swap
  · simp only [Bool.not_eq_true] at hvd
    simp [hvd] at h
  · simp only [hvd, Bool.not_true, Bool.false_eq_true, if_false] at h
    cases hs : ymx_emit emitter ymx_dump_state_init .stream_start with
    | error msg st1 => rw [hs] at h; simp at h
    | fault st1 => rw [hs] at h; simp at h
    | diverge => rw [hs] at h; simp at h
    | ok u st1 =>
      rw [hs] at h
      simp only at h
      cases hf : ymx_dump_for
          (fun st ind => ymx_dump_document (2 * docs_array.depth + 2) emitter st docs_array ind)
          0 (mxGetNumberOfElements docs_array) st1 with
      | error msg st2 => rw [hf] at h; simp at h
      | fault st2 => rw [hf] at h; simp at h
      | diverge => rw [hf] at h; simp at h
      | ok u st2 =>
        rw [hf] at h
        simp only at h
        have hI2 := ymx_dump_for_invariant I _
          (fun st i st' hI hb => ymx_dump_document_invariant emitter I hemit hwarn _ st st'
            docs_array i hI hb) _ _ _ _ (hemit _ _ _ hinit hs) hf
        cases hE : ymx_emit emitter st2 .stream_end with
        | error msg st3 => rw [hE] at h; simp at h
        | fault st3 => rw [hE] at h; simp at h
        | diverge => rw [hE] at h; simp at h
        | ok u st3 =>
          rw [hE] at h
          simp only at h
          cases hb : ymx_buffer_as_string st3.buffer with
          | none => rw [hb] at h; simp at h
          | some str =>
            rw [hb] at h
            simp only [ymx_dump_result.ok.injEq] at h
            rw [← h.2]
            exact hemit _ _ _ hI2 hE

theorem ymx_accepted_emit (emitter : yaml_emitter_t) (st st' : ymx_dump_state)
    (e : yaml_event_t) (hI : ymx_accepted emitter st.emitted)
    (h : ymx_emit emitter st e = .ok () st') : ymx_accepted emitter st'.emitted := by
  have hacc : emitter.accept st.emitted e = true := by
    unfold ymx_emit at h
    by_cases ha : emitter.accept st.emitted e = true
    · exact ha
    · simp [ha] at h
  rw [(ymx_emit_ok emitter st st' e h).1]
  intro k hk
  by_cases hlt : k < st.emitted.length
  · obtain ⟨ev, h1, h2⟩ := hI k hlt
    refine ⟨ev, ?_, ?_⟩
    · rw [List.get?_eq_getElem?, List.getElem?_append_left hlt, ← List.get?_eq_getElem?]
      exact h1
    · rw [List.take_append_of_le_length (by omega)]
      exact h2
  · have hk' : k = st.emitted.length := by
      simp only [List.length_append, List.length_singleton] at hk
      omega
    subst hk'
    refine ⟨e, by simp, ?_⟩
    simpa using hacc

/-! ## The loader returns, and a failed pull is never passed over -/

theorem ymx_pulled_refl (parser : yaml_parser_t) : ymx_pulled parser parser := ⟨[], rfl⟩

theorem ymx_pulled_trans (a b c : yaml_parser_t) (h1 : ymx_pulled a b) (h2 : ymx_pulled b c) :
    ymx_pulled a c := by
  obtain ⟨e1, rfl⟩ := h1
  obtain ⟨e2, rfl⟩ := h2
  exact ⟨e1 ++ e2, by simp⟩

theorem ymx_pulled_length (a b : yaml_parser_t) (h : ymx_pulled a b) : b.length ≤ a.length := by
  obtain ⟨e, rfl⟩ := h
  simp

theorem ymx_parse_ok (parser rest : yaml_parser_t) (event : yaml_event_t)
    (h : ymx_parse parser = .ok (event, rest)) : parser = some event :: rest := by
  unfold ymx_parse at h
  split at h
  · simp only [ymx_result.ok.injEq, Prod.mk.injEq] at h
    rw [h.1, h.2]
  · simp at h

theorem ymx_parse_pulled (parser rest : yaml_parser_t) (event : yaml_event_t)
    (h : ymx_parse parser = .ok (event, rest)) :
    ymx_pulled parser rest ∧ rest.length + 1 = parser.length := by
  have := ymx_parse_ok parser rest event h
  subst this
  exact ⟨⟨[event], rfl⟩, rfl⟩

theorem ymx_parse_returns (parser : yaml_parser_t) : ymx_parse parser ≠ .diverge := by
  unfold ymx_parse
  split <;> simp

/-- The loop of `ymx_load_sequence`, given the nodes. -/
theorem ymx_load_sequence_loop_pulls (n : Nat)
    (hN : ∀ (parser : yaml_parser_t), parser.length ≤ n →
      ∀ (fuel : Nat) (node : ymx_node_t) (event : yaml_event_t),
        3 * parser.length + 2 ≤ fuel →
        ymx_result_pulls parser (ymx_load_node fuel node parser event)) :
    ∀ (m : Nat) (parser : yaml_parser_t), parser.length ≤ m → m ≤ n →
      ∀ (fuel : Nat) (acc : ymx_items_t) (event : yaml_event_t),
        3 * parser.length + 3 ≤ fuel →
        ymx_result_pulls parser (ymx_load_sequence_loop fuel acc parser event) := by
  intro m
  induction m with
  | zero =>
    intro parser hlen hmn fuel acc event hfuel
    obtain ⟨g, rfl⟩ : ∃ g, fuel = g + 1 := ⟨fuel - 1, by omega⟩
    by_cases hev : event = .sequence_end
    · subst hev
      rw [ymx_load_sequence_loop]
      exact ymx_pulled_refl parser
    · rw [ymx_load_sequence_loop_step g acc parser event hev]
      have h1 := hN parser (by omega) g
        ((if acc.num_items = acc.items_buffer_size then
              { acc with
                items_buffer_size := acc.items_buffer_size + NODES_BUFFER_CHUNK_SIZE,
                items := acc.items ++ List.replicate NODES_BUFFER_CHUNK_SIZE {} }
            else acc).items.getD acc.num_items {}) event (by omega)
      cases hr : ymx_load_node g
          ((if acc.num_items = acc.items_buffer_size then
              { acc with
                items_buffer_size := acc.items_buffer_size + NODES_BUFFER_CHUNK_SIZE,
                items := acc.items ++ List.replicate NODES_BUFFER_CHUNK_SIZE {} }
            else acc).items.getD acc.num_items {}) parser event with
      | error msg => trivial
      | diverge => rw [hr] at h1; exact h1
      | ok val =>
        obtain ⟨item, p1⟩ := val
        rw [hr] at h1
        have hl1 := ymx_pulled_length _ _ h1
        simp only []
        cases hp : ymx_parse p1 with
        | error msg => trivial
        | diverge => exact absurd hp (ymx_parse_returns p1)
        | ok val2 =>
          obtain ⟨ev2, p2⟩ := val2
          have := (ymx_parse_pulled p1 p2 ev2 hp).2
          omega
  | succ m ih =>
    intro parser hlen hmn fuel acc event hfuel
    obtain ⟨g, rfl⟩ : ∃ g, fuel = g + 1 := ⟨fuel - 1, by omega⟩
    by_cases hev : event = .sequence_end
    · subst hev
      rw [ymx_load_sequence_loop]
      exact ymx_pulled_refl parser
    · rw [ymx_load_sequence_loop_step g acc parser event hev]
      have h1 := hN parser (by omega) g
        ((if acc.num_items = acc.items_buffer_size then
              { acc with
                items_buffer_size := acc.items_buffer_size + NODES_BUFFER_CHUNK_SIZE,
                items := acc.items ++ List.replicate NODES_BUFFER_CHUNK_SIZE {} }
            else acc).items.getD acc.num_items {}) event (by omega)
      cases hr : ymx_load_node g
          ((if acc.num_items = acc.items_buffer_size then
              { acc with
                items_buffer_size := acc.items_buffer_size + NODES_BUFFER_CHUNK_SIZE,
                items := acc.items ++ List.replicate NODES_BUFFER_CHUNK_SIZE {} }
            else acc).items.getD acc.num_items {}) parser event with
      | error msg => trivial
      | diverge => rw [hr] at h1; exact h1
      | ok val =>
        obtain ⟨item, p1⟩ := val
        rw [hr] at h1
        have hl1 := ymx_pulled_length _ _ h1
        simp only []
        cases hp : ymx_parse p1 with
        | error msg => trivial
        | diverge => exact absurd hp (ymx_parse_returns p1)
        | ok val2 =>
          obtain ⟨ev2, p2⟩ := val2
          obtain ⟨hp2, hl2⟩ := ymx_parse_pulled p1 p2 ev2 hp
          simp only []
          have h3 := ih p2 (by omega) (by omega) g
            { items := (if acc.num_items = acc.items_buffer_size then
                    acc.items ++ List.replicate NODES_BUFFER_CHUNK_SIZE {}
                  else acc.items).set acc.num_items item,
                items_buffer_size := if acc.num_items = acc.items_buffer_size then
                    acc.items_buffer_size + NODES_BUFFER_CHUNK_SIZE
                  else acc.items_buffer_size,
                num_items := acc.num_items + 1 } ev2 (by omega)
          cases hl : ymx_load_sequence_loop g
              { items := (if acc.num_items = acc.items_buffer_size then
                    acc.items ++ List.replicate NODES_BUFFER_CHUNK_SIZE {}
                  else acc.items).set acc.num_items item,
                items_buffer_size := if acc.num_items = acc.items_buffer_size then
                    acc.items_buffer_size + NODES_BUFFER_CHUNK_SIZE
                  else acc.items_buffer_size,
                num_items := acc.num_items + 1 } p2 ev2 with
          | error msg => trivial
          | diverge => rw [hl] at h3; exact h3
          | ok val3 =>
            obtain ⟨acc3, p3⟩ := val3
            rw [hl] at h3
            exact ymx_pulled_trans _ _ _ h1 (ymx_pulled_trans _ _ _ hp2 h3)
/-- The loop of `ymx_load_mapping`, given the nodes. -/
theorem ymx_load_mapping_loop_pulls (n : Nat)
    (hN : ∀ (parser : yaml_parser_t), parser.length ≤ n →
      ∀ (fuel : Nat) (node : ymx_node_t) (event : yaml_event_t),
        3 * parser.length + 2 ≤ fuel →
        ymx_result_pulls parser (ymx_load_node fuel node parser event)) :
    ∀ (m : Nat) (parser : yaml_parser_t), parser.length ≤ m → m ≤ n →
      ∀ (fuel : Nat) (acc : ymx_pairs_t) (event : yaml_event_t),
        3 * parser.length + 3 ≤ fuel →
        ymx_result_pulls parser (ymx_load_mapping_loop fuel acc parser event) := by
  intro m
  induction m with
  | zero =>
    intro parser hlen hmn fuel acc event hfuel
    obtain ⟨g, rfl⟩ : ∃ g, fuel = g + 1 := ⟨fuel - 1, by omega⟩
    by_cases hev : event = .mapping_end
    · subst hev
      rw [ymx_load_mapping_loop]
      exact ymx_pulled_refl parser
    · rw [ymx_load_mapping_loop_step g acc parser event hev]
      have h1 := hN parser (by omega) g
        ((if acc.num_items = acc.buffer_size then
              acc.keys ++ List.replicate NODES_BUFFER_CHUNK_SIZE
                (ymx_node_t.mk none none none none none none)
            else acc.keys).getD acc.num_items {}) event (by omega)
      cases hr : ymx_load_node g
          ((if acc.num_items = acc.buffer_size then
              acc.keys ++ List.replicate NODES_BUFFER_CHUNK_SIZE
                (ymx_node_t.mk none none none none none none)
            else acc.keys).getD acc.num_items {}) parser event with
      | error msg => trivial
      | diverge => rw [hr] at h1; exact h1
      | ok val =>
        obtain ⟨key, p1⟩ := val
        rw [hr] at h1
        have hl1 := ymx_pulled_length _ _ h1
        simp only []
        cases hp : ymx_parse p1 with
        | error msg => trivial
        | diverge => exact absurd hp (ymx_parse_returns p1)
        | ok val2 =>
          obtain ⟨ev2, p2⟩ := val2
          have := (ymx_parse_pulled p1 p2 ev2 hp).2
          omega
  | succ m ih =>
    intro parser hlen hmn fuel acc event hfuel
    obtain ⟨g, rfl⟩ : ∃ g, fuel = g + 1 := ⟨fuel - 1, by omega⟩
    by_cases hev : event = .mapping_end
    · subst hev
      rw [ymx_load_mapping_loop]
      exact ymx_pulled_refl parser
    · rw [ymx_load_mapping_loop_step g acc parser event hev]
      have h1 := hN parser (by omega) g
        ((if acc.num_items = acc.buffer_size then
              acc.keys ++ List.replicate NODES_BUFFER_CHUNK_SIZE
                (ymx_node_t.mk none none none none none none)
            else acc.keys).getD acc.num_items {}) event (by omega)
      cases hr : ymx_load_node g
          ((if acc.num_items = acc.buffer_size then
              acc.keys ++ List.replicate NODES_BUFFER_CHUNK_SIZE
                (ymx_node_t.mk none none none none none none)
            else acc.keys).getD acc.num_items {}) parser event with
      | error msg => trivial
      | diverge => rw [hr] at h1; exact h1
      | ok val =>
        obtain ⟨key, p1⟩ := val
        rw [hr] at h1
        have hl1 := ymx_pulled_length _ _ h1
        simp only []
        cases hp : ymx_parse p1 with
        | error msg => trivial
        | diverge => exact absurd hp (ymx_parse_returns p1)
        | ok val2 =>
          obtain ⟨ev2, p2⟩ := val2
          obtain ⟨hp2, hl2⟩ := ymx_parse_pulled p1 p2 ev2 hp
          simp only []
          have h2 := hN p2 (by omega) g
            ((if acc.num_items = acc.buffer_size then
                acc.values ++ List.replicate NODES_BUFFER_CHUNK_SIZE
                  (ymx_node_t.mk none none none none none none)
              else acc.values).getD acc.num_items {}) ev2 (by omega)
          cases hr2 : ymx_load_node g
              ((if acc.num_items = acc.buffer_size then
                  acc.values ++ List.replicate NODES_BUFFER_CHUNK_SIZE
                    (ymx_node_t.mk none none none none none none)
                else acc.values).getD acc.num_items {}) p2 ev2 with
          | error msg => trivial
          | diverge => rw [hr2] at h2; exact h2
          | ok val3 =>
            obtain ⟨value, p3⟩ := val3
            rw [hr2] at h2
            have hl3 := ymx_pulled_length _ _ h2
            simp only []
            cases hp3 : ymx_parse p3 with
            | error msg => trivial
            | diverge => exact absurd hp3 (ymx_parse_returns p3)
            | ok val4 =>
              obtain ⟨ev4, p4⟩ := val4
              obtain ⟨hp4, hl4⟩ := ymx_parse_pulled p3 p4 ev4 hp3
              simp only []
              have h5 := ih p4 (by omega) (by omega) g
                { keys := (if acc.num_items = acc.buffer_size then
                        acc.keys ++ List.replicate NODES_BUFFER_CHUNK_SIZE
                          (ymx_node_t.mk none none none none none none)
                      else acc.keys).set acc.num_items key,
                    values := (if acc.num_items = acc.buffer_size then
                        acc.values ++ List.replicate NODES_BUFFER_CHUNK_SIZE
                          (ymx_node_t.mk none none none none none none)
                      else acc.values).set acc.num_items value,
                    buffer_size := if acc.num_items = acc.buffer_size then
                        acc.buffer_size + NODES_BUFFER_CHUNK_SIZE
                      else acc.buffer_size,
                    num_items := acc.num_items + 1 } ev4 (by omega)
              cases hl : ymx_load_mapping_loop g
                  { keys := (if acc.num_items = acc.buffer_size then
                        acc.keys ++ List.replicate NODES_BUFFER_CHUNK_SIZE
                          (ymx_node_t.mk none none none none none none)
                      else acc.keys).set acc.num_items key,
                    values := (if acc.num_items = acc.buffer_size then
                        acc.values ++ List.replicate NODES_BUFFER_CHUNK_SIZE
                          (ymx_node_t.mk none none none none none none)
                      else acc.values).set acc.num_items value,
                    buffer_size := if acc.num_items = acc.buffer_size then
                        acc.buffer_size + NODES_BUFFER_CHUNK_SIZE
                      else acc.buffer_size,
                    num_items := acc.num_items + 1 } p4 ev4 with
              | error msg => trivial
              | diverge => rw [hl] at h5; exact h5
              | ok val5 =>
                obtain ⟨acc5, p5⟩ := val5
                rw [hl] at h5
                exact ymx_pulled_trans _ _ _ h1 (ymx_pulled_trans _ _ _ hp2
                  (ymx_pulled_trans _ _ _ h2 (ymx_pulled_trans _ _ _ hp4 h5)))
/-- `ymx_load_node`, given the loops on shorter sources. -/
theorem ymx_load_node_pulls_of_loops (n : Nat)
    (hSL : ∀ (parser : yaml_parser_t), parser.length < n →
      ∀ (fuel : Nat) (acc : ymx_items_t) (event : yaml_event_t),
        3 * parser.length + 3 ≤ fuel →
        ymx_result_pulls parser (ymx_load_sequence_loop fuel acc parser event))
    (hML : ∀ (parser : yaml_parser_t), parser.length < n →
      ∀ (fuel : Nat) (acc : ymx_pairs_t) (event : yaml_event_t),
        3 * parser.length + 3 ≤ fuel →
        ymx_result_pulls parser (ymx_load_mapping_loop fuel acc parser event)) :
    ∀ (parser : yaml_parser_t), parser.length ≤ n →
      ∀ (fuel : Nat) (node : ymx_node_t) (event : yaml_event_t),
        3 * parser.length + 2 ≤ fuel →
        ymx_result_pulls parser (ymx_load_node fuel node parser event) := by
  intro parser hlen fuel node event hfuel
  obtain ⟨f, rfl⟩ : ∃ f, fuel = f + 2 := ⟨fuel - 2, by omega⟩
  match event with
  | .alias a =>
    cases a with
    | none => simp [ymx_load_node, ymx_load_alias, ymx_result_pulls]
    | some a =>
      simp only [ymx_load_node, ymx_load_alias, ymx_result_pulls]
      exact ymx_pulled_refl parser
  | .scalar a t v l p q s =>
    rw [ymx_load_node_scalar]
    exact ymx_pulled_refl parser
  | .sequence_start a t i s =>
    simp only [ymx_load_node, ymx_load_sequence]
    split
    · trivial
    · rename_i hp; exact absurd hp (ymx_parse_returns parser)
    · rename_i ev1 p1 hp
      obtain ⟨hp1, hl1⟩ := ymx_parse_pulled parser p1 ev1 hp
      split
      · trivial
      · rename_i hl
        have := hSL p1 (by omega) f
            ({ items := List.replicate NODES_BUFFER_CHUNK_SIZE
                  (ymx_node_t.mk none none none none none none),
               items_buffer_size := NODES_BUFFER_CHUNK_SIZE, num_items := 0 } : ymx_items_t)
            ev1 (by omega)
        rw [hl] at this
        exact this
      · rename_i acc2 p2 hl
        have := hSL p1 (by omega) f
            ({ items := List.replicate NODES_BUFFER_CHUNK_SIZE
                  (ymx_node_t.mk none none none none none none),
               items_buffer_size := NODES_BUFFER_CHUNK_SIZE, num_items := 0 } : ymx_items_t)
            ev1 (by omega)
        rw [hl] at this
        exact ymx_pulled_trans _ _ _ hp1 this
  | .mapping_start a t i s =>
    simp only [ymx_load_node, ymx_load_mapping]
    split
    · trivial
    · rename_i hp; exact absurd hp (ymx_parse_returns parser)
    · rename_i ev1 p1 hp
      obtain ⟨hp1, hl1⟩ := ymx_parse_pulled parser p1 ev1 hp
      split
      · trivial
      · rename_i hl
        have := hML p1 (by omega) f
            ({ keys := List.replicate NODES_BUFFER_CHUNK_SIZE
                  (ymx_node_t.mk none none none none none none),
               values := List.replicate NODES_BUFFER_CHUNK_SIZE
                  (ymx_node_t.mk none none none none none none),
               buffer_size := NODES_BUFFER_CHUNK_SIZE, num_items := 0 } : ymx_pairs_t)
            ev1 (by omega)
        rw [hl] at this
        exact this
      · rename_i acc2 p2 hl
        have := hML p1 (by omega) f
            ({ keys := List.replicate NODES_BUFFER_CHUNK_SIZE
                  (ymx_node_t.mk none none none none none none),
               values := List.replicate NODES_BUFFER_CHUNK_SIZE
                  (ymx_node_t.mk none none none none none none),
               buffer_size := NODES_BUFFER_CHUNK_SIZE, num_items := 0 } : ymx_pairs_t)
            ev1 (by omega)
        rw [hl] at this
        exact ymx_pulled_trans _ _ _ hp1 this
  | .no_event => simp only [ymx_load_node, ymx_result_pulls]; exact ymx_pulled_refl parser
  | .stream_start => simp only [ymx_load_node, ymx_result_pulls]; exact ymx_pulled_refl parser
  | .stream_end => simp only [ymx_load_node, ymx_result_pulls]; exact ymx_pulled_refl parser
  | .document_start v tds i =>
    simp only [ymx_load_node, ymx_result_pulls]; exact ymx_pulled_refl parser
  | .document_end i => simp only [ymx_load_node, ymx_result_pulls]; exact ymx_pulled_refl parser
  | .sequence_end => simp only [ymx_load_node, ymx_result_pulls]; exact ymx_pulled_refl parser
  | .mapping_end => simp only [ymx_load_node, ymx_result_pulls]; exact ymx_pulled_refl parser

/-- With at least `3 * length + 2` units of fuel, `ymx_load_node` returns, and
when it succeeds, every pull it made produced an event. -/
theorem ymx_load_node_pulls :
    ∀ (n : Nat) (parser : yaml_parser_t), parser.length ≤ n →
      ∀ (fuel : Nat) (node : ymx_node_t) (event : yaml_event_t),
        3 * parser.length + 2 ≤ fuel →
        ymx_result_pulls parser (ymx_load_node fuel node parser event) := by
  intro n
  induction n with
  | zero =>
    exact ymx_load_node_pulls_of_loops 0
      (fun parser h => absurd h (Nat.not_lt_zero _))
      (fun parser h => absurd h (Nat.not_lt_zero _))
  | succ n ih =>
    exact ymx_load_node_pulls_of_loops (n + 1)
      (fun parser h fuel acc event hf =>
        ymx_load_sequence_loop_pulls n ih n parser (by omega) (le_refl n) fuel acc event hf)
      (fun parser h fuel acc event hf =>
        ymx_load_mapping_loop_pulls n ih n parser (by omega) (le_refl n) fuel acc event hf)

theorem ymx_load_document_pulls (parser : yaml_parser_t) (fuel : Nat) (doc : ymx_document_t)
    (event : yaml_event_t) (hfuel : 3 * parser.length + 2 ≤ fuel) :
    ymx_result_pulls parser (ymx_load_document fuel doc parser event) := by
  unfold ymx_load_document
  split
  · simp only []
    split
    · trivial
    · rename_i hp; exact absurd hp (ymx_parse_returns parser)
    · rename_i ev1 p1 hp
      obtain ⟨hp1, hl1⟩ := ymx_parse_pulled parser p1 ev1 hp
      have hn := ymx_load_node_pulls p1.length p1 (le_refl _) fuel {} ev1 (by omega)
      split
      · trivial
      · rename_i hl
        rw [hl] at hn
        exact hn
      · rename_i node2 p2 hl
        rw [hl] at hn
        split
        · trivial
        · rename_i hp2; exact absurd hp2 (ymx_parse_returns p2)
        · rename_i ev3 p3 hp3
          obtain ⟨hp3', _⟩ := ymx_parse_pulled p2 p3 ev3 hp3
          split
          · exact ymx_pulled_trans _ _ _ hp1 (ymx_pulled_trans _ _ _ hn hp3')
          · trivial
  · trivial

theorem ymx_load_stream_loop_pulls :
    ∀ (m : Nat) (parser : yaml_parser_t), parser.length ≤ m →
      ∀ (fuel : Nat) (raw_docs : List ymx_document_t) (event : yaml_event_t),
        3 * parser.length + 3 ≤ fuel →
        ymx_result_pulls parser (ymx_load_stream_loop fuel raw_docs parser event) := by
  intro m
  induction m with
  | zero =>
    intro parser hlen fuel raw_docs event hfuel
    obtain ⟨g, rfl⟩ : ∃ g, fuel = g + 1 := ⟨fuel - 1, by omega⟩
    by_cases hev : event = .stream_end
    · subst hev
      rw [ymx_load_stream_loop]
      exact ymx_pulled_refl parser
    · rw [ymx_load_stream_loop_step g raw_docs parser event hev]
      have h1 := ymx_load_document_pulls parser g {} event (by omega)
      cases hr : ymx_load_document g {} parser event with
      | error msg => trivial
      | diverge => rw [hr] at h1; exact h1
      | ok val =>
        obtain ⟨doc, p1⟩ := val
        rw [hr] at h1
        have hl1 := ymx_pulled_length _ _ h1
        simp only []
        cases hp : ymx_parse p1 with
        | error msg => trivial
        | diverge => exact absurd hp (ymx_parse_returns p1)
        | ok val2 =>
          obtain ⟨ev2, p2⟩ := val2
          have := (ymx_parse_pulled p1 p2 ev2 hp).2
          omega
  | succ m ih =>
    intro parser hlen fuel raw_docs event hfuel
    obtain ⟨g, rfl⟩ : ∃ g, fuel = g + 1 := ⟨fuel - 1, by omega⟩
    by_cases hev : event = .stream_end
    · subst hev
      rw [ymx_load_stream_loop]
      exact ymx_pulled_refl parser
    · rw [ymx_load_stream_loop_step g raw_docs parser event hev]
      have h1 := ymx_load_document_pulls parser g {} event (by omega)
      cases hr : ymx_load_document g {} parser event with
      | error msg => trivial
      | diverge => rw [hr] at h1; exact h1
      | ok val =>
        obtain ⟨doc, p1⟩ := val
        rw [hr] at h1
        have hl1 := ymx_pulled_length _ _ h1
        simp only []
        cases hp : ymx_parse p1 with
        | error msg => trivial
        | diverge => exact absurd hp (ymx_parse_returns p1)
        | ok val2 =>
          obtain ⟨ev2, p2⟩ := val2
          obtain ⟨hp2, hl2⟩ := ymx_parse_pulled p1 p2 ev2 hp
          simp only []
          have h3 := ih p2 (by omega) g (raw_docs ++ [doc]) ev2 (by omega)
          cases hl : ymx_load_stream_loop g (raw_docs ++ [doc]) p2 ev2 with
          | error msg => trivial
          | diverge => rw [hl] at h3; exact h3
          | ok val3 =>
            obtain ⟨docs3, p3⟩ := val3
            rw [hl] at h3
            exact ymx_pulled_trans _ _ _ h1 (ymx_pulled_trans _ _ _ hp2 h3)
/-- The loop of `ymx_load_stream` returns, and when it succeeds, every pull it
made produced an event and the last event it looked at is the stream end. -/
theorem ymx_load_stream_loop_closed :
    ∀ (fuel : Nat) (parser : yaml_parser_t) (raw_docs : List ymx_document_t)
      (event : yaml_event_t), 3 * parser.length + 3 ≤ fuel →
      match ymx_load_stream_loop fuel raw_docs parser event with
      | .ok (_, rest) => ∃ events : List yaml_event_t,
          parser = events.map some ++ rest
            ∧ (event :: events).getLast? = some .stream_end
      | .error _ => True
      | .diverge => False := by
  intro fuel
  induction fuel with
  | zero => intro parser raw_docs event hfuel; omega
  | succ g ih =>
    intro parser raw_docs event hfuel
    by_cases hev : event = .stream_end
    · subst hev
      rw [ymx_load_stream_loop]
      exact ⟨[], rfl, rfl⟩
    · rw [ymx_load_stream_loop_step g raw_docs parser event hev]
      have h1 := ymx_load_document_pulls parser g {} event (by omega)
      cases hr : ymx_load_document g {} parser event with
      | error msg => trivial
      | diverge => rw [hr] at h1; exact h1
      | ok val =>
        obtain ⟨doc, p1⟩ := val
        rw [hr] at h1
        obtain ⟨e1, rfl⟩ := h1
        simp only []
        cases hp : ymx_parse p1 with
        | error msg => trivial
        | diverge => exact absurd hp (ymx_parse_returns p1)
        | ok val2 =>
          obtain ⟨ev2, p2⟩ := val2
          have hp2 := ymx_parse_ok p1 p2 ev2 hp
          subst hp2
          simp only []
          have h3 := ih p2 (raw_docs ++ [doc]) ev2 (by simp at hfuel; omega)
          cases hl : ymx_load_stream_loop g (raw_docs ++ [doc]) p2 ev2 with
          | error msg => trivial
          | diverge => rw [hl] at h3; exact h3
          | ok val3 =>
            obtain ⟨docs3, p3⟩ := val3
            rw [hl] at h3
            obtain ⟨e3, rfl, hlast⟩ := h3
            refine ⟨e1 ++ ev2 :: e3, by simp, ?_⟩
            rw [← List.cons_append, List.getLast?_append_of_ne_nil _ (by simp)]
            exact hlast

/-- The loader returns, and when it succeeds, every pull it made produced an
event and the last one produced the stream end. -/
theorem ymx_load_stream_closed (parser : yaml_parser_t) :
    match ymx_load_stream parser with
    | .ok _ => ∃ (events : List yaml_event_t) (rest : yaml_parser_t),
        parser = (events ++ [yaml_event_t.stream_end]).map some ++ rest
    | .error _ => True
    | .diverge => False := by
  unfold ymx_load_stream
  simp only []
  cases hp : ymx_parse parser with
  | error msg => trivial
  | diverge => exact absurd hp (ymx_parse_returns parser)
  | ok val =>
    obtain ⟨ev1, p1⟩ := val
    have hp1 := ymx_parse_ok parser p1 ev1 hp
    subst hp1
    simp only []
    by_cases hev : ev1 = .stream_start
    · subst hev
      simp only []
      cases hp2 : ymx_parse p1 with
      | error msg => trivial
      | diverge => exact absurd hp2 (ymx_parse_returns p1)
      | ok val2 =>
        obtain ⟨ev2, p2⟩ := val2
        have hp2' := ymx_parse_ok p1 p2 ev2 hp2
        subst hp2'
        simp only []
        have h3 := ymx_load_stream_loop_closed
          (3 * (some yaml_event_t.stream_start :: some ev2 :: p2).length + 3) p2 [] ev2
          (by simp; omega)
        cases hl : ymx_load_stream_loop
            (3 * (some yaml_event_t.stream_start :: some ev2 :: p2).length + 3) [] p2 ev2 with
        | error msg => trivial
        | diverge => rw [hl] at h3; exact h3
        | ok val3 =>
          obtain ⟨docs3, p3⟩ := val3
          rw [hl] at h3
          obtain ⟨e3, rfl, hlast⟩ := h3
          simp only []
          have hne : ev2 :: e3 ≠ [] := by simp
          have hd := List.dropLast_append_getLast? .stream_end
            (by simpa using hlast : yaml_event_t.stream_end ∈ (ev2 :: e3).getLast?)
          split_ifs
          · exact ⟨.stream_start :: (ev2 :: e3).dropLast, p3, by
              rw [List.cons_append, hd]; simp⟩
          · exact ⟨.stream_start :: (ev2 :: e3).dropLast, p3, by
              rw [List.cons_append, hd]; simp⟩
    · cases ev1 <;> first
        | exact absurd rfl hev
        | trivial
/-- A failed pull where the root node of a document is expected. -/
theorem ymx_load_stream_fails_at_root (docs : List yaml_document) (d : yaml_document)
    (rest : yaml_parser_t) :
    ymx_load_stream
        ((yaml_event_t.stream_start :: (yaml_document.events_docs docs ++ [d.first])).map some
          ++ none :: rest)
      = .error "Error while parsing document" := by
  obtain ⟨f, hf, h⟩ := ymx_load_stream_after_docs docs d.first (none :: rest)
  apply h
  have hne : d.first ≠ yaml_event_t.stream_end := by simp [yaml_document.first]
  rw [ymx_load_stream_loop_step _ _ _ _ hne]
  simp [yaml_document.first, ymx_load_document, ymx_parse]

/-- A failed pull where the document end event is expected. -/
theorem ymx_load_stream_fails_at_document_end (docs : List yaml_document) (d : yaml_document)
    (rest : yaml_parser_t) :
    ymx_load_stream
        ((yaml_event_t.stream_start
            :: (yaml_document.events_docs docs ++ d.first :: d.root.events)).map some
          ++ none :: rest)
      = .error "Error while parsing document" := by
  obtain ⟨f, hf, h⟩ := ymx_load_stream_after_docs docs d.first
    (d.root.events.map some ++ none :: rest)
  have hrw : (yaml_event_t.stream_start
        :: (yaml_document.events_docs docs ++ d.first :: d.root.events)).map some
          ++ none :: rest
      = (yaml_event_t.stream_start :: (yaml_document.events_docs docs ++ [d.first])).map some
          ++ (d.root.events.map some ++ none :: rest) := by simp
  rw [hrw]
  apply h
  have hne : d.first ≠ yaml_event_t.stream_end := by simp [yaml_document.first]
  have hload := ymx_load_node_subtree d.root f (none :: rest)
    (by simp at hf; omega)
  rw [ymx_load_stream_loop_step _ _ _ _ hne]
  simp only [yaml_document.first, ymx_load_document, yaml_subtree.events, List.map_cons,
    List.cons_append, ymx_parse, hload]

/-- A failed pull after complete documents, where the next document start or
the stream end is expected. -/
theorem ymx_load_stream_fails_after_docs (docs : List yaml_document) (rest : yaml_parser_t) :
    ymx_load_stream
        ((yaml_event_t.stream_start :: yaml_document.events_docs docs).map some
          ++ none :: rest)
      = .error "Error while parsing document" := by
  rcases List.eq_nil_or_concat docs with rfl | ⟨ds, d, rfl⟩
  · simp [yaml_document.events_docs, ymx_load_stream, ymx_parse]
  · rw [List.concat_eq_append]
    obtain ⟨f, hf, h⟩ := ymx_load_stream_after_docs ds d.first
      (d.rest.map some ++ none :: rest)
    have hrw : (yaml_event_t.stream_start :: yaml_document.events_docs (ds ++ [d])).map some
          ++ none :: rest
        = (yaml_event_t.stream_start :: (yaml_document.events_docs ds ++ [d.first])).map some
          ++ (d.rest.map some ++ none :: rest) := by
      simp [yaml_document.events_docs_eq_flatten, yaml_document.events]
    rw [hrw]
    apply h
    have hne : d.first ≠ yaml_event_t.stream_end := by simp [yaml_document.first]
    have hdoc := ymx_load_document_grammatical d f (none :: rest)
      (by simp [yaml_document.rest] at hf; omega)
    rw [ymx_load_stream_loop_step _ _ _ _ hne, hdoc]
    simp [ymx_parse]

/-- C19. Event-source failure aborts load.  The loader returns on every event
source.  When it returns a result, every pull it made produced an event and the
last one produced the stream end.  Hence, when the pull at position `k` fails
and no stream end event comes before that position (the load is not over
there), the loader returns an error and no document array.  The error is
"Error while parsing document" for a failure after any number of complete
documents, after the document start event that follows them, and after the root
subtree of that document. -/
theorem C19_source_failure_aborts (parser : yaml_parser_t) (k : Nat)
    (hk : parser.get? k = some none)
    (hopen : ∀ j, j < k → parser.get? j ≠ some (some yaml_event_t.stream_end)) :
    (∃ msg, ymx_load_stream parser = .error msg)
    ∧ (∀ r, ymx_load_stream parser ≠ .ok r)
    ∧ (∀ source : yaml_parser_t, ymx_load_stream source ≠ .diverge)
    ∧ (∀ (source : yaml_parser_t) (r : Option mxArray), ymx_load_stream source = .ok r →
        ∃ (events : List yaml_event_t) (rest : yaml_parser_t),
          source = (events ++ [yaml_event_t.stream_end]).map some ++ rest)
    ∧ (∀ (docs : List yaml_document) (rest : yaml_parser_t),
        ymx_load_stream
            ((yaml_event_t.stream_start :: yaml_document.events_docs docs).map some
              ++ none :: rest)
          = .error "Error while parsing document")
    ∧ (∀ (docs : List yaml_document) (d : yaml_document) (rest : yaml_parser_t),
        ymx_load_stream
            ((yaml_event_t.stream_start
                :: (yaml_document.events_docs docs ++ [d.first])).map some
              ++ none :: rest)
          = .error "Error while parsing document")
    ∧ (∀ (docs : List yaml_document) (d : yaml_document) (rest : yaml_parser_t),
        ymx_load_stream
            ((yaml_event_t.stream_start
                :: (yaml_document.events_docs docs ++ d.first :: d.root.events)).map some
              ++ none :: rest)
          = .error "Error while parsing document") := by
  have hclosed : ∀ (source : yaml_parser_t) (r : Option mxArray),
      ymx_load_stream source = .ok r →
      ∃ (events : List yaml_event_t) (rest : yaml_parser_t),
        source = (events ++ [yaml_event_t.stream_end]).map some ++ rest := by
    intro source r hr
    have := ymx_load_stream_closed source
    rw [hr] at this
    exact this
  have hret : ∀ source : yaml_parser_t, ymx_load_stream source ≠ .diverge := by
    intro source hd
    have := ymx_load_stream_closed source
    rw [hd] at this
    exact this
  have hno : ∀ r, ymx_load_stream parser ≠ .ok r := by
    intro r hr
    obtain ⟨events, rest, rfl⟩ := hclosed parser r hr
    by_cases hlt : k < events.length + 1
    · have hk2 : k < ((events ++ [yaml_event_t.stream_end]).map some).length := by simpa using hlt
      rw [List.get?_eq_getElem?, List.getElem?_append_left hk2, List.getElem?_map] at hk
      cases hg : (events ++ [yaml_event_t.stream_end])[k]? with
      | none => rw [hg] at hk; simp at hk
      | some e => rw [hg] at hk; simp at hk
    · apply hopen events.length (by omega)
      rw [List.get?_eq_getElem?, List.getElem?_append_left (by simp), List.getElem?_map]
      simp
  refine ⟨?_, hno, hret, hclosed, ymx_load_stream_fails_after_docs,
    ymx_load_stream_fails_at_root, ymx_load_stream_fails_at_document_end⟩
  cases hr : ymx_load_stream parser with
  | ok r => exact absurd hr (hno r)
  | error msg => exact ⟨msg, rfl⟩
  | diverge => exact absurd hr (hret parser)

/-- The premises of `C19_source_failure_aborts` hold for a source that yields
the stream start, one complete document with the root "a" and the start of a
second document, and fails on the sixth pull. -/
theorem C19_source_failure_aborts_witness :
    ([some yaml_event_t.stream_start, some (.document_start none [] 1),
        some (.scalar none none (some [97]) 1 1 0 1), some (.document_end 1),
        some (.document_start none [] 0), none] : yaml_parser_t).get? 5 = some none
    ∧ (∀ j, j < 5 →
        ([some yaml_event_t.stream_start, some (.document_start none [] 1),
          some (.scalar none none (some [97]) 1 1 0 1), some (.document_end 1),
          some (.document_start none [] 0), none] : yaml_parser_t).get? j
          ≠ some (some yaml_event_t.stream_end))
    ∧ (∃ msg, ymx_load_stream
        [some yaml_event_t.stream_start, some (.document_start none [] 1),
          some (.scalar none none (some [97]) 1 1 0 1), some (.document_end 1),
          some (.document_start none [] 0), none]
      = .error msg) :=
  ⟨rfl, by decide,
    (C19_source_failure_aborts
      [some yaml_event_t.stream_start, some (.document_start none [] 1),
        some (.scalar none none (some [97]) 1 1 0 1), some (.document_end 1),
        some (.document_start none [] 0), none] 5 rfl (by decide)).1⟩

/-! ## The dumper on what the loader builds -/

theorem c_str_of_buffer_zero_free (buf : List Nat) : (c_str_of_buffer buf).contains 0 = false := by
  unfold c_str_of_buffer
  induction buf with
  | nil => rfl
  | cons a s ih =>
    by_cases ha : a = 0
    · subst ha; rfl
    · have ha2 : (a != 0) = true := by simpa using ha
      simp only [List.takeWhile_cons, ha2, if_true, List.contains_cons, Bool.or_eq_false_iff,
        beq_eq_false_iff_ne, ne_eq]
      exact ⟨fun h => ha h.symm, ih⟩

theorem c_str_of_buffer_idem (buf : List Nat) :
    c_str_of_buffer (c_str_of_buffer buf) = c_str_of_buffer buf :=
  c_str_of_buffer_eq_self _ (c_str_of_buffer_zero_free buf)

/-- The steps "Assemble tag"/"Assemble anchor" on the array of a string. -/
theorem ymx_assemble_string_created (s : c_string) :
    ymx_assemble_string (some (mxCreateString s)) = some (ymx_assembled s) := by
  by_cases h : s.length = 0
  · simp [ymx_assemble_string, ymx_assembled, mxIsEmpty, mxGetNumberOfElements, mxCreateString,
      mxArray.dims, h]
  · have hv := ymx_is_valid_string_mxCreateString s
    simp only [mxCreateString] at hv
    simp [ymx_assemble_string, ymx_assembled, mxIsEmpty, mxGetNumberOfElements, mxCreateString,
      mxArray.dims, h, hv, mxArrayToString]

theorem ymx_assemble_string_created_opt (a : Option c_string) :
    ymx_assemble_string (a.map mxCreateString) = some (a.bind ymx_assembled) := by
  cases a with
  | none => rfl
  | some s => exact ymx_assemble_string_created s

/-- The dump of the elements of a node array whose elements are given by the
list `L`, given the dump of each of them. -/
theorem ymx_dump_node_elements_of {α : Type} (L : List α) (flds : α → List (Option mxArray))
    (evs : α → List yaml_event_t) (fuel : Nat) (emitter : yaml_emitter_t)
    (d : List Nat) (names : List String)
    (ih : ∀ c ∈ L, ∀ (st : ymx_dump_state) (arr : mxArray) (ind : Nat),
      (∀ k, mxGetFieldByNumber arr ind k = (flds c).getD k none) →
      ymx_dump_node fuel emitter st arr ind = ymx_emit_all emitter st (evs c)) :
    ∀ j, j < (L.map evs).length → ∀ st,
      ymx_dump_node fuel emitter st (.struct d names (L.map flds)) j
        = ymx_emit_all emitter st ((L.map evs).getD j []) := by
  intro j hj st
  simp only [List.length_map] at hj
  have hget : (L.map evs).getD j [] = evs (L.get ⟨j, hj⟩) := by
    simp [List.getD_eq_getElem?_getD, List.getElem?_eq_getElem hj]
  rw [hget]
  refine ih _ (List.get_mem L j hj) st _ j ?_
  intro k
  simp [mxGetFieldByNumber, List.getD_eq_getElem?_getD, List.getElem?_eq_getElem hj]

theorem mxArray.depth_fields_child_of {α : Type} (L : List α)
    (flds : α → List (Option mxArray)) (c : α) (hc : c ∈ L) (d : List Nat)
    (names : List String) (fs : List (Option mxArray))
    (hfs : some (mxArray.struct d names (L.map flds)) ∈ fs) :
    mxArray.depth_fields (flds c) + 1 ≤ mxArray.depth_fields fs := by
  have h1 := mxArray.depth_le_depth_fields fs _ hfs
  have h2 := mxArray.depth_fields_le_depth_elems (L.map flds) (flds c)
    (List.mem_map_of_mem _ hc)
  simp only [mxArray.depth] at h1
  omega

theorem yaml_subtree.loaded_items_map (items : List yaml_subtree) :
    yaml_subtree.loaded_items items = items.map (fun c => c.loaded.fields) := by
  induction items with
  | nil => rfl
  | cons c cs ih => simp [yaml_subtree.loaded_items, ih]

theorem yaml_subtree.loaded_pairs_map (pairs : List (yaml_subtree × yaml_subtree)) :
    yaml_subtree.loaded_pairs pairs
      = ((pairs.map (fun p => [p.1, p.2])).flatten).map (fun c => c.loaded.fields) := by
  induction pairs with
  | nil => rfl
  | cons p ps ih => obtain ⟨k, v⟩ := p; simp [yaml_subtree.loaded_pairs, ih]

theorem yaml_subtree.events_items_redump (items : List yaml_subtree) :
    yaml_subtree.events_items (yaml_subtree.redump_items items)
      = (items.map (fun c => c.redump.events)).flatten := by
  induction items with
  | nil => rfl
  | cons c cs ih =>
    simp [yaml_subtree.redump_items, yaml_subtree.events_items, yaml_subtree.events, ih]

theorem yaml_subtree.events_pairs_redump (pairs : List (yaml_subtree × yaml_subtree)) :
    yaml_subtree.events_pairs (yaml_subtree.redump_pairs pairs)
      = (((pairs.map (fun p => [p.1, p.2])).flatten).map (fun c => c.redump.events)).flatten := by
  induction pairs with
  | nil => rfl
  | cons p ps ih =>
    obtain ⟨k, v⟩ := p
    simp [yaml_subtree.redump_pairs, yaml_subtree.events_pairs, yaml_subtree.events, ih]

theorem yaml_subtree.dumpable_of_mem_items (items : List yaml_subtree)
    (h : yaml_subtree.dumpable_items items = true) : ∀ c ∈ items, c.dumpable = true := by
  induction items with
  | nil => intro c hc; simp at hc
  | cons a cs ih =>
    simp only [yaml_subtree.dumpable_items, Bool.and_eq_true] at h
    intro c hc
    rcases List.mem_cons.mp hc with rfl | hc
    · exact h.1
    · exact ih h.2 c hc

theorem yaml_subtree.dumpable_of_mem_pairs (pairs : List (yaml_subtree × yaml_subtree))
    (h : yaml_subtree.dumpable_pairs pairs = true) :
    ∀ c ∈ (pairs.map (fun p => [p.1, p.2])).flatten, c.dumpable = true := by
  induction pairs with
  | nil => intro c hc; simp at hc
  | cons p ps ih =>
    obtain ⟨k, v⟩ := p
    simp only [yaml_subtree.dumpable_pairs, Bool.and_eq_true] at h
    intro c hc
    simp only [List.map_cons, List.flatten_cons, List.cons_append, List.nil_append,
      List.mem_cons] at hc
    rcases hc with rfl | rfl | hc
    · exact h.1.1
    · exact h.1.2
    · exact ih h.2 c hc

theorem yaml_subtree.flat_subtree_pairs_length (ps : List (yaml_subtree × yaml_subtree)) :
    ((ps.map (fun p => [p.1, p.2])).flatten).length = 2 * ps.length := by
  induction ps with
  | nil => rfl
  | cons p ps ih =>
    simp only [List.map_cons, List.flatten_cons, List.length_append, List.length_cons,
      List.length_nil, ih]
    omega
/-- The dumper on what the loader builds from a subtree: the dump of an array
element that holds the node `t.loaded` amounts to handing the events of
`t.redump` to the emitter, in order, up to the first one that fails. -/
theorem ymx_dump_node_loaded : ∀ (t : yaml_subtree), t.dumpable = true →
    ∀ (fuel : Nat) (emitter : yaml_emitter_t) (st : ymx_dump_state) (arr : mxArray)
      (ind : Nat),
      (∀ k, mxGetFieldByNumber arr ind k = t.loaded.fields.getD k none) →
      2 * mxArray.depth_fields t.loaded.fields + 2 ≤ fuel →
      ymx_dump_node fuel emitter st arr ind = ymx_emit_all emitter st t.redump.events
  | .scalar a t v l p q s, hd, fuel, emitter, st, arr, ind, harr, hfuel => by
    obtain ⟨f, rfl⟩ : ∃ f, fuel = f + 1 := ⟨fuel - 1, by omega⟩
    simp only [yaml_subtree.dumpable] at hd
    obtain ⟨w, rfl⟩ := Option.isSome_iff_exists.mp hd
    have h0 : mxGetFieldByNumber arr ind YMX_NODE_FIELD_TYPE
        = some (ymx_create_int_scalar YMX_NODE_TYPE_SCALAR) := harr _
    have h1 : mxGetFieldByNumber arr ind YMX_NODE_FIELD_VALUE
        = some (mxCreateString (c_str_of_buffer (w.take l ++ [0]))) := harr _
    have h2 : mxGetFieldByNumber arr ind YMX_NODE_FIELD_TAG
        = some (mxCreateString
            (t.getD (if s = YAML_PLAIN_SCALAR_STYLE then [63] else [33]))) := by
      rw [harr]
      cases t with
      | some t => rfl
      | none =>
        by_cases hs : s = YAML_PLAIN_SCALAR_STYLE
        · simp [yaml_subtree.loaded, ymx_node_t.fields, YMX_NODE_FIELD_TAG, hs]
        · simp [yaml_subtree.loaded, ymx_node_t.fields, YMX_NODE_FIELD_TAG, hs]
    have h3 : mxGetFieldByNumber arr ind YMX_NODE_FIELD_ANCHOR = a.map mxCreateString :=
      harr _
    have h4 : mxGetFieldByNumber arr ind YMX_NODE_FIELD_IMPLICIT
        = some (ymx_create_int_scalar (if p ≠ 0 then YMX_SCALAR_IMPLICIT_PLAIN
            else if q ≠ 0 then YMX_SCALAR_IMPLICIT_QUOTED else YMX_SCALAR_IMPLICIT_FALSE)) := by
      rw [harr]
      by_cases hp : p = 0
      · by_cases hq : q = 0
        · simp [yaml_subtree.loaded, ymx_node_t.fields, YMX_NODE_FIELD_IMPLICIT, hp, hq]
        · simp [yaml_subtree.loaded, ymx_node_t.fields, YMX_NODE_FIELD_IMPLICIT, hp, hq]
      · simp [yaml_subtree.loaded, ymx_node_t.fields, YMX_NODE_FIELD_IMPLICIT, hp]
    have h5 : mxGetFieldByNumber arr ind YMX_NODE_FIELD_STYLE
        = some (ymx_create_int_scalar s) := harr _
    rw [ymx_dump_node_dispatch f emitter st arr ind _ _ _ _ _
      (by rw [h2]; exact ymx_assemble_string_created _)
      (by rw [h3]; exact ymx_assemble_string_created_opt a) h4 h5 h0]
    have hval := ymx_is_valid_string_mxCreateString (c_str_of_buffer (w.take l ++ [0]))
    simp only [mxCreateString] at hval
    simp only [if_true, h1, ymx_dump_scalar, hval,
      Bool.not_true, Bool.false_eq_true, if_false, mxArrayToString, mxCreateString,
      c_str_of_buffer_idem, Option.getD_some, yaml_subtree.redump, yaml_subtree.events,
      yaml_subtree.first, yaml_subtree.rest, ymx_emit_all_singleton]
    by_cases hp : p = 0
    · by_cases hq : q = 0
      · simp [hp, hq, YMX_SCALAR_IMPLICIT_PLAIN, YMX_SCALAR_IMPLICIT_QUOTED,
          YMX_SCALAR_IMPLICIT_FALSE]
      · simp [hp, hq, YMX_SCALAR_IMPLICIT_PLAIN, YMX_SCALAR_IMPLICIT_QUOTED,
          YMX_SCALAR_IMPLICIT_FALSE]
    · simp [hp, YMX_SCALAR_IMPLICIT_PLAIN, YMX_SCALAR_IMPLICIT_QUOTED,
        YMX_SCALAR_IMPLICIT_FALSE]
  | .alias a, hd, fuel, emitter, st, arr, ind, harr, hfuel => by
    obtain ⟨f, rfl⟩ : ∃ f, fuel = f + 1 := ⟨fuel - 1, by omega⟩
    simp only [yaml_subtree.dumpable, bne_iff_ne, ne_eq] at hd
    have h0 : mxGetFieldByNumber arr ind YMX_NODE_FIELD_TYPE
        = some (ymx_create_int_scalar YMX_NODE_TYPE_ALIAS) := harr _
    have h2 : mxGetFieldByNumber arr ind YMX_NODE_FIELD_TAG = none := harr _
    have h3 : mxGetFieldByNumber arr ind YMX_NODE_FIELD_ANCHOR = some (mxCreateString a) :=
      harr _
    have h4 : mxGetFieldByNumber arr ind YMX_NODE_FIELD_IMPLICIT
        = some (ymx_create_int_scalar 0) := harr _
    have h5 : mxGetFieldByNumber arr ind YMX_NODE_FIELD_STYLE
        = some (ymx_create_int_scalar 0) := harr _
    rw [ymx_dump_node_dispatch f emitter st arr ind none (some (c_str_of_buffer a)) _ _ _
      (by rw [h2]; rfl)
      (by rw [h3, ymx_assemble_string_created]; simp [ymx_assembled, hd]) h4 h5 h0]
    simp [YMX_NODE_TYPE_ALIAS, YMX_NODE_TYPE_SCALAR, YMX_NODE_TYPE_SEQUENCE,
      YMX_NODE_TYPE_MAPPING, ymx_dump_alias, yaml_subtree.redump, yaml_subtree.events,
      yaml_subtree.first, yaml_subtree.rest, ymx_emit_all_singleton]
  | .sequence a t i s items, hd, fuel, emitter, st, arr, ind, harr, hfuel => by
    obtain ⟨f, rfl⟩ : ∃ f, fuel = f + 2 := ⟨fuel - 2, by omega⟩
    simp only [yaml_subtree.dumpable] at hd
    have h0 : mxGetFieldByNumber arr ind YMX_NODE_FIELD_TYPE
        = some (ymx_create_int_scalar YMX_NODE_TYPE_SEQUENCE) := harr _
    have h1 : mxGetFieldByNumber arr ind YMX_NODE_FIELD_VALUE
        = (yaml_subtree.sequence a t i s items).loaded.value := harr _
    have h2 : mxGetFieldByNumber arr ind YMX_NODE_FIELD_TAG
        = some (mxCreateString (t.getD [63])) := harr _
    have h3 : mxGetFieldByNumber arr ind YMX_NODE_FIELD_ANCHOR = a.map mxCreateString :=
      harr _
    have h4 : mxGetFieldByNumber arr ind YMX_NODE_FIELD_IMPLICIT
        = some (ymx_create_int_scalar i) := harr _
    have h5 : mxGetFieldByNumber arr ind YMX_NODE_FIELD_STYLE
        = some (ymx_create_int_scalar s) := harr _
    rw [ymx_dump_node_dispatch (f + 1) emitter st arr ind _ _ _ _ _
      (by rw [h2]; exact ymx_assemble_string_created _)
      (by rw [h3]; exact ymx_assemble_string_created_opt a) h4 h5 h0]
    simp only [YMX_NODE_TYPE_SEQUENCE, YMX_NODE_TYPE_SCALAR, if_true,
      show ¬ ((2 : Int) = 1) by decide, if_false, h1]
    have ih : ∀ c ∈ items, ∀ (st : ymx_dump_state) (arr : mxArray) (ind : Nat),
        (∀ k, mxGetFieldByNumber arr ind k = c.loaded.fields.getD k none) →
        ymx_dump_node f emitter st arr ind = ymx_emit_all emitter st c.redump.events := by
      intro c hc st' arr' ind' harr'
      have hne : items.length ≠ 0 := by
        intro h0; rw [List.length_eq_zero.mp h0] at hc; simp at hc
      have hdc := mxArray.depth_fields_child_of items (fun c => c.loaded.fields) c hc
        [1, items.length] YMX_NODE_FIELD_STRS (yaml_subtree.sequence a t i s items).loaded.fields
        (by simp [yaml_subtree.loaded, ymx_node_t.fields, hne, yaml_subtree.loaded_items_map])
      simp only [] at hdc
      exact ymx_dump_node_loaded c (yaml_subtree.dumpable_of_mem_items items hd c hc) f emitter
        st' arr' ind' harr' (by omega)
    have hel := ymx_dump_node_elements_of items (fun c => c.loaded.fields)
      (fun c => c.redump.events) f emitter [1, items.length] YMX_NODE_FIELD_STRS ih
    rw [ymx_dump_sequence_emit_all f emitter st _ _ _ _ _
      (items.map (fun c => c.redump.events))]
    · simp [yaml_subtree.redump, yaml_subtree.events, yaml_subtree.first, yaml_subtree.rest,
        yaml_subtree.events_items_redump]
    · by_cases hne : items.length = 0
      · left
        have : items = [] := List.length_eq_zero.mp hne
        subst this
        simp [yaml_subtree.loaded]
      · right
        refine ⟨.struct [1, items.length] YMX_NODE_FIELD_STRS
            (items.map (fun c => c.loaded.fields)),
          by simp [yaml_subtree.loaded, hne, yaml_subtree.loaded_items_map], ?_,
          ymx_is_valid_node_array_struct _ _, rfl, rfl, ?_, hel⟩
        · simp [mxIsEmpty, mxGetNumberOfElements, mxArray.dims, hne]
        · simp [mxGetNumberOfElements, mxArray.dims]
  | .mapping a t i s pairs, hd, fuel, emitter, st, arr, ind, harr, hfuel => by
    obtain ⟨f, rfl⟩ : ∃ f, fuel = f + 2 := ⟨fuel - 2, by omega⟩
    simp only [yaml_subtree.dumpable] at hd
    have h0 : mxGetFieldByNumber arr ind YMX_NODE_FIELD_TYPE
        = some (ymx_create_int_scalar YMX_NODE_TYPE_MAPPING) := harr _
    have h1 : mxGetFieldByNumber arr ind YMX_NODE_FIELD_VALUE
        = (yaml_subtree.mapping a t i s pairs).loaded.value := harr _
    have h2 : mxGetFieldByNumber arr ind YMX_NODE_FIELD_TAG
        = some (mxCreateString (t.getD [63])) := harr _
    have h3 : mxGetFieldByNumber arr ind YMX_NODE_FIELD_ANCHOR = a.map mxCreateString :=
      harr _
    have h4 : mxGetFieldByNumber arr ind YMX_NODE_FIELD_IMPLICIT
        = some (ymx_create_int_scalar i) := harr _
    have h5 : mxGetFieldByNumber arr ind YMX_NODE_FIELD_STYLE
        = some (ymx_create_int_scalar s) := harr _
    rw [ymx_dump_node_dispatch (f + 1) emitter st arr ind _ _ _ _ _
      (by rw [h2]; exact ymx_assemble_string_created _)
      (by rw [h3]; exact ymx_assemble_string_created_opt a) h4 h5 h0]
    simp only [YMX_NODE_TYPE_SEQUENCE, YMX_NODE_TYPE_SCALAR, YMX_NODE_TYPE_MAPPING, if_true,
      show ¬ ((3 : Int) = 1) by decide, show ¬ ((3 : Int) = 2) by decide, if_false, h1]
    have ih : ∀ c ∈ (pairs.map (fun p => [p.1, p.2])).flatten,
        ∀ (st : ymx_dump_state) (arr : mxArray) (ind : Nat),
        (∀ k, mxGetFieldByNumber arr ind k = c.loaded.fields.getD k none) →
        ymx_dump_node f emitter st arr ind = ymx_emit_all emitter st c.redump.events := by
      intro c hc st' arr' ind' harr'
      have hne : pairs.length ≠ 0 := by
        intro h0; rw [List.length_eq_zero.mp h0] at hc; simp at hc
      have hdc := mxArray.depth_fields_child_of (pairs.map (fun p => [p.1, p.2])).flatten
        (fun c => c.loaded.fields) c hc
        [2, pairs.length] YMX_NODE_FIELD_STRS (yaml_subtree.mapping a t i s pairs).loaded.fields
        (by simp [yaml_subtree.loaded, ymx_node_t.fields, hne, yaml_subtree.loaded_pairs_map])
      simp only [] at hdc
      exact ymx_dump_node_loaded c (yaml_subtree.dumpable_of_mem_pairs pairs hd c hc) f emitter
        st' arr' ind' harr' (by omega)
    have hel := ymx_dump_node_elements_of (pairs.map (fun p => [p.1, p.2])).flatten
      (fun c => c.loaded.fields)
      (fun c => c.redump.events) f emitter [2, pairs.length] YMX_NODE_FIELD_STRS ih
    rw [ymx_dump_mapping_emit_all f emitter st _ _ _ _ _
      (((pairs.map (fun p => [p.1, p.2])).flatten).map (fun c => c.redump.events))]
    · simp [yaml_subtree.redump, yaml_subtree.events, yaml_subtree.first, yaml_subtree.rest,
        yaml_subtree.events_pairs_redump]
    · by_cases hne : pairs.length = 0
      · left
        have : pairs = [] := List.length_eq_zero.mp hne
        subst this
        simp [yaml_subtree.loaded]
      · right
        refine ⟨.struct [2, pairs.length] YMX_NODE_FIELD_STRS
            (((pairs.map (fun p => [p.1, p.2])).flatten).map (fun c => c.loaded.fields)),
          by simp [yaml_subtree.loaded, hne, yaml_subtree.loaded_pairs_map], ?_,
          ymx_is_valid_node_array_struct _ _, rfl, rfl, ?_, hel⟩
        · simp [mxIsEmpty, mxGetNumberOfElements, mxArray.dims, hne]
        · simp only [mxGetNumberOfElements, mxArray.dims, List.prod_cons, List.prod_nil,
            Nat.mul_one, List.length_map, yaml_subtree.flat_subtree_pairs_length]
termination_by t => sizeOf t
decreasing_by
  all_goals simp_wf
  · have := List.sizeOf_lt_of_mem hc
    omega
  · simp only [List.mem_flatten, List.mem_map] at hc
    obtain ⟨l, ⟨p, hp, rfl⟩, hcl⟩ := hc
    have h1 := List.sizeOf_lt_of_mem hp
    have h2 : sizeOf c < sizeOf p := by
      obtain ⟨k, v⟩ := p
      simp only [List.mem_cons, List.mem_singleton, List.not_mem_nil, or_false] at hcl
      rcases hcl with rfl | rfl
      · simp; omega
      · simp
    omega
/-- The step "Assemble tag directives" on the array the loader builds from
directives without an empty handle or prefix. -/
theorem ymx_assemble_tagdirs_loaded (tds : List yaml_tag_directive_t)
    (h : tds.all (fun td => td.handle.length != 0 && td.pfx.length != 0) = true) :
    ymx_assemble_tagdirs
        (if tds.length ≠ 0 then
          some (.struct [1, tds.length] YMX_TAGDIR_FIELD_STRS (ymx_tagdirs_elems tds))
        else none)
      = some (tds.map (fun td =>
          { handle := c_str_of_buffer td.handle, pfx := c_str_of_buffer td.pfx })) := by
  by_cases hlen : tds.length = 0
  · have : tds = [] := List.length_eq_zero.mp hlen
    subst this
    rfl
  · have hmem : ∀ i (hi : i < tds.length),
        (tds.get ⟨i, hi⟩).handle.length ≠ 0 ∧ (tds.get ⟨i, hi⟩).pfx.length ≠ 0 := by
      intro i hi
      have := List.all_eq_true.mp h _ (List.get_mem tds i hi)
      simpa using this
    have hfield : ∀ i (hi : i < tds.length) (k : Nat),
        mxGetFieldByNumber (.struct [1, tds.length] YMX_TAGDIR_FIELD_STRS
            (ymx_tagdirs_elems tds)) i k
          = [some (mxCreateString (tds.get ⟨i, hi⟩).handle),
             some (mxCreateString (tds.get ⟨i, hi⟩).pfx)].getD k none := by
      intro i hi k
      simp [ymx_tagdirs_elems, mxGetFieldByNumber, List.getD_eq_getElem?_getD,
        List.getElem?_eq_getElem hi]
    have hmember : ∀ s : List Nat, s.length ≠ 0 →
        ymx_is_valid_tagdir_member (some (mxCreateString s)) = true := by
      intro s hs
      have hv := ymx_is_valid_string_mxCreateString s
      simp only [ymx_is_valid_tagdir_member, hv]
      simp [mxGetNumberOfElements, mxCreateString, mxArray.dims, hs]
    have hvalid : ymx_is_valid_tagdirs_array (.struct [1, tds.length] YMX_TAGDIR_FIELD_STRS
        (ymx_tagdirs_elems tds)) = true := by
      simp only [ymx_is_valid_tagdirs_array, mxIsStruct, mxGetNumberOfFields,
        YMX_TAGDIR_FIELD_STRS, YMX_TAGDIR_NUM_FIELDS, List.length_cons, List.length_nil,
        Bool.not_true, Bool.false_eq_true, if_false, bne_self_eq_false,
        mxGetNumberOfElements, mxArray.dims, List.prod_cons, List.prod_nil, Nat.mul_one,
        Nat.one_mul]
      rw [List.all_eq_true]
      intro k hk
      have hk2 : k = 0 ∨ k = 1 := by
        have := List.mem_range.mp hk
        omega
      rw [Bool.and_eq_true]
      refine ⟨by rcases hk2 with rfl | rfl <;> rfl, ?_⟩
      rw [List.all_eq_true]
      intro i hi
      have hi' := List.mem_range.mp hi
      have hf := hfield i hi' k
      simp only [YMX_TAGDIR_FIELD_STRS] at hf
      rw [hf]
      rcases hk2 with rfl | rfl
      · exact hmember _ (hmem i hi').1
      · exact hmember _ (hmem i hi').2
    have hne : mxIsEmpty (.struct [1, tds.length] YMX_TAGDIR_FIELD_STRS
        (ymx_tagdirs_elems tds)) = false := by
      simp [mxIsEmpty, mxGetNumberOfElements, mxArray.dims, hlen]
    simp only [hlen, ne_eq, not_false_eq_true, if_true, ymx_assemble_tagdirs, hne, hvalid,
      Bool.not_false, Bool.not_true, Bool.false_eq_true, if_false, Option.some.injEq,
      mxGetNumberOfElements, mxArray.dims, List.prod_cons, List.prod_nil, Nat.mul_one,
      Nat.one_mul]
    apply list_map_range_eq_map
    intro i hi
    have h0 := hfield i hi YMX_TAGDIR_FIELD_HANDLE
    have h1 := hfield i hi YMX_TAGDIR_FIELD_PREFIX
    rw [h0, h1]
    simp [YMX_TAGDIR_FIELD_HANDLE, YMX_TAGDIR_FIELD_PREFIX, mxArrayToString, mxCreateString]

/-- The version step on the array the loader builds from a version
directive. -/
theorem ymx_assemble_version_loaded (v : Option yaml_version_directive_t) :
    ymx_assemble_version (match v with
        | some v => some (.int32 [1, 2] [v.major, v.minor])
        | none => none)
      = some v := by
  cases v <;> rfl

/-- The dumper on what the loader builds from a document: the dump of the
element amounts to handing the events of `d.redump` to the emitter. -/
theorem ymx_dump_document_loaded (d : yaml_document) (hd : d.dumpable = true) (fuel : Nat)
    (emitter : yaml_emitter_t) (st : ymx_dump_state) (docs_array : mxArray) (ind : Nat)
    (harr : ∀ k, mxGetFieldByNumber docs_array ind k = d.loaded.fields.getD k none)
    (hfuel : 2 * mxArray.depth_fields d.root.loaded.fields + 2 ≤ fuel) :
    ymx_dump_document fuel emitter st docs_array ind
      = ymx_emit_all emitter st d.redump.events := by
  simp only [yaml_document.dumpable, Bool.and_eq_true] at hd
  have h0 : mxGetFieldByNumber docs_array ind YMX_DOC_FIELD_ROOT
      = some (.struct [1, 1] YMX_NODE_FIELD_STRS [d.root.loaded.fields]) := harr _
  have h1 : mxGetFieldByNumber docs_array ind YMX_DOC_FIELD_VERSION
      = (match d.version_directive with
          | some v => some (.int32 [1, 2] [v.major, v.minor])
          | none => none) := harr _
  have h2 : mxGetFieldByNumber docs_array ind YMX_DOC_FIELD_TAGDIRS
      = (if d.tag_directives.length ≠ 0 then
          some (.struct [1, d.tag_directives.length] YMX_TAGDIR_FIELD_STRS
            (ymx_tagdirs_elems d.tag_directives))
        else none) := harr _
  have h3 : mxGetFieldByNumber docs_array ind YMX_DOC_FIELD_START_IMPLICIT
      = some (mxCreateLogicalScalar d.start_implicit) := harr _
  have h4 : mxGetFieldByNumber docs_array ind YMX_DOC_FIELD_END_IMPLICIT
      = some (mxCreateLogicalScalar d.end_implicit) := harr _
  have hroot : ymx_is_valid_doc_root
      (some (.struct [1, 1] YMX_NODE_FIELD_STRS [d.root.loaded.fields])) = true := rfl
  have hnode : ∀ st', ymx_dump_node fuel emitter st'
      (.struct [1, 1] YMX_NODE_FIELD_STRS [d.root.loaded.fields]) 0
      = ymx_emit_all emitter st' d.root.redump.events := by
    intro st'
    exact ymx_dump_node_loaded d.root hd.1 fuel emitter st' _ 0 (by intro k; rfl) hfuel
  have hl : ∀ i : Int, mxIsLogicalScalar (mxCreateLogicalScalar i) = true := by
    intro i; rfl
  have hg : ∀ i : Int, mxGetLogicals0 (mxCreateLogicalScalar i) = if i ≠ 0 then 1 else 0 := by
    intro i
    by_cases hi : i = 0
    · subst hi; rfl
    · simp [mxGetLogicals0, mxCreateLogicalScalar, hi]
  simp only [ymx_dump_document, h0, h1, h2, h3, h4, hroot, Bool.not_true, Bool.false_eq_true,
    if_false, ymx_assemble_tagdirs_loaded d.tag_directives hd.2, ymx_assemble_version_loaded,
    hl, hg, if_true, hnode]
  rw [show d.redump.events
      = [yaml_event_t.document_start d.redump.version_directive d.redump.tag_directives
          d.redump.start_implicit]
        ++ (d.root.redump.events ++ [yaml_event_t.document_end d.redump.end_implicit])
      from rfl, ymx_emit_all_append, ymx_emit_all_singleton]
  simp only [yaml_document.redump]
  cases ymx_emit emitter st (.document_start d.version_directive
      (d.tag_directives.map
        (fun td => { handle := c_str_of_buffer td.handle, pfx := c_str_of_buffer td.pfx }))
      (if d.start_implicit ≠ 0 then 1 else 0)) with
  | error msg st1 => rfl
  | fault st1 => rfl
  | diverge => rfl
  | ok u st1 =>
    simp only [ymx_emit_all_append, ymx_emit_all_singleton]

theorem ymx_docs_array_loaded (ds : List yaml_document) :
    ymx_docs_array (ds.map yaml_document.loaded)
      = if ds.length ≠ 0 then some (yaml_document.loaded_array ds) else none := by
  simp only [ymx_docs_array, yaml_document.loaded_array, List.length_map, List.map_map]
  rfl

/-- The dumper on the array the loader builds from a list of documents: the
dump amounts to handing the events of the stream of the documents `d.redump` to
the emitter; when all are taken, the output string is read from the buffer. -/
theorem ymx_dump_stream_loaded (ds : List yaml_document)
    (hd : ∀ d ∈ ds, d.dumpable = true) (emitter : yaml_emitter_t) :
    ymx_dump_stream emitter (yaml_document.loaded_array ds)
      = (match ymx_emit_all emitter ymx_dump_state_init
            (yaml_stream_events (ds.map yaml_document.redump)) with
         | .ok _ st =>
           (match ymx_buffer_as_string st.buffer with
            | some str => .ok (mxCreateString str) st
            | none => .fault st)
         | .error msg st => .error msg st
         | .fault st => .fault st
         | .diverge => .diverge) := by
  have hdocs : ∀ j, j < (ds.map (fun d => d.redump.events)).length → ∀ st,
      ymx_dump_document (2 * (yaml_document.loaded_array ds).depth + 2) emitter st
          (yaml_document.loaded_array ds) (0 + j)
        = ymx_emit_all emitter st ((ds.map (fun d => d.redump.events)).getD j []) := by
    intro j hj st
    simp only [List.length_map] at hj
    have hget : (ds.map (fun d => d.redump.events)).getD j []
        = (ds.get ⟨j, hj⟩).redump.events := by
      simp [List.getD_eq_getElem?_getD, List.getElem?_eq_getElem hj]
    have hmem := List.get_mem ds j hj
    rw [hget, Nat.zero_add]
    refine ymx_dump_document_loaded _ (hd _ hmem) _ emitter st _ j ?_ ?_
    · intro k
      simp [yaml_document.loaded_array, mxGetFieldByNumber, List.getD_eq_getElem?_getD,
        List.getElem?_eq_getElem hj]
    · have h1 := mxArray.depth_fields_le_depth_elems (ds.map (fun d => d.loaded.fields))
        (ds.get ⟨j, hj⟩).loaded.fields (List.mem_map_of_mem _ hmem)
      have h2 := mxArray.depth_le_depth_fields (ds.get ⟨j, hj⟩).loaded.fields
        (.struct [1, 1] YMX_NODE_FIELD_STRS [(ds.get ⟨j, hj⟩).root.loaded.fields])
        (by simp [yaml_document.loaded, ymx_document_t.fields])
      simp only [mxArray.depth, mxArray.depth_elems, Nat.max_zero] at h2
      simp only [yaml_document.loaded_array, mxArray.depth]
      omega
  have hloop := fun st => ymx_dump_for_emit_all emitter
    (fun st ind => ymx_dump_document (2 * (yaml_document.loaded_array ds).depth + 2) emitter st
      (yaml_document.loaded_array ds) ind) (ds.map (fun d => d.redump.events)) 0 st hdocs
  have hnum : mxGetNumberOfElements (yaml_document.loaded_array ds)
      = (ds.map (fun d => d.redump.events)).length := by
    simp [yaml_document.loaded_array, mxGetNumberOfElements, mxArray.dims]
  have hev : yaml_stream_events (ds.map yaml_document.redump)
      = [yaml_event_t.stream_start]
        ++ ((ds.map (fun d => d.redump.events)).flatten ++ [yaml_event_t.stream_end]) := by
    rw [yaml_stream_events, yaml_document.events_docs_eq_flatten, List.map_map]
    rfl
  simp only [ymx_dump_stream, ymx_is_valid_doc_array_struct, yaml_document.loaded_array,
    Bool.not_true, Bool.false_eq_true, if_false] at *
  rw [hev, ymx_emit_all_append, ymx_emit_all_singleton]
  cases ymx_emit emitter ymx_dump_state_init yaml_event_t.stream_start with
  | error msg st1 => rfl
  | fault st1 => rfl
  | diverge => rfl
  | ok u st1 =>
    simp only [hnum, hloop, ymx_emit_all_append, ymx_emit_all_singleton]
    cases ymx_emit_all emitter st1 (ds.map (fun d => d.redump.events)).flatten with
    | error msg st2 => rfl
    | fault st2 => rfl
    | diverge => rfl
    | ok u st2 =>
      simp only []
      cases ymx_emit emitter st2 yaml_event_t.stream_end with
      | error msg st3 => rfl
      | fault st3 => rfl
      | diverge => rfl
      | ok u st3 => rfl

theorem ymx_assembled_ok (s : c_string) (h : host_string_ok s = true) :
    ymx_assembled s = some s := by
  obtain ⟨h1, h2⟩ := (host_string_ok_iff s).mp h
  simp [ymx_assembled, h1, c_str_of_buffer_eq_self s h2]

theorem ymx_assembled_anchor (a : Option c_string) (h : yaml_anchor_ok a = true) :
    yaml_anchor_ok (a.bind ymx_assembled) = true
    ∧ (a.bind ymx_assembled).bind ymx_assembled = a.bind ymx_assembled := by
  cases a with
  | none => exact ⟨rfl, rfl⟩
  | some s =>
    simp only [yaml_anchor_ok, Bool.not_eq_true'] at h
    by_cases hs : s.length = 0
    · have hs2 : ymx_assembled s = none := by simp [ymx_assembled, hs]
      rw [Option.some_bind, hs2]
      exact ⟨rfl, rfl⟩
    · have hs2 : ymx_assembled s = some s := by
        simp [ymx_assembled, hs, c_str_of_buffer_eq_self s h]
      rw [Option.some_bind, hs2]
      refine ⟨?_, hs2⟩
      simp only [yaml_anchor_ok, h, Bool.not_false]

theorem ymx_assembled_tag (t : Option c_string) (dflt : c_string)
    (hd : host_string_ok dflt = true) (h : yaml_tag_ok t = true) :
    ymx_assembled (t.getD dflt) = some (t.getD dflt)
    ∧ host_string_ok (t.getD dflt) = true := by
  cases t with
  | none => exact ⟨ymx_assembled_ok dflt hd, hd⟩
  | some s => exact ⟨ymx_assembled_ok s h, h⟩

theorem yaml_subtree.well_formed_of_mem_items (items : List yaml_subtree)
    (h : yaml_subtree.well_formed_items items = true) : ∀ c ∈ items, c.well_formed = true := by
  induction items with
  | nil => intro c hc; simp at hc
  | cons a cs ih =>
    simp only [yaml_subtree.well_formed_items, Bool.and_eq_true] at h
    intro c hc
    rcases List.mem_cons.mp hc with rfl | hc
    · exact h.1
    · exact ih h.2 c hc
theorem yaml_subtree.redump_items_eq (items : List yaml_subtree) :
    yaml_subtree.redump_items items = items.map yaml_subtree.redump := by
  induction items with
  | nil => rfl
  | cons c cs ih => simp [yaml_subtree.redump_items, ih]

theorem yaml_subtree.redump_pairs_eq (pairs : List (yaml_subtree × yaml_subtree)) :
    yaml_subtree.redump_pairs pairs = pairs.map (fun p => (p.1.redump, p.2.redump)) := by
  induction pairs with
  | nil => rfl
  | cons p ps ih => obtain ⟨k, v⟩ := p; simp [yaml_subtree.redump_pairs, ih]

theorem yaml_subtree.well_formed_items_iff (items : List yaml_subtree) :
    yaml_subtree.well_formed_items items = true ↔ ∀ c ∈ items, c.well_formed = true := by
  induction items with
  | nil => simp [yaml_subtree.well_formed_items]
  | cons c cs ih => simp [yaml_subtree.well_formed_items, ih]

theorem yaml_subtree.well_formed_pairs_iff (pairs : List (yaml_subtree × yaml_subtree)) :
    yaml_subtree.well_formed_pairs pairs = true
      ↔ ∀ p ∈ pairs, p.1.well_formed = true ∧ p.2.well_formed = true := by
  induction pairs with
  | nil => simp [yaml_subtree.well_formed_pairs]
  | cons p ps ih => obtain ⟨k, v⟩ := p; simp [yaml_subtree.well_formed_pairs, ih, and_assoc]

theorem yaml_subtree.dumpable_items_iff (items : List yaml_subtree) :
    yaml_subtree.dumpable_items items = true ↔ ∀ c ∈ items, c.dumpable = true := by
  induction items with
  | nil => simp [yaml_subtree.dumpable_items]
  | cons c cs ih => simp [yaml_subtree.dumpable_items, ih]

theorem yaml_subtree.dumpable_pairs_iff (pairs : List (yaml_subtree × yaml_subtree)) :
    yaml_subtree.dumpable_pairs pairs = true
      ↔ ∀ p ∈ pairs, p.1.dumpable = true ∧ p.2.dumpable = true := by
  induction pairs with
  | nil => simp [yaml_subtree.dumpable_pairs]
  | cons p ps ih => obtain ⟨k, v⟩ := p; simp [yaml_subtree.dumpable_pairs, ih, and_assoc]

theorem host_string_ok_default (s : Int) :
    host_string_ok (if s = YAML_PLAIN_SCALAR_STYLE then [63] else [33]) = true := by
  split_ifs <;> rfl

/-- On a subtree as the event source yields it, the loaded node is taken by
the dumper, and the subtree the dumper emits for it is again well formed and
is emitted unchanged when it is loaded and dumped once more. -/
theorem yaml_subtree.redump_stable : ∀ (t : yaml_subtree), t.well_formed = true →
    t.dumpable = true ∧ t.redump.well_formed = true ∧ t.redump.redump = t.redump
  | .scalar a t v l p q s, h => by
    simp only [yaml_subtree.well_formed, Bool.and_eq_true] at h
    obtain ⟨⟨hv, ha⟩, ht⟩ := h
    obtain ⟨htag, htok⟩ := ymx_assembled_tag t _ (host_string_ok_default s) ht
    obtain ⟨haok, haa⟩ := ymx_assembled_anchor a ha
    have hw : c_str_of_buffer
        ((c_str_of_buffer ((v.getD []).take l ++ [0])).take
            (c_str_of_buffer ((v.getD []).take l ++ [0])).length ++ [0])
        = c_str_of_buffer ((v.getD []).take l ++ [0]) := by
      rw [List.take_length, c_str_of_buffer_append_zero _ (c_str_of_buffer_zero_free _)]
    refine ⟨hv, ?_, ?_⟩
    · have htt : yaml_tag_ok
          (some (t.getD (if s = YAML_PLAIN_SCALAR_STYLE then [63] else [33]))) = true := htok
      simp only [yaml_subtree.redump, yaml_subtree.well_formed, htag, haok,
        Option.isSome_some, Bool.true_and, htt]
    · simp only [yaml_subtree.redump, haa, htag, Option.getD_some, hw,
        Option.some_bind, ymx_assembled_ok _ htok]
      by_cases hp : p = 0
      · by_cases hq : q = 0
        · simp [hp, hq]
        · simp [hp, hq]
      · simp [hp]
  | .alias a, h => by
    simp only [yaml_subtree.well_formed] at h
    obtain ⟨h1, h2⟩ := (host_string_ok_iff a).mp h
    refine ⟨?_, ?_, ?_⟩
    · simp [yaml_subtree.dumpable, h1]
    · simp only [yaml_subtree.redump, yaml_subtree.well_formed, c_str_of_buffer_eq_self a h2, h]
    · simp only [yaml_subtree.redump, c_str_of_buffer_idem]
  | .sequence a t i s items, h => by
    simp only [yaml_subtree.well_formed, Bool.and_eq_true] at h
    obtain ⟨⟨ha, ht⟩, hitems⟩ := h
    obtain ⟨htag, htok⟩ := ymx_assembled_tag t [63] rfl ht
    obtain ⟨haok, haa⟩ := ymx_assembled_anchor a ha
    have ih : ∀ c ∈ items, c.dumpable = true ∧ c.redump.well_formed = true
        ∧ c.redump.redump = c.redump := fun c hc =>
      yaml_subtree.redump_stable c ((yaml_subtree.well_formed_items_iff items).mp hitems c hc)
    refine ⟨?_, ?_, ?_⟩
    · simp only [yaml_subtree.dumpable]
      exact (yaml_subtree.dumpable_items_iff items).mpr (fun c hc => (ih c hc).1)
    · have htt : yaml_tag_ok (some (t.getD [63])) = true := htok
      simp only [yaml_subtree.redump, yaml_subtree.well_formed, htag, haok,
        Bool.true_and, htt, yaml_subtree.redump_items_eq]
      apply (yaml_subtree.well_formed_items_iff _).mpr
      intro c hc
      obtain ⟨c0, hc0, rfl⟩ := List.mem_map.mp hc
      exact (ih c0 hc0).2.1
    · simp only [yaml_subtree.redump, haa, htag, Option.getD_some,
        ymx_assembled_ok _ htok, yaml_subtree.redump_items_eq, List.map_map,
        yaml_subtree.sequence.injEq, true_and]
      exact List.map_congr_left (fun c hc => (ih c hc).2.2)
  | .mapping a t i s pairs, h => by
    simp only [yaml_subtree.well_formed, Bool.and_eq_true] at h
    obtain ⟨⟨ha, ht⟩, hpairs⟩ := h
    obtain ⟨htag, htok⟩ := ymx_assembled_tag t [63] rfl ht
    obtain ⟨haok, haa⟩ := ymx_assembled_anchor a ha
    have ih : ∀ p ∈ pairs, (p.1.dumpable = true ∧ p.1.redump.well_formed = true
          ∧ p.1.redump.redump = p.1.redump)
        ∧ (p.2.dumpable = true ∧ p.2.redump.well_formed = true
          ∧ p.2.redump.redump = p.2.redump) := fun p hp =>
      ⟨yaml_subtree.redump_stable p.1
          ((yaml_subtree.well_formed_pairs_iff pairs).mp hpairs p hp).1,
        yaml_subtree.redump_stable p.2
          ((yaml_subtree.well_formed_pairs_iff pairs).mp hpairs p hp).2⟩
    refine ⟨?_, ?_, ?_⟩
    · simp only [yaml_subtree.dumpable]
      exact (yaml_subtree.dumpable_pairs_iff pairs).mpr
        (fun p hp => ⟨(ih p hp).1.1, (ih p hp).2.1⟩)
    · have htt : yaml_tag_ok (some (t.getD [63])) = true := htok
      simp only [yaml_subtree.redump, yaml_subtree.well_formed, htag, haok,
        Bool.true_and, htt, yaml_subtree.redump_pairs_eq]
      apply (yaml_subtree.well_formed_pairs_iff _).mpr
      intro p hp
      obtain ⟨p0, hp0, rfl⟩ := List.mem_map.mp hp
      exact ⟨(ih p0 hp0).1.2.1, (ih p0 hp0).2.2.1⟩
    · simp only [yaml_subtree.redump, haa, htag, Option.getD_some,
        ymx_assembled_ok _ htok, yaml_subtree.redump_pairs_eq, List.map_map,
        yaml_subtree.mapping.injEq, true_and]
      exact List.map_congr_left (fun p hp => by
        simp only [Function.comp, (ih p hp).1.2.2, (ih p hp).2.2.2])
termination_by t => sizeOf t
decreasing_by
  all_goals simp_wf
  · have := List.sizeOf_lt_of_mem hc
    omega
  · have h1 := List.sizeOf_lt_of_mem hp
    have h2 : sizeOf p.1 < sizeOf p := by
      obtain ⟨k, v⟩ := p
      simp; omega
    omega
  · have h1 := List.sizeOf_lt_of_mem hp
    have h2 : sizeOf p.2 < sizeOf p := by
      obtain ⟨k, v⟩ := p
      simp
    omega

/-- The same for documents. -/
theorem yaml_document.redump_document_stable (d : yaml_document) (h : d.well_formed = true) :
    d.dumpable = true ∧ d.redump.well_formed = true ∧ d.redump.redump = d.redump := by
  simp only [yaml_document.well_formed, Bool.and_eq_true] at h
  obtain ⟨hroot, htds⟩ := h
  obtain ⟨h1, h2, h3⟩ := yaml_subtree.redump_stable d.root hroot
  have hall : ∀ td ∈ d.tag_directives,
      (td.handle.length ≠ 0 ∧ td.handle.contains 0 = false)
      ∧ (td.pfx.length ≠ 0 ∧ td.pfx.contains 0 = false) := by
    intro td htd
    have := List.all_eq_true.mp htds td htd
    simp only [Bool.and_eq_true] at this
    exact ⟨(host_string_ok_iff _).mp this.1, (host_string_ok_iff _).mp this.2⟩
  have hmap : d.tag_directives.map
      (fun td => ({ handle := c_str_of_buffer td.handle, pfx := c_str_of_buffer td.pfx }
        : yaml_tag_directive_t)) = d.tag_directives := by
    conv_rhs => rw [← List.map_id d.tag_directives]
    apply List.map_congr_left
    intro td htd
    obtain ⟨⟨_, e1⟩, ⟨_, e2⟩⟩ := hall td htd
    simp [c_str_of_buffer_eq_self _ e1, c_str_of_buffer_eq_self _ e2]
  refine ⟨?_, ?_, ?_⟩
  · simp only [yaml_document.dumpable, h1, Bool.true_and]
    apply List.all_eq_true.mpr
    intro td htd
    obtain ⟨⟨e1, _⟩, ⟨e2, _⟩⟩ := hall td htd
    simp [e1, e2]
  · simp only [yaml_document.redump, yaml_document.well_formed, h2, Bool.true_and, hmap]
    exact htds
  · simp only [yaml_document.redump, h3, hmap]
    by_cases hs : d.start_implicit = 0
    · by_cases he : d.end_implicit = 0
      · simp [hs, he]
      · simp [hs, he]
    · by_cases he : d.end_implicit = 0
      · simp [hs, he]
      · simp [hs, he]

theorem c_str_of_buffer_append_zero_any (buf : List Nat) :
    c_str_of_buffer (buf ++ [0]) = c_str_of_buffer buf := by
  unfold c_str_of_buffer
  induction buf with
  | nil => rfl
  | cons a s ih =>
    by_cases ha : a = 0
    · subst ha; rfl
    · have ha2 : (a != 0) = true := by simpa using ha
      simp only [List.cons_append, List.takeWhile_cons, ha2, if_true, ih]

theorem c_str_of_buffer_before_zero (pre post : List Nat) (h : pre.contains 0 = false) :
    c_str_of_buffer (pre ++ 0 :: post) = pre := by
  unfold c_str_of_buffer
  induction pre with
  | nil => rfl
  | cons a s ih =>
    simp only [List.contains_cons, Bool.or_eq_false_iff, beq_eq_false_iff_ne, ne_eq] at h
    have ha : (a != 0) = true := by
      simp only [bne_iff_ne, ne_eq]
      exact fun h0 => h.1 h0.symm
    simp only [List.cons_append, List.takeWhile_cons, ha, if_true, List.cons.injEq, true_and]
    exact ih h.2

/-- C21. Scalar value copy: on a scalar event with the value bytes `v` and the
length `n`, the loader returns a node whose value is the string of the first `n`
bytes of `v` read as a C string: these `n` bytes when none of them is a zero
byte, else the bytes before the first zero byte among them.  For the length 0
the value is the empty string, a value that is present. -/
theorem C21_scalar_value_copy (fuel : Nat) (node : ymx_node_t) (parser : yaml_parser_t)
    (anchor tag : Option c_string) (v : List Nat) (n : Nat) (p q s : Int) :
    ∃ node' : ymx_node_t,
      ymx_load_node (fuel + 1) node parser (.scalar anchor tag (some v) n p q s)
        = .ok (node', parser)
      ∧ node'.value = some (mxCreateString (c_str_of_buffer (v.take n)))
      ∧ ((v.take n).contains 0 = false → node'.value = some (mxCreateString (v.take n)))
      ∧ (∀ pre post : List Nat, v.take n = pre ++ 0 :: post → pre.contains 0 = false →
          node'.value = some (mxCreateString pre)
          ∧ ∃ post', v = pre ++ 0 :: post')
      ∧ (n = 0 → node'.value = some (mxCreateString []) ∧ node'.value ≠ none) := by
  refine ⟨_, ymx_load_node_scalar fuel node parser anchor tag (some v) n p q s, ?_, ?_, ?_, ?_⟩
  · simp only [c_str_of_buffer_append_zero_any]
  · intro h
    simp only [c_str_of_buffer_append_zero_any, c_str_of_buffer_eq_self _ h]
  · intro pre post hv hpre
    refine ⟨?_, ?_⟩
    · simp only [c_str_of_buffer_append_zero_any, hv, c_str_of_buffer_before_zero pre post hpre]
    · refine ⟨post ++ v.drop n, ?_⟩
      have := List.take_append_drop n v
      rw [hv] at this
      rw [← List.cons_append, ← List.append_assoc]
      exact this.symm
  · intro hn
    subst hn
    exact ⟨rfl, by simp⟩
/-! ## The output buffer -/

theorem size_t_to_int_small (n : Nat) (h : n < 2 ^ 31) : size_t_to_int n = (n : Int) := by
  have h1 : n % 2 ^ 32 = n := Nat.mod_eq_of_lt (by omega)
  simp only [size_t_to_int, h1]
  rw [if_pos h]

theorem int_to_size_t_nat (n : Nat) (h : n < SIZE_T_RANGE) : int_to_size_t (n : Int) = n := by
  unfold int_to_size_t
  have : ((n : Int) % (SIZE_T_RANGE : Int)) = ((n % SIZE_T_RANGE : Nat) : Int) := by
    simp
  rw [this, Nat.mod_eq_of_lt h]
  simp

/-- An append that finds room: no reallocation, the bytes are copied when
they fit the block at `head`. -/
theorem ymx_buffer_append_room (buffer : ymx_buffer_t) (input : List Nat)
    (h : input.length
      ≤ (buffer.total_size + SIZE_T_RANGE - buffer.used_size) % SIZE_T_RANGE) :
    ymx_buffer_append buffer input
      = if buffer.used_size + input.length ≤ buffer.head_size then
          some { buffer with
            head := buffer.head ++ input,
            used_size := (buffer.used_size + input.length) % SIZE_T_RANGE }
        else none := by
  unfold ymx_buffer_append
  simp only [not_lt.mpr h, if_false]

/-- An append that finds no room, in a buffer whose `used_size` is within
`total_size`: the block is reallocated for `total_size` and the chunks added and
the tail, the bytes are copied, and `total_size` stays as it was. -/
theorem ymx_buffer_append_grow (buffer : ymx_buffer_t) (input : List Nat)
    (hused : buffer.used_size ≤ buffer.total_size)
    (hchunk : 0 < buffer.chunk_size)
    (hsize : input.length > buffer.total_size - buffer.used_size)
    (hint : 1 + (input.length - (buffer.total_size - buffer.used_size)) / buffer.chunk_size
      < 2 ^ 31)
    (hcap : buffer.total_size + buffer.chunk_size + input.length + YMX_BUFFER_TAIL_SIZE
      < SIZE_T_RANGE) :
    ymx_buffer_append buffer input
      = some { buffer with
          head_size := buffer.total_size
            + buffer.chunk_size
              * (1 + (input.length - (buffer.total_size - buffer.used_size))
                / buffer.chunk_size)
            + YMX_BUFFER_TAIL_SIZE,
          head := buffer.head ++ input,
          used_size := buffer.used_size + input.length }
    ∧ buffer.used_size + input.length
        ≤ buffer.total_size + buffer.chunk_size
          * (1 + (input.length - (buffer.total_size - buffer.used_size)) / buffer.chunk_size)
    ∧ buffer.total_size + buffer.chunk_size
          * (1 + (input.length - (buffer.total_size - buffer.used_size)) / buffer.chunk_size)
        ≤ buffer.used_size + input.length + buffer.chunk_size := by
  have hR : SIZE_T_RANGE = 2 ^ 64 := rfl
  have hT : YMX_BUFFER_TAIL_SIZE = 1 := rfl
  rw [hR, hT] at hcap
  have hspace : (buffer.total_size + SIZE_T_RANGE - buffer.used_size) % SIZE_T_RANGE
      = buffer.total_size - buffer.used_size := by
    rw [hR]
    have : buffer.total_size + 2 ^ 64 - buffer.used_size
        = (buffer.total_size - buffer.used_size) + 2 ^ 64 := by omega
    rw [this, Nat.add_mod_right]
    exact Nat.mod_eq_of_lt (by omega)
  have hmul := Nat.mul_div_le (input.length - (buffer.total_size - buffer.used_size))
    buffer.chunk_size
  have hlt := Nat.lt_div_mul_add (a := input.length - (buffer.total_size - buffer.used_size))
    hchunk
  have hexp : buffer.chunk_size
        * (1 + (input.length - (buffer.total_size - buffer.used_size)) / buffer.chunk_size)
      = buffer.chunk_size + buffer.chunk_size
        * ((input.length - (buffer.total_size - buffer.used_size)) / buffer.chunk_size) := by
    rw [Nat.mul_add, Nat.mul_one]
  rw [Nat.mul_comm] at hlt
  refine ⟨?_, by omega, by omega⟩
  unfold ymx_buffer_append
  simp only [hspace, hsize, if_true, Nat.pos_iff_ne_zero.mp hchunk, if_false]
  have h1 : (1 + (input.length - (buffer.total_size - buffer.used_size)) / buffer.chunk_size)
      % SIZE_T_RANGE
      = 1 + (input.length - (buffer.total_size - buffer.used_size)) / buffer.chunk_size :=
    Nat.mod_eq_of_lt (by rw [hR]; omega)
  rw [h1, size_t_to_int_small _ hint, int_to_size_t_nat _ (by rw [hR]; omega)]
  have h2 : (buffer.chunk_size
        * (1 + (input.length - (buffer.total_size - buffer.used_size)) / buffer.chunk_size))
      % SIZE_T_RANGE
      = buffer.chunk_size
        * (1 + (input.length - (buffer.total_size - buffer.used_size)) / buffer.chunk_size) :=
    Nat.mod_eq_of_lt (by rw [hR]; omega)
  rw [h2]
  have h3 : (buffer.total_size + buffer.chunk_size
        * (1 + (input.length - (buffer.total_size - buffer.used_size)) / buffer.chunk_size)
        + YMX_BUFFER_TAIL_SIZE) % SIZE_T_RANGE
      = buffer.total_size + buffer.chunk_size
        * (1 + (input.length - (buffer.total_size - buffer.used_size)) / buffer.chunk_size)
        + YMX_BUFFER_TAIL_SIZE :=
    Nat.mod_eq_of_lt (by rw [hR, hT]; omega)
  rw [h3]
  have h4 : (buffer.used_size + input.length) % SIZE_T_RANGE
      = buffer.used_size + input.length := Nat.mod_eq_of_lt (by rw [hR]; omega)
  simp only [h4]
  rw [if_pos (by rw [hT]; omega)]
/-- The blocks handed to the write handler of a buffer that has room for all
of them: they are copied one after the other. -/
theorem ymx_write_blocks_room (blocks : List (List Nat)) :
    ∀ buffer : ymx_buffer_t,
      buffer.used_size + blocks.flatten.length ≤ buffer.total_size →
      buffer.total_size < buffer.head_size →
      buffer.total_size < SIZE_T_RANGE →
      ymx_write_blocks buffer blocks
        = some { buffer with
            head := buffer.head ++ blocks.flatten,
            used_size := buffer.used_size + blocks.flatten.length } := by
  induction blocks with
  | nil => intro buffer _ _ _; simp [ymx_write_blocks]
  | cons b bs ih =>
    intro buffer h1 h2 h3
    simp only [List.flatten_cons, List.length_append] at h1
    have hR : SIZE_T_RANGE = 2 ^ 64 := rfl
    rw [hR] at h3
    have hspace : (buffer.total_size + SIZE_T_RANGE - buffer.used_size) % SIZE_T_RANGE
        = buffer.total_size - buffer.used_size := by
      rw [hR]
      have : buffer.total_size + 2 ^ 64 - buffer.used_size
          = (buffer.total_size - buffer.used_size) + 2 ^ 64 := by omega
      rw [this, Nat.add_mod_right]
      exact Nat.mod_eq_of_lt (by omega)
    have happ := ymx_buffer_append_room buffer b (by rw [hspace]; omega)
    rw [if_pos (by omega), Nat.mod_eq_of_lt (by rw [hR]; omega)] at happ
    simp only [ymx_write_blocks, ymx_buffer_write_handler, happ]
    rw [ih _ (by simp only []; omega) (by simpa using h2) (by simpa [hR] using h3)]
    simp [Nat.add_assoc]

/-- C30. Buffer growth is sufficient: in a buffer with `used_size` within
`total_size` and a chunk size that is not 0, an append that finds no room
reallocates the block for `total_size` and `chunks = 1 + (size - (total_size -
used_size)) / chunk_size` chunks (and the tail byte); that capacity is at least
`used_size + size` and at most `chunk_size` more, and the bytes are copied.
Here the chunk count is below 2^31, as the `int` that holds it requires, and
the sizes are below 2^64. -/
theorem C30_buffer_growth_sufficient (buffer : ymx_buffer_t) (input : List Nat)
    (hused : buffer.used_size ≤ buffer.total_size)
    (hchunk : 0 < buffer.chunk_size)
    (hsize : input.length > buffer.total_size - buffer.used_size)
    (hint : 1 + (input.length - (buffer.total_size - buffer.used_size)) / buffer.chunk_size
      < 2 ^ 31)
    (hcap : buffer.total_size + buffer.chunk_size + input.length + YMX_BUFFER_TAIL_SIZE
      < SIZE_T_RANGE) :
    ∃ (chunks : Nat) (grown : ymx_buffer_t),
      chunks = 1 + (input.length - (buffer.total_size - buffer.used_size)) / buffer.chunk_size
      ∧ ymx_buffer_append buffer input = some grown
      ∧ grown.head_size
          = buffer.total_size + buffer.chunk_size * chunks + YMX_BUFFER_TAIL_SIZE
      ∧ buffer.used_size + input.length ≤ buffer.total_size + buffer.chunk_size * chunks
      ∧ buffer.total_size + buffer.chunk_size * chunks
          ≤ buffer.used_size + input.length + buffer.chunk_size
      ∧ grown.head = buffer.head ++ input
      ∧ grown.used_size = buffer.used_size + input.length := by
  obtain ⟨h1, h2, h3⟩ := ymx_buffer_append_grow buffer input hused hchunk hsize hint hcap
  exact ⟨_, _, rfl, h1, rfl, h2, h3, rfl, rfl⟩

/-- The premises of `C30_buffer_growth_sufficient` hold for the append of 1500
bytes to the buffer as `ymx_buffer_init` leaves it: one chunk is added, and the
capacity 2048 is at least 1500 and at most 1500 + 1024. -/
theorem C30_buffer_growth_sufficient_witness :
    (ymx_buffer_init YMX_BUFFER_CHUNK_SIZE).used_size
        ≤ (ymx_buffer_init YMX_BUFFER_CHUNK_SIZE).total_size
    ∧ 0 < (ymx_buffer_init YMX_BUFFER_CHUNK_SIZE).chunk_size
    ∧ (List.replicate 1500 97).length
        > (ymx_buffer_init YMX_BUFFER_CHUNK_SIZE).total_size
          - (ymx_buffer_init YMX_BUFFER_CHUNK_SIZE).used_size
    ∧ ∃ (chunks : Nat) (grown : ymx_buffer_t),
      chunks = 1 + ((List.replicate 1500 97).length
          - ((ymx_buffer_init YMX_BUFFER_CHUNK_SIZE).total_size
            - (ymx_buffer_init YMX_BUFFER_CHUNK_SIZE).used_size))
        / (ymx_buffer_init YMX_BUFFER_CHUNK_SIZE).chunk_size
      ∧ ymx_buffer_append (ymx_buffer_init YMX_BUFFER_CHUNK_SIZE) (List.replicate 1500 97)
          = some grown
      ∧ grown.head_size
          = (ymx_buffer_init YMX_BUFFER_CHUNK_SIZE).total_size
            + (ymx_buffer_init YMX_BUFFER_CHUNK_SIZE).chunk_size * chunks
            + YMX_BUFFER_TAIL_SIZE
      ∧ (ymx_buffer_init YMX_BUFFER_CHUNK_SIZE).used_size + (List.replicate 1500 97).length
          ≤ (ymx_buffer_init YMX_BUFFER_CHUNK_SIZE).total_size
            + (ymx_buffer_init YMX_BUFFER_CHUNK_SIZE).chunk_size * chunks
      ∧ (ymx_buffer_init YMX_BUFFER_CHUNK_SIZE).total_size
            + (ymx_buffer_init YMX_BUFFER_CHUNK_SIZE).chunk_size * chunks
          ≤ (ymx_buffer_init YMX_BUFFER_CHUNK_SIZE).used_size
            + (List.replicate 1500 97).length
            + (ymx_buffer_init YMX_BUFFER_CHUNK_SIZE).chunk_size
      ∧ grown.head = (ymx_buffer_init YMX_BUFFER_CHUNK_SIZE).head ++ List.replicate 1500 97
      ∧ grown.used_size
          = (ymx_buffer_init YMX_BUFFER_CHUNK_SIZE).used_size
            + (List.replicate 1500 97).length :=
  ⟨by decide, by decide,
    by rw [List.length_replicate]; decide,
    C30_buffer_growth_sufficient (ymx_buffer_init YMX_BUFFER_CHUNK_SIZE)
      (List.replicate 1500 97) (by decide) (by decide)
      (by rw [List.length_replicate]; decide)
      (by rw [List.length_replicate]; decide)
      (by rw [List.length_replicate]; decide)⟩
/-- The append of 1500 bytes to the buffer as `ymx_buffer_init` leaves it. -/
theorem ymx_buffer_append_first (c : Nat) :
    ymx_buffer_append (ymx_buffer_init YMX_BUFFER_CHUNK_SIZE) (List.replicate 1500 c)
      = some { chunk_size := 1024, total_size := 1024, used_size := 1500, head_size := 2049,
               head := List.replicate 1500 c } := by
  have h := (ymx_buffer_append_grow (ymx_buffer_init YMX_BUFFER_CHUNK_SIZE)
    (List.replicate 1500 c) (by decide) (by decide)
    (by rw [List.length_replicate]; decide)
    (by rw [List.length_replicate]; decide)
    (by rw [List.length_replicate]; decide)).1
  rw [h, List.length_replicate]
  rfl

/-- An append to the buffer that holds 1500 bytes in a block of 2049 bytes,
with `total_size` still 1024: the free space `total_size - used_size` wraps
around, no reallocation is made, and the bytes are copied past the end of the
block as soon as they do not fit it. -/
theorem ymx_buffer_append_second (c : Nat) (input : List Nat) (h1 : input.length < 2 ^ 32)
    (h2 : 549 < input.length) :
    (1024 + SIZE_T_RANGE - 1500) % SIZE_T_RANGE = 18446744073709551140
    ∧ ymx_buffer_append
        { chunk_size := 1024, total_size := 1024, used_size := 1500, head_size := 2049,
          head := List.replicate 1500 c } input = none := by
  have hs : (1024 + SIZE_T_RANGE - 1500) % SIZE_T_RANGE = 18446744073709551140 := by decide
  refine ⟨hs, ?_⟩
  rw [ymx_buffer_append_room _ _ (by simp only []; rw [hs]; omega)]
  simp only []
  rw [if_neg (by omega)]

/-- C22 (the code at a failing input). Two blocks of 1500 bytes handed to the
write handler of the buffer as `ymx_buffer_init` leaves it for the dumper: the
first append reallocates the block to 2049 bytes and leaves `total_size` at
1024; the second append computes the free space 1024 - 1500, which wraps
around, makes no reallocation and copies 1500 bytes at offset 1500 of the block
of 2049 bytes; the run leaves the model there (a write past the end of the
block), and no string of 3000 bytes is exposed. -/
theorem C22_output_accumulation_overflow :
    ymx_buffer_append (ymx_buffer_init YMX_BUFFER_CHUNK_SIZE) (List.replicate 1500 97)
      = some { chunk_size := 1024, total_size := 1024, used_size := 1500, head_size := 2049,
               head := List.replicate 1500 97 }
    ∧ ymx_buffer_append
        { chunk_size := 1024, total_size := 1024, used_size := 1500, head_size := 2049,
          head := List.replicate 1500 97 } (List.replicate 1500 98) = none
    ∧ ymx_write_blocks (ymx_buffer_init YMX_BUFFER_CHUNK_SIZE)
        [List.replicate 1500 97, List.replicate 1500 98] = none
    ∧ (ymx_write_blocks (ymx_buffer_init YMX_BUFFER_CHUNK_SIZE)
          [List.replicate 1500 97, List.replicate 1500 98]).bind ymx_buffer_as_string
        ≠ some (List.replicate 1500 97 ++ List.replicate 1500 98) := by
  have h1 := ymx_buffer_append_first 97
  have h2 := (ymx_buffer_append_second 97 (List.replicate 1500 98)
    (by rw [List.length_replicate]; decide) (by rw [List.length_replicate]; decide)).2
  have h3 : ymx_write_blocks (ymx_buffer_init YMX_BUFFER_CHUNK_SIZE)
      [List.replicate 1500 97, List.replicate 1500 98] = none := by
    simp only [ymx_write_blocks, ymx_buffer_write_handler, h1, h2]
  refine ⟨h1, h2, h3, ?_⟩
  rw [h3, Option.none_bind]
  exact fun h => Option.noConfusion h

/-- C29 (the code at a failing input). After `ymx_buffer_init` and the append
of 1500 bytes, `used_size` is 1500 and `total_size` is still 1024, while the
block allocated holds 2049 bytes: `used_size` exceeds `total_size`,
`total_size` is not the capacity allocated, and the free space
`total_size - used_size` of the next append wraps around to
18446744073709551140; an append of 600 bytes is then made with no reallocation
and copies past the end of the block. -/
theorem C29_buffer_capacity_broken :
    ∃ b : ymx_buffer_t,
      ymx_buffer_append (ymx_buffer_init YMX_BUFFER_CHUNK_SIZE) (List.replicate 1500 97)
        = some b
      ∧ b.used_size = 1500 ∧ b.total_size = 1024 ∧ b.head_size = 2049
      ∧ ¬ (b.used_size ≤ b.total_size)
      ∧ b.total_size + YMX_BUFFER_TAIL_SIZE ≠ b.head_size
      ∧ (b.total_size + SIZE_T_RANGE - b.used_size) % SIZE_T_RANGE = 18446744073709551140
      ∧ ymx_buffer_append b (List.replicate 600 98) = none := by
  refine ⟨_, ymx_buffer_append_first 97, rfl, rfl, rfl, by decide, by decide, by decide, ?_⟩
  exact (ymx_buffer_append_second 97 (List.replicate 600 98)
    (by rw [List.length_replicate]; decide) (by rw [List.length_replicate]; decide)).2
/-! ## The checks of the dumper, one by one -/

/-- A struct array that passes the check of its field names against `strs`
has exactly these field names, in this order. -/
theorem ymx_field_names_eq (d : List Nat) (names : List String)
    (elems : List (List (Option mxArray))) (strs : List String)
    (hlen : names.length = strs.length)
    (h : ymx_field_names_match (.struct d names elems) strs strs.length = true) :
    names = strs := by
  apply List.ext_get?
  intro n
  by_cases hn : n < strs.length
  · have := List.all_eq_true.mp h n (List.mem_range.mpr hn)
    simpa [mxGetFieldNameByNumber] using this
  · rw [List.get?_eq_none.mpr (by omega), List.get?_eq_none.mpr (by omega)]

theorem ymx_is_valid_node_array_iff (node : mxArray) :
    ymx_is_valid_node_array node = true
      ↔ ∃ d elems, node = .struct d YMX_NODE_FIELD_STRS elems := by
  constructor
  · intro h
    cases node with
    | struct d names elems =>
      unfold ymx_is_valid_node_array at h
      simp only [mxIsStruct, Bool.not_true, Bool.false_eq_true, if_false, mxGetNumberOfFields]
        at h
      by_cases hl : names.length = YMX_NODE_NUM_FIELDS
      · simp only [hl, bne_self_eq_false, Bool.false_eq_true, if_false] at h
        exact ⟨d, elems, by rw [ymx_field_names_eq d names elems YMX_NODE_FIELD_STRS hl h]⟩
      · have : (names.length != YMX_NODE_NUM_FIELDS) = true := by simpa using hl
        simp [this] at h
    | char d x => simp [ymx_is_valid_node_array, mxIsStruct] at h
    | int32 d x => simp [ymx_is_valid_node_array, mxIsStruct] at h
    | logical d x => simp [ymx_is_valid_node_array, mxIsStruct] at h
    | other d => simp [ymx_is_valid_node_array, mxIsStruct] at h
  · rintro ⟨d, elems, rfl⟩
    rfl

theorem ymx_is_valid_doc_root_iff (root : Option mxArray) :
    ymx_is_valid_doc_root root = true
      ↔ ∃ r, root = some r ∧ mxGetNumberOfElements r = 1
          ∧ ∃ d elems, r = .struct d YMX_NODE_FIELD_STRS elems := by
  cases root with
  | none => simp [ymx_is_valid_doc_root]
  | some r =>
    simp only [ymx_is_valid_doc_root, Option.some.injEq, exists_eq_left']
    by_cases hn : mxGetNumberOfElements r = 1
    · simp only [hn, bne_self_eq_false, Bool.false_eq_true, if_false, true_and]
      exact ymx_is_valid_node_array_iff r
    · have : (mxGetNumberOfElements r != 1) = true := by simpa using hn
      simp [this, hn]

/-- C25. Root validation: the dump of a document aborts with "Invalid document
root" exactly when the root member is absent, or does not hold exactly one
element, or is no struct array with exactly the six fields type, value, tag,
anchor, implicit, style in this order.  The abort leaves the state as the dump
of the document found it: the check is made before anything is emitted for the
document, its DocumentStart event included; in the dump of a stream the abort
comes with the state reached after the documents before. -/
theorem C25_root_validation (fuel : Nat) (emitter : yaml_emitter_t) (st : ymx_dump_state)
    (docs_array : mxArray) (ind : Nat) :
    ((∃ st', ymx_dump_document fuel emitter st docs_array ind
          = .error "Invalid document root" st')
      ↔ (mxGetFieldByNumber docs_array ind YMX_DOC_FIELD_ROOT = none
        ∨ ∃ r, mxGetFieldByNumber docs_array ind YMX_DOC_FIELD_ROOT = some r
          ∧ (mxGetNumberOfElements r ≠ 1
            ∨ ¬ ∃ d elems, r = .struct d ["type", "value", "tag", "anchor", "implicit", "style"]
                elems)))
    ∧ (∀ st', ymx_dump_document fuel emitter st docs_array ind
          = .error "Invalid document root" st' → st' = st)
    ∧ (ymx_is_valid_doc_root (mxGetFieldByNumber docs_array ind YMX_DOC_FIELD_ROOT) = false →
        ymx_dump_document fuel emitter st docs_array ind = .error "Invalid document root" st)
    ∧ (ymx_is_valid_doc_root (mxGetFieldByNumber docs_array ind YMX_DOC_FIELD_ROOT) = false
        ↔ (mxGetFieldByNumber docs_array ind YMX_DOC_FIELD_ROOT = none
          ∨ ∃ r, mxGetFieldByNumber docs_array ind YMX_DOC_FIELD_ROOT = some r
            ∧ (mxGetNumberOfElements r ≠ 1
              ∨ ¬ ∃ d elems, r = .struct d
                  ["type", "value", "tag", "anchor", "implicit", "style"] elems)))
    ∧ (∀ (k : Nat) (st1 stk : ymx_dump_state),
        ymx_is_valid_doc_array docs_array = true →
        k < mxGetNumberOfElements docs_array →
        ymx_emit emitter ymx_dump_state_init .stream_start = .ok () st1 →
        ymx_dump_for
            (fun st ind => ymx_dump_document (2 * docs_array.depth + 2) emitter st docs_array ind)
            0 k st1 = .ok () stk →
        ymx_is_valid_doc_root (mxGetFieldByNumber docs_array k YMX_DOC_FIELD_ROOT) = false →
        ymx_dump_stream emitter docs_array = .error "Invalid document root" stk) := by
  have hchar : ymx_is_valid_doc_root (mxGetFieldByNumber docs_array ind YMX_DOC_FIELD_ROOT)
        = false
      ↔ (mxGetFieldByNumber docs_array ind YMX_DOC_FIELD_ROOT = none
        ∨ ∃ r, mxGetFieldByNumber docs_array ind YMX_DOC_FIELD_ROOT = some r
          ∧ (mxGetNumberOfElements r ≠ 1
            ∨ ¬ ∃ d elems, r = .struct d
                ["type", "value", "tag", "anchor", "implicit", "style"] elems)) := by
    generalize mxGetFieldByNumber docs_array ind YMX_DOC_FIELD_ROOT = root
    rw [← Bool.not_eq_true, ymx_is_valid_doc_root_iff]
    have hs : YMX_NODE_FIELD_STRS = ["type", "value", "tag", "anchor", "implicit", "style"] :=
      rfl
    rw [hs]
    cases root with
    | none => simp
    | some r =>
      simp only [Option.some.injEq, exists_eq_left', false_or, reduceCtorEq]
      exact not_and_or
  have hfwd : ∀ (fuel : Nat) (st : ymx_dump_state) (ind : Nat),
      ymx_is_valid_doc_root (mxGetFieldByNumber docs_array ind YMX_DOC_FIELD_ROOT) = false →
      ymx_dump_document fuel emitter st docs_array ind = .error "Invalid document root" st := by
    intro fuel st ind h
    rw [ymx_dump_document_steps]
    cases hr : mxGetFieldByNumber docs_array ind YMX_DOC_FIELD_ROOT with
    | none => rfl
    | some r =>
      rw [hr] at h
      simp [h]
  have hback : ∀ st', ymx_dump_document fuel emitter st docs_array ind
        = .error "Invalid document root" st' →
      st' = st
      ∧ ymx_is_valid_doc_root (mxGetFieldByNumber docs_array ind YMX_DOC_FIELD_ROOT)
        = false := by
    intro st' h
    rcases ymx_dump_document_error fuel emitter st st' docs_array ind _ h with
      ⟨_, h2, h3⟩ | ⟨h1, _⟩ | ⟨h1, _⟩ | ⟨h1, _⟩
    · exact ⟨h2, h3⟩
    · exact absurd h1 (by decide)
    · exact absurd h1 (by decide)
    · rcases h1 with h1 | h1
      · exact absurd h1 (by decide)
      · exact absurd h1 (by decide)
  refine ⟨?_, fun st' h => (hback st' h).1, hfwd fuel st ind, hchar, ?_⟩
  · rw [← hchar]
    constructor
    · rintro ⟨st', h⟩
      exact (hback st' h).2
    · intro h
      exact ⟨st, hfwd fuel st ind h⟩
  · intro k st1 stk hvalid hk hstart hbefore hroot
    exact ymx_dump_stream_first_failure emitter docs_array k st1 stk stk _ hvalid hk hstart
      hbefore (hfwd _ stk k hroot)
theorem ymx_is_valid_tagdir_member_iff (member : Option mxArray) :
    ymx_is_valid_tagdir_member member = true
      ↔ ∃ m, member = some m ∧ ymx_is_row_string m = true := by
  cases member with
  | none => simp [ymx_is_valid_tagdir_member]
  | some m =>
    simp only [ymx_is_valid_tagdir_member, Option.some.injEq, exists_eq_left']
    cases m with
    | char d x =>
      simp only [ymx_is_valid_string, ymx_is_row_string, mxIsChar, mxGetNumberOfElements,
        mxGetNumberOfDimensions, mxGetM, mxGetN, mxArray.dims, Bool.not_true,
        Bool.false_eq_true, if_false, Bool.true_and]
      match d with
      | [] => simp
      | [a] => simp
      | [a, b] =>
        by_cases ha : a = 1
        · subst ha
          by_cases hb : b = 0
          · subst hb; simp
          · have : 1 ≤ b := Nat.pos_of_ne_zero hb
            simp [hb, this, Nat.not_lt.mpr this]
        · by_cases hab : a * b = 0
          · simp [hab, ha]
          · simp [hab, ha]
      | a :: b :: c :: l =>
        by_cases hp : a * (b * (c * l.prod)) = 0
        · simp [hp]
        · simp [hp]
    | int32 d x => simp [ymx_is_valid_string, ymx_is_row_string, mxIsChar]
    | logical d x => simp [ymx_is_valid_string, ymx_is_row_string, mxIsChar]
    | struct d n e => simp [ymx_is_valid_string, ymx_is_row_string, mxIsChar]
    | other d => simp [ymx_is_valid_string, ymx_is_row_string, mxIsChar]

theorem ymx_is_valid_tagdirs_array_iff (t : mxArray) :
    ymx_is_valid_tagdirs_array t = true
      ↔ ∃ d elems, t = .struct d YMX_TAGDIR_FIELD_STRS elems
          ∧ ∀ i, i < mxGetNumberOfElements t →
            (∃ h, mxGetFieldByNumber t i YMX_TAGDIR_FIELD_HANDLE = some h
              ∧ ymx_is_row_string h = true)
            ∧ (∃ p, mxGetFieldByNumber t i YMX_TAGDIR_FIELD_PREFIX = some p
              ∧ ymx_is_row_string p = true) := by
  cases t with
  | struct d names elems =>
    simp only [ymx_is_valid_tagdirs_array, mxIsStruct, Bool.not_true, Bool.false_eq_true,
      if_false, mxGetNumberOfFields]
    by_cases hl : names.length = YMX_TAGDIR_NUM_FIELDS
    · simp only [hl, bne_self_eq_false, Bool.false_eq_true, if_false, List.all_eq_true,
        Bool.and_eq_true, List.mem_range, ymx_is_valid_tagdir_member_iff]
      constructor
      · intro h
        have hnames : names = YMX_TAGDIR_FIELD_STRS := by
          apply ymx_field_names_eq d names elems YMX_TAGDIR_FIELD_STRS hl
          apply List.all_eq_true.mpr
          intro k hk
          exact (h k (List.mem_range.mp hk)).1
        refine ⟨d, elems, by rw [hnames], ?_⟩
        intro i hi
        exact ⟨(h 0 (by decide)).2 i hi, (h 1 (by decide)).2 i hi⟩
      · rintro ⟨d', elems', heq, hmem⟩
        simp only [mxArray.struct.injEq] at heq
        obtain ⟨rfl, rfl, rfl⟩ := heq
        intro k hk
        have hk2 : k = 0 ∨ k = 1 := by
          have : YMX_TAGDIR_NUM_FIELDS = 2 := rfl
          omega
        rcases hk2 with rfl | rfl
        · exact ⟨rfl, fun i hi => (hmem i hi).1⟩
        · exact ⟨rfl, fun i hi => (hmem i hi).2⟩
    · have : (names.length != YMX_TAGDIR_NUM_FIELDS) = true := by simpa using hl
      simp only [this, if_true, Bool.false_eq_true, false_iff]
      rintro ⟨d', elems', heq, _⟩
      simp only [mxArray.struct.injEq] at heq
      apply hl
      rw [heq.2.1]
      rfl
  | char d x => simp [ymx_is_valid_tagdirs_array, mxIsStruct]
  | int32 d x => simp [ymx_is_valid_tagdirs_array, mxIsStruct]
  | logical d x => simp [ymx_is_valid_tagdirs_array, mxIsStruct]
  | other d => simp [ymx_is_valid_tagdirs_array, mxIsStruct]

/-- The step "Assemble tag directives" on a member that is present and not
empty. -/
theorem ymx_assemble_tagdirs_present (t : mxArray) (hne : mxIsEmpty t = false) :
    ymx_assemble_tagdirs (some t)
      = if ymx_is_valid_tagdirs_array t = true then
          some ((List.range (mxGetNumberOfElements t)).map (fun tagdir_ind =>
            { handle := ((mxGetFieldByNumber t tagdir_ind YMX_TAGDIR_FIELD_HANDLE).bind
                mxArrayToString).getD [],
              pfx := ((mxGetFieldByNumber t tagdir_ind YMX_TAGDIR_FIELD_PREFIX).bind
                mxArrayToString).getD [] }))
        else none := by
  simp only [ymx_assemble_tagdirs, hne, Bool.not_false, if_true]
  by_cases hv : ymx_is_valid_tagdirs_array t = true
  · simp [hv]
  · simp [hv]
theorem ymx_is_row_string_char (m : mxArray) (h : ymx_is_row_string m = true) :
    ∃ d x, m = .char d x := by
  cases m with
  | char d x => exact ⟨d, x, rfl⟩
  | int32 d x => simp [ymx_is_row_string, mxIsChar] at h
  | logical d x => simp [ymx_is_row_string, mxIsChar] at h
  | struct d n e => simp [ymx_is_row_string, mxIsChar] at h
  | other d => simp [ymx_is_row_string, mxIsChar] at h

/-- `ymx_dump_document` past the check of the root and the assembly of the tag
directives. -/
theorem ymx_dump_document_past_tagdirs (fuel : Nat) (emitter : yaml_emitter_t)
    (st : ymx_dump_state) (docs_array : mxArray) (ind : Nat) (root_arr : mxArray)
    (tds : List yaml_tag_directive_t)
    (hr : mxGetFieldByNumber docs_array ind YMX_DOC_FIELD_ROOT = some root_arr)
    (hroot : ymx_is_valid_doc_root (some root_arr) = true)
    (htds : ymx_assemble_tagdirs (mxGetFieldByNumber docs_array ind YMX_DOC_FIELD_TAGDIRS)
      = some tds) :
    ymx_dump_document fuel emitter st docs_array ind
      = (match ymx_assemble_version
            (mxGetFieldByNumber docs_array ind YMX_DOC_FIELD_VERSION) with
        | none => .error "Invalid document version" st
        | some version_directive =>
          match ymx_emit emitter
              (st.warn
                (ymx_logical_warning
                    (mxGetFieldByNumber docs_array ind YMX_DOC_FIELD_START_IMPLICIT)
                    "Invalid document start implicit specifier"
                  ++ ymx_logical_warning
                    (mxGetFieldByNumber docs_array ind YMX_DOC_FIELD_END_IMPLICIT)
                    "Invalid document end implicit specifier"))
              (.document_start version_directive tds
                (ymx_logical_or_zero
                  (mxGetFieldByNumber docs_array ind YMX_DOC_FIELD_START_IMPLICIT))) with
          | .ok _ st1 =>
            (match ymx_dump_node fuel emitter st1 root_arr 0 with
             | .ok _ st2 => ymx_emit emitter st2 (.document_end (ymx_logical_or_zero
                 (mxGetFieldByNumber docs_array ind YMX_DOC_FIELD_END_IMPLICIT)))
             | r => r)
          | r => r) := by
  rw [ymx_dump_document_steps, hr]
  simp only [hroot, Bool.not_true, Bool.false_eq_true, if_false, htds]

/-- C23 (as amended). Tag-directive validation: for a document whose root
passed its check and whose tag directive member is present and not empty, the
dump of the document aborts with "Invalid document tag directives" exactly when
the member is no struct array with exactly the two fields handle and prefix in
this order, or some handle or some prefix is missing or is no row string (a
char array with one row and at least one column).  The abort comes before
anything is emitted.  When the member passes, the directives assembled are the
(handle, prefix) pairs of the elements in storage order, as C strings, and the
DocumentStart event handed to the emitter carries them. -/
theorem C23_tagdirs_validation (fuel : Nat) (emitter : yaml_emitter_t) (st : ymx_dump_state)
    (docs_array : mxArray) (ind : Nat) (root_arr t : mxArray)
    (hr : mxGetFieldByNumber docs_array ind YMX_DOC_FIELD_ROOT = some root_arr)
    (hroot : ymx_is_valid_doc_root (some root_arr) = true)
    (ht : mxGetFieldByNumber docs_array ind YMX_DOC_FIELD_TAGDIRS = some t)
    (hne : mxIsEmpty t = false) :
    ((∃ st', ymx_dump_document fuel emitter st docs_array ind
          = .error "Invalid document tag directives" st')
      ↔ ¬ ∃ d elems, t = .struct d ["handle", "prefix"] elems
          ∧ ∀ i, i < mxGetNumberOfElements t →
            (∃ h, mxGetFieldByNumber t i 0 = some h ∧ ymx_is_row_string h = true)
            ∧ (∃ p, mxGetFieldByNumber t i 1 = some p ∧ ymx_is_row_string p = true))
    ∧ (∀ st', ymx_dump_document fuel emitter st docs_array ind
          = .error "Invalid document tag directives" st' → st' = st)
    ∧ (ymx_is_valid_tagdirs_array t = true
        ↔ ∃ d elems, t = .struct d ["handle", "prefix"] elems
          ∧ ∀ i, i < mxGetNumberOfElements t →
            (∃ h, mxGetFieldByNumber t i 0 = some h ∧ ymx_is_row_string h = true)
            ∧ (∃ p, mxGetFieldByNumber t i 1 = some p ∧ ymx_is_row_string p = true))
    ∧ (ymx_is_valid_tagdirs_array t = true →
        ∃ tds : List yaml_tag_directive_t,
          ymx_assemble_tagdirs (some t) = some tds
          ∧ tds.length = mxGetNumberOfElements t
          ∧ (∀ i, i < mxGetNumberOfElements t → ∃ hd h pd p,
              mxGetFieldByNumber t i 0 = some (.char hd h)
              ∧ mxGetFieldByNumber t i 1 = some (.char pd p)
              ∧ tds.get? i = some { handle := c_str_of_buffer h, pfx := c_str_of_buffer p })
          ∧ ymx_dump_document fuel emitter st docs_array ind
              = (match ymx_assemble_version
                    (mxGetFieldByNumber docs_array ind YMX_DOC_FIELD_VERSION) with
                | none => .error "Invalid document version" st
                | some version_directive =>
                  match ymx_emit emitter
                      (st.warn
                        (ymx_logical_warning
                            (mxGetFieldByNumber docs_array ind YMX_DOC_FIELD_START_IMPLICIT)
                            "Invalid document start implicit specifier"
                          ++ ymx_logical_warning
                            (mxGetFieldByNumber docs_array ind YMX_DOC_FIELD_END_IMPLICIT)
                            "Invalid document end implicit specifier"))
                      (.document_start version_directive tds
                        (ymx_logical_or_zero
                          (mxGetFieldByNumber docs_array ind YMX_DOC_FIELD_START_IMPLICIT))) with
                  | .ok _ st1 =>
                    (match ymx_dump_node fuel emitter st1 root_arr 0 with
                     | .ok _ st2 => ymx_emit emitter st2 (.document_end (ymx_logical_or_zero
                         (mxGetFieldByNumber docs_array ind YMX_DOC_FIELD_END_IMPLICIT)))
                     | r => r)
                  | r => r)) := by
  have hchar := ymx_is_valid_tagdirs_array_iff t
  have hassemble := ymx_assemble_tagdirs_present t hne
  have hfail : (∃ st', ymx_dump_document fuel emitter st docs_array ind
        = .error "Invalid document tag directives" st')
      ↔ ¬ ymx_is_valid_tagdirs_array t = true := by
    constructor
    · rintro ⟨st', h⟩ hv
      rcases ymx_dump_document_error fuel emitter st st' docs_array ind _ h with
        ⟨h1, _⟩ | ⟨_, _, _, h4⟩ | ⟨h1, _⟩ | ⟨h1, _⟩
      · exact absurd h1 (by decide)
      · rw [ht, hassemble, if_pos hv] at h4
        exact Option.noConfusion h4
      · exact absurd h1 (by decide)
      · rcases h1 with h1 | h1
        · exact absurd h1 (by decide)
        · exact absurd h1 (by decide)
    · intro hv
      refine ⟨st, ?_⟩
      rw [ymx_dump_document_steps, hr]
      simp only [hroot, Bool.not_true, Bool.false_eq_true, if_false, ht, hassemble, hv]
  refine ⟨?_, ?_, hchar, ?_⟩
  · rw [hfail]
    exact not_congr hchar
  · intro st' h
    rcases ymx_dump_document_error fuel emitter st st' docs_array ind _ h with
      ⟨h1, _⟩ | ⟨_, h2, _⟩ | ⟨h1, _⟩ | ⟨h1, _⟩
    · exact absurd h1 (by decide)
    · exact h2
    · exact absurd h1 (by decide)
    · rcases h1 with h1 | h1
      · exact absurd h1 (by decide)
      · exact absurd h1 (by decide)
  · intro hv
    rw [if_pos hv] at hassemble
    obtain ⟨d, elems, _, hmem⟩ := hchar.mp hv
    refine ⟨_, hassemble, by simp, ?_, ?_⟩
    · intro i hi
      obtain ⟨⟨h, hh, hhr⟩, ⟨p, hp, hpr⟩⟩ := hmem i hi
      obtain ⟨hd, hx, rfl⟩ := ymx_is_row_string_char h hhr
      obtain ⟨pd, px, rfl⟩ := ymx_is_row_string_char p hpr
      refine ⟨hd, hx, pd, px, hh, hp, ?_⟩
      have hh' : mxGetFieldByNumber t i YMX_TAGDIR_FIELD_HANDLE = some (.char hd hx) := hh
      have hp' : mxGetFieldByNumber t i YMX_TAGDIR_FIELD_PREFIX = some (.char pd px) := hp
      rw [List.get?_eq_getElem?, List.getElem?_map, List.getElem?_range hi]
      simp [hh', hp', mxArrayToString]
    · exact ymx_dump_document_past_tagdirs fuel emitter st docs_array ind root_arr _ hr hroot
        (by rw [ht]; exact hassemble)
/-- The premises of `C23_tagdirs_validation` hold for the document array of
`ymx_example_canonical_document`, whose tag directive member holds the pair
("!!", "tag:"): the member passes, and the dump does not abort with "Invalid
document tag directives". -/
theorem C23_tagdirs_validation_witness :
    mxGetFieldByNumber (Document.host_array [ymx_example_canonical_document]) 0
        YMX_DOC_FIELD_ROOT
      = some (.struct [1, 1] YMX_NODE_FIELD_STRS
          [ymx_example_canonical_document.root.host.fields])
    ∧ ymx_is_valid_doc_root (some (.struct [1, 1] YMX_NODE_FIELD_STRS
          [ymx_example_canonical_document.root.host.fields])) = true
    ∧ mxGetFieldByNumber (Document.host_array [ymx_example_canonical_document]) 0
        YMX_DOC_FIELD_TAGDIRS
      = some (.struct [1, 1] YMX_TAGDIR_FIELD_STRS
          [[some (mxCreateString [33, 33]), some (mxCreateString [116, 97, 103, 58])]])
    ∧ mxIsEmpty (.struct [1, 1] YMX_TAGDIR_FIELD_STRS
          [[some (mxCreateString [33, 33]), some (mxCreateString [116, 97, 103, 58])]]) = false
    ∧ (ymx_is_valid_tagdirs_array (.struct [1, 1] YMX_TAGDIR_FIELD_STRS
          [[some (mxCreateString [33, 33]), some (mxCreateString [116, 97, 103, 58])]]) = true
        ↔ ∃ d elems, mxArray.struct [1, 1] YMX_TAGDIR_FIELD_STRS
              [[some (mxCreateString [33, 33]), some (mxCreateString [116, 97, 103, 58])]]
            = .struct d ["handle", "prefix"] elems
          ∧ ∀ i, i < mxGetNumberOfElements (.struct [1, 1] YMX_TAGDIR_FIELD_STRS
              [[some (mxCreateString [33, 33]), some (mxCreateString [116, 97, 103, 58])]]) →
            (∃ h, mxGetFieldByNumber (.struct [1, 1] YMX_TAGDIR_FIELD_STRS
                [[some (mxCreateString [33, 33]), some (mxCreateString [116, 97, 103, 58])]])
                i 0 = some h ∧ ymx_is_row_string h = true)
            ∧ (∃ p, mxGetFieldByNumber (.struct [1, 1] YMX_TAGDIR_FIELD_STRS
                [[some (mxCreateString [33, 33]), some (mxCreateString [116, 97, 103, 58])]])
                i 1 = some p ∧ ymx_is_row_string p = true)) :=
  ⟨by decide, by decide, by decide, by decide,
    (C23_tagdirs_validation 8 yaml_emitter_accept_all ymx_dump_state_init
      (Document.host_array [ymx_example_canonical_document]) 0
      (.struct [1, 1] YMX_NODE_FIELD_STRS [ymx_example_canonical_document.root.host.fields])
      (.struct [1, 1] YMX_TAGDIR_FIELD_STRS
        [[some (mxCreateString [33, 33]), some (mxCreateString [116, 97, 103, 58])]])
      (by decide) (by decide) (by decide) (by decide)).2.2.1⟩

/-- C23 (counterexample to the claim as stated). A document whose tag
directive member is present, not empty and no struct array (the int32 scalar 0),
and whose root is absent: its dump aborts with "Invalid document root", the
check made first, and not with "Invalid document tag directives". -/
theorem C23_tagdirs_validation_counterexample :
    mxGetFieldByNumber ymx_example_rootless_document 0 YMX_DOC_FIELD_TAGDIRS
      = some (ymx_create_int_scalar 0)
    ∧ mxIsEmpty (ymx_create_int_scalar 0) = false
    ∧ mxIsStruct (ymx_create_int_scalar 0) = false
    ∧ ymx_is_valid_tagdirs_array (ymx_create_int_scalar 0) = false
    ∧ ymx_dump_document 2 yaml_emitter_accept_all ymx_dump_state_init
        ymx_example_rootless_document 0
      = .error "Invalid document root" ymx_dump_state_init
    ∧ ymx_dump_stream yaml_emitter_accept_all ymx_example_rootless_document
      = .error "Invalid document root"
          { ymx_dump_state_init with emitted := [.stream_start] } :=
  ⟨by decide, by decide, by decide, by decide, by decide, by decide⟩

theorem ymx_is_valid_version_array_iff (v : mxArray) :
    ymx_is_valid_version_array v = true
      ↔ (mxIsInt32 v = true ∧ mxGetNumberOfElements v = 2) := by
  unfold ymx_is_valid_version_array
  by_cases hn : mxGetNumberOfElements v = 2
  · by_cases hi : mxIsInt32 v = true
    · simp [hn, hi]
    · simp [hn, hi]
  · have : (mxGetNumberOfElements v != 2) = true := by simpa using hn
    simp [this, hn]

/-- C24 (as amended). Version validation: `ymx_is_valid_version_array` accepts
exactly the int32 arrays with 2 elements.  For a document whose root and tag
directives passed their checks and whose version member is present and not
empty, the dump of the document aborts with "Invalid document version" exactly
when the member is no int32 array with 2 elements, and before anything is
emitted; otherwise the DocumentStart event handed to the emitter carries the
version directive with element 0 as major and element 1 as minor.  For an absent
or empty version member the event carries no version directive and the dump does
not abort with that message. -/
theorem C24_version_validation (fuel : Nat) (emitter : yaml_emitter_t) (st : ymx_dump_state)
    (docs_array : mxArray) (ind : Nat) (root_arr : mxArray) (tds : List yaml_tag_directive_t)
    (hr : mxGetFieldByNumber docs_array ind YMX_DOC_FIELD_ROOT = some root_arr)
    (hroot : ymx_is_valid_doc_root (some root_arr) = true)
    (htds : ymx_assemble_tagdirs (mxGetFieldByNumber docs_array ind YMX_DOC_FIELD_TAGDIRS)
      = some tds) :
    (∀ v : mxArray, ymx_is_valid_version_array v = true
        ↔ (mxIsInt32 v = true ∧ mxGetNumberOfElements v = 2))
    ∧ (∀ v : mxArray, mxGetFieldByNumber docs_array ind YMX_DOC_FIELD_VERSION = some v →
        mxIsEmpty v = false →
        ((∃ st', ymx_dump_document fuel emitter st docs_array ind
              = .error "Invalid document version" st')
          ↔ ¬ (mxIsInt32 v = true ∧ mxGetNumberOfElements v = 2))
        ∧ (mxIsInt32 v = true ∧ mxGetNumberOfElements v = 2 →
            ymx_dump_document fuel emitter st docs_array ind
              = (match ymx_emit emitter
                    (st.warn
                      (ymx_logical_warning
                          (mxGetFieldByNumber docs_array ind YMX_DOC_FIELD_START_IMPLICIT)
                          "Invalid document start implicit specifier"
                        ++ ymx_logical_warning
                          (mxGetFieldByNumber docs_array ind YMX_DOC_FIELD_END_IMPLICIT)
                          "Invalid document end implicit specifier"))
                    (.document_start
                      (some { major := (mxGetInt32Data v).getD 0 0,
                              minor := (mxGetInt32Data v).getD 1 0 })
                      tds
                      (ymx_logical_or_zero
                        (mxGetFieldByNumber docs_array ind YMX_DOC_FIELD_START_IMPLICIT))) with
                | .ok _ st1 =>
                  (match ymx_dump_node fuel emitter st1 root_arr 0 with
                   | .ok _ st2 => ymx_emit emitter st2 (.document_end (ymx_logical_or_zero
                       (mxGetFieldByNumber docs_array ind YMX_DOC_FIELD_END_IMPLICIT)))
                   | r => r)
                | r => r)))
    ∧ ((mxGetFieldByNumber docs_array ind YMX_DOC_FIELD_VERSION = none
          ∨ ∃ v, mxGetFieldByNumber docs_array ind YMX_DOC_FIELD_VERSION = some v
            ∧ mxIsEmpty v = true) →
        (∀ st', ymx_dump_document fuel emitter st docs_array ind
            ≠ .error "Invalid document version" st')
        ∧ ymx_dump_document fuel emitter st docs_array ind
            = (match ymx_emit emitter
                  (st.warn
                    (ymx_logical_warning
                        (mxGetFieldByNumber docs_array ind YMX_DOC_FIELD_START_IMPLICIT)
                        "Invalid document start implicit specifier"
                      ++ ymx_logical_warning
                        (mxGetFieldByNumber docs_array ind YMX_DOC_FIELD_END_IMPLICIT)
                        "Invalid document end implicit specifier"))
                  (.document_start none tds
                    (ymx_logical_or_zero
                      (mxGetFieldByNumber docs_array ind YMX_DOC_FIELD_START_IMPLICIT))) with
              | .ok _ st1 =>
                (match ymx_dump_node fuel emitter st1 root_arr 0 with
                 | .ok _ st2 => ymx_emit emitter st2 (.document_end (ymx_logical_or_zero
                     (mxGetFieldByNumber docs_array ind YMX_DOC_FIELD_END_IMPLICIT)))
                 | r => r)
              | r => r))
    ∧ (∀ st', ymx_dump_document fuel emitter st docs_array ind
          = .error "Invalid document version" st' → st' = st) := by
  have hpast := ymx_dump_document_past_tagdirs fuel emitter st docs_array ind root_arr tds
    hr hroot htds
  have hback : ∀ st', ymx_dump_document fuel emitter st docs_array ind
        = .error "Invalid document version" st' →
      st' = st
      ∧ ymx_assemble_version (mxGetFieldByNumber docs_array ind YMX_DOC_FIELD_VERSION)
        = none := by
    intro st' h
    rcases ymx_dump_document_error fuel emitter st st' docs_array ind _ h with
      ⟨h1, _⟩ | ⟨h1, _⟩ | ⟨_, h2, _, _, h5⟩ | ⟨h1, _⟩
    · exact absurd h1 (by decide)
    · exact absurd h1 (by decide)
    · exact ⟨h2, h5⟩
    · rcases h1 with h1 | h1
      · exact absurd h1 (by decide)
      · exact absurd h1 (by decide)
  refine ⟨ymx_is_valid_version_array_iff, ?_, ?_, fun st' h => (hback st' h).1⟩
  · intro v hv hne
    have hass : ymx_assemble_version (some v)
        = if ymx_is_valid_version_array v = true then
            some (some { major := (mxGetInt32Data v).getD 0 0,
                         minor := (mxGetInt32Data v).getD 1 0 })
          else none := by
      simp only [ymx_assemble_version, hne, Bool.not_false, if_true]
      by_cases hvv : ymx_is_valid_version_array v = true
      · simp [hvv]
      · simp [hvv]
    rw [← ymx_is_valid_version_array_iff]
    refine ⟨⟨?_, ?_⟩, ?_⟩
    · rintro ⟨st', h⟩ hvv
      have := (hback st' h).2
      rw [hv, hass, if_pos hvv] at this
      exact Option.noConfusion this
    · intro hvv
      refine ⟨st, ?_⟩
      rw [hpast, hv, hass, if_neg hvv]
    · intro hvv
      rw [hpast, hv, hass, if_pos hvv]
  · intro habs
    have hass : ymx_assemble_version
        (mxGetFieldByNumber docs_array ind YMX_DOC_FIELD_VERSION) = some none := by
      rcases habs with h | ⟨v, h, hemp⟩
      · rw [h]; rfl
      · rw [h]
        simp [ymx_assemble_version, hemp]
    refine ⟨?_, ?_⟩
    · intro st' h
      have := (hback st' h).2
      rw [hass] at this
      exact Option.noConfusion this
    · rw [hpast, hass]
/-- The premises of `C24_version_validation` hold for the document array of
`ymx_example_canonical_document`, whose version member is the int32 array
(1, 1): the dump does not abort with "Invalid document version". -/
theorem C24_version_validation_witness :
    mxGetFieldByNumber (Document.host_array [ymx_example_canonical_document]) 0
        YMX_DOC_FIELD_ROOT
      = some (.struct [1, 1] YMX_NODE_FIELD_STRS
          [ymx_example_canonical_document.root.host.fields])
    ∧ ymx_is_valid_doc_root (some (.struct [1, 1] YMX_NODE_FIELD_STRS
          [ymx_example_canonical_document.root.host.fields])) = true
    ∧ ymx_assemble_tagdirs
        (mxGetFieldByNumber (Document.host_array [ymx_example_canonical_document]) 0
          YMX_DOC_FIELD_TAGDIRS)
      = some [{ handle := [33, 33], pfx := [116, 97, 103, 58] }]
    ∧ mxGetFieldByNumber (Document.host_array [ymx_example_canonical_document]) 0
        YMX_DOC_FIELD_VERSION = some (.int32 [1, 2] [1, 1])
    ∧ mxIsEmpty (.int32 [1, 2] [1, 1]) = false
    ∧ ((∃ st', ymx_dump_document 8 yaml_emitter_accept_all ymx_dump_state_init
            (Document.host_array [ymx_example_canonical_document]) 0
          = .error "Invalid document version" st')
        ↔ ¬ (mxIsInt32 (.int32 [1, 2] [1, 1]) = true
          ∧ mxGetNumberOfElements (.int32 [1, 2] [1, 1]) = 2)) :=
  ⟨by decide, by decide, by decide, by decide, by decide,
    ((C24_version_validation 8 yaml_emitter_accept_all ymx_dump_state_init
      (Document.host_array [ymx_example_canonical_document]) 0
      (.struct [1, 1] YMX_NODE_FIELD_STRS [ymx_example_canonical_document.root.host.fields])
      [{ handle := [33, 33], pfx := [116, 97, 103, 58] }]
      (by decide) (by decide) (by decide)).2.1 (.int32 [1, 2] [1, 1])
        (by decide) (by decide)).1⟩

/-- C24 (counterexample to the claim as stated). A document whose version
member is present, not empty and no int32 array (a 2-by-2 char array), and whose
root is absent: its dump aborts with "Invalid document root", the check made
first, and not with "Invalid document version". -/
theorem C24_version_validation_counterexample :
    mxGetFieldByNumber ymx_example_rootless_document 0 YMX_DOC_FIELD_VERSION
      = some (.char [2, 2] [97, 98, 99, 100])
    ∧ mxIsEmpty (.char [2, 2] [97, 98, 99, 100]) = false
    ∧ mxIsInt32 (.char [2, 2] [97, 98, 99, 100]) = false
    ∧ ymx_is_valid_version_array (.char [2, 2] [97, 98, 99, 100]) = false
    ∧ ymx_dump_document 2 yaml_emitter_accept_all ymx_dump_state_init
        ymx_example_rootless_document 0
      = .error "Invalid document root" ymx_dump_state_init
    ∧ ymx_dump_document 2 yaml_emitter_accept_all ymx_dump_state_init
        ymx_example_rootless_document 0
      ≠ .error "Invalid document version" ymx_dump_state_init :=
  ⟨by decide, by decide, by decide, by decide, by decide, by decide⟩

theorem ymx_emit_error_message (emitter : yaml_emitter_t) (st st' : ymx_dump_state)
    (event : yaml_event_t) (msg : String) (h : ymx_emit emitter st event = .error msg st') :
    msg = "Error while emitting document" ∧ st' = st := by
  unfold ymx_emit at h
  split_ifs at h with ha
  · split at h <;> simp at h
  · simp only [ymx_dump_result.error.injEq] at h
    exact ⟨h.1.symm, h.2.symm⟩

theorem ymx_is_valid_string_iff (v : mxArray) :
    ymx_is_valid_string v = true
      ↔ (mxIsChar v = true
        ∧ (mxGetNumberOfElements v = 0 ∨ ymx_is_row_string v = true)) := by
  by_cases hc : mxIsChar v = true
  · by_cases hn : mxGetNumberOfElements v = 0
    · simp [ymx_is_valid_string, hc, hn]
    · have hm := ymx_is_valid_tagdir_member_iff (some v)
      simp only [ymx_is_valid_tagdir_member, Option.some.injEq, exists_eq_left'] at hm
      have hn2 : (mxGetNumberOfElements v == 0) = false := by simpa using hn
      rw [hn2] at hm
      simp only [Bool.false_eq_true, if_false] at hm
      rw [hm]
      simp [hc, hn]
  · simp only [Bool.not_eq_true] at hc
    simp [ymx_is_valid_string, hc]

/-- `ymx_dump_node` on a node whose tag and anchor passed their checks and
whose type is the code of a scalar. -/
theorem ymx_dump_node_scalar (fuel : Nat) (emitter : yaml_emitter_t) (st : ymx_dump_state)
    (node : mxArray) (ind : Nat) (tag anchor : Option c_string) (type : mxArray)
    (htag : ymx_assemble_string (mxGetFieldByNumber node ind YMX_NODE_FIELD_TAG) = some tag)
    (hanchor : ymx_assemble_string (mxGetFieldByNumber node ind YMX_NODE_FIELD_ANCHOR)
      = some anchor)
    (htype : mxGetFieldByNumber node ind YMX_NODE_FIELD_TYPE = some type)
    (hvalid : ymx_is_valid_int_scalar type = true)
    (hscalar : ymx_get_int_scalar type = YMX_NODE_TYPE_SCALAR) :
    ymx_dump_node (fuel + 1) emitter st node ind
      = ymx_dump_scalar emitter
          (st.warn
            (ymx_int_warning (mxGetFieldByNumber node ind YMX_NODE_FIELD_IMPLICIT)
                "Invalid node implicit specifier"
              ++ ymx_int_warning (mxGetFieldByNumber node ind YMX_NODE_FIELD_STYLE)
                "Invalid node style"))
          (mxGetFieldByNumber node ind YMX_NODE_FIELD_VALUE) tag anchor
          (ymx_int_or_zero (mxGetFieldByNumber node ind YMX_NODE_FIELD_IMPLICIT))
          (ymx_int_or_zero (mxGetFieldByNumber node ind YMX_NODE_FIELD_STYLE)) := by
  rw [ymx_dump_node_steps, htag, hanchor, htype]
  simp only [hvalid, Bool.not_true, Bool.false_eq_true, if_false, hscalar, if_true]

/-- C26 (as amended). Scalar value validation: for a scalar node whose tag and
anchor passed their checks, met when the event emitted last holds no memory
(the clean-up of `ymx_error` then frees nothing twice), the dump of the node
fails with the error "Invalid scalar value" exactly when the value is absent or
is no string: no char array, or a char array that is not empty and not a single
row.  At the abort no event was emitted for the node.  A value that is a string,
the empty string included, is handed to the emitter in one Scalar event. -/
theorem C26_scalar_value_validation (fuel : Nat) (emitter : yaml_emitter_t)
    (st : ymx_dump_state) (node : mxArray) (ind : Nat) (tag anchor : Option c_string)
    (type : mxArray)
    (htag : ymx_assemble_string (mxGetFieldByNumber node ind YMX_NODE_FIELD_TAG) = some tag)
    (hanchor : ymx_assemble_string (mxGetFieldByNumber node ind YMX_NODE_FIELD_ANCHOR)
      = some anchor)
    (htype : mxGetFieldByNumber node ind YMX_NODE_FIELD_TYPE = some type)
    (hvalid : ymx_is_valid_int_scalar type = true)
    (hscalar : ymx_get_int_scalar type = YMX_NODE_TYPE_SCALAR)
    (hclean : ymx_persistent_cleanup st.persistent_event = true) :
    ((∃ st', ymx_dump_node (fuel + 1) emitter st node ind = .error "Invalid scalar value" st'
        ∧ ymx_error st'.persistent_event "Invalid scalar value"
          = .message "Invalid scalar value")
      ↔ (mxGetFieldByNumber node ind YMX_NODE_FIELD_VALUE = none
        ∨ ∃ v, mxGetFieldByNumber node ind YMX_NODE_FIELD_VALUE = some v
          ∧ (mxIsChar v = false
            ∨ (mxGetNumberOfElements v ≠ 0 ∧ ymx_is_row_string v = false))))
    ∧ (∀ st', ymx_dump_node (fuel + 1) emitter st node ind = .error "Invalid scalar value" st' →
        st'.emitted = st.emitted)
    ∧ (∀ v : mxArray, ymx_is_valid_string v = true
        ↔ (mxIsChar v = true
          ∧ (mxGetNumberOfElements v = 0 ∨ ymx_is_row_string v = true)))
    ∧ (∀ v, mxGetFieldByNumber node ind YMX_NODE_FIELD_VALUE = some v →
        ymx_is_valid_string v = true →
        ymx_dump_node (fuel + 1) emitter st node ind
          = ymx_emit emitter
              (st.warn
                (ymx_int_warning (mxGetFieldByNumber node ind YMX_NODE_FIELD_IMPLICIT)
                    "Invalid node implicit specifier"
                  ++ ymx_int_warning (mxGetFieldByNumber node ind YMX_NODE_FIELD_STYLE)
                    "Invalid node style"))
              (.scalar anchor tag (some ((mxArrayToString v).getD []))
                ((mxArrayToString v).getD []).length
                (if ymx_int_or_zero (mxGetFieldByNumber node ind YMX_NODE_FIELD_IMPLICIT)
                    = YMX_SCALAR_IMPLICIT_PLAIN then 1 else 0)
                (if ymx_int_or_zero (mxGetFieldByNumber node ind YMX_NODE_FIELD_IMPLICIT)
                    = YMX_SCALAR_IMPLICIT_QUOTED then 1 else 0)
                (ymx_int_or_zero (mxGetFieldByNumber node ind YMX_NODE_FIELD_STYLE))))
    ∧ ymx_is_valid_string (mxCreateString []) = true
    ∧ (mxArrayToString (mxCreateString [])).getD [] = [] := by
  have hstep := ymx_dump_node_scalar fuel emitter st node ind tag anchor type htag hanchor
    htype hvalid hscalar
  have hok : ∀ v, mxGetFieldByNumber node ind YMX_NODE_FIELD_VALUE = some v →
      ymx_is_valid_string v = true →
      ymx_dump_node (fuel + 1) emitter st node ind
        = ymx_emit emitter
            (st.warn
              (ymx_int_warning (mxGetFieldByNumber node ind YMX_NODE_FIELD_IMPLICIT)
                  "Invalid node implicit specifier"
                ++ ymx_int_warning (mxGetFieldByNumber node ind YMX_NODE_FIELD_STYLE)
                  "Invalid node style"))
            (.scalar anchor tag (some ((mxArrayToString v).getD []))
              ((mxArrayToString v).getD []).length
              (if ymx_int_or_zero (mxGetFieldByNumber node ind YMX_NODE_FIELD_IMPLICIT)
                  = YMX_SCALAR_IMPLICIT_PLAIN then 1 else 0)
              (if ymx_int_or_zero (mxGetFieldByNumber node ind YMX_NODE_FIELD_IMPLICIT)
                  = YMX_SCALAR_IMPLICIT_QUOTED then 1 else 0)
              (ymx_int_or_zero (mxGetFieldByNumber node ind YMX_NODE_FIELD_STYLE))) := by
    intro v hv hs
    rw [hstep, hv]
    simp only [ymx_dump_scalar, hs, Bool.not_true, Bool.false_eq_true, if_false]
  have hbad : (mxGetFieldByNumber node ind YMX_NODE_FIELD_VALUE = none
        ∨ ∃ v, mxGetFieldByNumber node ind YMX_NODE_FIELD_VALUE = some v
          ∧ ymx_is_valid_string v = false) →
      ymx_dump_node (fuel + 1) emitter st node ind
        = .error "Invalid scalar value"
            (st.warn
              (ymx_int_warning (mxGetFieldByNumber node ind YMX_NODE_FIELD_IMPLICIT)
                  "Invalid node implicit specifier"
                ++ ymx_int_warning (mxGetFieldByNumber node ind YMX_NODE_FIELD_STYLE)
                  "Invalid node style")) := by
    intro h
    rw [hstep]
    rcases h with h | ⟨v, h, hs⟩
    · rw [h]; rfl
    · rw [h]
      simp only [ymx_dump_scalar, hs, Bool.not_false, if_true]
  have hcases : ∀ st', ymx_dump_node (fuel + 1) emitter st node ind
        = .error "Invalid scalar value" st' →
      (mxGetFieldByNumber node ind YMX_NODE_FIELD_VALUE = none
        ∨ ∃ v, mxGetFieldByNumber node ind YMX_NODE_FIELD_VALUE = some v
          ∧ ymx_is_valid_string v = false) := by
    intro st' h
    cases hv : mxGetFieldByNumber node ind YMX_NODE_FIELD_VALUE with
    | none => exact Or.inl rfl
    | some v =>
      right
      refine ⟨v, rfl, ?_⟩
      by_cases hs : ymx_is_valid_string v = true
      · rw [hok v hv hs] at h
        exact absurd (ymx_emit_error_message _ _ _ _ _ h).1 (by decide)
      · simpa using hs
  have hshape : ∀ v : mxArray, ymx_is_valid_string v = false
      ↔ (mxIsChar v = false
        ∨ (mxGetNumberOfElements v ≠ 0 ∧ ymx_is_row_string v = false)) := by
    intro v
    rw [← Bool.not_eq_true, ymx_is_valid_string_iff, not_and_or, not_or]
    simp only [Bool.not_eq_true]
  refine ⟨?_, ?_, ymx_is_valid_string_iff, hok, rfl, rfl⟩
  · constructor
    · rintro ⟨st', h, _⟩
      rcases hcases st' h with h1 | ⟨v, h1, h2⟩
      · exact Or.inl h1
      · exact Or.inr ⟨v, h1, (hshape v).mp h2⟩
    · intro h
      refine ⟨_, hbad ?_, ?_⟩
      swap
      · show ymx_error st.persistent_event _ = _
        simp only [ymx_error, hclean, if_true]
      rcases h with h1 | ⟨v, h1, h2⟩
      · exact Or.inl h1
      · exact Or.inr ⟨v, h1, (hshape v).mpr h2⟩
  · intro st' h
    have := hbad (hcases st' h)
    rw [this] at h
    simp only [ymx_dump_result.error.injEq, true_and] at h
    rw [← h]
    rfl
/-- The premises of `C26_scalar_value_validation` hold for the scalar node "a"
of `ymx_example_bare_scalar`, dumped as the root of a document without
directives, after StreamStart and DocumentStart. -/
theorem C26_scalar_value_validation_witness :
    ymx_assemble_string (mxGetFieldByNumber ymx_example_bare_scalar 0 YMX_NODE_FIELD_TAG)
      = some (some [33])
    ∧ ymx_assemble_string (mxGetFieldByNumber ymx_example_bare_scalar 0 YMX_NODE_FIELD_ANCHOR)
      = some none
    ∧ mxGetFieldByNumber ymx_example_bare_scalar 0 YMX_NODE_FIELD_TYPE
      = some (ymx_create_int_scalar YMX_NODE_TYPE_SCALAR)
    ∧ ymx_is_valid_int_scalar (ymx_create_int_scalar YMX_NODE_TYPE_SCALAR) = true
    ∧ ymx_get_int_scalar (ymx_create_int_scalar YMX_NODE_TYPE_SCALAR) = YMX_NODE_TYPE_SCALAR
    ∧ ymx_persistent_cleanup
        (ymx_dump_state.persistent_event
          { ymx_dump_state_init with emitted := [.stream_start, .document_start none [] 1] })
      = true
    ∧ ((∃ st', ymx_dump_node (0 + 1) yaml_emitter_accept_all
          { ymx_dump_state_init with emitted := [.stream_start, .document_start none [] 1] }
          ymx_example_bare_scalar 0 = .error "Invalid scalar value" st'
        ∧ ymx_error st'.persistent_event "Invalid scalar value"
          = .message "Invalid scalar value")
      ↔ (mxGetFieldByNumber ymx_example_bare_scalar 0 YMX_NODE_FIELD_VALUE = none
        ∨ ∃ v, mxGetFieldByNumber ymx_example_bare_scalar 0 YMX_NODE_FIELD_VALUE = some v
          ∧ (mxIsChar v = false
            ∨ (mxGetNumberOfElements v ≠ 0 ∧ ymx_is_row_string v = false)))) :=
  ⟨by decide, by decide, by decide, by decide, by decide, by decide,
    (C26_scalar_value_validation 0 yaml_emitter_accept_all
      { ymx_dump_state_init with emitted := [.stream_start, .document_start none [] 1] }
      ymx_example_bare_scalar 0 (some [33]) none
      (ymx_create_int_scalar YMX_NODE_TYPE_SCALAR)
      (by decide) (by decide) (by decide) (by decide) (by decide) (by decide)).1⟩

/-- C26 (counterexample to the claim as stated). The scalar node of
`ymx_example_bad_tag_scalar` has no value, and its tag is no string: its dump
fails with the error "Invalid tag", the check made first, and not with "Invalid
scalar value". -/
theorem C26_scalar_value_validation_counterexample :
    mxGetFieldByNumber ymx_example_bad_tag_scalar 0 YMX_NODE_FIELD_TYPE
      = some (ymx_create_int_scalar YMX_NODE_TYPE_SCALAR)
    ∧ mxGetFieldByNumber ymx_example_bad_tag_scalar 0 YMX_NODE_FIELD_VALUE = none
    ∧ ymx_dump_node 1 yaml_emitter_accept_all ymx_dump_state_init ymx_example_bad_tag_scalar 0
      = .error "Invalid tag" ymx_dump_state_init
    ∧ ymx_error ymx_dump_state_init.persistent_event "Invalid tag" = .message "Invalid tag"
    ∧ ¬ (∃ st', ymx_dump_node 1 yaml_emitter_accept_all ymx_dump_state_init
        ymx_example_bad_tag_scalar 0 = .error "Invalid scalar value" st') := by
  have h : ymx_dump_node 1 yaml_emitter_accept_all ymx_dump_state_init
      ymx_example_bad_tag_scalar 0 = .error "Invalid tag" ymx_dump_state_init := by decide
  refine ⟨by decide, by decide, h, by decide, ?_⟩
  rintro ⟨st', h2⟩
  rw [h] at h2
  simp only [ymx_dump_result.error.injEq] at h2
  exact absurd h2.1 (by decide)
theorem ymx_is_valid_int_scalar_iff (t : mxArray) :
    ymx_is_valid_int_scalar t = true
      ↔ (mxIsInt32 t = true ∧ mxGetNumberOfElements t = 1) := by
  unfold ymx_is_valid_int_scalar
  by_cases hi : mxIsInt32 t = true
  · by_cases hn : mxGetNumberOfElements t = 1
    · simp [hi, hn]
    · have : (mxGetNumberOfElements t != 1) = true := by simpa using hn
      simp [hi, hn, this]
  · simp [hi]

/-- An abort of a dump that starts with the emission of an event and goes on
with steps that keep what was emitted: it is the abort of that emission, or the
event is among the emitted ones. -/
theorem ymx_dump_started_error (msgs : List String) (emitter : yaml_emitter_t)
    (st : ymx_dump_state) (start : yaml_event_t)
    (k : ymx_dump_state → ymx_dump_result Unit)
    (hk : ∀ st1, ymx_dump_continues msgs st1 (k st1)) (msg : String) (st' : ymx_dump_state)
    (h : (match ymx_emit emitter st start with
          | .ok _ st1 => k st1
          | r => r) = .error msg st') :
    msg = ymx_emit_error ∨ st.emitted.length < st'.emitted.length := by
  cases he : ymx_emit emitter st start with
  | ok u st1 =>
    rw [he] at h
    simp only [] at h
    have h1 := (hk st1).1 st' (by rw [h]; rfl)
    have h2 := (ymx_emit_ok emitter st st1 start he).1
    have h3 := h1.1.length_le
    rw [h2, List.length_append] at h3
    simp only [List.length_singleton] at h3
    right
    omega
  | error m s =>
    rw [he] at h
    simp only [ymx_dump_result.error.injEq] at h
    left
    rw [← h.1]
    exact (ymx_emit_error_message emitter st s start m he).1
  | fault s =>
    rw [he] at h
    simp at h
  | diverge =>
    rw [he] at h
    simp at h

theorem ymx_dump_sequence_error (fuel : Nat) (emitter : yaml_emitter_t) (st : ymx_dump_state)
    (value : Option mxArray) (tag anchor : Option c_string) (implicit style : Int)
    (msg : String) (st' : ymx_dump_state)
    (h : ymx_dump_sequence fuel emitter st value tag anchor implicit style = .error msg st') :
    msg = ymx_emit_error ∨ st.emitted.length < st'.emitted.length := by
  have hn : ∀ m ∈ ymx_node_errors, m ∈ ymx_emit_error :: ymx_node_errors :=
    fun m hm => List.mem_cons_of_mem _ hm
  have he : ymx_emit_error ∈ ymx_emit_error :: ymx_node_errors := List.mem_cons_self _ _
  cases fuel with
  | zero =>
    rw [ymx_dump_sequence] at h
    simp at h
  | succ f =>
    rw [ymx_dump_sequence] at h
    refine ymx_dump_started_error (ymx_emit_error :: ymx_node_errors) emitter st _ _ ?_ msg st' h
    intro st1
    refine ymx_dump_continues_then _ st1 _ _ ?_ ?_
    · exact ymx_dump_children_continues _ emitter f 1 _ (hn _ (by decide)) st1 value
        (ymx_dump_node_continues _ hn he emitter f).1
    · intro st2 _
      exact ymx_emit_continues _ he emitter st2 _

theorem ymx_dump_mapping_error (fuel : Nat) (emitter : yaml_emitter_t) (st : ymx_dump_state)
    (value : Option mxArray) (tag anchor : Option c_string) (implicit style : Int)
    (msg : String) (st' : ymx_dump_state)
    (h : ymx_dump_mapping fuel emitter st value tag anchor implicit style = .error msg st') :
    msg = ymx_emit_error ∨ st.emitted.length < st'.emitted.length := by
  have hn : ∀ m ∈ ymx_node_errors, m ∈ ymx_emit_error :: ymx_node_errors :=
    fun m hm => List.mem_cons_of_mem _ hm
  have he : ymx_emit_error ∈ ymx_emit_error :: ymx_node_errors := List.mem_cons_self _ _
  cases fuel with
  | zero =>
    rw [ymx_dump_mapping] at h
    simp at h
  | succ f =>
    rw [ymx_dump_mapping] at h
    refine ymx_dump_started_error (ymx_emit_error :: ymx_node_errors) emitter st _ _ ?_ msg st' h
    intro st1
    refine ymx_dump_continues_then _ st1 _ _ ?_ ?_
    · exact ymx_dump_children_continues _ emitter f 2 _ (hn _ (by decide)) st1 value
        (ymx_dump_node_continues _ hn he emitter f).1
    · intro st2 _
      exact ymx_emit_continues _ he emitter st2 _

theorem ymx_dump_scalar_error (emitter : yaml_emitter_t) (st : ymx_dump_state)
    (value : Option mxArray) (tag anchor : Option c_string) (implicit style : Int)
    (msg : String) (st' : ymx_dump_state)
    (h : ymx_dump_scalar emitter st value tag anchor implicit style = .error msg st') :
    msg = "Invalid scalar value" ∨ msg = ymx_emit_error := by
  unfold ymx_dump_scalar at h
  cases value with
  | none =>
    simp only [ymx_dump_result.error.injEq] at h
    exact Or.inl h.1.symm
  | some v =>
    simp only [] at h
    by_cases hs : (!ymx_is_valid_string v) = true
    · rw [if_pos hs] at h
      simp only [ymx_dump_result.error.injEq] at h
      exact Or.inl h.1.symm
    · rw [if_neg hs] at h
      exact Or.inr (ymx_emit_error_message _ _ _ _ _ h).1
/-- C27 (as amended). Node variant validation: for a node whose tag and anchor
passed their checks, met when the event emitted last holds no memory (the
clean-up of `ymx_error` then frees nothing twice), the dump of the node fails
with a node-type error ("Invalid node type" or "Invalid node type value")
before any event is emitted for the node exactly when its type member is
absent, is no int32 array with one element, or holds a code other than 1, 2, 3
and 4.  The message is "Invalid node type" for an absent member and for one
that is no single int32, and "Invalid node type value" for a code outside 1..4,
the code 0 included; the state at the abort holds the events emitted before the
node and no other. -/
theorem C27_node_type_validation (fuel : Nat) (emitter : yaml_emitter_t)
    (st : ymx_dump_state) (node : mxArray) (ind : Nat) (tag anchor : Option c_string)
    (htag : ymx_assemble_string (mxGetFieldByNumber node ind YMX_NODE_FIELD_TAG) = some tag)
    (hanchor : ymx_assemble_string (mxGetFieldByNumber node ind YMX_NODE_FIELD_ANCHOR)
      = some anchor)
    (hclean : ymx_persistent_cleanup st.persistent_event = true) :
    ((∃ msg st', ymx_dump_node (fuel + 1) emitter st node ind = .error msg st'
        ∧ (msg = "Invalid node type" ∨ msg = "Invalid node type value")
        ∧ st'.emitted = st.emitted
        ∧ ymx_error st'.persistent_event msg = .message msg)
      ↔ (mxGetFieldByNumber node ind YMX_NODE_FIELD_TYPE = none
        ∨ ∃ t, mxGetFieldByNumber node ind YMX_NODE_FIELD_TYPE = some t
          ∧ (¬ (mxIsInt32 t = true ∧ mxGetNumberOfElements t = 1)
            ∨ (ymx_get_int_scalar t ≠ 1 ∧ ymx_get_int_scalar t ≠ 2
              ∧ ymx_get_int_scalar t ≠ 3 ∧ ymx_get_int_scalar t ≠ 4))))
    ∧ ((mxGetFieldByNumber node ind YMX_NODE_FIELD_TYPE = none
        ∨ ∃ t, mxGetFieldByNumber node ind YMX_NODE_FIELD_TYPE = some t
          ∧ ¬ (mxIsInt32 t = true ∧ mxGetNumberOfElements t = 1)) →
      ymx_dump_node (fuel + 1) emitter st node ind
        = .error "Invalid node type"
            (st.warn
              (ymx_int_warning (mxGetFieldByNumber node ind YMX_NODE_FIELD_IMPLICIT)
                  "Invalid node implicit specifier"
                ++ ymx_int_warning (mxGetFieldByNumber node ind YMX_NODE_FIELD_STYLE)
                  "Invalid node style")))
    ∧ (∀ t, mxGetFieldByNumber node ind YMX_NODE_FIELD_TYPE = some t →
        mxIsInt32 t = true → mxGetNumberOfElements t = 1 →
        ymx_get_int_scalar t ≠ 1 → ymx_get_int_scalar t ≠ 2 →
        ymx_get_int_scalar t ≠ 3 → ymx_get_int_scalar t ≠ 4 →
        ymx_dump_node (fuel + 1) emitter st node ind
          = .error "Invalid node type value"
              (st.warn
                (ymx_int_warning (mxGetFieldByNumber node ind YMX_NODE_FIELD_IMPLICIT)
                    "Invalid node implicit specifier"
                  ++ ymx_int_warning (mxGetFieldByNumber node ind YMX_NODE_FIELD_STYLE)
                    "Invalid node style")))
    ∧ (mxGetFieldByNumber node ind YMX_NODE_FIELD_TYPE
          = some (ymx_create_int_scalar YMX_NODE_TYPE_NONE) →
        ymx_dump_node (fuel + 1) emitter st node ind
          = .error "Invalid node type value"
              (st.warn
                (ymx_int_warning (mxGetFieldByNumber node ind YMX_NODE_FIELD_IMPLICIT)
                    "Invalid node implicit specifier"
                  ++ ymx_int_warning (mxGetFieldByNumber node ind YMX_NODE_FIELD_STYLE)
                    "Invalid node style")))
    ∧ (st.warn
        (ymx_int_warning (mxGetFieldByNumber node ind YMX_NODE_FIELD_IMPLICIT)
            "Invalid node implicit specifier"
          ++ ymx_int_warning (mxGetFieldByNumber node ind YMX_NODE_FIELD_STYLE)
            "Invalid node style")).emitted = st.emitted := by
  have hstep := ymx_dump_node_steps fuel emitter st node ind
  rw [htag, hanchor] at hstep
  simp only [] at hstep
  have hnone : mxGetFieldByNumber node ind YMX_NODE_FIELD_TYPE = none →
      ymx_dump_node (fuel + 1) emitter st node ind
        = .error "Invalid node type"
            (st.warn
              (ymx_int_warning (mxGetFieldByNumber node ind YMX_NODE_FIELD_IMPLICIT)
                  "Invalid node implicit specifier"
                ++ ymx_int_warning (mxGetFieldByNumber node ind YMX_NODE_FIELD_STYLE)
                  "Invalid node style")) := by
    intro h
    rw [hstep, h]
  have hbad : ∀ t, mxGetFieldByNumber node ind YMX_NODE_FIELD_TYPE = some t →
      ¬ (mxIsInt32 t = true ∧ mxGetNumberOfElements t = 1) →
      ymx_dump_node (fuel + 1) emitter st node ind
        = .error "Invalid node type"
            (st.warn
              (ymx_int_warning (mxGetFieldByNumber node ind YMX_NODE_FIELD_IMPLICIT)
                  "Invalid node implicit specifier"
                ++ ymx_int_warning (mxGetFieldByNumber node ind YMX_NODE_FIELD_STYLE)
                  "Invalid node style")) := by
    intro t h hv
    rw [← ymx_is_valid_int_scalar_iff, Bool.not_eq_true] at hv
    rw [hstep, h]
    simp only [hv, Bool.not_false, if_true]
  have hcode : ∀ t, mxGetFieldByNumber node ind YMX_NODE_FIELD_TYPE = some t →
      mxIsInt32 t = true → mxGetNumberOfElements t = 1 →
      ymx_get_int_scalar t ≠ 1 → ymx_get_int_scalar t ≠ 2 →
      ymx_get_int_scalar t ≠ 3 → ymx_get_int_scalar t ≠ 4 →
      ymx_dump_node (fuel + 1) emitter st node ind
        = .error "Invalid node type value"
            (st.warn
              (ymx_int_warning (mxGetFieldByNumber node ind YMX_NODE_FIELD_IMPLICIT)
                  "Invalid node implicit specifier"
                ++ ymx_int_warning (mxGetFieldByNumber node ind YMX_NODE_FIELD_STYLE)
                  "Invalid node style")) := by
    intro t h hi hn h1 h2 h3 h4
    have hv := (ymx_is_valid_int_scalar_iff t).mpr ⟨hi, hn⟩
    rw [hstep, h]
    simp only [hv, Bool.not_true, Bool.false_eq_true, if_false]
    have h1' : ¬ ymx_get_int_scalar t = YMX_NODE_TYPE_SCALAR := h1
    have h2' : ¬ ymx_get_int_scalar t = YMX_NODE_TYPE_SEQUENCE := h2
    have h3' : ¬ ymx_get_int_scalar t = YMX_NODE_TYPE_MAPPING := h3
    have h4' : ¬ ymx_get_int_scalar t = YMX_NODE_TYPE_ALIAS := h4
    rw [if_neg h1', if_neg h2', if_neg h3', if_neg h4']
  refine ⟨⟨?_, ?_⟩, ?_, hcode, ?_, rfl⟩
  · rintro ⟨msg, st', h, hmsg, hem, _⟩
    cases hT : mxGetFieldByNumber node ind YMX_NODE_FIELD_TYPE with
    | none => exact Or.inl rfl
    | some t =>
      right
      refine ⟨t, rfl, ?_⟩
      by_cases hv : ymx_is_valid_int_scalar t = true
      · right
        rw [hstep, hT] at h
        simp only [hv, Bool.not_true, Bool.false_eq_true, if_false] at h
        have hne : msg ≠ ymx_emit_error := by
          rcases hmsg with hm | hm <;> rw [hm] <;> decide
        have hns : msg ≠ "Invalid scalar value" := by
          rcases hmsg with hm | hm <;> rw [hm] <;> decide
        refine ⟨?_, ?_, ?_, ?_⟩
        · intro hc
          have hc' : ymx_get_int_scalar t = YMX_NODE_TYPE_SCALAR := hc
          rw [if_pos hc'] at h
          rcases ymx_dump_scalar_error _ _ _ _ _ _ _ _ _ h with h1 | h1
          · exact hns h1
          · exact hne h1
        · intro hc
          have hc' : ymx_get_int_scalar t = YMX_NODE_TYPE_SEQUENCE := hc
          by_cases hc1 : ymx_get_int_scalar t = YMX_NODE_TYPE_SCALAR
          · rw [hc] at hc1
            exact absurd hc1 (by decide)
          · rw [if_neg hc1, if_pos hc'] at h
            rcases ymx_dump_sequence_error _ _ _ _ _ _ _ _ _ _ h with h1 | h1
            · exact hne h1
            · rw [hem] at h1
              exact absurd h1 (lt_irrefl _)
        · intro hc
          have hc' : ymx_get_int_scalar t = YMX_NODE_TYPE_MAPPING := hc
          by_cases hc1 : ymx_get_int_scalar t = YMX_NODE_TYPE_SCALAR
          · rw [hc] at hc1
            exact absurd hc1 (by decide)
          · by_cases hc2 : ymx_get_int_scalar t = YMX_NODE_TYPE_SEQUENCE
            · rw [hc] at hc2
              exact absurd hc2 (by decide)
            · rw [if_neg hc1, if_neg hc2, if_pos hc'] at h
              rcases ymx_dump_mapping_error _ _ _ _ _ _ _ _ _ _ h with h1 | h1
              · exact hne h1
              · rw [hem] at h1
                exact absurd h1 (lt_irrefl _)
        · intro hc
          have hc' : ymx_get_int_scalar t = YMX_NODE_TYPE_ALIAS := hc
          by_cases hc1 : ymx_get_int_scalar t = YMX_NODE_TYPE_SCALAR
          · rw [hc] at hc1
            exact absurd hc1 (by decide)
          · by_cases hc2 : ymx_get_int_scalar t = YMX_NODE_TYPE_SEQUENCE
            · rw [hc] at hc2
              exact absurd hc2 (by decide)
            · by_cases hc3 : ymx_get_int_scalar t = YMX_NODE_TYPE_MAPPING
              · rw [hc] at hc3
                exact absurd hc3 (by decide)
              · rw [if_neg hc1, if_neg hc2, if_neg hc3, if_pos hc'] at h
                exact hne (ymx_emit_error_message _ _ _ _ _ h).1
      · left
        rw [← ymx_is_valid_int_scalar_iff]
        exact hv
  · intro h
    rcases h with h | ⟨t, h, hv | ⟨h1, h2, h3, h4⟩⟩
    · exact ⟨_, _, hnone h, Or.inl rfl, rfl, ymx_error_of_cleanup _ _ hclean⟩
    · exact ⟨_, _, hbad t h hv, Or.inl rfl, rfl, ymx_error_of_cleanup _ _ hclean⟩
    · by_cases hv : mxIsInt32 t = true ∧ mxGetNumberOfElements t = 1
      · exact ⟨_, _, hcode t h hv.1 hv.2 h1 h2 h3 h4, Or.inr rfl, rfl,
          ymx_error_of_cleanup _ _ hclean⟩
      · exact ⟨_, _, hbad t h hv, Or.inl rfl, rfl, ymx_error_of_cleanup _ _ hclean⟩
  · intro h
    rcases h with h | ⟨t, h, hv⟩
    · exact hnone h
    · exact hbad t h hv
  · intro h
    exact hcode _ h (by decide) (by decide) (by decide) (by decide) (by decide) (by decide)

/-- The premises of `C27_node_type_validation` hold for the scalar node of
`ymx_example_bare_scalar`, dumped as the root of a document without directives,
after StreamStart and DocumentStart. -/
theorem C27_node_type_validation_witness :
    ymx_assemble_string (mxGetFieldByNumber ymx_example_bare_scalar 0 YMX_NODE_FIELD_TAG)
      = some (some [33])
    ∧ ymx_assemble_string (mxGetFieldByNumber ymx_example_bare_scalar 0 YMX_NODE_FIELD_ANCHOR)
      = some none
    ∧ ymx_persistent_cleanup
        (ymx_dump_state.persistent_event
          { ymx_dump_state_init with emitted := [.stream_start, .document_start none [] 1] })
      = true
    ∧ ((∃ msg st', ymx_dump_node (0 + 1) yaml_emitter_accept_all
          { ymx_dump_state_init with emitted := [.stream_start, .document_start none [] 1] }
          ymx_example_bare_scalar 0 = .error msg st'
        ∧ (msg = "Invalid node type" ∨ msg = "Invalid node type value")
        ∧ st'.emitted = [.stream_start, .document_start none [] 1]
        ∧ ymx_error st'.persistent_event msg = .message msg)
      ↔ (mxGetFieldByNumber ymx_example_bare_scalar 0 YMX_NODE_FIELD_TYPE = none
        ∨ ∃ t, mxGetFieldByNumber ymx_example_bare_scalar 0 YMX_NODE_FIELD_TYPE = some t
          ∧ (¬ (mxIsInt32 t = true ∧ mxGetNumberOfElements t = 1)
            ∨ (ymx_get_int_scalar t ≠ 1 ∧ ymx_get_int_scalar t ≠ 2
              ∧ ymx_get_int_scalar t ≠ 3 ∧ ymx_get_int_scalar t ≠ 4)))) :=
  ⟨by decide, by decide, by decide,
    (C27_node_type_validation 0 yaml_emitter_accept_all
      { ymx_dump_state_init with emitted := [.stream_start, .document_start none [] 1] }
      ymx_example_bare_scalar 0 (some [33]) none (by decide) (by decide) (by decide)).1⟩

/-- C27 (counterexample to the claim as stated). The node of
`ymx_example_bad_tag_untyped` has no type, and its tag is no string: its dump
fails with the error "Invalid tag", the check made first, and not with a
node-type error.  The sequence node of `ymx_example_untyped_child` has the type code 2,
neither tag nor anchor, and its only child has no type: the dump of the sequence
node fails with "Invalid node type", the error of the child, after the
SequenceStart event. -/
theorem C27_node_type_validation_counterexample :
    mxGetFieldByNumber ymx_example_bad_tag_untyped 0 YMX_NODE_FIELD_TYPE = none
    ∧ ymx_dump_node 1 yaml_emitter_accept_all ymx_dump_state_init ymx_example_bad_tag_untyped 0
      = .error "Invalid tag" ymx_dump_state_init
    ∧ ymx_error ymx_dump_state_init.persistent_event "Invalid tag" = .message "Invalid tag"
    ∧ ¬ (∃ msg st', ymx_dump_node 1 yaml_emitter_accept_all ymx_dump_state_init
        ymx_example_bad_tag_untyped 0 = .error msg st'
          ∧ (msg = "Invalid node type" ∨ msg = "Invalid node type value"))
    ∧ mxGetFieldByNumber ymx_example_untyped_child 0 YMX_NODE_FIELD_TYPE
      = some (ymx_create_int_scalar YMX_NODE_TYPE_SEQUENCE)
    ∧ ymx_dump_node 3 yaml_emitter_accept_all ymx_dump_state_init ymx_example_untyped_child 0
      = .error "Invalid node type"
          { ymx_dump_state_init with emitted := [.sequence_start none none 0 0] }
    ∧ ymx_error (some (.sequence_start none none 0 0)) "Invalid node type"
      = .message "Invalid node type" := by
  have h : ymx_dump_node 1 yaml_emitter_accept_all ymx_dump_state_init
      ymx_example_bad_tag_untyped 0 = .error "Invalid tag" ymx_dump_state_init := by decide
  refine ⟨by decide, h, by decide, ?_, by decide, by decide, by decide⟩
  rintro ⟨msg, st', h2, hm⟩
  rw [h] at h2
  simp only [ymx_dump_result.error.injEq] at h2
  rcases hm with hm | hm
  · rw [hm] at h2
    exact absurd h2.1 (by decide)
  · rw [hm] at h2
    exact absurd h2.1 (by decide)

/-- C28 (the code at the failing input). An alias node whose anchor is absent,
or is the empty string, passes every check of `ymx_dump_node`: the node is
handed to the emitter as an Alias event without an anchor, and no abort is
raised.  With an emitter that takes every event, the dump of a document whose
root is such a node succeeds, and the event is among the emitted ones. -/
theorem C28_alias_anchor_unchecked :
    (∀ (fuel : Nat) (emitter : yaml_emitter_t) (st : ymx_dump_state),
      ymx_dump_node (fuel + 1) emitter st ymx_example_alias_no_anchor 0
        = ymx_emit emitter (st.warn []) (.alias none))
    ∧ (∀ (fuel : Nat) (emitter : yaml_emitter_t) (st : ymx_dump_state),
      ymx_dump_node (fuel + 1) emitter st ymx_example_alias_empty_anchor 0
        = ymx_emit emitter (st.warn []) (.alias none))
    ∧ (∀ st : ymx_dump_state, (st.warn []).emitted = st.emitted)
    ∧ ymx_dump_node 1 yaml_emitter_accept_all ymx_dump_state_init
        ymx_example_alias_no_anchor 0
      = .ok () { ymx_dump_state_init with emitted := [.alias none] }
    ∧ ymx_dump_node 1 yaml_emitter_accept_all ymx_dump_state_init
        ymx_example_alias_empty_anchor 0
      = .ok () { ymx_dump_state_init with emitted := [.alias none] }
    ∧ ymx_dump_stream yaml_emitter_accept_all ymx_example_alias_document
      = .ok (mxCreateString [])
          { ymx_dump_state_init with
            emitted := [.stream_start, .document_start none [] 1, .alias none,
              .document_end 1, .stream_end] } := by
  refine ⟨?_, ?_, fun _ => rfl, by decide, by decide, by decide⟩
  · intro fuel emitter st
    rw [ymx_dump_node_steps]
    rfl
  · intro fuel emitter st
    rw [ymx_dump_node_steps]
    rfl

theorem yaml_subtree.items_of_groups (children : List (List yaml_event_t))
    (h : ∀ c ∈ children, ∃ t : yaml_subtree, c = t.events) :
    ∃ items : List yaml_subtree,
      items.length = children.length
      ∧ children.flatten = yaml_subtree.events_items items := by
  induction children with
  | nil => exact ⟨[], rfl, rfl⟩
  | cons c cs ih =>
    obtain ⟨t, rfl⟩ := h c (List.mem_cons_self _ _)
    obtain ⟨items, hlen, hfl⟩ := ih (fun c hc => h c (List.mem_cons_of_mem _ hc))
    refine ⟨t :: items, by simp [hlen], ?_⟩
    simp only [List.flatten_cons, hfl, yaml_subtree.events_items, yaml_subtree.events]

theorem yaml_subtree.pairs_of_groups :
    ∀ (n : Nat) (children : List (List yaml_event_t)),
      (∀ c ∈ children, ∃ t : yaml_subtree, c = t.events) →
      children.length = 2 * n →
      ∃ pairs : List (yaml_subtree × yaml_subtree),
        pairs.length = n
        ∧ children.flatten = yaml_subtree.events_pairs pairs := by
  intro n
  induction n with
  | zero =>
    intro children _ hlen
    have : children = [] := List.length_eq_zero.mp (by omega)
    subst this
    exact ⟨[], rfl, rfl⟩
  | succ n ih =>
    intro children h hlen
    match children, h, hlen with
    | [], _, hlen => simp at hlen
    | [_], _, hlen => simp at hlen; omega
    | k :: v :: cs, h, hlen =>
      obtain ⟨tk, rfl⟩ := h k (by simp)
      obtain ⟨tv, rfl⟩ := h v (by simp)
      obtain ⟨pairs, hplen, hfl⟩ := ih cs
        (fun c hc => h c (List.mem_cons_of_mem _ (List.mem_cons_of_mem _ hc)))
        (by simp only [List.length_cons] at hlen; omega)
      refine ⟨(tk, tv) :: pairs, by simp [hplen], ?_⟩
      simp only [List.flatten_cons, hfl, yaml_subtree.events_pairs, yaml_subtree.events,
        List.append_assoc]

theorem yaml_document.docs_of_groups (groups : List (List yaml_event_t))
    (h : ∀ g ∈ groups, ∃ d : yaml_document, g = d.events) :
    ∃ ds : List yaml_document,
      ds.length = groups.length
      ∧ groups.flatten = yaml_document.events_docs ds := by
  induction groups with
  | nil => exact ⟨[], rfl, rfl⟩
  | cons g gs ih =>
    obtain ⟨d, rfl⟩ := h g (List.mem_cons_self _ _)
    obtain ⟨ds, hlen, hfl⟩ := ih (fun g hg => h g (List.mem_cons_of_mem _ hg))
    refine ⟨d :: ds, by simp [hlen], ?_⟩
    simp only [List.flatten_cons, hfl, yaml_document.events_docs]
/-- The events of a successful dump of a node are those of one subtree of the
event grammar, when no alias event without an anchor is among them. -/
theorem ymx_dump_node_grammatical (emitter : yaml_emitter_t) :
    ∀ (fuel : Nat) (st st' : ymx_dump_state) (node : mxArray) (ind : Nat)
      (evs : List yaml_event_t),
      ymx_dump_node fuel emitter st node ind = .ok () st' →
      st'.emitted = st.emitted ++ evs →
      (∀ e ∈ evs, e ≠ .alias none) →
      ∃ t : yaml_subtree, evs = t.events := by
  intro fuel
  induction fuel using Nat.strong_induction_on with
  | _ fuel ih =>
    intro st st' node ind evs h hev hanch
    have hpos : 0 < fuel := by
      rcases Nat.eq_zero_or_pos fuel with h0 | h0
      · subst h0
        rw [ymx_dump_node] at h
        simp at h
      · exact h0
    have hchild : ∀ (children : List (List yaml_event_t)),
        (∀ c ∈ children, ∀ e ∈ c, e ≠ .alias none) →
        (∀ j, j < children.length → ∃ v sta stb,
          mxGetFieldByNumber node ind YMX_NODE_FIELD_VALUE = some v
          ∧ ymx_dump_node (fuel - 2) emitter sta v j = .ok () stb
          ∧ stb.emitted = sta.emitted ++ children.getD j []) →
        ∀ c ∈ children, ∃ t : yaml_subtree, c = t.events := by
      intro children hfree hj c hc
      obtain ⟨⟨j, hjl⟩, rfl⟩ := List.mem_iff_get.mp hc
      obtain ⟨v, sta, stb, _, hd, he⟩ := hj j hjl
      have hget : children.getD j [] = children.get ⟨j, hjl⟩ := by
        simp [List.getD_eq_getElem?_getD, List.getElem?_eq_getElem hjl]
      rw [hget] at he
      exact ih (fuel - 2) (by omega) sta stb v j _ hd he (hfree _ hc)
    obtain ⟨tag, anchor, type, _, _, _, _, hcase⟩ := ymx_dump_node_ok fuel emitter st st' node
      ind h
    rcases hcase with ⟨_, value, _, _, hs⟩ | ⟨_, ha⟩ | ⟨_, children, hlen, hs, hshape, hj⟩
      | ⟨_, children, hlen, hs, hshape, hj⟩
    · rw [hev] at hs
      have := List.append_cancel_left hs
      exact ⟨.scalar anchor tag _ _ _ _ _, this⟩
    · rw [hev] at ha
      have := List.append_cancel_left ha
      cases anchor with
      | none =>
        exact absurd rfl (hanch (.alias none) (by rw [this]; exact List.mem_singleton_self _))
      | some a => exact ⟨.alias a, this⟩
    · rw [hev] at hs
      have hevs := List.append_cancel_left hs
      have hfree : ∀ c ∈ children, ∀ e ∈ c, e ≠ .alias none := by
        intro c hc e he
        refine hanch e ?_
        rw [hevs]
        refine List.mem_cons_of_mem _ (List.mem_append_left _ ?_)
        exact List.mem_flatten.mpr ⟨c, hc, he⟩
      have hall := hchild children hfree
        (fun j hjl => by
          obtain ⟨v, sta, stb, h1, h2, h3, h4⟩ := hj j hjl
          exact ⟨v, sta, stb, h1, h2, h4⟩)
      obtain ⟨items, _, hfl⟩ := yaml_subtree.items_of_groups children hall
      refine ⟨.sequence anchor tag
        (ymx_int_or_zero (mxGetFieldByNumber node ind YMX_NODE_FIELD_IMPLICIT))
        (ymx_int_or_zero (mxGetFieldByNumber node ind YMX_NODE_FIELD_STYLE)) items, ?_⟩
      rw [hevs, hfl]
      rfl
    · rw [hev] at hs
      have hevs := List.append_cancel_left hs
      have hfree : ∀ c ∈ children, ∀ e ∈ c, e ≠ .alias none := by
        intro c hc e he
        refine hanch e ?_
        rw [hevs]
        refine List.mem_cons_of_mem _ (List.mem_append_left _ ?_)
        exact List.mem_flatten.mpr ⟨c, hc, he⟩
      have hall := hchild children hfree
        (fun j hjl => by
          obtain ⟨v, sta, stb, h1, h2, h3, h4⟩ := hj j hjl
          exact ⟨v, sta, stb, h1, h2, h4⟩)
      have heven : children.length = 2 * (children.length / 2) := by
        cases hv : mxGetFieldByNumber node ind YMX_NODE_FIELD_VALUE with
        | none =>
          rw [hv] at hlen
          simp only [Option.map_none', Option.getD_none] at hlen
          omega
        | some v =>
          rw [hv] at hlen
          simp only [Option.map_some', Option.getD_some] at hlen
          by_cases he : mxIsEmpty v = true
          · have hz : mxGetNumberOfElements v = 0 := by simpa [mxIsEmpty] using he
            omega
          · simp only [Bool.not_eq_true] at he
            obtain ⟨_, h2, h3⟩ := hshape v hv he
            have := mxGetNumberOfElements_even_of_two_rows v h2 h3
            omega
      obtain ⟨pairs, _, hfl⟩ := yaml_subtree.pairs_of_groups _ children hall heven
      refine ⟨.mapping anchor tag
        (ymx_int_or_zero (mxGetFieldByNumber node ind YMX_NODE_FIELD_IMPLICIT))
        (ymx_int_or_zero (mxGetFieldByNumber node ind YMX_NODE_FIELD_STYLE)) pairs, ?_⟩
      rw [hevs, hfl]
      rfl

/-- The events of a successful dump of a document are those of one document
of the event grammar, when no alias event without an anchor is among them. -/
theorem ymx_dump_document_grammatical (fuel : Nat) (emitter : yaml_emitter_t)
    (st st' : ymx_dump_state) (docs_array : mxArray) (ind : Nat) (evs : List yaml_event_t)
    (h : ymx_dump_document fuel emitter st docs_array ind = .ok () st')
    (hev : st'.emitted = st.emitted ++ evs)
    (hanch : ∀ e ∈ evs, e ≠ .alias none) :
    ∃ d : yaml_document, evs = d.events := by
  obtain ⟨root, tds, v, root_events, st1, st2, _, _, _, _, _, hn, h2, h3⟩ :=
    ymx_dump_document_ok fuel emitter st st' docs_array ind h
  rw [hev] at h3
  have hevs := List.append_cancel_left h3
  obtain ⟨t, ht⟩ := ymx_dump_node_grammatical emitter fuel st1 st2 root 0 root_events hn h2
    (by
      intro e he
      refine hanch e ?_
      rw [hevs]
      exact List.mem_cons_of_mem _ (List.mem_append_left _ he))
  refine ⟨{ version_directive := v, tag_directives := tds,
            start_implicit := ymx_logical_or_zero
              (mxGetFieldByNumber docs_array ind YMX_DOC_FIELD_START_IMPLICIT),
            root := t,
            end_implicit := ymx_logical_or_zero
              (mxGetFieldByNumber docs_array ind YMX_DOC_FIELD_END_IMPLICIT) }, ?_⟩
  rw [hevs, ht]
  rfl

/-- The events of a successful dump are a grammatical event sequence with one
document for each element of the document array, when no alias event without
an anchor is among them. -/
theorem ymx_dump_stream_grammatical (emitter : yaml_emitter_t) (docs_array out : mxArray)
    (st : ymx_dump_state) (h : ymx_dump_stream emitter docs_array = .ok out st)
    (hanch : ∀ e ∈ st.emitted, e ≠ .alias none) :
    ∃ ds : List yaml_document,
      ds.length = mxGetNumberOfElements docs_array
      ∧ st.emitted = yaml_stream_events ds := by
  obtain ⟨_, _, groups, hlen, hem, hj⟩ := ymx_dump_stream_ok emitter docs_array out st h
  have hall : ∀ g ∈ groups, ∃ d : yaml_document, g = d.events := by
    intro g hg
    obtain ⟨⟨j, hjl⟩, rfl⟩ := List.mem_iff_get.mp hg
    obtain ⟨sta, stb, hd, _, he⟩ := hj j (by omega)
    have hget : groups.getD j [] = groups.get ⟨j, hjl⟩ := by
      simp [List.getD_eq_getElem?_getD, List.getElem?_eq_getElem hjl]
    rw [hget] at he
    refine ymx_dump_document_grammatical _ emitter sta stb docs_array j _ hd he ?_
    intro e he2
    refine hanch e ?_
    rw [hem]
    refine List.mem_cons_of_mem _ (List.mem_append_left _ ?_)
    exact List.mem_flatten.mpr ⟨_, hg, he2⟩
  obtain ⟨ds, hdl, hfl⟩ := yaml_document.docs_of_groups groups hall
  refine ⟨ds, by omega, ?_⟩
  rw [hem, hfl]
  rfl
/-- With an emitter that takes no alias event without an anchor, no such event
is among the events of a successful dump. -/
theorem ymx_dump_stream_anchored (emitter : yaml_emitter_t)
    (hsink : ∀ taken : List yaml_event_t, emitter.accept taken (.alias none) = false)
    (docs_array out : mxArray) (st : ymx_dump_state)
    (h : ymx_dump_stream emitter docs_array = .ok out st) :
    ∀ e ∈ st.emitted, e ≠ .alias none := by
  refine ymx_dump_stream_invariant emitter (fun s => ∀ e ∈ s.emitted, e ≠ .alias none)
    ?_ (fun s ws hI => hI) (by intro e he; simp [ymx_dump_state_init] at he)
    docs_array out st h
  intro s e s' hI he
  have hacc : emitter.accept s.emitted e = true := by
    unfold ymx_emit at he
    by_cases ha : emitter.accept s.emitted e = true
    · exact ha
    · simp [ha] at he
  intro x hx
  rw [(ymx_emit_ok emitter s s' e he).1] at hx
  rcases List.mem_append.mp hx with hx | hx
  · exact hI x hx
  · rw [List.mem_singleton] at hx
    subst hx
    intro hx
    rw [hx, hsink] at hacc
    exact absurd hacc (by decide)

/-- C31. Dump output is always loadable: whenever the dump of a document array
succeeds, the events taken by the emitter are a grammatical event sequence:
StreamStart, one group DocumentStart, node subtree, DocumentEnd for each element
of the array, and StreamEnd, where a node subtree is a Scalar event, an Alias
event, or a SequenceStart (MappingStart) event, the subtrees of the children
(of keys and values, in pairs) and the matching end event.  The load of these
events returns (no abort), with as many documents as the array has elements:
the null result for an array with no element, else an array with that number
of elements.  The emitter is one that takes no Alias event without an anchor, as
libyaml does. -/
theorem C31_dump_output_loadable (emitter : yaml_emitter_t)
    (hsink : ∀ taken : List yaml_event_t, emitter.accept taken (.alias none) = false)
    (docs_array out : mxArray) (st : ymx_dump_state)
    (hdump : ymx_dump_stream emitter docs_array = .ok out st) :
    ∃ ds : List yaml_document,
      ds.length = mxGetNumberOfElements docs_array
      ∧ st.emitted = yaml_stream_events ds
      ∧ (∀ rest : yaml_parser_t,
          ymx_load_stream (st.emitted.map some ++ rest)
            = .ok (if ds.length ≠ 0 then some (yaml_document.loaded_array ds) else none))
      ∧ (ds.length ≠ 0 →
          mxGetNumberOfElements (yaml_document.loaded_array ds)
            = mxGetNumberOfElements docs_array) := by
  obtain ⟨ds, hlen, hem⟩ := ymx_dump_stream_grammatical emitter docs_array out st hdump
    (ymx_dump_stream_anchored emitter hsink docs_array out st hdump)
  refine ⟨ds, hlen, hem, ?_, ?_⟩
  · intro rest
    rw [hem, ymx_load_stream_grammatical, ymx_docs_array_loaded]
  · intro _
    rw [← hlen]
    simp [yaml_document.loaded_array, mxGetNumberOfElements, mxArray.dims]

/-- The premises of `C31_dump_output_loadable` hold for the emitter
`ymx_example_anchor_checking_emitter` and the array the loader builds from the
two documents of `ymx_example_two_documents`: the dump succeeds, and the events
emitted are a grammatical sequence of two documents that loads as an array of
two elements. -/
theorem C31_dump_output_loadable_witness :
    (∀ taken : List yaml_event_t,
      ymx_example_anchor_checking_emitter.accept taken (.alias none) = false)
    ∧ ymx_dump_stream ymx_example_anchor_checking_emitter
        (yaml_document.loaded_array ymx_example_two_documents)
      = .ok (mxCreateString [])
          { ymx_dump_state_init with
            emitted := [.stream_start,
              .document_start none [] 1, .scalar none (some [63]) (some [97]) 1 1 0 1,
              .document_end 1,
              .document_start none [] 0, .scalar none (some [63]) (some [98]) 1 1 0 1,
              .document_end 1,
              .stream_end] }
    ∧ ∃ ds : List yaml_document,
      ds.length = mxGetNumberOfElements (yaml_document.loaded_array ymx_example_two_documents)
      ∧ [yaml_event_t.stream_start,
          .document_start none [] 1, .scalar none (some [63]) (some [97]) 1 1 0 1,
          .document_end 1,
          .document_start none [] 0, .scalar none (some [63]) (some [98]) 1 1 0 1,
          .document_end 1,
          .stream_end] = yaml_stream_events ds
      ∧ (∀ rest : yaml_parser_t,
          ymx_load_stream
              ([yaml_event_t.stream_start,
                .document_start none [] 1, .scalar none (some [63]) (some [97]) 1 1 0 1,
                .document_end 1,
                .document_start none [] 0, .scalar none (some [63]) (some [98]) 1 1 0 1,
                .document_end 1,
                .stream_end].map some ++ rest)
            = .ok (if ds.length ≠ 0 then some (yaml_document.loaded_array ds) else none))
      ∧ (ds.length ≠ 0 →
          mxGetNumberOfElements (yaml_document.loaded_array ds)
            = mxGetNumberOfElements (yaml_document.loaded_array ymx_example_two_documents)) :=
  ⟨fun _ => rfl, by decide,
    C31_dump_output_loadable ymx_example_anchor_checking_emitter (fun _ => rfl)
      (yaml_document.loaded_array ymx_example_two_documents) (mxCreateString [])
      { ymx_dump_state_init with
        emitted := [.stream_start,
          .document_start none [] 1, .scalar none (some [63]) (some [97]) 1 1 0 1,
          .document_end 1,
          .document_start none [] 0, .scalar none (some [63]) (some [98]) 1 1 0 1,
          .document_end 1,
          .stream_end] }
      (by decide)⟩
theorem yaml_subtree.reemitted_items_eq (items : List yaml_subtree) :
    yaml_subtree.reemitted_items items = (items.map (fun c => c.reemitted)).flatten := by
  induction items with
  | nil => rfl
  | cons c cs ih => simp [yaml_subtree.reemitted_items, ih]

theorem yaml_subtree.reemitted_pairs_eq (pairs : List (yaml_subtree × yaml_subtree)) :
    yaml_subtree.reemitted_pairs pairs
      = (((pairs.map (fun p => [p.1, p.2])).flatten).map (fun c => c.reemitted)).flatten := by
  induction pairs with
  | nil => rfl
  | cons p ps ih =>
    obtain ⟨k, v⟩ := p
    simp [yaml_subtree.reemitted_pairs, ih]

theorem yaml_subtree.valued_of_mem_items (items : List yaml_subtree)
    (h : yaml_subtree.valued_items items = true) : ∀ c ∈ items, c.valued = true := by
  induction items with
  | nil => intro c hc; simp at hc
  | cons a cs ih =>
    simp only [yaml_subtree.valued_items, Bool.and_eq_true] at h
    intro c hc
    rcases List.mem_cons.mp hc with rfl | hc
    · exact h.1
    · exact ih h.2 c hc

theorem yaml_subtree.valued_of_mem_pairs (pairs : List (yaml_subtree × yaml_subtree))
    (h : yaml_subtree.valued_pairs pairs = true) :
    ∀ c ∈ (pairs.map (fun p => [p.1, p.2])).flatten, c.valued = true := by
  induction pairs with
  | nil => intro c hc; simp at hc
  | cons p ps ih =>
    obtain ⟨k, v⟩ := p
    simp only [yaml_subtree.valued_pairs, Bool.and_eq_true] at h
    intro c hc
    simp only [List.map_cons, List.flatten_cons, List.cons_append, List.nil_append,
      List.mem_cons] at hc
    rcases hc with rfl | rfl | hc
    · exact h.1.1
    · exact h.1.2
    · exact ih h.2 c hc

/-- The dumper on what the loader builds from a subtree whose scalar events
carry a value: the dump of an array element that holds the node `t.loaded`
amounts to handing the events `t.reemitted` to the emitter, in order, up to the
first one that fails. -/
theorem ymx_dump_node_loaded_valued : ∀ (t : yaml_subtree), t.valued = true →
    ∀ (fuel : Nat) (emitter : yaml_emitter_t) (st : ymx_dump_state) (arr : mxArray)
      (ind : Nat),
      (∀ k, mxGetFieldByNumber arr ind k = t.loaded.fields.getD k none) →
      2 * mxArray.depth_fields t.loaded.fields + 2 ≤ fuel →
      ymx_dump_node fuel emitter st arr ind = ymx_emit_all emitter st t.reemitted
  | .scalar a t v l p q s, hd, fuel, emitter, st, arr, ind, harr, hfuel => by
    obtain ⟨f, rfl⟩ : ∃ f, fuel = f + 1 := ⟨fuel - 1, by omega⟩
    simp only [yaml_subtree.valued] at hd
    obtain ⟨w, rfl⟩ := Option.isSome_iff_exists.mp hd
    have h0 : mxGetFieldByNumber arr ind YMX_NODE_FIELD_TYPE
        = some (ymx_create_int_scalar YMX_NODE_TYPE_SCALAR) := harr _
    have h1 : mxGetFieldByNumber arr ind YMX_NODE_FIELD_VALUE
        = some (mxCreateString (c_str_of_buffer (w.take l ++ [0]))) := harr _
    have h2 : mxGetFieldByNumber arr ind YMX_NODE_FIELD_TAG
        = some (mxCreateString
            (t.getD (if s = YAML_PLAIN_SCALAR_STYLE then [63] else [33]))) := by
      rw [harr]
      cases t with
      | some t => rfl
      | none =>
        by_cases hs : s = YAML_PLAIN_SCALAR_STYLE
        · simp [yaml_subtree.loaded, ymx_node_t.fields, YMX_NODE_FIELD_TAG, hs]
        · simp [yaml_subtree.loaded, ymx_node_t.fields, YMX_NODE_FIELD_TAG, hs]
    have h3 : mxGetFieldByNumber arr ind YMX_NODE_FIELD_ANCHOR = a.map mxCreateString :=
      harr _
    have h4 : mxGetFieldByNumber arr ind YMX_NODE_FIELD_IMPLICIT
        = some (ymx_create_int_scalar (if p ≠ 0 then YMX_SCALAR_IMPLICIT_PLAIN
            else if q ≠ 0 then YMX_SCALAR_IMPLICIT_QUOTED else YMX_SCALAR_IMPLICIT_FALSE)) := by
      rw [harr]
      by_cases hp : p = 0
      · by_cases hq : q = 0
        · simp [yaml_subtree.loaded, ymx_node_t.fields, YMX_NODE_FIELD_IMPLICIT, hp, hq]
        · simp [yaml_subtree.loaded, ymx_node_t.fields, YMX_NODE_FIELD_IMPLICIT, hp, hq]
      · simp [yaml_subtree.loaded, ymx_node_t.fields, YMX_NODE_FIELD_IMPLICIT, hp]
    have h5 : mxGetFieldByNumber arr ind YMX_NODE_FIELD_STYLE
        = some (ymx_create_int_scalar s) := harr _
    rw [ymx_dump_node_dispatch f emitter st arr ind _ _ _ _ _
      (by rw [h2]; exact ymx_assemble_string_created _)
      (by rw [h3]; exact ymx_assemble_string_created_opt a) h4 h5 h0]
    have hval := ymx_is_valid_string_mxCreateString (c_str_of_buffer (w.take l ++ [0]))
    simp only [mxCreateString] at hval
    simp only [if_true, h1, ymx_dump_scalar, hval,
      Bool.not_true, Bool.false_eq_true, if_false, mxArrayToString, mxCreateString,
      c_str_of_buffer_idem, Option.getD_some, yaml_subtree.reemitted, ymx_emit_all_singleton]
    by_cases hp : p = 0
    · by_cases hq : q = 0
      · simp [hp, hq, YMX_SCALAR_IMPLICIT_PLAIN, YMX_SCALAR_IMPLICIT_QUOTED,
          YMX_SCALAR_IMPLICIT_FALSE]
      · simp [hp, hq, YMX_SCALAR_IMPLICIT_PLAIN, YMX_SCALAR_IMPLICIT_QUOTED,
          YMX_SCALAR_IMPLICIT_FALSE]
    · simp [hp, YMX_SCALAR_IMPLICIT_PLAIN, YMX_SCALAR_IMPLICIT_QUOTED,
        YMX_SCALAR_IMPLICIT_FALSE]
  | .alias a, hd, fuel, emitter, st, arr, ind, harr, hfuel => by
    obtain ⟨f, rfl⟩ : ∃ f, fuel = f + 1 := ⟨fuel - 1, by omega⟩
    have h0 : mxGetFieldByNumber arr ind YMX_NODE_FIELD_TYPE
        = some (ymx_create_int_scalar YMX_NODE_TYPE_ALIAS) := harr _
    have h2 : mxGetFieldByNumber arr ind YMX_NODE_FIELD_TAG = none := harr _
    have h3 : mxGetFieldByNumber arr ind YMX_NODE_FIELD_ANCHOR = some (mxCreateString a) :=
      harr _
    have h4 : mxGetFieldByNumber arr ind YMX_NODE_FIELD_IMPLICIT
        = some (ymx_create_int_scalar 0) := harr _
    have h5 : mxGetFieldByNumber arr ind YMX_NODE_FIELD_STYLE
        = some (ymx_create_int_scalar 0) := harr _
    rw [ymx_dump_node_dispatch f emitter st arr ind none (ymx_assembled a) _ _ _
      (by rw [h2]; rfl)
      (by rw [h3, ymx_assemble_string_created]) h4 h5 h0]
    simp [YMX_NODE_TYPE_ALIAS, YMX_NODE_TYPE_SCALAR, YMX_NODE_TYPE_SEQUENCE,
      YMX_NODE_TYPE_MAPPING, ymx_dump_alias, yaml_subtree.reemitted, ymx_emit_all_singleton]
  | .sequence a t i s items, hd, fuel, emitter, st, arr, ind, harr, hfuel => by
    obtain ⟨f, rfl⟩ : ∃ f, fuel = f + 2 := ⟨fuel - 2, by omega⟩
    simp only [yaml_subtree.valued] at hd
    have h0 : mxGetFieldByNumber arr ind YMX_NODE_FIELD_TYPE
        = some (ymx_create_int_scalar YMX_NODE_TYPE_SEQUENCE) := harr _
    have h1 : mxGetFieldByNumber arr ind YMX_NODE_FIELD_VALUE
        = (yaml_subtree.sequence a t i s items).loaded.value := harr _
    have h2 : mxGetFieldByNumber arr ind YMX_NODE_FIELD_TAG
        = some (mxCreateString (t.getD [63])) := harr _
    have h3 : mxGetFieldByNumber arr ind YMX_NODE_FIELD_ANCHOR = a.map mxCreateString :=
      harr _
    have h4 : mxGetFieldByNumber arr ind YMX_NODE_FIELD_IMPLICIT
        = some (ymx_create_int_scalar i) := harr _
    have h5 : mxGetFieldByNumber arr ind YMX_NODE_FIELD_STYLE
        = some (ymx_create_int_scalar s) := harr _
    rw [ymx_dump_node_dispatch (f + 1) emitter st arr ind _ _ _ _ _
      (by rw [h2]; exact ymx_assemble_string_created _)
      (by rw [h3]; exact ymx_assemble_string_created_opt a) h4 h5 h0]
    simp only [YMX_NODE_TYPE_SEQUENCE, YMX_NODE_TYPE_SCALAR, if_true,
      show ¬ ((2 : Int) = 1) by decide, if_false, h1]
    have ih : ∀ c ∈ items, ∀ (st : ymx_dump_state) (arr : mxArray) (ind : Nat),
        (∀ k, mxGetFieldByNumber arr ind k = c.loaded.fields.getD k none) →
        ymx_dump_node f emitter st arr ind = ymx_emit_all emitter st c.reemitted := by
      intro c hc st' arr' ind' harr'
      have hne : items.length ≠ 0 := by
        intro h0; rw [List.length_eq_zero.mp h0] at hc; simp at hc
      have hdc := mxArray.depth_fields_child_of items (fun c => c.loaded.fields) c hc
        [1, items.length] YMX_NODE_FIELD_STRS (yaml_subtree.sequence a t i s items).loaded.fields
        (by simp [yaml_subtree.loaded, ymx_node_t.fields, hne, yaml_subtree.loaded_items_map])
      simp only [] at hdc
      exact ymx_dump_node_loaded_valued c (yaml_subtree.valued_of_mem_items items hd c hc) f emitter
        st' arr' ind' harr' (by omega)
    have hel := ymx_dump_node_elements_of items (fun c => c.loaded.fields)
      (fun c => c.reemitted) f emitter [1, items.length] YMX_NODE_FIELD_STRS ih
    rw [ymx_dump_sequence_emit_all f emitter st _ _ _ _ _
      (items.map (fun c => c.reemitted))]
    · simp [yaml_subtree.reemitted, yaml_subtree.reemitted_items_eq]
    · by_cases hne : items.length = 0
      · left
        have : items = [] := List.length_eq_zero.mp hne
        subst this
        simp [yaml_subtree.loaded]
      · right
        refine ⟨.struct [1, items.length] YMX_NODE_FIELD_STRS
            (items.map (fun c => c.loaded.fields)),
          by simp [yaml_subtree.loaded, hne, yaml_subtree.loaded_items_map], ?_,
          ymx_is_valid_node_array_struct _ _, rfl, rfl, ?_, hel⟩
        · simp [mxIsEmpty, mxGetNumberOfElements, mxArray.dims, hne]
        · simp [mxGetNumberOfElements, mxArray.dims]
  | .mapping a t i s pairs, hd, fuel, emitter, st, arr, ind, harr, hfuel => by
    obtain ⟨f, rfl⟩ : ∃ f, fuel = f + 2 := ⟨fuel - 2, by omega⟩
    simp only [yaml_subtree.valued] at hd
    have h0 : mxGetFieldByNumber arr ind YMX_NODE_FIELD_TYPE
        = some (ymx_create_int_scalar YMX_NODE_TYPE_MAPPING) := harr _
    have h1 : mxGetFieldByNumber arr ind YMX_NODE_FIELD_VALUE
        = (yaml_subtree.mapping a t i s pairs).loaded.value := harr _
    have h2 : mxGetFieldByNumber arr ind YMX_NODE_FIELD_TAG
        = some (mxCreateString (t.getD [63])) := harr _
    have h3 : mxGetFieldByNumber arr ind YMX_NODE_FIELD_ANCHOR = a.map mxCreateString :=
      harr _
    have h4 : mxGetFieldByNumber arr ind YMX_NODE_FIELD_IMPLICIT
        = some (ymx_create_int_scalar i) := harr _
    have h5 : mxGetFieldByNumber arr ind YMX_NODE_FIELD_STYLE
        = some (ymx_create_int_scalar s) := harr _
    rw [ymx_dump_node_dispatch (f + 1) emitter st arr ind _ _ _ _ _
      (by rw [h2]; exact ymx_assemble_string_created _)
      (by rw [h3]; exact ymx_assemble_string_created_opt a) h4 h5 h0]
    simp only [YMX_NODE_TYPE_SEQUENCE, YMX_NODE_TYPE_SCALAR, YMX_NODE_TYPE_MAPPING, if_true,
      show ¬ ((3 : Int) = 1) by decide, show ¬ ((3 : Int) = 2) by decide, if_false, h1]
    have ih : ∀ c ∈ (pairs.map (fun p => [p.1, p.2])).flatten,
        ∀ (st : ymx_dump_state) (arr : mxArray) (ind : Nat),
        (∀ k, mxGetFieldByNumber arr ind k = c.loaded.fields.getD k none) →
        ymx_dump_node f emitter st arr ind = ymx_emit_all emitter st c.reemitted := by
      intro c hc st' arr' ind' harr'
      have hne : pairs.length ≠ 0 := by
        intro h0; rw [List.length_eq_zero.mp h0] at hc; simp at hc
      have hdc := mxArray.depth_fields_child_of (pairs.map (fun p => [p.1, p.2])).flatten
        (fun c => c.loaded.fields) c hc
        [2, pairs.length] YMX_NODE_FIELD_STRS (yaml_subtree.mapping a t i s pairs).loaded.fields
        (by simp [yaml_subtree.loaded, ymx_node_t.fields, hne, yaml_subtree.loaded_pairs_map])
      simp only [] at hdc
      exact ymx_dump_node_loaded_valued c (yaml_subtree.valued_of_mem_pairs pairs hd c hc) f emitter
        st' arr' ind' harr' (by omega)
    have hel := ymx_dump_node_elements_of (pairs.map (fun p => [p.1, p.2])).flatten
      (fun c => c.loaded.fields)
      (fun c => c.reemitted) f emitter [2, pairs.length] YMX_NODE_FIELD_STRS ih
    rw [ymx_dump_mapping_emit_all f emitter st _ _ _ _ _
      (((pairs.map (fun p => [p.1, p.2])).flatten).map (fun c => c.reemitted))]
    · simp [yaml_subtree.reemitted, yaml_subtree.reemitted_pairs_eq]
    · by_cases hne : pairs.length = 0
      · left
        have : pairs = [] := List.length_eq_zero.mp hne
        subst this
        simp [yaml_subtree.loaded]
      · right
        refine ⟨.struct [2, pairs.length] YMX_NODE_FIELD_STRS
            (((pairs.map (fun p => [p.1, p.2])).flatten).map (fun c => c.loaded.fields)),
          by simp [yaml_subtree.loaded, hne, yaml_subtree.loaded_pairs_map], ?_,
          ymx_is_valid_node_array_struct _ _, rfl, rfl, ?_, hel⟩
        · simp [mxIsEmpty, mxGetNumberOfElements, mxArray.dims, hne]
        · simp only [mxGetNumberOfElements, mxArray.dims, List.prod_cons, List.prod_nil,
            Nat.mul_one, List.length_map, yaml_subtree.flat_subtree_pairs_length]
termination_by t => sizeOf t
decreasing_by
  all_goals simp_wf
  · have := List.sizeOf_lt_of_mem hc
    omega
  · simp only [List.mem_flatten, List.mem_map] at hc
    obtain ⟨l, ⟨p, hp, rfl⟩, hcl⟩ := hc
    have h1 := List.sizeOf_lt_of_mem hp
    have h2 : sizeOf c < sizeOf p := by
      obtain ⟨k, v⟩ := p
      simp only [List.mem_cons, List.mem_singleton, List.not_mem_nil, or_false] at hcl
      rcases hcl with rfl | rfl
      · simp; omega
      · simp
    omega
/-- The dumper on what the loader builds from a document whose scalar events
carry a value and whose tag directives have no empty handle or prefix: the dump
of the element amounts to handing the events `d.reemitted` to the emitter. -/
theorem ymx_dump_document_loaded_valued (d : yaml_document) (hd : d.valued = true)
    (fuel : Nat)
    (emitter : yaml_emitter_t) (st : ymx_dump_state) (docs_array : mxArray) (ind : Nat)
    (harr : ∀ k, mxGetFieldByNumber docs_array ind k = d.loaded.fields.getD k none)
    (hfuel : 2 * mxArray.depth_fields d.root.loaded.fields + 2 ≤ fuel) :
    ymx_dump_document fuel emitter st docs_array ind
      = ymx_emit_all emitter st d.reemitted := by
  simp only [yaml_document.valued, Bool.and_eq_true] at hd
  have h0 : mxGetFieldByNumber docs_array ind YMX_DOC_FIELD_ROOT
      = some (.struct [1, 1] YMX_NODE_FIELD_STRS [d.root.loaded.fields]) := harr _
  have h1 : mxGetFieldByNumber docs_array ind YMX_DOC_FIELD_VERSION
      = d.loaded.version := harr _
  have hver : ymx_assemble_version d.loaded.version = some d.version_directive :=
    ymx_assemble_version_loaded d.version_directive
  have h2 : mxGetFieldByNumber docs_array ind YMX_DOC_FIELD_TAGDIRS
      = (if d.tag_directives.length ≠ 0 then
          some (.struct [1, d.tag_directives.length] YMX_TAGDIR_FIELD_STRS
            (ymx_tagdirs_elems d.tag_directives))
        else none) := harr _
  have h3 : mxGetFieldByNumber docs_array ind YMX_DOC_FIELD_START_IMPLICIT
      = some (mxCreateLogicalScalar d.start_implicit) := harr _
  have h4 : mxGetFieldByNumber docs_array ind YMX_DOC_FIELD_END_IMPLICIT
      = some (mxCreateLogicalScalar d.end_implicit) := harr _
  have hroot : ymx_is_valid_doc_root
      (some (.struct [1, 1] YMX_NODE_FIELD_STRS [d.root.loaded.fields])) = true := rfl
  have hnode : ∀ st', ymx_dump_node fuel emitter st'
      (.struct [1, 1] YMX_NODE_FIELD_STRS [d.root.loaded.fields]) 0
      = ymx_emit_all emitter st' d.root.reemitted := by
    intro st'
    exact ymx_dump_node_loaded_valued d.root hd.1 fuel emitter st' _ 0 (by intro k; rfl) hfuel
  have hl : ∀ i : Int, mxIsLogicalScalar (mxCreateLogicalScalar i) = true := by
    intro i; rfl
  have hg : ∀ i : Int, mxGetLogicals0 (mxCreateLogicalScalar i) = if i ≠ 0 then 1 else 0 := by
    intro i
    by_cases hi : i = 0
    · subst hi; rfl
    · simp [mxGetLogicals0, mxCreateLogicalScalar, hi]
  simp only [ymx_dump_document, h0, h1, h2, h3, h4, hroot, Bool.not_true, Bool.false_eq_true,
    if_false, ymx_assemble_tagdirs_loaded d.tag_directives hd.2, hver,
    hl, hg, if_true, hnode]
  rw [show d.reemitted
      = [yaml_event_t.document_start d.version_directive
          (d.tag_directives.map
            (fun td => { handle := c_str_of_buffer td.handle, pfx := c_str_of_buffer td.pfx }))
          (if d.start_implicit ≠ 0 then 1 else 0)]
        ++ (d.root.reemitted
          ++ [yaml_event_t.document_end (if d.end_implicit ≠ 0 then 1 else 0)])
      from rfl, ymx_emit_all_append, ymx_emit_all_singleton]
  cases ymx_emit emitter st (.document_start d.version_directive
      (d.tag_directives.map
        (fun td => { handle := c_str_of_buffer td.handle, pfx := c_str_of_buffer td.pfx }))
      (if d.start_implicit ≠ 0 then 1 else 0)) with
  | error msg st1 => rfl
  | fault st1 => rfl
  | diverge => rfl
  | ok u st1 =>
    simp only [ymx_emit_all_append, ymx_emit_all_singleton]

/-- The dumper on the array the loader builds from a list of documents whose
scalar events carry a value and whose tag directives have no empty handle or
prefix: the dump amounts to handing the events `yaml_stream_reemitted ds` to the
emitter; when all are taken, the output string is read from the buffer. -/
theorem ymx_dump_stream_loaded_valued (ds : List yaml_document)
    (hd : ∀ d ∈ ds, d.valued = true) (emitter : yaml_emitter_t) :
    ymx_dump_stream emitter (yaml_document.loaded_array ds)
      = (match ymx_emit_all emitter ymx_dump_state_init
            (yaml_stream_reemitted ds) with
         | .ok _ st =>
           (match ymx_buffer_as_string st.buffer with
            | some str => .ok (mxCreateString str) st
            | none => .fault st)
         | .error msg st => .error msg st
         | .fault st => .fault st
         | .diverge => .diverge) := by
  have hdocs : ∀ j, j < (ds.map yaml_document.reemitted).length → ∀ st,
      ymx_dump_document (2 * (yaml_document.loaded_array ds).depth + 2) emitter st
          (yaml_document.loaded_array ds) (0 + j)
        = ymx_emit_all emitter st ((ds.map yaml_document.reemitted).getD j []) := by
    intro j hj st
    simp only [List.length_map] at hj
    have hget : (ds.map yaml_document.reemitted).getD j []
        = (ds.get ⟨j, hj⟩).reemitted := by
      simp [List.getD_eq_getElem?_getD, List.getElem?_eq_getElem hj]
    have hmem := List.get_mem ds j hj
    rw [hget, Nat.zero_add]
    refine ymx_dump_document_loaded_valued _ (hd _ hmem) _ emitter st _ j ?_ ?_
    · intro k
      simp [yaml_document.loaded_array, mxGetFieldByNumber, List.getD_eq_getElem?_getD,
        List.getElem?_eq_getElem hj]
    · have h1 := mxArray.depth_fields_le_depth_elems (ds.map (fun d => d.loaded.fields))
        (ds.get ⟨j, hj⟩).loaded.fields (List.mem_map_of_mem _ hmem)
      have h2 := mxArray.depth_le_depth_fields (ds.get ⟨j, hj⟩).loaded.fields
        (.struct [1, 1] YMX_NODE_FIELD_STRS [(ds.get ⟨j, hj⟩).root.loaded.fields])
        (by simp [yaml_document.loaded, ymx_document_t.fields])
      simp only [mxArray.depth, mxArray.depth_elems, Nat.max_zero] at h2
      simp only [yaml_document.loaded_array, mxArray.depth]
      omega
  have hloop := fun st => ymx_dump_for_emit_all emitter
    (fun st ind => ymx_dump_document (2 * (yaml_document.loaded_array ds).depth + 2) emitter st
      (yaml_document.loaded_array ds) ind) (ds.map yaml_document.reemitted) 0 st hdocs
  have hnum : mxGetNumberOfElements (yaml_document.loaded_array ds)
      = (ds.map yaml_document.reemitted).length := by
    simp [yaml_document.loaded_array, mxGetNumberOfElements, mxArray.dims]
  have hev : yaml_stream_reemitted ds
      = [yaml_event_t.stream_start]
        ++ ((ds.map yaml_document.reemitted).flatten ++ [yaml_event_t.stream_end]) := rfl
  simp only [ymx_dump_stream, ymx_is_valid_doc_array_struct, yaml_document.loaded_array,
    Bool.not_true, Bool.false_eq_true, if_false] at *
  rw [hev, ymx_emit_all_append, ymx_emit_all_singleton]
  cases ymx_emit emitter ymx_dump_state_init yaml_event_t.stream_start with
  | error msg st1 => rfl
  | fault st1 => rfl
  | diverge => rfl
  | ok u st1 =>
    simp only [hnum, hloop, ymx_emit_all_append, ymx_emit_all_singleton]
    cases ymx_emit_all emitter st1 (ds.map yaml_document.reemitted).flatten with
    | error msg st2 => rfl
    | fault st2 => rfl
    | diverge => rfl
    | ok u st2 =>
      simp only []
      cases ymx_emit emitter st2 yaml_event_t.stream_end with
      | error msg st3 => rfl
      | fault st3 => rfl
      | diverge => rfl
      | ok u st3 => rfl

/-- Handing events to the emitter raises no warning, and aborts only with the
message of `ymx_emit`. -/
theorem ymx_emit_all_keeps (emitter : yaml_emitter_t) (evs : List yaml_event_t) :
    ∀ st : ymx_dump_state,
      (∀ st', (ymx_emit_all emitter st evs).state = some st' → st'.warnings = st.warnings)
      ∧ (∀ msg, (ymx_emit_all emitter st evs).message = some msg → msg = ymx_emit_error)
      ∧ ymx_emit_all emitter st evs ≠ .diverge := by
  induction evs with
  | nil =>
    intro st
    refine ⟨?_, ?_, ?_⟩
    · intro st' h
      simp only [ymx_emit_all, ymx_dump_result.state, Option.some.injEq] at h
      rw [← h]
    · intro msg h
      simp [ymx_emit_all, ymx_dump_result.message] at h
    · simp [ymx_emit_all]
  | cons e es ih =>
    intro st
    simp only [ymx_emit_all]
    cases he : ymx_emit emitter st e with
    | ok u st1 =>
      simp only []
      obtain ⟨h1, h2, h3⟩ := ih st1
      refine ⟨?_, h2, h3⟩
      intro st' h
      rw [h1 st' h, (ymx_emit_ok emitter st st1 e he).2]
    | error msg st1 =>
      obtain ⟨hm, hs⟩ := ymx_emit_error_message emitter st st1 e msg he
      refine ⟨?_, ?_, by simp⟩
      · intro st' h
        simp only [ymx_dump_result.state, Option.some.injEq] at h
        rw [← h, hs]
      · intro m h
        simp only [ymx_dump_result.message, Option.some.injEq] at h
        rw [← h, hm]
        rfl
    | fault st1 =>
      refine ⟨?_, ?_, by simp⟩
      · intro st' h
        simp only [ymx_dump_result.state, Option.some.injEq] at h
        subst h
        unfold ymx_emit at he
        split_ifs at he
        split at he
        · simp at he
        · simp only [ymx_dump_result.fault.injEq] at he
          rw [← he]
      · intro m h
        simp [ymx_dump_result.message] at h
    | diverge =>
      exact absurd he (ymx_emit_returns emitter st e)
/-- The node the loader builds from a subtree: its type is one of the codes
1..4, its implicit and style members are int32 scalars; the value of a scalar
that carries one is a string, the value of a sequence with children is a 1-row
node array with one element for each child, the value of a mapping with pairs is
a 2-row node array with one column for each pair. -/
theorem yaml_subtree.loaded_shape (t : yaml_subtree) :
    (∃ c : Int, t.loaded.type = some (ymx_create_int_scalar c) ∧ 1 ≤ c ∧ c ≤ 4)
    ∧ (∃ i : Int, t.loaded.implicit = some (ymx_create_int_scalar i))
    ∧ (∃ s : Int, t.loaded.style = some (ymx_create_int_scalar s))
    ∧ (∀ a tg v l p q s, t = .scalar a tg (some v) l p q s →
        ∃ str, t.loaded.value = some (mxCreateString str)
          ∧ ymx_is_valid_string (mxCreateString str) = true)
    ∧ (∀ a tg i s items, t = .sequence a tg i s items → items ≠ [] →
        ∃ arr, t.loaded.value = some arr
          ∧ ymx_is_valid_node_array arr = true
          ∧ mxGetNumberOfDimensions arr = 2 ∧ mxGetM arr = 1
          ∧ mxGetNumberOfElements arr = items.length)
    ∧ (∀ a tg i s pairs, t = .mapping a tg i s pairs → pairs ≠ [] →
        ∃ arr, t.loaded.value = some arr
          ∧ ymx_is_valid_node_array arr = true
          ∧ mxGetNumberOfDimensions arr = 2 ∧ mxGetM arr = 2
          ∧ mxGetNumberOfElements arr = 2 * pairs.length) := by
  refine ⟨?_, ?_, ?_, ?_, ?_, ?_⟩
  · match t with
    | .scalar a tg v l p q s => exact ⟨1, rfl, by decide, by decide⟩
    | .alias a => exact ⟨4, rfl, by decide, by decide⟩
    | .sequence a tg i s items => exact ⟨2, rfl, by decide, by decide⟩
    | .mapping a tg i s pairs => exact ⟨3, rfl, by decide, by decide⟩
  · match t with
    | .scalar a tg v l p q s =>
      by_cases hp : p = 0
      · by_cases hq : q = 0
        · exact ⟨YMX_SCALAR_IMPLICIT_FALSE, by simp [yaml_subtree.loaded, hp, hq]⟩
        · exact ⟨YMX_SCALAR_IMPLICIT_QUOTED, by simp [yaml_subtree.loaded, hp, hq]⟩
      · exact ⟨YMX_SCALAR_IMPLICIT_PLAIN, by simp [yaml_subtree.loaded, hp]⟩
    | .alias a => exact ⟨_, rfl⟩
    | .sequence a tg i s items => exact ⟨_, rfl⟩
    | .mapping a tg i s pairs => exact ⟨_, rfl⟩
  · match t with
    | .scalar a tg v l p q s => exact ⟨_, rfl⟩
    | .alias a => exact ⟨_, rfl⟩
    | .sequence a tg i s items => exact ⟨_, rfl⟩
    | .mapping a tg i s pairs => exact ⟨_, rfl⟩
  · intro a tg v l p q s ht
    subst ht
    exact ⟨_, rfl, ymx_is_valid_string_mxCreateString _⟩
  · intro a tg i s items ht hne
    subst ht
    have hl : items.length ≠ 0 := fun h => hne (List.length_eq_zero.mp h)
    refine ⟨.struct [1, items.length] YMX_NODE_FIELD_STRS (yaml_subtree.loaded_items items),
      by simp [yaml_subtree.loaded, hl], rfl, rfl, rfl, ?_⟩
    simp [mxGetNumberOfElements, mxArray.dims]
  · intro a tg i s pairs ht hne
    subst ht
    have hl : pairs.length ≠ 0 := fun h => hne (List.length_eq_zero.mp h)
    refine ⟨.struct [2, pairs.length] YMX_NODE_FIELD_STRS (yaml_subtree.loaded_pairs pairs),
      by simp [yaml_subtree.loaded, hl], rfl, rfl, rfl, ?_⟩
    simp [mxGetNumberOfElements, mxArray.dims]

set_option maxHeartbeats 1000000 in
/-- C32. Load output always passes validation: for every grammatical event
sequence with at least one document, in which no tag directive has an empty
handle or prefix (and every Scalar event carries its value, as the Scalar event
of the specification does), the load returns the document array, and the dump
of that array raises no structural error and no warning: with every emitter it
amounts to handing events to the emitter, so it aborts only where the emitter
refuses an event, and with an emitter that takes every event it succeeds.
Every node the loader builds has a type code in 1..4 and int32 scalars as
implicit and style members; a Scalar has a string as value, a Sequence with
children a 1-row node array, a Mapping with pairs a 2-row node array. -/
theorem C32_load_output_validates (ds : List yaml_document) (hne : ds ≠ [])
    (htd : ∀ d ∈ ds,
      d.tag_directives.all (fun td => td.handle.length != 0 && td.pfx.length != 0) = true)
    (hvalue : ∀ d ∈ ds, d.root.valued = true)
    (rest : yaml_parser_t) :
    ymx_load_stream ((yaml_stream_events ds).map some ++ rest)
        = .ok (some (yaml_document.loaded_array ds))
    ∧ mxGetNumberOfElements (yaml_document.loaded_array ds) = ds.length
    ∧ (∀ emitter : yaml_emitter_t,
        ymx_dump_stream emitter (yaml_document.loaded_array ds)
          = (match ymx_emit_all emitter ymx_dump_state_init (yaml_stream_reemitted ds) with
             | .ok _ st =>
               (match ymx_buffer_as_string st.buffer with
                | some str => .ok (mxCreateString str) st
                | none => .fault st)
             | .error msg st => .error msg st
             | .fault st => .fault st
             | .diverge => .diverge))
    ∧ (∀ (emitter : yaml_emitter_t) (msg : String) (st : ymx_dump_state),
        ymx_dump_stream emitter (yaml_document.loaded_array ds) = .error msg st →
        msg = ymx_emit_error
        ∧ msg ∉ "Invalid document array" :: (ymx_document_errors ++ ymx_node_errors)
        ∧ st.warnings = [])
    ∧ (∀ (emitter : yaml_emitter_t) (out : mxArray) (st : ymx_dump_state),
        ymx_dump_stream emitter (yaml_document.loaded_array ds) = .ok out st →
        st.warnings = [] ∧ st.emitted = yaml_stream_reemitted ds)
    ∧ (∀ (emitter : yaml_emitter_t) (st : ymx_dump_state),
        ymx_dump_stream emitter (yaml_document.loaded_array ds) = .fault st →
        st.warnings = [])
    ∧ ymx_dump_stream yaml_emitter_accept_all (yaml_document.loaded_array ds)
        = .ok (mxCreateString [])
            { ymx_dump_state_init with emitted := yaml_stream_reemitted ds }
    ∧ (∀ t : yaml_subtree,
        (∃ c : Int, t.loaded.type = some (ymx_create_int_scalar c) ∧ 1 ≤ c ∧ c ≤ 4)
        ∧ (∃ i : Int, t.loaded.implicit = some (ymx_create_int_scalar i))
        ∧ (∃ s : Int, t.loaded.style = some (ymx_create_int_scalar s))
        ∧ (∀ a tg v l p q s, t = .scalar a tg (some v) l p q s →
            ∃ str, t.loaded.value = some (mxCreateString str)
              ∧ ymx_is_valid_string (mxCreateString str) = true)
        ∧ (∀ a tg i s items, t = .sequence a tg i s items → items ≠ [] →
            ∃ arr, t.loaded.value = some arr
              ∧ ymx_is_valid_node_array arr = true
              ∧ mxGetNumberOfDimensions arr = 2 ∧ mxGetM arr = 1
              ∧ mxGetNumberOfElements arr = items.length)
        ∧ (∀ a tg i s pairs, t = .mapping a tg i s pairs → pairs ≠ [] →
            ∃ arr, t.loaded.value = some arr
              ∧ ymx_is_valid_node_array arr = true
              ∧ mxGetNumberOfDimensions arr = 2 ∧ mxGetM arr = 2
              ∧ mxGetNumberOfElements arr = 2 * pairs.length)) := by
  have hval : ∀ d ∈ ds, d.valued = true := by
    intro d hd
    simp only [yaml_document.valued, Bool.and_eq_true]
    exact ⟨hvalue d hd, htd d hd⟩
  have hlen : ds.length ≠ 0 := fun h => hne (List.length_eq_zero.mp h)
  have hclosed := ymx_dump_stream_loaded_valued ds hval
  have hinit : ymx_dump_state_init.warnings = [] := rfl
  refine ⟨?_, ?_, hclosed, ?_, ?_, ?_, ?_, yaml_subtree.loaded_shape⟩
  · rw [ymx_load_stream_grammatical, ymx_docs_array_loaded]
    simp [hlen]
  · simp [yaml_document.loaded_array, mxGetNumberOfElements, mxArray.dims]
  · intro emitter msg st h
    rw [hclosed] at h
    obtain ⟨h1, h2, _⟩ := ymx_emit_all_keeps emitter (yaml_stream_reemitted ds)
      ymx_dump_state_init
    cases he : ymx_emit_all emitter ymx_dump_state_init (yaml_stream_reemitted ds) with
    | ok u st1 =>
      rw [he] at h
      simp only [] at h
      cases hb : ymx_buffer_as_string st1.buffer with
      | none => rw [hb] at h; simp at h
      | some str => rw [hb] at h; simp at h
    | error m st1 =>
      rw [he] at h h1 h2
      simp only [ymx_dump_result.error.injEq] at h
      obtain ⟨rfl, rfl⟩ := h
      have hm := h2 m rfl
      refine ⟨hm, ?_, by rw [h1 st1 rfl, hinit]⟩
      rw [hm]
      decide
    | fault st1 => rw [he] at h; simp at h
    | diverge => rw [he] at h; simp at h
  · intro emitter out st h
    rw [hclosed] at h
    cases he : ymx_emit_all emitter ymx_dump_state_init (yaml_stream_reemitted ds) with
    | ok u st1 =>
      rw [he] at h
      simp only [] at h
      obtain ⟨e1, e2⟩ := ymx_emit_all_ok emitter _ _ _ he
      cases hb : ymx_buffer_as_string st1.buffer with
      | none => rw [hb] at h; simp at h
      | some str =>
        rw [hb] at h
        simp only [ymx_dump_result.ok.injEq] at h
        rw [← h.2, e2, e1]
        exact ⟨rfl, rfl⟩
    | error m st1 => rw [he] at h; simp at h
    | fault st1 => rw [he] at h; simp at h
    | diverge => rw [he] at h; simp at h
  · intro emitter st h
    rw [hclosed] at h
    obtain ⟨h1, _, _⟩ := ymx_emit_all_keeps emitter (yaml_stream_reemitted ds)
      ymx_dump_state_init
    cases he : ymx_emit_all emitter ymx_dump_state_init (yaml_stream_reemitted ds) with
    | ok u st1 =>
      rw [he] at h h1
      simp only [] at h
      cases hb : ymx_buffer_as_string st1.buffer with
      | none =>
        rw [hb] at h
        simp only [ymx_dump_result.fault.injEq] at h
        rw [← h, h1 st1 rfl, hinit]
      | some str => rw [hb] at h; simp at h
    | error m st1 => rw [he] at h; simp at h
    | fault st1 =>
      rw [he] at h h1
      simp only [ymx_dump_result.fault.injEq] at h
      rw [← h, h1 st1 rfl, hinit]
    | diverge => rw [he] at h; simp at h
  · rw [hclosed, ymx_emit_all_accept_all]
    rfl
/-- The premises of `C32_load_output_validates` hold for the two documents of
`ymx_example_two_documents`: the dump of the array the loader builds from them
succeeds with an emitter that takes every event, with no warning. -/
theorem C32_load_output_validates_witness :
    ymx_example_two_documents ≠ []
    ∧ (∀ d ∈ ymx_example_two_documents,
        d.tag_directives.all (fun td => td.handle.length != 0 && td.pfx.length != 0) = true)
    ∧ (∀ d ∈ ymx_example_two_documents, d.root.valued = true)
    ∧ ymx_dump_stream yaml_emitter_accept_all
        (yaml_document.loaded_array ymx_example_two_documents)
      = .ok (mxCreateString [])
          { ymx_dump_state_init with
            emitted := yaml_stream_reemitted ymx_example_two_documents } :=
  ⟨List.cons_ne_nil _ _,
    by
      intro d hd
      simp only [ymx_example_two_documents, List.mem_cons, List.mem_singleton,
        List.not_mem_nil, or_false] at hd
      rcases hd with rfl | rfl <;> rfl,
    by
      intro d hd
      simp only [ymx_example_two_documents, List.mem_cons, List.mem_singleton,
        List.not_mem_nil, or_false] at hd
      rcases hd with rfl | rfl <;> rfl,
    (C32_load_output_validates ymx_example_two_documents (List.cons_ne_nil _ _)
      (by
        intro d hd
        simp only [ymx_example_two_documents, List.mem_cons, List.mem_singleton,
          List.not_mem_nil, or_false] at hd
        rcases hd with rfl | rfl <;> rfl)
      (by
        intro d hd
        simp only [ymx_example_two_documents, List.mem_cons, List.mem_singleton,
          List.not_mem_nil, or_false] at hd
        rcases hd with rfl | rfl <;> rfl)
      []).2.2.2.2.2.2.1⟩

/-- A Scalar event without a value (a null value pointer, which
`ymx_load_scalar` tests for) is outside the events of the specification: the
load of the grammatical sequence of one such document returns a document whose
root is a scalar node without a value, and the dump of that array aborts with
"Invalid scalar value" after the DocumentStart event. -/
theorem ymx_dump_stream_null_value :
    ymx_load_stream ((yaml_stream_events [ymx_example_null_value_events]).map some)
        = .ok (some (yaml_document.loaded_array [ymx_example_null_value_events]))
    ∧ mxGetNumberOfElements (yaml_document.loaded_array [ymx_example_null_value_events]) = 1
    ∧ ymx_example_null_value_events.tag_directives = []
    ∧ ymx_example_null_value_events.root.loaded.type
        = some (ymx_create_int_scalar YMX_NODE_TYPE_SCALAR)
    ∧ ymx_example_null_value_events.root.loaded.value = none
    ∧ ymx_dump_stream yaml_emitter_accept_all
        (yaml_document.loaded_array [ymx_example_null_value_events])
      = .error "Invalid scalar value"
          { ymx_dump_state_init with
            emitted := [.stream_start, .document_start none [] 1] } :=
  ⟨by decide, by decide, rfl, rfl, rfl, by decide⟩

/-! ## Events out of place where a node is expected -/

/-- `ymx_load_node` on an event that starts no node: no case of the switch is
taken, the node keeps its members and no event is pulled. -/
theorem ymx_load_node_stray (fuel : Nat) (node : ymx_node_t) (parser : yaml_parser_t)
    (event : yaml_event_t) (h : event.starts_node = false) :
    ymx_load_node (fuel + 1) node parser event = .ok (node, parser) := by
  cases event <;> first
    | rfl
    | simp [yaml_event_t.starts_node] at h

/-- `ymx_load_document` on a document start event, an event that starts no node
and a document end event: the document is returned with a root that has no
member set. -/
theorem ymx_load_document_stray (fuel : Nat)
    (version_directive : Option yaml_version_directive_t)
    (tag_directives : List yaml_tag_directive_t) (start_implicit end_implicit : Int)
    (event : yaml_event_t) (rest : yaml_parser_t) (h : event.starts_node = false)
    (hfuel : 0 < fuel) :
    ymx_load_document fuel {}
        (some event :: some (.document_end end_implicit) :: rest)
        (.document_start version_directive tag_directives start_implicit)
      = .ok (ymx_unset_root_document version_directive tag_directives start_implicit
          end_implicit, rest) := by
  obtain ⟨fuel, rfl⟩ : ∃ f, fuel = f + 1 := ⟨fuel - 1, by omega⟩
  have htd := ymx_set_tagdirs_struct [1, tag_directives.length] YMX_TAGDIR_FIELD_STRS
    tag_directives []
  simp only [List.nil_append, List.length_nil] at htd
  have hroot := ymx_set_node_fields_struct [1, 1] YMX_NODE_FIELD_STRS [] [] {}
    none none none none none none
  simp only [List.nil_append, List.length_nil] at hroot
  simp only [ymx_load_document, ymx_parse, ymx_load_node_stray fuel {} _ event h,
    ymx_unset_root_document]
  have hblank : mxCreateStructMatrix 1 1 YMX_NODE_FIELD_STRS
      = .struct [1, 1] YMX_NODE_FIELD_STRS [[none, none, none, none, none, none]] := rfl
  have hblank2 : mxCreateStructMatrix 1 tag_directives.length YMX_TAGDIR_FIELD_STRS
      = .struct [1, tag_directives.length] YMX_TAGDIR_FIELD_STRS
          (List.replicate tag_directives.length [none, none]) := by
    simp [mxCreateStructMatrix, YMX_TAGDIR_FIELD_STRS]
  rw [hblank, hroot, hblank2, htd]
  cases version_directive <;> split_ifs <;> rfl

/-- The loader on a stream whose documents are grammatical except that, in one
of them, an event that starts no node stands at the place of the root: the
load returns the array of all the documents, that document with a root that
has no member set. -/
theorem ymx_load_stream_stray_root (docs1 docs2 : List yaml_document)
    (version_directive : Option yaml_version_directive_t)
    (tag_directives : List yaml_tag_directive_t) (start_implicit end_implicit : Int)
    (event : yaml_event_t) (rest : yaml_parser_t) (h : event.starts_node = false) :
    ymx_load_stream
        ((yaml_event_t.stream_start :: (yaml_document.events_docs docs1
            ++ .document_start version_directive tag_directives start_implicit :: event
              :: .document_end end_implicit
              :: (yaml_document.events_docs docs2 ++ [.stream_end]))).map some ++ rest)
      = .ok (ymx_docs_array (docs1.map yaml_document.loaded
          ++ ymx_unset_root_document version_directive tag_directives start_implicit
              end_implicit :: docs2.map yaml_document.loaded)) := by
  obtain ⟨ev1, tl1, hsplit1⟩ : ∃ ev1 tl1, yaml_document.events_docs docs1
      ++ [yaml_event_t.document_start version_directive tag_directives start_implicit]
        = ev1 :: tl1 := by
    cases h : yaml_document.events_docs docs1
      ++ [yaml_event_t.document_start version_directive tag_directives start_implicit] with
    | nil => simp at h
    | cons x y => exact ⟨x, y, rfl⟩
  obtain ⟨ev2, tl2, hsplit2⟩ : ∃ ev2 tl2,
      yaml_document.events_docs docs2 ++ [yaml_event_t.stream_end] = ev2 :: tl2 := by
    cases h : yaml_document.events_docs docs2 ++ [yaml_event_t.stream_end] with
    | nil => simp at h
    | cons x y => exact ⟨x, y, rfl⟩
  have hlen1 := yaml_document.events_docs_length docs1
  have hlen2 := yaml_document.events_docs_length docs2
  have hlist : (yaml_event_t.stream_start :: (yaml_document.events_docs docs1
        ++ .document_start version_directive tag_directives start_implicit :: event
          :: .document_end end_implicit
          :: (yaml_document.events_docs docs2 ++ [.stream_end]))).map some ++ rest
      = some yaml_event_t.stream_start :: some ev1 :: (tl1.map some
          ++ (some event :: some (yaml_event_t.document_end end_implicit)
            :: some ev2 :: (tl2.map some ++ rest))) := by
    have e1 : yaml_document.events_docs docs1
        ++ .document_start version_directive tag_directives start_implicit :: event
          :: .document_end end_implicit
          :: (yaml_document.events_docs docs2 ++ [.stream_end])
        = (yaml_document.events_docs docs1
            ++ [yaml_event_t.document_start version_directive tag_directives start_implicit])
          ++ (event :: .document_end end_implicit
            :: (yaml_document.events_docs docs2 ++ [.stream_end])) := by
      simp
    rw [e1, hsplit1, hsplit2]
    simp
  have hl1 : (yaml_document.events_docs docs1).length + 1 = tl1.length + 1 := by
    have := congrArg List.length hsplit1
    simpa using this
  have hl2 : (yaml_document.events_docs docs2).length + 1 = tl2.length + 1 := by
    have := congrArg List.length hsplit2
    simpa using this
  rw [hlist]
  obtain ⟨f, hf, hf1, hf2⟩ : ∃ f,
      3 * (some yaml_event_t.stream_start :: some ev1 :: (tl1.map some
          ++ (some event :: some (yaml_event_t.document_end end_implicit)
            :: some ev2 :: (tl2.map some ++ rest)))).length + 3
        = (((f + 1) + docs2.length) + 1) + docs1.length
      ∧ 2 * (yaml_document.events_docs docs1).length ≤ ((f + 1) + docs2.length) + 1
      ∧ 2 * (yaml_document.events_docs docs2).length ≤ f + 1 := by
    refine ⟨3 * (some yaml_event_t.stream_start :: some ev1 :: (tl1.map some
          ++ (some event :: some (yaml_event_t.document_end end_implicit)
            :: some ev2 :: (tl2.map some ++ rest)))).length + 1
        - docs1.length - docs2.length, ?_, ?_, ?_⟩ <;>
    · simp only [List.length_cons, List.length_append, List.length_map]
      omega
  have hloop1 := ymx_load_stream_loop_docs docs1 [] (((f + 1) + docs2.length) + 1)
    (.document_start version_directive tag_directives start_implicit)
    (some event :: some (yaml_event_t.document_end end_implicit)
      :: some ev2 :: (tl2.map some ++ rest)) ev1 tl1 hf1 hsplit1
  have hloop2 := ymx_load_stream_loop_docs docs2
    (docs1.map yaml_document.loaded
      ++ [ymx_unset_root_document version_directive tag_directives start_implicit
        end_implicit])
    (f + 1) .stream_end rest ev2 tl2 hf2 hsplit2
  simp only [ymx_load_stream, hf]
  simp only [ymx_parse, hloop1, List.nil_append]
  rw [ymx_load_stream_loop_step _ _ _ _ (by simp)]
  simp only [ymx_load_document_stray ((f + 1) + docs2.length) _ _ _ _ _ _ h (by omega),
    ymx_parse, hloop2]
  simp only [ymx_load_stream_loop]
  have hset := ymx_set_docs_struct
    [1, (docs1.map yaml_document.loaded
      ++ ymx_unset_root_document version_directive tag_directives start_implicit
          end_implicit :: docs2.map yaml_document.loaded).length] YMX_DOC_FIELD_STRS
    (docs1.map yaml_document.loaded
      ++ ymx_unset_root_document version_directive tag_directives start_implicit
          end_implicit :: docs2.map yaml_document.loaded) []
  simp only [List.nil_append, List.length_nil] at hset
  have hblank : ∀ n, mxCreateStructMatrix 1 n YMX_DOC_FIELD_STRS
      = .struct [1, n] YMX_DOC_FIELD_STRS
          (List.replicate n [none, none, none, none, none]) := by
    intro n
    simp [mxCreateStructMatrix, YMX_DOC_FIELD_STRS]
  simp only [List.append_assoc, List.singleton_append, hblank, hset, ymx_docs_array]
  split_ifs <;> rfl

/-- A stream with an event that starts no node in the place of a root is no
sequence of the grammar: the loader returns for it a document whose root has no
type, which it does for no grammatical stream. -/
theorem ymx_stray_root_not_grammatical (docs1 docs2 : List yaml_document)
    (version_directive : Option yaml_version_directive_t)
    (tag_directives : List yaml_tag_directive_t) (start_implicit end_implicit : Int)
    (event : yaml_event_t) (h : event.starts_node = false) :
    ¬ ∃ docs, yaml_event_t.stream_start :: (yaml_document.events_docs docs1
        ++ .document_start version_directive tag_directives start_implicit :: event
          :: .document_end end_implicit
          :: (yaml_document.events_docs docs2 ++ [.stream_end]))
      = yaml_stream_events docs := by
  rintro ⟨docs, hd⟩
  have h1 := ymx_load_stream_stray_root docs1 docs2 version_directive tag_directives
    start_implicit end_implicit event [] h
  rw [hd, ymx_load_stream_grammatical] at h1
  simp only [ymx_result.ok.injEq, ymx_docs_array] at h1
  have hB : (docs1.map yaml_document.loaded
      ++ ymx_unset_root_document version_directive tag_directives start_implicit
          end_implicit :: docs2.map yaml_document.loaded).length ≠ 0 := by
    simp
  rw [if_pos hB] at h1
  by_cases hA : (docs.map yaml_document.loaded).length ≠ 0
  · rw [if_pos hA] at h1
    simp only [Option.some.injEq, mxArray.struct.injEq] at h1
    obtain ⟨_, _, h2⟩ := h1
    have h3 := congrArg (fun l => l[docs1.length]?) h2
    simp only [List.map_append, List.map_cons, List.map_map] at h3
    rw [List.getElem?_append_right (by simp)] at h3
    simp only [List.length_map, Nat.sub_self, List.getElem?_cons_zero] at h3
    rw [List.getElem?_map] at h3
    cases hdoc : docs[docs1.length]? with
    | none => rw [hdoc] at h3; simp at h3
    | some d =>
      rw [hdoc] at h3
      simp only [Option.map_some', Function.comp_apply, Option.some.injEq,
        ymx_document_t.fields, yaml_document.loaded, ymx_unset_root_document,
        List.cons.injEq, mxArray.struct.injEq, ymx_node_t.fields, and_true, true_and] at h3
      obtain ⟨c, hc, _⟩ := (yaml_subtree.loaded_shape d.root).1
      rw [hc] at h3
      simp at h3
  · rw [if_neg hA] at h1
    simp at h1

/-- C2 (as amended). The loader does not check the event that stands where a
node is expected.  An event that starts no node (as DocumentEnd, SequenceEnd,
MappingEnd or StreamEnd) is taken for the node by `ymx_load_node`: the node gets
no member set and no further event is pulled.  So the load of a stream whose
documents are grammatical, except that such an event stands in the place of the
root of one of them, returns no error, although the stream departs from the
grammar: it returns the array of all the documents, in order, that one with a
root that has no member set. -/
theorem C2_node_position_unchecked (docs1 docs2 : List yaml_document)
    (version_directive : Option yaml_version_directive_t)
    (tag_directives : List yaml_tag_directive_t) (start_implicit end_implicit : Int)
    (event : yaml_event_t) (rest : yaml_parser_t) (fuel : Nat) (node : ymx_node_t)
    (parser : yaml_parser_t) (h : event.starts_node = false) :
    ymx_load_node (fuel + 1) node parser event = .ok (node, parser)
    ∧ ymx_load_stream
        ((yaml_event_t.stream_start :: (yaml_document.events_docs docs1
            ++ .document_start version_directive tag_directives start_implicit :: event
              :: .document_end end_implicit
              :: (yaml_document.events_docs docs2 ++ [.stream_end]))).map some ++ rest)
      = .ok (some (.struct [1, docs1.length + 1 + docs2.length] YMX_DOC_FIELD_STRS
          ((docs1.map yaml_document.loaded
            ++ ymx_unset_root_document version_directive tag_directives start_implicit
                end_implicit :: docs2.map yaml_document.loaded).map ymx_document_t.fields)))
    ∧ (ymx_unset_root_document version_directive tag_directives start_implicit
        end_implicit).root
      = some (.struct [1, 1] YMX_NODE_FIELD_STRS [[none, none, none, none, none, none]])
    ∧ (yaml_event_t.document_end end_implicit).starts_node = false
    ∧ yaml_event_t.sequence_end.starts_node = false
    ∧ yaml_event_t.mapping_end.starts_node = false
    ∧ yaml_event_t.stream_end.starts_node = false
    ∧ ¬ ∃ docs, yaml_event_t.stream_start :: (yaml_document.events_docs docs1
        ++ .document_start version_directive tag_directives start_implicit :: event
          :: .document_end end_implicit
          :: (yaml_document.events_docs docs2 ++ [.stream_end]))
      = yaml_stream_events docs := by
  refine ⟨ymx_load_node_stray fuel node parser event h, ?_, rfl, rfl, rfl, rfl, rfl,
    ymx_stray_root_not_grammatical docs1 docs2 version_directive tag_directives
      start_implicit end_implicit event h⟩
  rw [ymx_load_stream_stray_root docs1 docs2 version_directive tag_directives start_implicit
    end_implicit event rest h]
  simp only [ymx_docs_array, List.length_append, List.length_map, List.length_cons]
  rw [if_pos (by omega)]
  have e : docs1.length + (docs2.length + 1) = docs1.length + 1 + docs2.length := by omega
  rw [e]

/-- The premise of `C2_node_position_unchecked` holds for a SequenceEnd event:
with that event in the place of the root of a third document, after the two
documents of `ymx_example_two_documents`, the load returns three documents. -/
theorem C2_node_position_unchecked_witness :
    yaml_event_t.sequence_end.starts_node = false
    ∧ ymx_load_stream
        ((yaml_event_t.stream_start :: (yaml_document.events_docs ymx_example_two_documents
            ++ .document_start none [] 0 :: .sequence_end :: .document_end 1
              :: (yaml_document.events_docs [] ++ [.stream_end]))).map some ++ [])
      = .ok (some (.struct [1, ymx_example_two_documents.length + 1 + ([] : List
            yaml_document).length] YMX_DOC_FIELD_STRS
          ((ymx_example_two_documents.map yaml_document.loaded
            ++ ymx_unset_root_document none [] 0 1
              :: ([] : List yaml_document).map yaml_document.loaded).map
                ymx_document_t.fields))) :=
  ⟨rfl, (C2_node_position_unchecked ymx_example_two_documents [] none [] 0 1 .sequence_end []
    0 {} [] rfl).2.1⟩

/-! ## The clean-up of `ymx_error` at an abort of the dump -/

/-- C16 (the code at a failing input). The messages of the dumper are pairwise
different.  Yet the dump of the document of `ymx_example_odd_mapping_document`,
whose root is a mapping with the tag "?" and a 1-by-1 node array as value,
reaches the call `ymx_error("Invalid mapping node array")` after the
MappingStart event was handed to the emitter, and the clean-up of that call
frees the tag of the event a second time: the run does not end in an error that
names the part that failed. -/
theorem C16_validation_abort_double_free :
    ymx_dump_errors.Nodup
    ∧ ymx_dump_stream yaml_emitter_accept_all ymx_example_odd_mapping_document
      = .error "Invalid mapping node array"
          { ymx_dump_state_init with
            emitted := [.stream_start, .document_start none [] 1,
              .mapping_start none (some [63]) 1 2] }
    ∧ yaml_event_t.holds_memory (.mapping_start none (some [63]) 1 2) = true
    ∧ ymx_error
        (ymx_dump_state.persistent_event
          { ymx_dump_state_init with
            emitted := [.stream_start, .document_start none [] 1,
              .mapping_start none (some [63]) 1 2] })
        "Invalid mapping node array"
      = .double_free := by
  refine ⟨by decide, by decide, by decide, by decide⟩

/-- The dump of the two documents of `ymx_example_two_documents` with an emitter
that hands the block `block` to the write handler at each document end, when
the buffer holds the first block and not the second: the dump ends in a memory
fault at the second document end. -/
theorem ymx_dump_stream_second_block (block : List Nat) (buffer : ymx_buffer_t)
    (h1 : ymx_buffer_append (ymx_buffer_init YMX_BUFFER_CHUNK_SIZE) block = some buffer)
    (h2 : ymx_buffer_append buffer block = none) :
    ymx_dump_stream
        { accept := fun _ _ => true,
          output := fun _ event =>
            match event with
            | .document_end _ => [block]
            | _ => [] }
        (yaml_document.loaded_array ymx_example_two_documents)
      = .fault
          { emitted := [.stream_start,
              .document_start none [] 1, .scalar none (some [63]) (some [97]) 1 1 0 1,
              .document_end 1,
              .document_start none [] 0, .scalar none (some [63]) (some [98]) 1 1 0 1],
            warnings := [],
            buffer := buffer } := by
  rw [ymx_dump_stream_loaded ymx_example_two_documents (by decide)]
  have hev : yaml_stream_events (ymx_example_two_documents.map yaml_document.redump)
      = [.stream_start,
          .document_start none [] 1, .scalar none (some [63]) (some [97]) 1 1 0 1,
          .document_end 1,
          .document_start none [] 0, .scalar none (some [63]) (some [98]) 1 1 0 1,
          .document_end 1, .stream_end] := by decide
  rw [hev]
  simp only [ymx_emit_all, ymx_emit, ymx_write_blocks,
    ymx_buffer_write_handler, ymx_dump_state_init, h1, h2, if_true, List.nil_append,
    List.cons_append]

/-- C20 (the code at a failing input). The dump of the two documents of
`ymx_example_second_document_faulty` with an emitter that takes every event: the
first document is dumped, the second fails its check after the MappingStart
event (tag "?") was handed over, and the clean-up of the call
`ymx_error("Invalid mapping node array")` frees the tag of that event a second
time: the run ends neither in the complete output nor in one error.  The same
holds of the dump of two valid documents when the emitter hands a block of 1500
bytes to the write handler at each document end: the second block is copied
past the end of the output buffer. -/
theorem C20_dump_neither_output_nor_error :
    ymx_dump_stream yaml_emitter_accept_all ymx_example_second_document_faulty
      = .error "Invalid mapping node array"
          { ymx_dump_state_init with
            emitted := [.stream_start, .document_start none [] 1,
              .scalar none (some [63]) (some [97]) 1 1 0 1, .document_end 1,
              .document_start none [] 0,
              .mapping_start none (some [63]) 1 2] }
    ∧ ymx_error
        (ymx_dump_state.persistent_event
          { ymx_dump_state_init with
            emitted := [.stream_start, .document_start none [] 1,
              .scalar none (some [63]) (some [97]) 1 1 0 1, .document_end 1,
              .document_start none [] 0,
              .mapping_start none (some [63]) 1 2] })
        "Invalid mapping node array"
      = .double_free
    ∧ ymx_dump_stream ymx_example_flushing_emitter
        (yaml_document.loaded_array ymx_example_two_documents)
      = .fault
          { emitted := [.stream_start,
              .document_start none [] 1, .scalar none (some [63]) (some [97]) 1 1 0 1,
              .document_end 1,
              .document_start none [] 0, .scalar none (some [63]) (some [98]) 1 1 0 1],
            warnings := [],
            buffer := { chunk_size := 1024, total_size := 1024, used_size := 1500,
                        head_size := 2049, head := List.replicate 1500 97 } } :=
  ⟨by decide, by decide,
    ymx_dump_stream_second_block (List.replicate 1500 97) _ (ymx_buffer_append_first 97)
      (ymx_buffer_append_second 97 (List.replicate 1500 97)
        (by rw [List.length_replicate]; decide) (by rw [List.length_replicate]; decide)).2⟩

/-! ## The dump as a run of the walk in document order -/

/-- The run of a list of steps followed by another: the second list is run in
the state the first one leaves, unless the first one ends the run. -/
theorem ymx_run_walk_append (emitter : yaml_emitter_t) (a b : List ymx_walk_step) :
    ∀ st, ymx_run_walk emitter st (a ++ b)
      = (match ymx_run_walk emitter st a with
         | .ok _ st1 => ymx_run_walk emitter st1 b
         | r => r) := by
  induction a with
  | nil => intro st; rfl
  | cons s a ih =>
    intro st
    cases s with
    | event e =>
      simp only [List.cons_append, ymx_run_walk]
      cases ymx_emit emitter st e with
      | ok u st1 => exact ih st1
      | error msg st1 => rfl
      | fault st1 => rfl
      | diverge => rfl
    | warning w => exact ih _
    | fault m => rfl

/-- Warnings at the head of the steps are raised, and the run goes on. -/
theorem ymx_run_walk_warnings (emitter : yaml_emitter_t) (rest : List ymx_walk_step)
    (ws : List String) :
    ∀ st, ymx_run_walk emitter st (ws.map .warning ++ rest)
      = ymx_run_walk emitter (st.warn ws) rest := by
  induction ws with
  | nil => intro st; rw [ymx_dump_state.warn_nil]; rfl
  | cons w ws ih =>
    intro st
    show ymx_run_walk emitter (st.warn [w]) (ws.map .warning ++ rest) = _
    rw [ih, ymx_dump_state.warn_warn]
    rfl

/-- The loop over the elements as a run of the steps of the elements. -/
theorem ymx_dump_for_walk (emitter : yaml_emitter_t)
    (body : ymx_dump_state → Nat → ymx_dump_result Unit) (steps : Nat → List ymx_walk_step)
    (h : ∀ st i, body st i = ymx_run_walk emitter st (steps i)) :
    ∀ (n i : Nat) (st : ymx_dump_state),
      ymx_dump_for body i n st = ymx_run_walk emitter st (ymx_walk_for steps i n) := by
  intro n
  induction n with
  | zero => intro i st; rfl
  | succ n ih =>
    intro i st
    rw [ymx_dump_for, ymx_walk_for, ymx_run_walk_append, h]
    cases ymx_run_walk emitter st (steps i) with
    | ok u st1 => exact ih (i + 1) st1
    | error msg st1 => rfl
    | fault st1 => rfl
    | diverge => rfl

theorem ymx_dump_scalar_walk (emitter : yaml_emitter_t) (st : ymx_dump_state)
    (value_arr : Option mxArray) (tag anchor : Option c_string) (implicit style : Int) :
    ymx_dump_scalar emitter st value_arr tag anchor implicit style
      = ymx_run_walk emitter st (ymx_walk_scalar value_arr tag anchor implicit style) := by
  unfold ymx_dump_scalar ymx_walk_scalar
  cases value_arr with
  | none => rfl
  | some value =>
    simp only []
    by_cases hv : (!ymx_is_valid_string value) = true
    · rw [if_pos hv, if_pos hv]
      rfl
    · rw [if_neg hv, if_neg hv]
      simp only [ymx_run_walk]
      cases ymx_emit emitter st _ <;> rfl

/-- An event at the head of the steps is handed to the emitter, and the run
goes on when the emitter took it. -/
theorem ymx_run_walk_event (emitter : yaml_emitter_t) (st : ymx_dump_state)
    (event : yaml_event_t) (rest : List ymx_walk_step) :
    ymx_run_walk emitter st (.event event :: rest)
      = (match ymx_emit emitter st event with
         | .ok _ st1 => ymx_run_walk emitter st1 rest
         | r => r) := rfl

theorem ymx_run_walk_event_last (emitter : yaml_emitter_t) (st : ymx_dump_state)
    (event : yaml_event_t) :
    ymx_run_walk emitter st [.event event] = ymx_emit emitter st event := by
  rw [ymx_run_walk_event]
  cases ymx_emit emitter st event <;> rfl

theorem ymx_walk_collection_succ (fuel : Nat) (start_event end_event : yaml_event_t)
    (rows : Nat) (message : String) (value_arr : Option mxArray) :
    ymx_walk_collection (fuel + 1) start_event end_event rows message value_arr
      = .event start_event
        :: ((match value_arr with
            | some value =>
              if !mxIsEmpty value then
                if !ymx_is_valid_node_array value
                    || mxGetNumberOfDimensions value != 2
                    || mxGetM value != rows then
                  [.fault message]
                else
                  ymx_walk_for (fun ind => ymx_walk_node fuel value ind)
                    0 (mxGetNumberOfElements value)
              else []
            | none => [])
          ++ [.event end_event]) := by
  simp only [ymx_walk_collection]

/-- With at least `2 * depth + 1` units of fuel, the dump of a node is the run
of the walk of the node. -/
theorem ymx_dump_node_walk (emitter : yaml_emitter_t) :
    ∀ (fuel : Nat),
      (∀ (st : ymx_dump_state) (node : mxArray) (ind : Nat), 2 * node.depth + 1 ≤ fuel →
        ymx_dump_node fuel emitter st node ind
          = ymx_run_walk emitter st (ymx_walk_node fuel node ind))
      ∧ (∀ (st : ymx_dump_state) (value : Option mxArray) (tag anchor : Option c_string)
          (implicit style : Int), 1 ≤ fuel →
          (∀ v, value = some v → mxIsStruct v = true → 2 * v.depth + 2 ≤ fuel) →
        ymx_dump_sequence fuel emitter st value tag anchor implicit style
          = ymx_run_walk emitter st
              (ymx_walk_collection fuel (.sequence_start anchor tag implicit style)
                .sequence_end 1 "Invalid sequence node array" value))
      ∧ (∀ (st : ymx_dump_state) (value : Option mxArray) (tag anchor : Option c_string)
          (implicit style : Int), 1 ≤ fuel →
          (∀ v, value = some v → mxIsStruct v = true → 2 * v.depth + 2 ≤ fuel) →
        ymx_dump_mapping fuel emitter st value tag anchor implicit style
          = ymx_run_walk emitter st
              (ymx_walk_collection fuel (.mapping_start anchor tag implicit style)
                .mapping_end 2 "Invalid mapping node array" value)) := by
  intro fuel
  induction fuel with
  | zero =>
    refine ⟨?_, ?_, ?_⟩
    · intro st node ind h; omega
    · intro st value tag anchor implicit style h; omega
    · intro st value tag anchor implicit style h; omega
  | succ f ih =>
    obtain ⟨ihn, ihs, ihm⟩ := ih
    have hbody : ∀ (rows : Nat) (msg : String) (st : ymx_dump_state) (value : Option mxArray),
        (∀ v, value = some v → mxIsStruct v = true → 2 * v.depth + 2 ≤ f + 1) →
        (match value with
          | some value =>
            if !mxIsEmpty value then
              if !ymx_is_valid_node_array value
                  || mxGetNumberOfDimensions value != 2
                  || mxGetM value != rows then
                (.error msg st : ymx_dump_result Unit)
              else
                ymx_dump_for (fun st ind => ymx_dump_node f emitter st value ind)
                  0 (mxGetNumberOfElements value) st
            else .ok () st
          | none => .ok () st)
        = ymx_run_walk emitter st
            (match value with
              | some value =>
                if !mxIsEmpty value then
                  if !ymx_is_valid_node_array value
                      || mxGetNumberOfDimensions value != 2
                      || mxGetM value != rows then
                    [.fault msg]
                  else
                    ymx_walk_for (fun ind => ymx_walk_node f value ind)
                      0 (mxGetNumberOfElements value)
                else []
              | none => []) := by
      intro rows msg st value hv
      cases value with
      | none => rfl
      | some v =>
        simp only []
        by_cases he : (!mxIsEmpty v) = true
        · rw [if_pos he, if_pos he]
          by_cases hvalid : ymx_is_valid_node_array v = true
          · have hd := hv v rfl (ymx_is_valid_node_array_struct_of v hvalid)
            by_cases hc : (!ymx_is_valid_node_array v || mxGetNumberOfDimensions v != 2
                || mxGetM v != rows) = true
            · rw [if_pos hc, if_pos hc]
              rfl
            · rw [if_neg hc, if_neg hc]
              exact ymx_dump_for_walk emitter _ _
                (fun st i => ihn st v i (by omega)) _ _ _
          · simp only [Bool.not_eq_true] at hvalid
            simp only [hvalid, Bool.not_false, Bool.true_or, if_true]
            rfl
        · rw [if_neg he, if_neg he]
          rfl
    have hcoll : ∀ (start_event end_event : yaml_event_t) (rows : Nat) (msg : String)
        (st : ymx_dump_state) (value : Option mxArray),
        (∀ v, value = some v → mxIsStruct v = true → 2 * v.depth + 2 ≤ f + 1) →
        (match ymx_emit emitter st start_event with
          | .ok _ st =>
            (match (match value with
                | some value =>
                  if !mxIsEmpty value then
                    if !ymx_is_valid_node_array value
                        || mxGetNumberOfDimensions value != 2
                        || mxGetM value != rows then
                      (.error msg st : ymx_dump_result Unit)
                    else
                      ymx_dump_for (fun st ind => ymx_dump_node f emitter st value ind)
                        0 (mxGetNumberOfElements value) st
                  else .ok () st
                | none => .ok () st) with
             | .ok _ st => ymx_emit emitter st end_event
             | r => r)
          | r => r)
        = ymx_run_walk emitter st
            (ymx_walk_collection (f + 1) start_event end_event rows msg value) := by
      intro start_event end_event rows msg st value hv
      rw [ymx_walk_collection_succ, ymx_run_walk_event]
      cases ymx_emit emitter st start_event with
      | error m st1 => rfl
      | fault st1 => rfl
      | diverge => rfl
      | ok u st1 =>
        simp only []
        rw [ymx_run_walk_append, ← hbody rows msg st1 value hv]
        cases (match value with
          | some value =>
            if !mxIsEmpty value then
              if !ymx_is_valid_node_array value
                  || mxGetNumberOfDimensions value != 2
                  || mxGetM value != rows then
                (.error msg st1 : ymx_dump_result Unit)
              else
                ymx_dump_for (fun st ind => ymx_dump_node f emitter st value ind)
                  0 (mxGetNumberOfElements value) st1
            else .ok () st1
          | none => .ok () st1) with
        | ok u st2 => exact (ymx_run_walk_event_last emitter st2 end_event).symm
        | error m st2 => rfl
        | fault st2 => rfl
        | diverge => rfl
    refine ⟨?_, ?_, ?_⟩
    · intro st node ind hfuel
      rw [ymx_dump_node_steps, ymx_walk_node]
      cases ymx_assemble_string (mxGetFieldByNumber node ind YMX_NODE_FIELD_TAG) with
      | none => rfl
      | some tag =>
        cases ymx_assemble_string (mxGetFieldByNumber node ind YMX_NODE_FIELD_ANCHOR) with
        | none => rfl
        | some anchor =>
          simp only []
          rw [ymx_run_walk_warnings]
          cases ht : mxGetFieldByNumber node ind YMX_NODE_FIELD_TYPE with
          | none => rfl
          | some type =>
            have hval : ∀ v, mxGetFieldByNumber node ind YMX_NODE_FIELD_VALUE = some v →
                mxIsStruct v = true → 2 * v.depth + 2 ≤ f := by
              intro v hv _
              have := mxArray.depth_field_lt node ind _ v hv
              omega
            simp only []
            split_ifs
            · rfl
            · exact ymx_dump_scalar_walk emitter _ _ _ _ _ _
            · exact ihs _ _ _ _ _ _ (by
                have := mxArray.depth_field_lt node ind _ type ht
                omega) hval
            · exact ihm _ _ _ _ _ _ (by
                have := mxArray.depth_field_lt node ind _ type ht
                omega) hval
            · exact (ymx_run_walk_event_last emitter _ _).symm
            · rfl
    · intro st value tag anchor implicit style _ hv
      rw [ymx_dump_sequence]
      exact hcoll _ _ 1 _ st value hv
    · intro st value tag anchor implicit style _ hv
      rw [ymx_dump_mapping]
      exact hcoll _ _ 2 _ st value hv

/-- The dump of a document is the run of the walk of the document. -/
theorem ymx_dump_document_walk (emitter : yaml_emitter_t) (fuel : Nat) (st : ymx_dump_state)
    (docs_array : mxArray) (ind : Nat) (hfuel : 2 * docs_array.depth ≤ fuel) :
    ymx_dump_document fuel emitter st docs_array ind
      = ymx_run_walk emitter st (ymx_walk_document fuel docs_array ind) := by
  rw [ymx_dump_document_steps]
  unfold ymx_walk_document
  cases hr : mxGetFieldByNumber docs_array ind YMX_DOC_FIELD_ROOT with
  | none => rfl
  | some root_arr =>
    have hd := mxArray.depth_field_lt docs_array ind _ root_arr hr
    simp only []
    by_cases hv : (!ymx_is_valid_doc_root (some root_arr)) = true
    · rw [if_pos hv, if_pos hv]
      rfl
    · rw [if_neg hv, if_neg hv]
      cases ymx_assemble_tagdirs (mxGetFieldByNumber docs_array ind YMX_DOC_FIELD_TAGDIRS) with
      | none => rfl
      | some tds =>
        cases ymx_assemble_version (mxGetFieldByNumber docs_array ind YMX_DOC_FIELD_VERSION) with
        | none => rfl
        | some v =>
          simp only []
          rw [ymx_run_walk_warnings, ymx_run_walk_event]
          cases ymx_emit emitter _ (yaml_event_t.document_start v tds _) with
          | error m st1 => rfl
          | fault st1 => rfl
          | diverge => rfl
          | ok u st1 =>
            simp only []
            rw [ymx_run_walk_append,
              ← (ymx_dump_node_walk emitter fuel).1 st1 root_arr 0 (by omega)]
            cases ymx_dump_node fuel emitter st1 root_arr 0 with
            | ok u st2 => exact (ymx_run_walk_event_last emitter st2 _).symm
            | error m st2 => rfl
            | fault st2 => rfl
            | diverge => rfl

/-- The dump of a document sequence is the run of its walk in document order:
the events of the walk are handed to the emitter one after the other, the
warnings are raised, the first fault ends the dump with its message, and after
the last step the output string is read from the buffer. -/
theorem ymx_dump_stream_walk (emitter : yaml_emitter_t) (docs_array : mxArray) :
    ymx_dump_stream emitter docs_array
      = (match ymx_run_walk emitter ymx_dump_state_init (ymx_walk_stream docs_array) with
         | .ok _ st =>
           (match ymx_buffer_as_string st.buffer with
            | some str => .ok (mxCreateString str) st
            | none => .fault st)
         | .error msg st => .error msg st
         | .fault st => .fault st
         | .diverge => .diverge) := by
  have hfor := ymx_dump_for_walk emitter
    (fun st ind => ymx_dump_document (2 * docs_array.depth + 2) emitter st docs_array ind)
    (fun ind => ymx_walk_document (2 * docs_array.depth + 2) docs_array ind)
    (fun st i => ymx_dump_document_walk emitter _ st docs_array i (by omega))
    (mxGetNumberOfElements docs_array) 0
  unfold ymx_dump_stream ymx_walk_stream
  simp only []
  by_cases hv : (!ymx_is_valid_doc_array docs_array) = true
  · rw [if_pos hv, if_pos hv]
    rfl
  · rw [if_neg hv, if_neg hv, ymx_run_walk_event]
    cases ymx_emit emitter ymx_dump_state_init .stream_start with
    | error m st1 => rfl
    | fault st1 => rfl
    | diverge => rfl
    | ok u st1 =>
      simp only []
      rw [ymx_run_walk_append, ← hfor st1]
      cases ymx_dump_for
          (fun st ind => ymx_dump_document (2 * docs_array.depth + 2) emitter st docs_array ind)
          0 (mxGetNumberOfElements docs_array) st1 with
      | error m st2 => rfl
      | fault st2 => rfl
      | diverge => rfl
      | ok u st2 =>
        simp only []
        rw [ymx_run_walk_event_last]
        cases ymx_emit emitter st2 .stream_end <;> rfl

/-- An event the emitter took was acceptable to it after the events taken
before. -/
theorem ymx_emit_ok_accept (emitter : yaml_emitter_t) (st st' : ymx_dump_state)
    (event : yaml_event_t) (h : ymx_emit emitter st event = .ok () st') :
    emitter.accept st.emitted event = true := by
  unfold ymx_emit at h
  by_cases ha : emitter.accept st.emitted event = true
  · exact ha
  · rw [if_neg ha] at h
    exact absurd h (by simp)

/-- A run of steps that goes through: the steps hold no fault, the emitter took
every event among them, and the state it leaves holds their events and their
warnings behind those of the state it started in. -/
theorem ymx_run_walk_ok (emitter : yaml_emitter_t) :
    ∀ (steps : List ymx_walk_step) (st st' : ymx_dump_state),
      ymx_run_walk emitter st steps = .ok () st' →
      st'.emitted = st.emitted ++ ymx_walk_events steps
      ∧ st'.warnings = st.warnings ++ ymx_walk_warnings steps
      ∧ (∀ m, ymx_walk_step.fault m ∉ steps)
      ∧ (∀ event, ymx_walk_step.event event ∈ steps →
          ∃ taken, emitter.accept taken event = true) := by
  intro steps
  induction steps with
  | nil =>
    intro st st' h
    simp only [ymx_run_walk, ymx_dump_result.ok.injEq, true_and] at h
    subst h
    simp [ymx_walk_events, ymx_walk_warnings]
  | cons s steps ih =>
    intro st st' h
    cases s with
    | event e =>
      rw [ymx_run_walk] at h
      cases he : ymx_emit emitter st e with
      | error m st1 => rw [he] at h; simp at h
      | fault st1 => rw [he] at h; simp at h
      | diverge => rw [he] at h; simp at h
      | ok u st1 =>
        rw [he] at h
        obtain ⟨h1, h2, h3, h4⟩ := ih st1 st' h
        obtain ⟨e1, e2⟩ := ymx_emit_ok emitter st st1 e he
        refine ⟨?_, ?_, ?_, ?_⟩
        · rw [h1, e1]
          simp [ymx_walk_events]
        · rw [h2, e2]
          simp [ymx_walk_warnings]
        · intro m hm
          rcases List.mem_cons.mp hm with hm | hm
          · exact absurd hm (by simp)
          · exact h3 m hm
        · intro ev hev
          rcases List.mem_cons.mp hev with hev | hev
          · simp only [ymx_walk_step.event.injEq] at hev
            subst hev
            exact ⟨_, ymx_emit_ok_accept emitter st st1 _ he⟩
          · exact h4 ev hev
    | warning w =>
      rw [ymx_run_walk] at h
      obtain ⟨h1, h2, h3, h4⟩ := ih _ st' h
      refine ⟨?_, ?_, ?_, ?_⟩
      · rw [h1]
        simp [ymx_walk_events, ymx_dump_state.warn]
      · rw [h2]
        simp [ymx_walk_warnings, ymx_dump_state.warn]
      · intro m hm
        rcases List.mem_cons.mp hm with hm | hm
        · exact absurd hm (by simp)
        · exact h3 m hm
      · intro ev hev
        rcases List.mem_cons.mp hev with hev | hev
        · exact absurd hev (by simp)
        · exact h4 ev hev
    | fault m =>
      rw [ymx_run_walk] at h
      exact absurd h (by simp)

/-- C18 (as amended). First fault in document order.  The walk of a document
sequence visits the documents in array order and, in a document, the nodes in
depth-first pre-order; each part is checked when the walk reaches it, the value
of a sequence or mapping after the start event of the node.  Let the walk be
cut at a fault such that the steps before it go through with the emitter, which
takes no alias event without anchor: then these steps hold no fault (the fault
is the first of the walk) and no alias event without anchor.  When moreover the
last event before the fault holds no memory (the clean-up of `ymx_error` then
frees nothing twice), the dump fails with the error of that fault, the events
emitted are exactly the events of the walk before the fault, and the warnings
raised are its warnings before the fault.  For a sequence or mapping whose
value is not empty and no node array of the right shape, the fault stands
behind the start event of the node itself. -/
theorem C18_first_fault (emitter : yaml_emitter_t) (docs_array : mxArray)
    (pre post : List ymx_walk_step) (msg : String) (st : ymx_dump_state)
    (hsink : ∀ taken, emitter.accept taken (.alias none) = false)
    (hwalk : ymx_walk_stream docs_array = pre ++ .fault msg :: post)
    (hrun : ymx_run_walk emitter ymx_dump_state_init pre = .ok () st)
    (hclean : ymx_persistent_cleanup (ymx_walk_events pre).getLast? = true) :
    (∀ m, ymx_walk_step.fault m ∉ pre)
    ∧ ymx_walk_step.event (.alias none) ∉ pre
    ∧ ymx_dump_stream emitter docs_array = .error msg st
    ∧ st.emitted = ymx_walk_events pre
    ∧ st.warnings = ymx_walk_warnings pre
    ∧ ymx_error st.persistent_event msg = .message msg
    ∧ (∀ (fuel rows : Nat) (start_event end_event : yaml_event_t) (message : String)
        (value : mxArray), mxIsEmpty value = false →
        (ymx_is_valid_node_array value = false ∨ mxGetNumberOfDimensions value ≠ 2
          ∨ mxGetM value ≠ rows) →
        ymx_walk_collection (fuel + 1) start_event end_event rows message (some value)
          = [.event start_event, .fault message, .event end_event]) := by
  obtain ⟨h1, h2, h3, h4⟩ := ymx_run_walk_ok emitter pre _ st hrun
  have hem : st.emitted = ymx_walk_events pre := by
    rw [h1]
    rfl
  refine ⟨h3, ?_, ?_, hem, ?_, ?_, ?_⟩
  · intro hmem
    obtain ⟨taken, ht⟩ := h4 _ hmem
    rw [hsink taken] at ht
    exact absurd ht (by simp)
  · rw [ymx_dump_stream_walk, hwalk, ymx_run_walk_append, hrun]
    rfl
  · rw [h2]
    rfl
  · refine ymx_error_of_cleanup _ _ ?_
    rw [ymx_dump_state.persistent_event, hem]
    exact hclean
  · intro fuel rows start_event end_event message value hne hbad
    have hcond : (!ymx_is_valid_node_array value || mxGetNumberOfDimensions value != 2
        || mxGetM value != rows) = true := by
      rcases hbad with h | h | h <;> simp [h]
    rw [ymx_walk_collection_succ]
    simp only [hne, hcond, Bool.not_false, if_true]
    rfl

/-- The premises of `C18_first_fault` hold for the document of
`ymx_example_two_invalid_nodes` and the emitter
`ymx_example_anchor_checking_emitter`, with the walk cut at the fault of the
mapping: the dump fails with "Invalid mapping node array" after StreamStart,
DocumentStart, the start of the root sequence and the start of the mapping. -/
theorem C18_first_fault_witness :
    (∀ taken : List yaml_event_t,
      ymx_example_anchor_checking_emitter.accept taken (.alias none) = false)
    ∧ ymx_walk_stream ymx_example_two_invalid_nodes
      = [.event .stream_start, .event (.document_start none [] 1),
          .event (.sequence_start none none 1 1), .event (.mapping_start none none 1 1)]
        ++ .fault "Invalid mapping node array"
          :: [.event .mapping_end,
              .warning "Invalid node implicit specifier", .warning "Invalid node style",
              .fault "Invalid node type", .event .sequence_end, .event (.document_end 1),
              .event .stream_end]
    ∧ ymx_run_walk ymx_example_anchor_checking_emitter ymx_dump_state_init
        [.event .stream_start, .event (.document_start none [] 1),
          .event (.sequence_start none none 1 1), .event (.mapping_start none none 1 1)]
      = .ok ()
          { ymx_dump_state_init with
            emitted := [.stream_start, .document_start none [] 1,
              .sequence_start none none 1 1, .mapping_start none none 1 1] }
    ∧ ymx_persistent_cleanup
        (ymx_walk_events
          [.event .stream_start, .event (.document_start none [] 1),
            .event (.sequence_start none none 1 1),
            .event (.mapping_start none none 1 1)]).getLast?
      = true
    ∧ ymx_dump_stream ymx_example_anchor_checking_emitter ymx_example_two_invalid_nodes
      = .error "Invalid mapping node array"
          { ymx_dump_state_init with
            emitted := [.stream_start, .document_start none [] 1,
              .sequence_start none none 1 1, .mapping_start none none 1 1] } :=
  ⟨fun _ => rfl, by decide, by decide, by decide,
    (C18_first_fault ymx_example_anchor_checking_emitter ymx_example_two_invalid_nodes
      [.event .stream_start, .event (.document_start none [] 1),
        .event (.sequence_start none none 1 1), .event (.mapping_start none none 1 1)]
      [.event .mapping_end,
        .warning "Invalid node implicit specifier", .warning "Invalid node style",
        .fault "Invalid node type", .event .sequence_end, .event (.document_end 1),
        .event .stream_end]
      "Invalid mapping node array"
      { ymx_dump_state_init with
        emitted := [.stream_start, .document_start none [] 1,
          .sequence_start none none 1 1, .mapping_start none none 1 1] }
      (fun _ => rfl) (by decide) (by decide) (by decide)).2.2.1⟩

/-- C18 (counterexample). The document of `ymx_example_two_invalid_nodes` has a
root sequence with two invalid nodes: a mapping with an invalid value, then a
node without a type.  The dump fails with the error of the mapping, the first
invalid node of the walk, but the events emitted at the failure are not exactly
those of the nodes before the mapping in the walk (StreamStart, DocumentStart,
the start of the root sequence): the MappingStart of the invalid mapping itself
was emitted as well. -/
theorem C18_first_fault_counterexample :
    ymx_dump_stream yaml_emitter_accept_all ymx_example_two_invalid_nodes
      = .error "Invalid mapping node array"
          { ymx_dump_state_init with
            emitted := [.stream_start, .document_start none [] 1,
              .sequence_start none none 1 1, .mapping_start none none 1 1] }
    ∧ ymx_error (some (.mapping_start none none 1 1)) "Invalid mapping node array"
      = .message "Invalid mapping node array"
    ∧ mxGetFieldByNumber
        ((mxGetFieldByNumber
          ((mxGetFieldByNumber ymx_example_two_invalid_nodes 0 YMX_DOC_FIELD_ROOT).getD
            (.other []))
          0 YMX_NODE_FIELD_VALUE).getD (.other []))
        1 YMX_NODE_FIELD_TYPE = none
    ∧ [yaml_event_t.stream_start, .document_start none [] 1,
        .sequence_start none none 1 1, .mapping_start none none 1 1]
      ≠ [yaml_event_t.stream_start, .document_start none [] 1,
        .sequence_start none none 1 1] := by
  refine ⟨by decide, by decide, by decide, by decide⟩

end MatYaml
